import Mathlib

/-!
The batched ACA engine of hmglib (`src/linear_algebra.h`).

A shallow embedding of the index bookkeeping and of the element-wise device
kernels of `apply_batched_aca`, together with the single-block procedure
`apply_aca_for_current_work_item`.

Conventions of the embedding.

* A C `int` is a Lean `Int`; the development assumes that no 32-bit overflow
  occurs (signed overflow is undefined in C).
* A device array is a list.  Reading (`rd`) outside the array
  yields `0` and writing (`wr`) outside the array leaves it unchanged; in the
  source both are undefined behaviour.
* A device array of `double` is a list over an arbitrary ring `R`: double
  arithmetic is idealised as exact arithmetic, and the library functions
  `sqrt` and `exp` are parameters.
* A kernel launch over `n` threads in which every thread writes locations of
  its own is the corresponding sequential loop over `idx = 0 .. n-1`.
-/

namespace Hmglib

/-! ## Data model -/

/-- One matrix block: row range `[set1_l, set1_u]`, column range
`[set2_l, set2_u]` and a type tag (`struct work_item`, fields as used in
`linear_algebra.h`). -/
structure work_item where
  set1_l : Int
  set1_u : Int
  set2_l : Int
  set2_u : Int
  work_type : Int
deriving DecidableEq, Repr

/-- Modelled from the spec: the header that defines the type tags is not part
of the sources; the spec names the two tags DENSE and ACA, and the classifier
(`mat_vec_type_smaller`, larger tag first) puts DENSE first, so the DENSE tag is
the larger one. -/
def WT_DENSE : Int := 2

/-- Modelled from the spec: the tag of low-rank-eligible blocks, see
`WT_DENSE`. -/
def WT_ACA : Int := 1

/-- Functor `is_not_WT_ACA`. -/
def is_not_WT_ACA (a : work_item) : Bool := a.work_type != WT_ACA

/-! ## Device arrays -/

/-- Read `a[i]`. -/
def rd {α : Type} [Zero α] (a : List α) (i : Int) : α :=
  if 0 ≤ i then a.getD i.toNat 0 else 0

/-- Write `a[i] = v`. -/
def wr {α : Type} (a : List α) (i : Int) (v : α) : List α :=
  if 0 ≤ i then a.set i.toNat v else a

/-- Primitive `thrust::fill` on a fresh buffer of `n` entries. -/
def fill (n : Int) (v : Int) : List Int := List.replicate n.toNat v

/-- Primitive `thrust::sequence`: `0, 1, 2, ...`. -/
def sequence (n : Nat) : List Int := (List.range n).map Int.ofNat

/-- Primitive `thrust::reduce` with the default initial value `0` and `plus`. -/
def reduce (xs : List Int) : Int := xs.foldl (fun a b => a + b) 0

/-- Primitive `thrust::exclusive_scan` with initial value `init`. -/
def exclusive_scan : List Int → Int → List Int
  | [], _ => []
  | x :: xs, init => init :: exclusive_scan xs (init + x)

/-- Running sum used by `inclusive_scan`, started at `acc`. -/
def inclusive_scan_from : Int → List Int → List Int
  | _, [] => []
  | acc, x :: xs => (acc + x) :: inclusive_scan_from (acc + x) xs

/-- Primitive `thrust::inclusive_scan`. -/
def inclusive_scan (xs : List Int) : List Int := inclusive_scan_from 0 xs

/-! ## Per-block counts and offsets -/

/-- Kernel `get_work_item_point_set_limits_for_given_type`, the value written to
`l[idx]`. -/
def limit_l (mat_vec_data_type : Int) (point_set_nr : Int) (w : work_item) : Int :=
  if w.work_type = mat_vec_data_type then
    (if point_set_nr = 1 then w.set1_l else w.set2_l)
  else -1

/-- Kernel `get_work_item_point_set_limits_for_given_type`, the value written to
`u[idx]`. -/
def limit_u (mat_vec_data_type : Int) (point_set_nr : Int) (w : work_item) : Int :=
  if w.work_type = mat_vec_data_type then
    (if point_set_nr = 1 then w.set1_u else w.set2_u)
  else -2

/-- Kernel `get_work_item_point_set_limits_for_given_type`: the arrays `l` and
`u`. -/
def get_work_item_point_set_limits_for_given_type (mat_vec_data_type : Int)
    (mat_vec_data : List work_item) (point_set_nr : Int) : List Int × List Int :=
  (mat_vec_data.map (limit_l mat_vec_data_type point_set_nr),
   mat_vec_data.map (limit_u mat_vec_data_type point_set_nr))

/-- Functor `minus_plus_1`. -/
def minus_plus_1 (lhs rhs : Int) : Int := lhs - rhs + 1

/-- The array `m1` (`point_set_nr = 1`, numbers of rows) or `m2`
(`point_set_nr = 2`, numbers of columns) of `apply_batched_aca`:
`transform(u, l, minus_plus_1)`. -/
def block_counts (mat_vec_data : List work_item) (point_set_nr : Int) : List Int :=
  let lu := get_work_item_point_set_limits_for_given_type WT_ACA mat_vec_data point_set_nr
  List.zipWith minus_plus_1 lu.2 lu.1

/-- The arrays `m1_total` / `m2_total` of `apply_batched_aca`. -/
def block_total (mat_vec_data : List work_item) (point_set_nr : Int) : Int :=
  reduce (block_counts mat_vec_data point_set_nr)

/-- The arrays `point_map_offsets1` / `point_map_offsets2` of
`apply_batched_aca`. -/
def point_map_offsets (mat_vec_data : List work_item) (point_set_nr : Int) : List Int :=
  exclusive_scan (block_counts mat_vec_data point_set_nr) 0

/-! ## Point maps and work-item maps -/

/-- One thread of kernel `set_bounds_for_point_maps`. -/
def set_bounds_for_point_maps_thread (point_map_offsets1 point_map_offsets2 m1 m2 : List Int)
    (work_item_type : Int) (current_level_data : List work_item)
    (maps : List Int × List Int) (idx : Nat) : List Int × List Int :=
  match current_level_data.get? idx with
  | none => maps
  | some work =>
    if work.work_type ≠ work_item_type then maps
    else
      let point_map1 := wr maps.1 (rd point_map_offsets1 (idx : Int)) work.set1_l
      let point_map1 := wr point_map1 (rd point_map_offsets1 (idx : Int) + rd m1 (idx : Int) - 1) (-(work.set1_u - 1))
      let point_map2 := wr maps.2 (rd point_map_offsets2 (idx : Int)) work.set2_l
      let point_map2 := wr point_map2 (rd point_map_offsets2 (idx : Int) + rd m2 (idx : Int) - 1) (-(work.set2_u - 1))
      (point_map1, point_map2)

/-- Kernel `set_bounds_for_point_maps`. -/
def set_bounds_for_point_maps (point_map1 point_map2 point_map_offsets1 point_map_offsets2
    m1 m2 : List Int) (work_item_type : Int) (current_level_data : List work_item)
    (mat_vec_data_count : Nat) : List Int × List Int :=
  (List.range mat_vec_data_count).foldl
    (set_bounds_for_point_maps_thread point_map_offsets1 point_map_offsets2 m1 m2
      work_item_type current_level_data) (point_map1, point_map2)

/-- One thread of kernel `correct_bounds_for_point_maps`. -/
def correct_bounds_for_point_maps_thread (point_map_offsets1 point_map_offsets2 m1 m2 : List Int)
    (work_item_type : Int) (current_level_data : List work_item)
    (maps : List Int × List Int) (idx : Nat) : List Int × List Int :=
  match current_level_data.get? idx with
  | none => maps
  | some work =>
    if work.work_type ≠ work_item_type then maps
    else
      (wr maps.1 (rd point_map_offsets1 (idx : Int) + rd m1 (idx : Int) - 1) work.set1_u,
       wr maps.2 (rd point_map_offsets2 (idx : Int) + rd m2 (idx : Int) - 1) work.set2_u)

/-- Kernel `correct_bounds_for_point_maps`. -/
def correct_bounds_for_point_maps (point_map1 point_map2 point_map_offsets1 point_map_offsets2
    m1 m2 : List Int) (work_item_type : Int) (current_level_data : List work_item)
    (mat_vec_data_count : Nat) : List Int × List Int :=
  (List.range mat_vec_data_count).foldl
    (correct_bounds_for_point_maps_thread point_map_offsets1 point_map_offsets2 m1 m2
      work_item_type current_level_data) (point_map1, point_map2)

/-- One thread of kernel `set_bounds_for_work_item_maps`. -/
def set_bounds_for_work_item_maps_thread (point_map_offsets1 point_map_offsets2 m1 m2 : List Int)
    (work_item_type : Int) (current_level_data : List work_item)
    (maps : List Int × List Int) (idx : Nat) : List Int × List Int :=
  match current_level_data.get? idx with
  | none => maps
  | some work =>
    if work.work_type ≠ work_item_type then maps
    else
      let work_item_map1 := wr maps.1 (rd point_map_offsets1 (idx : Int)) (idx : Int)
      let work_item_map1 := wr work_item_map1 (rd point_map_offsets1 (idx : Int) + rd m1 (idx : Int) - 1) (-(idx : Int))
      let work_item_map2 := wr maps.2 (rd point_map_offsets2 (idx : Int)) (idx : Int)
      let work_item_map2 := wr work_item_map2 (rd point_map_offsets2 (idx : Int) + rd m2 (idx : Int) - 1) (-(idx : Int))
      (work_item_map1, work_item_map2)

/-- Kernel `set_bounds_for_work_item_maps`. -/
def set_bounds_for_work_item_maps (work_item_map1 work_item_map2 point_map_offsets1
    point_map_offsets2 m1 m2 : List Int) (work_item_type : Int)
    (current_level_data : List work_item) (mat_vec_data_count : Nat) : List Int × List Int :=
  (List.range mat_vec_data_count).foldl
    (set_bounds_for_work_item_maps_thread point_map_offsets1 point_map_offsets2 m1 m2
      work_item_type current_level_data) (work_item_map1, work_item_map2)

/-- One thread of kernel `correct_bounds_for_work_item_maps`. -/
def correct_bounds_for_work_item_maps_thread (point_map_offsets1 point_map_offsets2 m1 m2 : List Int)
    (work_item_type : Int) (current_level_data : List work_item)
    (maps : List Int × List Int) (idx : Nat) : List Int × List Int :=
  match current_level_data.get? idx with
  | none => maps
  | some work =>
    if work.work_type ≠ work_item_type then maps
    else
      (wr maps.1 (rd point_map_offsets1 (idx : Int) + rd m1 (idx : Int) - 1) (idx : Int),
       wr maps.2 (rd point_map_offsets2 (idx : Int) + rd m2 (idx : Int) - 1) (idx : Int))

/-- Kernel `correct_bounds_for_work_item_maps`. -/
def correct_bounds_for_work_item_maps (work_item_map1 work_item_map2 point_map_offsets1
    point_map_offsets2 m1 m2 : List Int) (work_item_type : Int)
    (current_level_data : List work_item) (mat_vec_data_count : Nat) : List Int × List Int :=
  (List.range mat_vec_data_count).foldl
    (correct_bounds_for_work_item_maps_thread point_map_offsets1 point_map_offsets2 m1 m2
      work_item_type current_level_data) (work_item_map1, work_item_map2)

/-- The pair `(point_map1, point_map2)` built in `apply_batched_aca`: fill with
ones, `set_bounds_for_point_maps`, inclusive scan,
`correct_bounds_for_point_maps`. -/
def point_maps (mat_vec_data : List work_item) : List Int × List Int :=
  let m1 := block_counts mat_vec_data 1
  let m2 := block_counts mat_vec_data 2
  let point_map_offsets1 := point_map_offsets mat_vec_data 1
  let point_map_offsets2 := point_map_offsets mat_vec_data 2
  let point_map1 := fill (block_total mat_vec_data 1) 1
  let point_map2 := fill (block_total mat_vec_data 2) 1
  let s := set_bounds_for_point_maps point_map1 point_map2 point_map_offsets1
    point_map_offsets2 m1 m2 WT_ACA mat_vec_data mat_vec_data.length
  correct_bounds_for_point_maps (inclusive_scan s.1) (inclusive_scan s.2) point_map_offsets1
    point_map_offsets2 m1 m2 WT_ACA mat_vec_data mat_vec_data.length

/-- The pair `(work_item_map1, work_item_map2)` built in `apply_batched_aca`:
fill with zeros, `set_bounds_for_work_item_maps`, inclusive scan,
`correct_bounds_for_work_item_maps`. -/
def work_item_maps (mat_vec_data : List work_item) : List Int × List Int :=
  let m1 := block_counts mat_vec_data 1
  let m2 := block_counts mat_vec_data 2
  let point_map_offsets1 := point_map_offsets mat_vec_data 1
  let point_map_offsets2 := point_map_offsets mat_vec_data 2
  let work_item_map1 := fill (block_total mat_vec_data 1) 0
  let work_item_map2 := fill (block_total mat_vec_data 2) 0
  let s := set_bounds_for_work_item_maps work_item_map1 work_item_map2 point_map_offsets1
    point_map_offsets2 m1 m2 WT_ACA mat_vec_data mat_vec_data.length
  correct_bounds_for_work_item_maps (inclusive_scan s.1) (inclusive_scan s.2)
    point_map_offsets1 point_map_offsets2 m1 m2 WT_ACA mat_vec_data mat_vec_data.length

/-! ## Batch-compaction map -/

/-- Primitive `thrust::remove_if` with a stencil: the elements whose stencil
entry does not satisfy `pred`, in their original order (the range up to the
returned end). -/
def remove_if {α β : Type} (xs : List α) (stencil : List β) (pred : β → Bool) : List α :=
  ((xs.zip stencil).filter (fun p => !pred p.2)).map Prod.fst

/-- Primitive `thrust::scatter`: `output[map[i]] = values[i]`. -/
def scatter (values map output : List Int) : List Int :=
  (values.zip map).foldl (fun out p => wr out p.2 p.1) output

/-- The array `tmp_field` of `apply_batched_aca` after `sequence` and
`remove_if`, up to `end_after_removal`. -/
def tmp_field (mat_vec_data : List work_item) : List Int :=
  remove_if (sequence mat_vec_data.length) mat_vec_data is_not_WT_ACA

/-- The variable `batch_count` of `apply_batched_aca`. -/
def batch_count (mat_vec_data : List work_item) : Nat := (tmp_field mat_vec_data).length

/-- The array `work_item_to_batch_map` of `apply_batched_aca`: fill with `-1`,
then scatter the counting sequence `0 .. batch_count-1` to the positions in
`tmp_field`. -/
def work_item_to_batch_map (mat_vec_data : List work_item) : List Int :=
  scatter (sequence (batch_count mat_vec_data)) (tmp_field mat_vec_data)
    (fill mat_vec_data.length (-1))

/-! ## Per-block rank -/

/-- One thread of kernel `set_k_per_item`: the value stored in
`k_per_item[idx]`. -/
def set_k_per_item_thread (k _m1 _m2 : Int) : Int :=
  if k > min _m1 _m2 then min _m1 _m2 else k

/-- Kernel `set_k_per_item`. -/
def set_k_per_item (k : Int) (mat_vec_data_count : Nat) (m1 m2 : List Int) : List Int :=
  (List.range mat_vec_data_count).map
    (fun (idx : Nat) => set_k_per_item_thread k (rd m1 (idx : Int)) (rd m2 (idx : Int)))

/-- The array `k_per_item` of `apply_batched_aca`. -/
def k_per_item (mat_vec_data : List work_item) (k : Int) : List Int :=
  set_k_per_item k mat_vec_data.length (block_counts mat_vec_data 1) (block_counts mat_vec_data 2)

/-- The value of `k` after the clamp at the head of
`apply_aca_for_current_work_item`. -/
def apply_aca_for_current_work_item_k (current_mat_vec_data : work_item) (k : Int) : Int :=
  let m1 := current_mat_vec_data.set1_u - current_mat_vec_data.set1_l + 1
  let m2 := current_mat_vec_data.set2_u - current_mat_vec_data.set2_l + 1
  if k > min m1 m2 then min m1 m2 else k

/-- Primitive `thrust::reduce` with initial value `0` and `maximum`. -/
def reduce_maximum (xs : List Int) : Int := xs.foldl (fun a b => max a b) 0

/-- The value of `k` in `apply_batched_aca` after the clamp by
`min(m1_max, m2_max)`. -/
def global_k (mat_vec_data : List work_item) (k : Int) : Int :=
  let m1_max := reduce_maximum (block_counts mat_vec_data 1)
  let m2_max := reduce_maximum (block_counts mat_vec_data 2)
  if k > min m1_max m2_max then min m1_max m2_max else k

/-! ## Segmented reduction and column-pivot selection -/

/-- Primitive `thrust::reduce_by_key`, the running state: current key `k`,
value `acc` reduced so far in the current run, remaining input. -/
def reduce_by_key_go {κ α : Type} [DecidableEq κ] (binary_op : α → α → α) :
    κ → α → List (κ × α) → List (κ × α)
  | k, acc, [] => [(k, acc)]
  | k, acc, (k', v) :: rest =>
    if k = k' then reduce_by_key_go binary_op k (binary_op acc v) rest
    else (k, acc) :: reduce_by_key_go binary_op k' v rest

/-- Primitive `thrust::reduce_by_key` with `equal_to` as key comparison: one
pair (key, reduced value) per maximal run of equal consecutive keys. -/
def reduce_by_key {κ α : Type} [DecidableEq κ] (keys : List κ) (values : List α)
    (binary_op : α → α → α) : List (κ × α) :=
  match keys.zip values with
  | [] => []
  | (k, v) :: rest => reduce_by_key_go binary_op k v rest

/-- Functor `tuple_absolute_maximum` (the index component passes through a
`double` in the source, which is exact below `2^53`). -/
def tuple_absolute_maximum {R : Type} [LinearOrderedRing R] (lhs rhs : R × Int) : R × Int :=
  if abs lhs.1 > abs rhs.1 then lhs else rhs

/-- The array `j_r_global` of `apply_batched_aca`: the index components of the
grouped reduction of `zip(v_r, indices)` keyed by `work_item_map2` (entries
past the number of produced results are not written by the source). -/
def j_r_global {R : Type} [LinearOrderedRing R] (work_item_map2 : List Int) (v_r : List R)
    (m2_total : Int) : List Int :=
  (reduce_by_key (work_item_map2.take m2_total.toNat)
    ((v_r.take m2_total.toNat).zip (sequence m2_total.toNat))
    tuple_absolute_maximum).map (fun p => p.2.2)

/-- Primitive `thrust::max_element` with comparison `comp`: the position of the
first element that no other element exceeds, started from the candidate
`best` at position `bi`; `i` is the position of the head of the remaining
input. -/
def max_element_go {α : Type} (comp : α → α → Bool) : α → Nat → Nat → List α → Nat
  | _, bi, _, [] => bi
  | best, bi, i, x :: xs =>
    if comp best x then max_element_go comp x i (i + 1) xs
    else max_element_go comp best bi (i + 1) xs

/-- Primitive `thrust::max_element`, as a position. -/
def max_element {α : Type} (comp : α → α → Bool) : List α → Nat
  | [] => 0
  | x :: xs => max_element_go comp x 0 1 xs

/-- Functor `compare_absolute`. -/
def compare_absolute {R : Type} [LinearOrderedRing R] (lhs rhs : R) : Bool :=
  decide (abs lhs < abs rhs)

/-! ## Point sets and the kernel function -/

/-- The `struct point_set` as far as `linear_algebra.h` uses it: the dimension
and the coordinate arrays `coords[d][i]`. -/
structure point_set (R : Type) where
  dim : Nat
  coords : Nat → Int → R

/-- Function `kernel`. -/
def kernel {R : Type} [Ring R] (exp : R → R) (val : R) : R := (1 + val) * exp (-val)

/-- The distance loop of the device kernels: `val += (a[d]-b[d])*(a[d]-b[d])`
for `d < dim`, then `sqrt`. -/
def distance {R : Type} [Ring R] (sqrt : R → R) (dim : Nat) (a b : Nat → R) : R :=
  sqrt ((List.range dim).foldl (fun (val : R) (d : Nat) => val + (a d - b d) * (a d - b d)) 0)

/-- One thread of kernel
`batched_fill_kernel_vector_and_scaled_substraction_for_v_r`: the content of
`v_r[idx]` after the thread, `old` being its content before. -/
def batched_fill_kernel_vector_and_scaled_substraction_for_v_r_thread {R : Type} [Ring R]
    (sqrt exp : R → R) (point_map2 point_map1 point_map_offsets1 work_item_map2 i_r
      compute_v_r : List Int) (input_set2 input_set1 : point_set R) (m2_total m1_total : Int)
    (V U : List R) (r : Int) (k_per_item : List Int) (idx : Int) (old : R) : R :=
  if idx ≥ m2_total then old
  else
    let global_point_index2 := rd point_map2 idx
    let work_item_index := rd work_item_map2 idx
    if rd compute_v_r work_item_index = 0 then old
    else
      let global_point_index1 :=
        rd point_map1 (rd point_map_offsets1 work_item_index) + rd i_r work_item_index
      let val := distance sqrt input_set2.dim
        (fun d => input_set2.coords d global_point_index2)
        (fun d => input_set1.coords d global_point_index1)
      let val := kernel exp val
      (List.range (min r (rd k_per_item work_item_index)).toNat).foldl
        (fun (val : R) (l : Nat) =>
          let scaling :=
            rd U ((l : Int) * m1_total + rd point_map_offsets1 work_item_index
              + rd i_r work_item_index)
          val - scaling * rd V ((l : Int) * m2_total + idx)) val

/-- Kernel `batched_fill_kernel_vector_and_scaled_substraction_for_v_r`: the
new content of the row `v_r`. -/
def batched_fill_kernel_vector_and_scaled_substraction_for_v_r {R : Type} [Ring R]
    (sqrt exp : R → R) (v_r : List R) (point_map2 point_map1 point_map_offsets1 work_item_map2
      i_r compute_v_r : List Int) (input_set2 input_set1 : point_set R)
    (m2_total m1_total : Int) (V U : List R) (r : Int) (k_per_item : List Int) : List R :=
  v_r.mapIdx (fun (idx : Nat) (old : R) =>
    batched_fill_kernel_vector_and_scaled_substraction_for_v_r_thread sqrt exp point_map2
      point_map1 point_map_offsets1 work_item_map2 i_r compute_v_r input_set2 input_set1
      m2_total m1_total V U r k_per_item (idx : Int) old)

/-- One thread of kernel
`batched_fill_kernel_vector_and_scaled_substraction_for_u_r`: the content of
`u_r[idx]` after the thread, `old` being its content before. -/
def batched_fill_kernel_vector_and_scaled_substraction_for_u_r_thread {R : Type} [Ring R]
    (sqrt exp : R → R) (point_map1 point_map2 work_item_to_batch_map work_item_map1
      k_per_item : List Int) (r : Int) (j_r_global : List Int)
    (input_set1 input_set2 : point_set R) (m1_total m2_total : Int) (U V : List R)
    (idx : Int) (old : R) : R :=
  if idx ≥ m1_total then old
  else
    let global_point_index1 := rd point_map1 idx
    let work_item_index := rd work_item_map1 idx
    if r ≥ rd k_per_item work_item_index then old
    else
      let batch_number := rd work_item_to_batch_map work_item_index
      let j_r_global_evaluated := rd j_r_global batch_number
      let global_point_index2 := rd point_map2 j_r_global_evaluated
      let val := distance sqrt input_set1.dim
        (fun d => input_set2.coords d global_point_index2)
        (fun d => input_set1.coords d global_point_index1)
      let val := kernel exp val
      (List.range r.toNat).foldl
        (fun (val : R) (l : Nat) =>
          let scaling := rd V ((l : Int) * m2_total + j_r_global_evaluated)
          val - scaling * rd U ((l : Int) * m1_total + idx)) val

/-- Kernel `batched_fill_kernel_vector_and_scaled_substraction_for_u_r`: the
new content of the column `u_r`. -/
def batched_fill_kernel_vector_and_scaled_substraction_for_u_r {R : Type} [Ring R]
    (sqrt exp : R → R) (u_r : List R) (point_map1 point_map2 work_item_to_batch_map
      work_item_map1 k_per_item : List Int) (r : Int) (j_r_global : List Int)
    (input_set1 input_set2 : point_set R) (m1_total m2_total : Int) (U V : List R) : List R :=
  u_r.mapIdx (fun (idx : Nat) (old : R) =>
    batched_fill_kernel_vector_and_scaled_substraction_for_u_r_thread sqrt exp point_map1
      point_map2 work_item_to_batch_map work_item_map1 k_per_item r j_r_global input_set1
      input_set2 m1_total m2_total U V (idx : Int) old)

/-! ## Batched low-rank apply -/

/-- A buffer obtained from `cudaMalloc` with `n` entries: its content is
whatever the memory held, given by `content`. -/
def alloc {R : Type} (n : Int) (content : Nat → R) : List R :=
  (List.range n.toNat).map content

/-- Primitive `thrust::gather`: `result[i] = input[map[i]]`. -/
def gather {R : Type} [Zero R] (map : List Int) (input : List R) : List R :=
  map.map (fun i => rd input i)

/-- Library routine `cublasDgemv` with `CUBLAS_OP_T`, `alpha = 1`, `beta = 0`,
unit strides, on the `m x n` column-major matrix at `A + aoff` with leading
dimension `lda`: `y[yoff + c] = sum over j < m of A[aoff + j + c*lda] *
x[xoff + j]` for `c < n`. -/
def cublasDgemv_T {R : Type} [Ring R] (m n : Int) (A : List R) (aoff lda : Int)
    (x : List R) (xoff : Int) (y : List R) (yoff : Int) : List R :=
  (List.range n.toNat).foldl
    (fun (y : List R) (c : Nat) => wr y (yoff + (c : Int))
      ((List.range m.toNat).foldl
        (fun (acc : R) (j : Nat) =>
          acc + rd A (aoff + (j : Int) + (c : Int) * lda) * rd x (xoff + (j : Int))) 0)) y

/-- Library routine `cublasDgemv` with `CUBLAS_OP_N`, `alpha = 1`, `beta = 0`,
unit strides: `y[yoff + i] = sum over c < n of A[aoff + i + c*lda] *
x[xoff + c]` for `i < m`. -/
def cublasDgemv_N {R : Type} [Ring R] (m n : Int) (A : List R) (aoff lda : Int)
    (x : List R) (xoff : Int) (y : List R) (yoff : Int) : List R :=
  (List.range m.toNat).foldl
    (fun (y : List R) (i : Nat) => wr y (yoff + (i : Int))
      ((List.range n.toNat).foldl
        (fun (acc : R) (c : Nat) =>
          acc + rd A (aoff + (i : Int) + (c : Int) * lda) * rd x (xoff + (c : Int))) 0)) y

/-- State of the apply loop of `apply_batched_aca`: `current_batch`,
`local_tmp`, `local_y`. -/
structure apply_state (R : Type) where
  current_batch : Int
  local_tmp : List R
  local_y : List R

/-- One iteration `s` of the apply loop of `apply_batched_aca`. -/
def apply_loop_body {R : Type} [Ring R] (k : Int) (m1_h m2_h point_map_offsets1_h
    point_map_offsets2_h k_per_item_h : List Int) (m1_total m2_total : Int)
    (U V local_x : List R) (st : apply_state R) (s : Nat) : apply_state R :=
  if rd m2_h (s : Int) > 0 ∧ rd m1_h (s : Int) > 0 then
    let local_tmp := cublasDgemv_T (rd m2_h (s : Int)) (rd k_per_item_h (s : Int)) V
      (rd point_map_offsets2_h (s : Int)) m2_total local_x (rd point_map_offsets2_h (s : Int))
      st.local_tmp (st.current_batch * k)
    let local_y := cublasDgemv_N (rd m1_h (s : Int)) (rd k_per_item_h (s : Int)) U
      (rd point_map_offsets1_h (s : Int)) m1_total local_tmp (k * st.current_batch)
      st.local_y (rd point_map_offsets1_h (s : Int))
    { current_batch := st.current_batch + 1, local_tmp := local_tmp, local_y := local_y }
  else st

/-- Kernel `add_batched_local_results_to_full_vector`: thread `idx` adds
`y_local[idx]` to `y[point_map1[idx]]`. -/
def add_batched_local_results_to_full_vector {R : Type} [Ring R] (y y_local : List R)
    (point_map1 : List Int) (m1_total : Int) : List R :=
  (List.range m1_total.toNat).foldl
    (fun (y : List R) (idx : Nat) =>
      wr y (rd point_map1 (idx : Int)) (rd y (rd point_map1 (idx : Int)) + rd y_local (idx : Int))) y

/-- The buffer `local_x` of `apply_batched_aca`: `x` gathered through
`point_map2`. -/
def local_x {R : Type} [Zero R] (x : List R) (mat_vec_data : List work_item) : List R :=
  gather ((point_maps mat_vec_data).2.take (block_total mat_vec_data 2).toNat) x

/-- The buffer `local_y` of `apply_batched_aca` as allocated, before the apply
loop. -/
def local_y {R : Type} (mat_vec_data : List work_item) (y_content : Nat → R) : List R :=
  alloc (block_total mat_vec_data 1) y_content

/-- The apply stage of `apply_batched_aca` (from the allocation of `local_x`
to `add_batched_local_results_to_full_vector`): the new content of `y`, for
the factor buffers `U`, `V` left by the rank loop.  `k` is the configured cap;
`tmp_content` and `y_content` are the contents of the memory that `cudaMalloc`
hands out for `local_tmp` and `local_y`. -/
def batched_low_rank_apply {R : Type} [Ring R] (x y : List R) (mat_vec_data : List work_item)
    (k : Int) (U V : List R) (tmp_content y_content : Nat → R) : List R :=
  let m1 := block_counts mat_vec_data 1
  let m2 := block_counts mat_vec_data 2
  let m1_total := block_total mat_vec_data 1
  let m2_total := block_total mat_vec_data 2
  let kg := global_k mat_vec_data k
  let maps := point_maps mat_vec_data
  let local_x := local_x x mat_vec_data
  let local_tmp := alloc ((batch_count mat_vec_data : Int) * kg) tmp_content
  let local_y := local_y mat_vec_data y_content
  let st := (List.range mat_vec_data.length).foldl
    (apply_loop_body kg m1 m2 (point_map_offsets mat_vec_data 1)
      (point_map_offsets mat_vec_data 2) (k_per_item mat_vec_data k) m1_total m2_total
      U V local_x)
    { current_batch := 0, local_tmp := local_tmp, local_y := local_y }
  add_batched_local_results_to_full_vector y st.local_y maps.1 m1_total

/-! ## Row-pivot search -/

/-- Functor `add_one`. -/
def add_one (a : Int) : Int := a + 1

/-- Functor `is_one`. -/
def is_one (x : Int) : Bool := x == 1

/-- Functor `is_smaller_or_equal_r`. -/
def is_smaller_or_equal_r (r : Int) (a : Int) : Bool := decide (a ≤ r)

/-- Primitive `thrust::transform_if` with a stencil, in place:
`input[i] = op(input[i])` where `pred(stencil[i])`. -/
def transform_if (input stencil : List Int) (op : Int → Int) (pred : Int → Bool) : List Int :=
  input.mapIdx (fun (i : Nat) (x : Int) => if pred (rd stencil (i : Int)) then op x else x)

/-- Primitive `thrust::replace_if` with a stencil: `xs[i] = new_value` where
`pred(stencil[i])`. -/
def replace_if {α β : Type} (xs : List α) (stencil : List β) (pred : β → Bool)
    (new_value : α) : List α :=
  xs.mapIdx (fun (i : Nat) (x : α) =>
    match stencil.get? i with
    | some s => if pred s then new_value else x
    | none => x)

/-- The array `i_r` of `apply_batched_aca` before the rank loop: fill with
`-1`, then `-1` again on the items that are not of type ACA. -/
def init_i_r (mat_vec_data : List work_item) : List Int :=
  replace_if (fill mat_vec_data.length (-1)) mat_vec_data is_not_WT_ACA (-1)

/-- The array `compute_v_r` at the start of rank iteration `r` of
`apply_batched_aca`: fill with `1`, then `0` on the items that are not of type
ACA, then `0` on the items with `k_per_item <= r`. -/
def init_compute_v_r (mat_vec_data : List work_item) (k_per_item : List Int) (r : Int) :
    List Int :=
  replace_if
    (replace_if (fill mat_vec_data.length 1) mat_vec_data is_not_WT_ACA 0)
    k_per_item (is_smaller_or_equal_r r) 0

/-- Functor `square`. -/
def square {R : Type} [Mul R] (x : R) : R := x * x

/-- Function `compute_batched_norms_with_keys_output`: the pair
(`keys_output`, `batched_norms`), both of length `norm_count`: squares,
`reduce_by_key` with `plus`, then `finalize_norm_computation`. -/
def compute_batched_norms_with_keys_output {R : Type} [Ring R] (sqrt : R → R) (x : List R)
    (m_total : Int) (work_item_map : List Int) : List Int × List R :=
  let x_tmp := (x.take m_total.toNat).map square
  let out := reduce_by_key (work_item_map.take m_total.toNat) x_tmp (fun a b => a + b)
  (out.map Prod.fst, out.map (fun p => sqrt p.2))

/-- The zero-norm threshold `1.0e-14` of kernel `update_ir`. -/
def update_ir_threshold (R : Type) [LinearOrderedField R] : R := 1 / 10 ^ 14

/-- The zero-norm threshold `1.0e-13` of `apply_aca_for_current_work_item`. -/
def single_block_threshold (R : Type) [LinearOrderedField R] : R := 1 / 10 ^ 13

/-- The device arrays of the row-pivot search of one rank iteration. -/
structure search_state (R : Type) where
  i_r : List Int
  compute_v_r : List Int
  v_r : List R
  keys_output : List Int
  v_r_norms : List R

/-- Kernel `remove_rubbish_from_maxima` on `output_set_counts` threads. -/
def remove_rubbish_from_maxima {R : Type} [Zero R] (st : search_state R)
    (output_set_counts : Nat) : search_state R :=
  { st with
    v_r_norms := st.v_r_norms.mapIdx (fun (idx : Nat) (v : R) =>
      if idx < output_set_counts ∧ rd st.compute_v_r (rd st.keys_output (idx : Int)) = 0
      then 0 else v) }

/-- One thread of kernel `update_ir`: the new content of `compute_v_r`. -/
def update_ir_thread {R : Type} [LinearOrderedField R] (keys_output : List Int)
    (values_output : List R) (compute_v_r : List Int) (idx : Nat) : List Int :=
  let work_item_index := rd keys_output (idx : Int)
  if rd compute_v_r work_item_index = 0 then compute_v_r
  else if abs (rd values_output (idx : Int)) ≥ update_ir_threshold R then
    wr compute_v_r work_item_index 0
  else compute_v_r

/-- Kernel `update_ir` on `output_set_counts` threads. -/
def update_ir {R : Type} [LinearOrderedField R] (st : search_state R)
    (output_set_counts : Nat) : search_state R :=
  { st with
    compute_v_r := (List.range output_set_counts).foldl
      (update_ir_thread st.keys_output st.v_r_norms) st.compute_v_r }

/-- The test `max_of_compute_v_r == 0` that leaves the search loop. -/
def search_exit {R : Type} (st : search_state R) : Bool :=
  reduce_maximum st.compute_v_r == 0

/-- One round of the `while (true)` loop of `apply_batched_aca` at rank `r`, up
to and including `update_ir`.  `V` and `U` are the factor buffers; the rows
`l < r` that the kernel reads are not written during the search. -/
def search_round {R : Type} [LinearOrderedField R] (sqrt exp : R → R)
    (mat_vec_data : List work_item) (k : Int) (input_set1 input_set2 : point_set R)
    (V U : List R) (r : Int) (st : search_state R) : search_state R :=
  let i_r := transform_if st.i_r st.compute_v_r add_one is_one
  let v_r := batched_fill_kernel_vector_and_scaled_substraction_for_v_r sqrt exp st.v_r
    (point_maps mat_vec_data).2 (point_maps mat_vec_data).1 (point_map_offsets mat_vec_data 1)
    (work_item_maps mat_vec_data).2 i_r st.compute_v_r input_set2 input_set1
    (block_total mat_vec_data 2) (block_total mat_vec_data 1) V U r
    (k_per_item mat_vec_data k)
  let norms := compute_batched_norms_with_keys_output sqrt v_r (block_total mat_vec_data 2)
    (work_item_maps mat_vec_data).2
  let st1 : search_state R :=
    { i_r := i_r, compute_v_r := st.compute_v_r, v_r := v_r,
      keys_output := norms.1, v_r_norms := norms.2 }
  update_ir (remove_rubbish_from_maxima st1 norms.1.length) norms.1.length

/-- The `while (true)` loop of the row-pivot search, run for at most `fuel`
rounds: `none` when the loop has not left after `fuel` rounds. -/
def search_loop {R : Type} [LinearOrderedField R] (sqrt exp : R → R)
    (mat_vec_data : List work_item) (k : Int) (input_set1 input_set2 : point_set R)
    (V U : List R) (r : Int) : Nat → search_state R → Option (search_state R)
  | 0, _ => none
  | fuel + 1, st =>
    let st1 := search_round sqrt exp mat_vec_data k input_set1 input_set2 V U r st
    if search_exit st1 then some st1
    else search_loop sqrt exp mat_vec_data k input_set1 input_set2 V U r fuel st1

/-! ## Normalisation of the row vector -/

/-- One thread of kernel `batched_scaling_of_v_r`: the content of `v_r` after
the thread. -/
def batched_scaling_of_v_r_thread {R : Type} [DivisionRing R] (work_item_to_batch_map
    work_item_map2 k_per_item : List Int) (r : Int) (j_r : List Int) (m2_total : Int)
    (v_r : List R) (idx : Nat) : List R :=
  if (idx : Int) ≥ m2_total then v_r
  else
    let work_item_index := rd work_item_map2 (idx : Int)
    if r ≥ rd k_per_item work_item_index then v_r
    else
      let batch_number := rd work_item_to_batch_map work_item_index
      wr v_r (idx : Int) (rd v_r (idx : Int) / rd v_r (rd j_r batch_number))

/-- Kernel `batched_scaling_of_v_r`.  A thread reads the pivot entry
`v_r[j_r[batch_number]]`, which the thread of the pivot position overwrites,
and the source does not order the two; `schedule` is the order in which the
threads run (`List.range m2_total` is the order of the thread index). -/
def batched_scaling_of_v_r {R : Type} [DivisionRing R] (schedule : List Nat) (v_r : List R)
    (work_item_to_batch_map work_item_map2 k_per_item : List Int) (r : Int) (j_r : List Int)
    (m2_total : Int) : List R :=
  schedule.foldl
    (batched_scaling_of_v_r_thread work_item_to_batch_map work_item_map2 k_per_item r j_r
      m2_total) v_r

/-- Functor `divide_by` applied by `thrust::transform` in
`apply_aca_for_current_work_item`: the pivot value `val` is copied out of
`v_r` before the transform. -/
def divide_by {R : Type} [DivisionRing R] (val : R) (v_r : List R) : List R :=
  v_r.map (fun x => x / val)

/-! ## The rank loop of the batched engine -/

/-- Row `r` of a factor buffer with rows of `m_total` entries: the view
`&V[r*m2_total]` (`&U[r*m1_total]`) of `apply_batched_aca`. -/
def get_row {R : Type} (buf : List R) (r : Nat) (m_total : Int) : List R :=
  (buf.drop (r * m_total.toNat)).take m_total.toNat

/-- The factor buffer after row `r` has been overwritten with `row`. -/
def put_row {R : Type} (buf : List R) (r : Nat) (m_total : Int) (row : List R) : List R :=
  buf.take (r * m_total.toNat) ++ row ++ buf.drop ((r + 1) * m_total.toNat)

/-- Library routine `cublasDgemm` with `CUBLAS_OP_T`, `CUBLAS_OP_N`,
`alpha = 1`, `beta = 0`: `C[coff + i + j*ldc] = sum over p < k of
A[aoff + p + i*lda] * B[boff + p + j*ldb]` for `i < m`, `j < n`. -/
def cublasDgemm_TN {R : Type} [Ring R] (m n k : Int) (A : List R) (aoff lda : Int)
    (B : List R) (boff ldb : Int) (C : List R) (coff ldc : Int) : List R :=
  (List.range n.toNat).foldl
    (fun (C : List R) (j : Nat) =>
      (List.range m.toNat).foldl
        (fun (C : List R) (i : Nat) =>
          wr C (coff + (i : Int) + (j : Int) * ldc)
            ((List.range k.toNat).foldl
              (fun (acc : R) (p : Nat) =>
                acc + rd A (aoff + (p : Int) + (i : Int) * lda)
                  * rd B (boff + (p : Int) + (j : Int) * ldb)) 0)) C) C

/-- The constant `check_frobenius` of `apply_batched_aca`. -/
def check_frobenius : Bool := false

/-- Functor `is_smaller`. -/
def is_smaller {R : Type} [LinearOrderedField R] (val : R) (a : R) : Bool := decide (a < val)

/-- The bound `(epsilon*(1.0-eta))/(1.0+epsilon)` of the stopping criterion. -/
def stopping_bound {R : Type} [LinearOrderedField R] (eta epsilon : R) : R :=
  (epsilon * (1 - eta)) / (1 + epsilon)

/-- State of the loop over `s` that fills `C` and `D` in the stopping
criterion of `apply_batched_aca`. -/
structure kxk_state (R : Type) where
  current_batch : Int
  C : List R
  D : List R

/-- One iteration `s` of the loop that fills `C = U'U` and `D = V'V` per
block. -/
def kxk_loop_body {R : Type} [Ring R] (r : Nat) (m1_h m2_h point_map_offsets1_h
    point_map_offsets2_h : List Int) (stop_h : List Bool) (m1_total m2_total : Int)
    (U V : List R) (st : kxk_state R) (s : Nat) : kxk_state R :=
  if rd m2_h (s : Int) > 0 ∧ rd m1_h (s : Int) > 0 then
    if stop_h.getD st.current_batch.toNat false then
      { st with current_batch := st.current_batch + 1 }
    else
      { current_batch := st.current_batch + 1,
        C := cublasDgemm_TN (r + 1) (r + 1) (rd m1_h (s : Int)) U
          (rd point_map_offsets1_h (s : Int)) m1_total U (rd point_map_offsets1_h (s : Int))
          m1_total st.C (st.current_batch * (r + 1) * (r + 1)) (r + 1),
        D := cublasDgemm_TN (r + 1) (r + 1) (rd m2_h (s : Int)) V
          (rd point_map_offsets2_h (s : Int)) m2_total V (rd point_map_offsets2_h (s : Int))
          m2_total st.D (st.current_batch * (r + 1) * (r + 1)) (r + 1) }
  else st

/-- The array `work_item_map_for_kxk_products`: ones scattered to the starts
of the `(r+1) x (r+1)` blocks of a zero array, then an inclusive scan
(`1..1 2..2 3..3 ...`). -/
def work_item_map_for_kxk_products (batch_count r : Nat) : List Int :=
  inclusive_scan
    (scatter (List.replicate batch_count 1)
      ((List.range batch_count).map (fun (b : Nat) => ((b * ((r + 1) * (r + 1)) : Nat) : Int)))
      (List.replicate (batch_count * ((r + 1) * (r + 1))) 0))

/-- Function `compute_batched_products_for_kxk_matrices`: per key the square
root of the sum of `C .* D`; `none` stands for the value `1.0/0.0` that
replaces the product of a batch whose stop flag is set. -/
def compute_batched_products_for_kxk_matrices {R : Type} [Ring R] (sqrt : R → R)
    (C D : List R) (m_total : Nat) (work_item_map : List Int)
    (stop_aca_as_soon_as_possible : List Bool) : List (Option R) :=
  let x_tmp := List.zipWith (fun a b => a * b) (C.take m_total) (D.take m_total)
  let out := (reduce_by_key (work_item_map.take m_total) x_tmp (fun a b => a + b)).map
    (fun p => p.2)
  out.mapIdx (fun (b : Nat) (p : R) =>
    if stop_aca_as_soon_as_possible.getD b false then none else some (sqrt p))

/-- Function `compute_batched_norms`: the norms of
`compute_batched_norms_with_keys_output` without the keys. -/
def compute_batched_norms {R : Type} [Ring R] (sqrt : R → R) (x : List R) (m_total : Int)
    (work_item_map : List Int) : List R :=
  (compute_batched_norms_with_keys_output sqrt x m_total work_item_map).2

/-- The stopping criterion of `apply_batched_aca` (the body of
`if (check_frobenius && (r%5==0))`): the new stop flags and whether the rank
loop is left; `none` when the process exits because `norm_count` differs from
`batch_count`.  A quotient by `1.0/0.0` is `0`. -/
def stopping_criterion {R : Type} [LinearOrderedField R] (sqrt : R → R)
    (mat_vec_data : List work_item) (eta epsilon : R) (r : Nat) (U V u_r v_r : List R)
    (content : Nat → R) (stop_aca_as_soon_as_possible : List Bool) :
    Option (List Bool × Bool) :=
  let batch_count := batch_count mat_vec_data
  let size := batch_count * ((r + 1) * (r + 1))
  let kxk := (List.range mat_vec_data.length).foldl
    (kxk_loop_body r (block_counts mat_vec_data 1) (block_counts mat_vec_data 2)
      (point_map_offsets mat_vec_data 1) (point_map_offsets mat_vec_data 2)
      stop_aca_as_soon_as_possible (block_total mat_vec_data 1) (block_total mat_vec_data 2)
      U V)
    { current_batch := 0, C := alloc (size : Int) content, D := alloc (size : Int) content }
  let res := compute_batched_products_for_kxk_matrices sqrt kxk.C kxk.D size
    (work_item_map_for_kxk_products batch_count r) stop_aca_as_soon_as_possible
  let u_r_2norm := compute_batched_norms sqrt u_r (block_total mat_vec_data 1)
    (work_item_maps mat_vec_data).1
  if u_r_2norm.length ≠ batch_count then none
  else
    let v_r_2norm := compute_batched_norms sqrt v_r (block_total mat_vec_data 2)
      (work_item_maps mat_vec_data).2
    let prod := List.zipWith (fun a b => a * b) (u_r_2norm.take batch_count) v_r_2norm
    let quot := List.zipWith
      (fun (a : R) (b : Option R) => match b with
        | some x => a / x
        | none => 0) prod res
    let stop := replace_if stop_aca_as_soon_as_possible quot
      (is_smaller (stopping_bound eta epsilon)) true
    some (stop, stop.all (fun b => b))

/-- The state that the rank loop of `apply_batched_aca` carries from one rank
to the next. -/
structure aca_state (R : Type) where
  U : List R
  V : List R
  i_r : List Int
  stop_aca_as_soon_as_possible : List Bool

/-- One iteration of the rank loop `for (int r=0; r<k; r++)` of
`apply_batched_aca`: the new state and whether the loop is left by `break`;
`none` when the row-pivot search has not left within `fuel` rounds (or the
process exits).  `schedule` is the thread order of
`batched_scaling_of_v_r`. -/
def rank_iteration {R : Type} [LinearOrderedField R] (sqrt exp : R → R)
    (mat_vec_data : List work_item) (k : Int) (input_set1 input_set2 : point_set R)
    (eta epsilon : R) (content : Nat → R) (fuel : Nat) (schedule : List Nat) (r : Nat)
    (st : aca_state R) : Option (aca_state R × Bool) :=
  let m1_total := block_total mat_vec_data 1
  let m2_total := block_total mat_vec_data 2
  let k_per_item := k_per_item mat_vec_data k
  match search_loop sqrt exp mat_vec_data k input_set1 input_set2 st.V st.U (r : Int) fuel
      { i_r := st.i_r, compute_v_r := init_compute_v_r mat_vec_data k_per_item (r : Int),
        v_r := get_row st.V r m2_total, keys_output := [], v_r_norms := [] } with
  | none => none
  | some s =>
    let j_r_global := j_r_global (work_item_maps mat_vec_data).2 s.v_r m2_total
    let v_r := batched_scaling_of_v_r schedule s.v_r (work_item_to_batch_map mat_vec_data)
      (work_item_maps mat_vec_data).2 k_per_item (r : Int) j_r_global m2_total
    let V := put_row st.V r m2_total v_r
    let u_r := batched_fill_kernel_vector_and_scaled_substraction_for_u_r sqrt exp
      (get_row st.U r m1_total) (point_maps mat_vec_data).1 (point_maps mat_vec_data).2
      (work_item_to_batch_map mat_vec_data) (work_item_maps mat_vec_data).1 k_per_item
      (r : Int) j_r_global input_set1 input_set2 m1_total m2_total st.U V
    let U := put_row st.U r m1_total u_r
    if check_frobenius && (r % 5 == 0) then
      match stopping_criterion sqrt mat_vec_data eta epsilon r U V u_r v_r content
          st.stop_aca_as_soon_as_possible with
      | none => none
      | some (stop, leave) =>
        some ({ U := U, V := V, i_r := s.i_r, stop_aca_as_soon_as_possible := stop }, leave)
    else
      some ({ U := U, V := V, i_r := s.i_r,
              stop_aca_as_soon_as_possible := st.stop_aca_as_soon_as_possible }, false)

/-- The rank loop of `apply_batched_aca` from rank `r` on, `n` ranks to go. -/
def rank_loop {R : Type} [LinearOrderedField R] (sqrt exp : R → R)
    (mat_vec_data : List work_item) (k : Int) (input_set1 input_set2 : point_set R)
    (eta epsilon : R) (content : Nat → R) (fuel : Nat) (schedule : List Nat) :
    Nat → Nat → aca_state R → Option (aca_state R)
  | 0, _, st => some st
  | n + 1, r, st =>
    match rank_iteration sqrt exp mat_vec_data k input_set1 input_set2 eta epsilon content
        fuel schedule r st with
    | none => none
    | some (st1, leave) =>
      if leave then some st1
      else rank_loop sqrt exp mat_vec_data k input_set1 input_set2 eta epsilon content fuel
        schedule n (r + 1) st1

/-- The state of `apply_batched_aca` before the rank loop: `U` and `V` filled
with `0.0`, `i_r` with `-1`, the stop flags with `false`. -/
def init_aca_state (R : Type) [LinearOrderedField R] (mat_vec_data : List work_item)
    (k : Int) : aca_state R :=
  { U := List.replicate (block_total mat_vec_data 1 * global_k mat_vec_data k).toNat 0,
    V := List.replicate (block_total mat_vec_data 2 * global_k mat_vec_data k).toNat 0,
    i_r := init_i_r mat_vec_data,
    stop_aca_as_soon_as_possible := List.replicate (batch_count mat_vec_data) false }

/-- The factors `U`, `V` that `apply_batched_aca` holds after its rank loop. -/
def batched_aca_factors {R : Type} [LinearOrderedField R] (sqrt exp : R → R)
    (mat_vec_data : List work_item) (k : Int) (input_set1 input_set2 : point_set R)
    (eta epsilon : R) (content : Nat → R) (fuel : Nat) (schedule : List Nat) :
    Option (aca_state R) :=
  rank_loop sqrt exp mat_vec_data k input_set1 input_set2 eta epsilon content fuel schedule
    (global_k mat_vec_data k).toNat 0 (init_aca_state R mat_vec_data k)

/-! ## The single-block procedure -/

/-- One thread of kernel `fill_kernel_vector_and_substract_previous_vectors`:
the content of `vec[idx]` after the thread, `old` being its content before. -/
def fill_kernel_vector_and_substract_previous_vectors_thread {R : Type} [Ring R]
    (sqrt exp : R → R) (lA iB : Int) (input_setA input_setB : point_set R) (m1 m2 : Int)
    (U V : List R) (r : Int) (i_r : Int) (idx : Int) (old : R) : R :=
  if idx ≥ m2 then old
  else
    let val := distance sqrt input_setA.dim
      (fun d => input_setA.coords d (lA + idx)) (fun d => input_setB.coords d iB)
    let val := kernel exp val
    (List.range r.toNat).foldl
      (fun (val : R) (l : Nat) =>
        let scaling := rd U ((l : Int) * m1 + i_r)
        val - scaling * rd V ((l : Int) * m2 + idx)) val

/-- Kernel `fill_kernel_vector_and_substract_previous_vectors`: the new
content of `vec`. -/
def fill_kernel_vector_and_substract_previous_vectors {R : Type} [Ring R]
    (sqrt exp : R → R) (vec : List R) (lA iB : Int) (input_setA input_setB : point_set R)
    (m1 m2 : Int) (U V : List R) (r : Int) (i_r : Int) : List R :=
  vec.mapIdx (fun (idx : Nat) (old : R) =>
    fill_kernel_vector_and_substract_previous_vectors_thread sqrt exp lA iB input_setA
      input_setB m1 m2 U V r i_r (idx : Int) old)

/-- Primitive `thrust::inner_product` with initial value `init`. -/
def inner_product {R : Type} [Ring R] (xs ys : List R) (init : R) : R :=
  (List.zipWith (fun a b => a * b) xs ys).foldl (fun acc t => acc + t) init

/-- Library routine `cublasDdot` on `n` entries. -/
def cublasDdot {R : Type} [Ring R] (n : Int) (x y : List R) : R :=
  (List.range n.toNat).foldl
    (fun (acc : R) (i : Nat) => acc + rd x (i : Int) * rd y (i : Int)) 0

/-- Function `compute_frobenius_norm_of_low_rank_matrix`; `content` is the
content of the fresh memory of `C` and `D`. -/
def compute_frobenius_norm_of_low_rank_matrix {R : Type} [Ring R] (sqrt : R → R)
    (U V : List R) (m1 m2 k : Int) (content : Nat → R) : R :=
  let C := cublasDgemm_TN k k m1 U 0 m1 U 0 m1 (alloc (k * k) content) 0 k
  let D := cublasDgemm_TN k k m2 V 0 m2 U 0 m2 (alloc (k * k) content) 0 k
  sqrt (cublasDdot (k * k) C D)

/-- The state of the rank loop of `apply_aca_for_current_work_item`. -/
structure single_state (R : Type) where
  U : List R
  V : List R
  i_r : Int

/-- The `do ... while (true)` loop of `apply_aca_for_current_work_item` at rank
`r`, run for at most `fuel` rounds: the new `i_r` and the accepted row `v_r`;
`none` when the loop has not left after `fuel` rounds. -/
def single_search_loop {R : Type} [LinearOrderedField R] (sqrt exp : R → R)
    (current_mat_vec_data : work_item) (input_set1 input_set2 : point_set R) (m1 m2 : Int)
    (U V : List R) (r : Nat) : Nat → Int → List R → Option (Int × List R)
  | 0, _, _ => none
  | fuel + 1, i_r, v_r =>
    let i_r := i_r + 1
    let v_r := fill_kernel_vector_and_substract_previous_vectors sqrt exp v_r
      current_mat_vec_data.set2_l (current_mat_vec_data.set1_l + i_r) input_set2 input_set1
      m1 m2 U V (r : Int) i_r
    let norm := sqrt (inner_product v_r v_r 0)
    if norm ≥ single_block_threshold R then some (i_r, v_r)
    else single_search_loop sqrt exp current_mat_vec_data input_set1 input_set2 m1 m2 U V r
      fuel i_r v_r

/-- One iteration of the rank loop of `apply_aca_for_current_work_item`: the
new state and whether the loop is left by `break`; `none` when the search has
not left within `fuel` rounds. -/
def single_rank_iteration {R : Type} [LinearOrderedField R] (sqrt exp : R → R)
    (current_mat_vec_data : work_item) (input_set1 input_set2 : point_set R) (eta epsilon : R)
    (k : Int) (content : Nat → R) (fuel : Nat) (r : Nat) (st : single_state R) :
    Option (single_state R × Bool) :=
  let m1 := current_mat_vec_data.set1_u - current_mat_vec_data.set1_l + 1
  let m2 := current_mat_vec_data.set2_u - current_mat_vec_data.set2_l + 1
  match single_search_loop sqrt exp current_mat_vec_data input_set1 input_set2 m1 m2 st.U st.V
      r fuel st.i_r (get_row st.V r m2) with
  | none => none
  | some (i_r, v_r) =>
    let j_r := max_element compare_absolute v_r
    let v_r := divide_by (rd v_r (j_r : Int)) v_r
    let V := put_row st.V r m2 v_r
    let u_r := fill_kernel_vector_and_substract_previous_vectors sqrt exp (get_row st.U r m1)
      current_mat_vec_data.set1_l (current_mat_vec_data.set2_l + (j_r : Int)) input_set1
      input_set2 m2 m1 V st.U (r : Int) (j_r : Int)
    let U := put_row st.U r m1 u_r
    if r % 5 = 0 then
      let res := compute_frobenius_norm_of_low_rank_matrix sqrt U V m1 m2 k content
      let u_r_2norm := sqrt (inner_product u_r u_r 0)
      let v_r_2norm := sqrt (inner_product v_r v_r 0)
      some ({ U := U, V := V, i_r := i_r },
        decide (u_r_2norm * v_r_2norm ≤ stopping_bound eta epsilon * res))
    else some ({ U := U, V := V, i_r := i_r }, false)

/-- The rank loop of `apply_aca_for_current_work_item` from rank `r` on, `n`
ranks to go. -/
def single_rank_loop {R : Type} [LinearOrderedField R] (sqrt exp : R → R)
    (current_mat_vec_data : work_item) (input_set1 input_set2 : point_set R) (eta epsilon : R)
    (k : Int) (content : Nat → R) (fuel : Nat) :
    Nat → Nat → single_state R → Option (single_state R)
  | 0, _, st => some st
  | n + 1, r, st =>
    match single_rank_iteration sqrt exp current_mat_vec_data input_set1 input_set2 eta
        epsilon k content fuel r st with
    | none => none
    | some (st1, leave) =>
      if leave then some st1
      else single_rank_loop sqrt exp current_mat_vec_data input_set1 input_set2 eta epsilon k
        content fuel n (r + 1) st1

/-- The factors `U`, `V` that `apply_aca_for_current_work_item` holds after its
rank loop, for the configured cap `k`. -/
def single_aca_factors {R : Type} [LinearOrderedField R] (sqrt exp : R → R)
    (current_mat_vec_data : work_item) (input_set1 input_set2 : point_set R) (eta epsilon : R)
    (k : Int) (content : Nat → R) (fuel : Nat) : Option (single_state R) :=
  let m1 := current_mat_vec_data.set1_u - current_mat_vec_data.set1_l + 1
  let m2 := current_mat_vec_data.set2_u - current_mat_vec_data.set2_l + 1
  let k := apply_aca_for_current_work_item_k current_mat_vec_data k
  single_rank_loop sqrt exp current_mat_vec_data input_set1 input_set2 eta epsilon k content
    fuel k.toNat 0
    { U := List.replicate (m1 * k).toNat 0, V := List.replicate (m2 * k).toNat 0, i_r := -1 }

/-! ## Entries of the kernel matrix -/

/-- The value that the device kernels of `apply_batched_aca` compute for row
point `i` of `input_set1` and column point `j` of `input_set2` before the
previous rank-1 terms are subtracted: the distance loop from the column point
to the row point, then `kernel`. -/
def kernel_entry {R : Type} [Ring R] (sqrt exp : R → R) (input_set1 input_set2 : point_set R)
    (i j : Int) : R :=
  kernel exp (distance sqrt input_set1.dim (fun d => input_set2.coords d j)
    (fun d => input_set1.coords d i))

/-! ## The Frobenius norm that the stopping criterion asks for -/

/-- The value that the comment at the head of
`compute_frobenius_norm_of_low_rank_matrix` names,
`sqrt(sum(sum((V'*V).*(U'*U))))`, written out for a column-major `m1 x k`
matrix `U` and a column-major `m2 x k` matrix `V`: the square root of the sum
over `i, j < k` of `(U'U)[i,j] * (V'V)[i,j]`. -/
def frobenius_of_gram_matrices {R : Type} [Ring R] (sqrt : R → R) (U V : List R)
    (m1 m2 k : Nat) : R :=
  sqrt (((List.range k).map (fun (i : Nat) =>
    ((List.range k).map (fun (j : Nat) =>
      ((List.range m1).map (fun (p : Nat) =>
        rd U ((p + i * m1 : Nat) : Int) * rd U ((p + j * m1 : Nat) : Int))).sum *
      ((List.range m2).map (fun (p : Nat) =>
        rd V ((p + i * m2 : Nat) : Int) * rd V ((p + j * m2 : Nat) : Int))).sum)).sum)).sum)

/-! ## Sorting of the work items -/

/-- Functor `mat_vec_type_smaller`. -/
def mat_vec_type_smaller (lhs rhs : work_item) : Bool := decide (lhs.work_type > rhs.work_type)

/-- Insertion of `a` into a list: behind the leading entries that `comp` puts
before `a`, in front of the first entry that `comp` does not put before `a`. -/
def stable_sort_insert {α : Type} (comp : α → α → Bool) (a : α) : List α → List α
  | [] => [a]
  | b :: l => if comp b a then b :: stable_sort_insert comp a l else a :: b :: l

/-- Primitive `thrust::stable_sort` with comparison functor `comp`: entries that
`comp` does not order keep their order.  The result of a stable sort does not
depend on the algorithm; it is computed here by insertion, from the last entry
to the first. -/
def stable_sort {α : Type} (comp : α → α → Bool) (l : List α) : List α :=
  l.foldr (stable_sort_insert comp) []

/-- Function `sort_mat_vec_data`. -/
def sort_mat_vec_data (mat_vec_data : List work_item) : List work_item :=
  stable_sort mat_vec_type_smaller mat_vec_data

/-- Primitive `thrust::partition_point`: the number of leading entries that
satisfy `pred` (on a partitioned range, the end of the first part). -/
def partition_point {α : Type} (l : List α) (pred : α → Bool) : Nat :=
  (l.takeWhile pred).length

/-! ## Dense blocks -/

/-- Kernel `fill_matrix` on the buffer `matrix`: thread `idx < m1*m2` writes
`matrix[idx]` for row `i = idx % m1` and column `j = idx / m1` (C division of
`int`). -/
def fill_matrix {R : Type} [Ring R] (sqrt exp : R → R) (matrix : List R)
    (current_mat_vec_data : work_item) (input_set1 input_set2 : point_set R) (m1 m2 : Int) :
    List R :=
  matrix.mapIdx (fun (idx : Nat) (old : R) =>
    if (idx : Int) ≥ m1 * m2 then old
    else
      let j := Int.tdiv (idx : Int) m1
      let i := Int.tmod (idx : Int) m1
      let val := distance sqrt input_set1.dim
        (fun d => input_set1.coords d (current_mat_vec_data.set1_l + i))
        (fun d => input_set2.coords d (current_mat_vec_data.set2_l + j))
      kernel exp val)

/-- Function `apply_dense_matrix_for_current_work_item`: the new content of
`y`.  `stat` tells whether `cublasDgemv` reports `CUBLAS_STATUS_SUCCESS`; the
result is `none` when it does not (`exit(1)`).  `matrix_content` and
`y_content` are the contents of the memory that `cudaMalloc` hands out for
`matrix` and `local_y`. -/
def apply_dense_matrix_for_current_work_item {R : Type} [Ring R] (sqrt exp : R → R)
    (x y : List R) (current_mat_vec_data : work_item) (input_set1 input_set2 : point_set R)
    (stat : Bool) (matrix_content y_content : Nat → R) : Option (List R) :=
  let m1 := current_mat_vec_data.set1_u - current_mat_vec_data.set1_l + 1
  let m2 := current_mat_vec_data.set2_u - current_mat_vec_data.set2_l + 1
  let matrix := fill_matrix sqrt exp (alloc (m1 * m2) matrix_content) current_mat_vec_data
    input_set1 input_set2 m1 m2
  let local_x := (List.range m2.toNat).map
    (fun (j : Nat) => rd x (current_mat_vec_data.set2_l + (j : Int)))
  let local_y := cublasDgemv_N m1 m2 matrix 0 m1 local_x 0 (alloc m1 y_content) 0
  if stat then
    some ((List.range m1.toNat).foldl
      (fun (y : List R) (i : Nat) =>
        wr y (current_mat_vec_data.set1_l + (i : Int))
          (rd y (current_mat_vec_data.set1_l + (i : Int)) + rd local_y (i : Int))) y)
  else none

/-! ## The multiplication entry point -/

/-- One iteration `s` of the apply loop of `apply_batched_aca` together with
the status of its two `cublasDgemv` calls: `stat (2*s)` and `stat (2*s + 1)`
tell whether the first and the second call report `CUBLAS_STATUS_SUCCESS`.  The
source does not look at the status; a call that reports a failure is taken to
leave its output buffer as it was. -/
def apply_loop_body_stat {R : Type} [Ring R] (stat : Nat → Bool) (k : Int)
    (m1_h m2_h point_map_offsets1_h point_map_offsets2_h k_per_item_h : List Int)
    (m1_total m2_total : Int) (U V local_x : List R) (st : apply_state R) (s : Nat) :
    apply_state R :=
  if rd m2_h (s : Int) > 0 ∧ rd m1_h (s : Int) > 0 then
    let local_tmp :=
      if stat (2 * s) then
        cublasDgemv_T (rd m2_h (s : Int)) (rd k_per_item_h (s : Int)) V
          (rd point_map_offsets2_h (s : Int)) m2_total local_x
          (rd point_map_offsets2_h (s : Int)) st.local_tmp (st.current_batch * k)
      else st.local_tmp
    let local_y :=
      if stat (2 * s + 1) then
        cublasDgemv_N (rd m1_h (s : Int)) (rd k_per_item_h (s : Int)) U
          (rd point_map_offsets1_h (s : Int)) m1_total local_tmp (k * st.current_batch)
          st.local_y (rd point_map_offsets1_h (s : Int))
      else st.local_y
    { current_batch := st.current_batch + 1, local_tmp := local_tmp, local_y := local_y }
  else st

/-- The apply stage of `apply_batched_aca` (see `batched_low_rank_apply`) with
the status of the `cublasDgemv` calls of its loop. -/
def batched_low_rank_apply_stat {R : Type} [Ring R] (stat : Nat → Bool) (x y : List R)
    (mat_vec_data : List work_item) (k : Int) (U V : List R)
    (tmp_content y_content : Nat → R) : List R :=
  let m1 := block_counts mat_vec_data 1
  let m2 := block_counts mat_vec_data 2
  let m1_total := block_total mat_vec_data 1
  let m2_total := block_total mat_vec_data 2
  let kg := global_k mat_vec_data k
  let maps := point_maps mat_vec_data
  let local_x := local_x x mat_vec_data
  let local_tmp := alloc ((batch_count mat_vec_data : Int) * kg) tmp_content
  let local_y := local_y mat_vec_data y_content
  let st := (List.range mat_vec_data.length).foldl
    (apply_loop_body_stat stat kg m1 m2 (point_map_offsets mat_vec_data 1)
      (point_map_offsets mat_vec_data 2) (k_per_item mat_vec_data k) m1_total m2_total
      U V local_x)
    { current_batch := 0, local_tmp := local_tmp, local_y := local_y }
  add_batched_local_results_to_full_vector y st.local_y maps.1 m1_total

/-- The grid of a kernel launch on `n` threads,
`(n + (block_size - 1)) / block_size` with `block_size = 512`, in the integer
division of C. -/
def launch_grid (n : Int) : Int := Int.tdiv (n + (512 - 1)) 512

/-- A kernel launch on `n` threads followed by `checkCUDAError`: a grid without
a thread block is an invalid launch configuration, `cudaGetLastError` reports
it and `checkCUDAError` calls `exit(EXIT_FAILURE)`. -/
def launch_rejected (n : Int) : Bool := decide (launch_grid n ≤ 0)

/-- Function `apply_batched_aca`: the new content of `y`; `none` when the
function does not return.  It does not return when its first kernel launch,
`get_work_item_point_set_limits_for_given_type` on `mat_vec_data_count`
threads, is rejected (an empty batch), when the rank loop does not return (see
`rank_iteration`), or when the launch of
`add_batched_local_results_to_full_vector` on `m1_total` threads is rejected,
which the `checkCUDAError` at the end of the function reports.  `stat` is the
status of the `cublasDgemv` calls of the apply loop, `schedule` the thread
order of `batched_scaling_of_v_r`, `content`, `tmp_content` and `y_content` the
contents of fresh memory. -/
def apply_batched_aca {R : Type} [LinearOrderedField R] (sqrt exp : R → R) (x y : List R)
    (mat_vec_data : List work_item) (input_set1 input_set2 : point_set R) (eta epsilon : R)
    (k : Int) (stat : Nat → Bool) (content tmp_content y_content : Nat → R) (fuel : Nat)
    (schedule : List Nat) : Option (List R) :=
  if launch_rejected (mat_vec_data.length : Int) then none
  else
    match batched_aca_factors sqrt exp mat_vec_data k input_set1 input_set2 eta epsilon content
        fuel schedule with
    | none => none
    | some st =>
      if launch_rejected (block_total mat_vec_data 1) then none
      else
        some (batched_low_rank_apply_stat stat x y mat_vec_data k st.U st.V tmp_content
          y_content)

/-- The loop `for (int i=0; i<mat_vec_data_count; i++)` of
`sequential_h_matrix_mvp` from item `i` on.  Only the branch for the type DENSE
is there; the branches for the type ACA and for any other type are commented
out in the source.  `stat i` is the status of the dense product of item `i`;
the result is `none` when a dense product reports a failure. -/
def dense_blocks_loop {R : Type} [Ring R] (sqrt exp : R → R) (x : List R)
    (input_set1 input_set2 : point_set R) (stat : Nat → Bool)
    (matrix_content y_content : Nat → R) : List work_item → Nat → List R → Option (List R)
  | [], _, y => some y
  | current_mat_vec_data :: rest, i, y =>
    if current_mat_vec_data.work_type = WT_DENSE then
      match apply_dense_matrix_for_current_work_item sqrt exp x y current_mat_vec_data
          input_set1 input_set2 (stat i) matrix_content y_content with
      | none => none
      | some y1 =>
        dense_blocks_loop sqrt exp x input_set1 input_set2 stat matrix_content y_content rest
          (i + 1) y1
    else
      dense_blocks_loop sqrt exp x input_set1 input_set2 stat matrix_content y_content rest
        (i + 1) y

/-- Function `sequential_h_matrix_mvp`: the content of `y` when the function
returns, `none` when it does not return.  `point_count` is the number of
points that `get_point_count_dim` reads from `input_set1` (that kernel is not
part of the sources).  The steps: `thrust::fill` of `y[0 .. point_count-1]`
with `0.0`, `sort_mat_vec_data`, the loop over the dense blocks,
`thrust::partition_point` with `is_not_WT_ACA`, `apply_batched_aca` on the
items from `dense_count` on.  `stat_dense` and `stat_aca` are the statuses of
the cuBLAS calls of the dense loop and of the batched apply loop. -/
def sequential_h_matrix_mvp {R : Type} [LinearOrderedField R] (sqrt exp : R → R)
    (x y : List R) (mat_vec_data : List work_item) (input_set1 input_set2 : point_set R)
    (point_count : Int) (eta epsilon : R) (k : Int) (stat_dense stat_aca : Nat → Bool)
    (matrix_content content tmp_content y_content : Nat → R) (fuel : Nat)
    (schedule : List Nat) : Option (List R) :=
  let y := y.mapIdx (fun (i : Nat) (v : R) => if (i : Int) < point_count then 0 else v)
  let mat_vec_data := sort_mat_vec_data mat_vec_data
  match dense_blocks_loop sqrt exp x input_set1 input_set2 stat_dense matrix_content y_content
      mat_vec_data 0 y with
  | none => none
  | some y =>
    let dense_count := partition_point mat_vec_data is_not_WT_ACA
    apply_batched_aca sqrt exp x y (mat_vec_data.drop dense_count) input_set1 input_set2 eta
      epsilon k stat_aca content tmp_content y_content fuel schedule

/-! ## The scan-and-correct fill of one index map

The kernels `set_bounds_for_point_maps`, `set_bounds_for_work_item_maps` and
their `correct_bounds_*` counterparts treat the row map and the column map
alike.  The following notions describe one map: what one thread does to it and
what the entries of one block are after each of the three steps (markers,
running sum, corrective write). -/

/-- One thread of `set_bounds_for_point_maps` (`set_bounds_for_work_item_maps`)
on one map: an item of type `work_item_type` writes `first` at the start of its
range and `last` at its end. -/
def set_bounds_thread (offsets counts : List Int) (work_item_type : Int)
    (current_level_data : List work_item) (first last : work_item → Nat → Int)
    (map : List Int) (idx : Nat) : List Int :=
  match current_level_data.get? idx with
  | none => map
  | some work =>
    if work.work_type ≠ work_item_type then map
    else
      wr (wr map (rd offsets (idx : Int)) (first work idx))
        (rd offsets (idx : Int) + rd counts (idx : Int) - 1) (last work idx)

/-- One thread of `correct_bounds_for_point_maps`
(`correct_bounds_for_work_item_maps`) on one map: an item of type
`work_item_type` writes `value` at the end of its range. -/
def correct_bounds_thread (offsets counts : List Int) (work_item_type : Int)
    (current_level_data : List work_item) (value : work_item → Nat → Int)
    (map : List Int) (idx : Nat) : List Int :=
  match current_level_data.get? idx with
  | none => map
  | some work =>
    if work.work_type ≠ work_item_type then map
    else wr map (rd offsets (idx : Int) + rd counts (idx : Int) - 1) (value work idx)

/-- The entries of block `idx` in a map filled with `c` after the marker
kernel, for a block of at least two entries: `first`, then `c`, ..., `c`, then
`last`.  An item of another type has no entries. -/
def marker_block (counts : List Int) (work_item_type : Int)
    (current_level_data : List work_item) (first last : work_item → Nat → Int) (c : Int)
    (idx : Nat) : List Int :=
  match current_level_data.get? idx with
  | none => []
  | some work =>
    if work.work_type ≠ work_item_type then []
    else first work idx :: (List.replicate (rd counts (idx : Int) - 2).toNat c ++ [last work idx])

/-- The entries of block `idx` after the running sum, when the sum is `0` in
front of the block: `first`, `first + c`, ..., and `0` at the last position. -/
def scanned_block (counts : List Int) (work_item_type : Int)
    (current_level_data : List work_item) (first : work_item → Nat → Int) (c : Int)
    (idx : Nat) : List Int :=
  match current_level_data.get? idx with
  | none => []
  | some work =>
    if work.work_type ≠ work_item_type then []
    else (List.range (rd counts (idx : Int) - 1).toNat).map
        (fun (j : Nat) => first work idx + (j : Int) * c) ++ [0]

/-- The entries of block `idx` after the corrective write: `first`,
`first + c`, ..., `first + (count - 1) * c`. -/
def exact_block (counts : List Int) (work_item_type : Int)
    (current_level_data : List work_item) (first : work_item → Nat → Int) (c : Int)
    (idx : Nat) : List Int :=
  match current_level_data.get? idx with
  | none => []
  | some work =>
    if work.work_type ≠ work_item_type then []
    else (List.range (rd counts (idx : Int)).toNat).map
        (fun (j : Nat) => first work idx + (j : Int) * c)

/-! ## The earlier comparison of the sort -/

/-- The body `return lhs.work_type==WT_DENSE;` that the source keeps as a
comment in the functor `mat_vec_type_smaller`, marked `caused bug`. -/
def mat_vec_type_smaller_commented_out (lhs _rhs : work_item) : Bool :=
  lhs.work_type == WT_DENSE


/-! ## The candidate row of the row-pivot search -/

/-- The candidate row that the search of `apply_aca_for_current_work_item`
computes for row `i` of the block `w` at rank `r`: kernel
`fill_kernel_vector_and_substract_previous_vectors` on the buffer `vec`, with
`m1 = set1_u - set1_l + 1`, `m2 = set2_u - set2_l + 1` and the factors `Us`,
`Vs` of the block. -/
def candidate_row {R : Type} [Ring R] (sqrt exp : R → R) (w : work_item)
    (input_set1 input_set2 : point_set R) (Us Vs vec : List R) (r i : Int) : List R :=
  fill_kernel_vector_and_substract_previous_vectors sqrt exp vec w.set2_l (w.set1_l + i)
    input_set2 input_set1 (w.set1_u - w.set1_l + 1) (w.set2_u - w.set2_l + 1) Us Vs r i

/-- The norm of the candidate row, `sqrt(thrust::inner_product(v_r, v_r, 0))`. -/
def candidate_row_norm {R : Type} [Ring R] (sqrt exp : R → R) (w : work_item)
    (input_set1 input_set2 : point_set R) (Us Vs vec : List R) (r i : Int) : R :=
  sqrt (inner_product (candidate_row sqrt exp w input_set1 input_set2 Us Vs vec r i)
    (candidate_row sqrt exp w input_set1 input_set2 Us Vs vec r i) 0)

/-! ## A block with two columns at equal distance from its row -/

/-- Row point set of the tie scenario: one point at coordinate `0`
(dimension 1). -/
def tie_input_set1 (R : Type) [Ring R] : point_set R :=
  { dim := 1, coords := fun _ _ => 0 }

/-- Column point set of the tie scenario: point `0` at coordinate `-1`, point
`1` at coordinate `1` (dimension 1). -/
def tie_input_set2 (R : Type) [Ring R] : point_set R :=
  { dim := 1, coords := fun _ i => if i = 0 then -1 else 1 }

/-! ## Theorems -/

theorem rd_natCast {α : Type} [Zero α] (a : List α) (n : Nat) : rd a (n : Int) = a.getD n 0 := by
  simp [rd]

theorem wr_length {α : Type} (a : List α) (i : Int) (v : α) : (wr a i v).length = a.length := by
  unfold wr; split <;> simp

theorem foldl_preserves {σ ι : Type} (P : σ → Prop) (f : σ → ι → σ)
    (h : ∀ s i, P s → P (f s i)) (l : List ι) (s : σ) (hs : P s) : P (l.foldl f s) := by
  induction l generalizing s with
  | nil => simpa using hs
  | cons x xs ih => exact ih _ (h s x hs)

theorem exclusive_scan_length (xs : List Int) (a : Int) :
    (exclusive_scan xs a).length = xs.length := by
  induction xs generalizing a with
  | nil => rfl
  | cons x xs ih => simp [exclusive_scan, ih]

theorem inclusive_scan_from_length (xs : List Int) (a : Int) :
    (inclusive_scan_from a xs).length = xs.length := by
  induction xs generalizing a with
  | nil => rfl
  | cons x xs ih => simp [inclusive_scan_from, ih]

theorem inclusive_scan_length (xs : List Int) : (inclusive_scan xs).length = xs.length :=
  inclusive_scan_from_length xs 0

theorem exclusive_scan_getD (xs : List Int) (a : Int) (i : Nat) (h : i < xs.length) :
    (exclusive_scan xs a).getD i 0 = a + (xs.take i).sum := by
  induction xs generalizing a i with
  | nil => simp at h
  | cons x xs ih =>
    cases i with
    | zero => simp [exclusive_scan]
    | succ i =>
      have h2 : i < xs.length := by simpa using h
      have := ih (a + x) i h2
      simp only [exclusive_scan, List.getD_cons_succ, List.take_succ_cons, List.sum_cons]
      rw [this]; ring

theorem reduce_from (xs : List Int) (a : Int) :
    xs.foldl (fun a b => a + b) a = a + xs.sum := by
  induction xs generalizing a with
  | nil => simp
  | cons x xs ih => simp [List.foldl_cons, ih, add_assoc]

theorem reduce_eq_sum (xs : List Int) : reduce xs = xs.sum := by
  simp [reduce, reduce_from]

theorem block_counts_length (mat_vec_data : List work_item) (p : Int) :
    (block_counts mat_vec_data p).length = mat_vec_data.length := by
  simp [block_counts, get_work_item_point_set_limits_for_given_type]

theorem point_map_offsets_length (mat_vec_data : List work_item) (p : Int) :
    (point_map_offsets mat_vec_data p).length = mat_vec_data.length := by
  simp [point_map_offsets, exclusive_scan_length, block_counts_length]


/-! ### Lengths of the flattened buffers -/

theorem fill_length (n v : Int) : (fill n v).length = n.toNat := by
  simp [fill]

theorem set_bounds_for_point_maps_length (pm1 pm2 o1 o2 m1 m2 : List Int) (t : Int)
    (d : List work_item) (n : Nat) :
    (set_bounds_for_point_maps pm1 pm2 o1 o2 m1 m2 t d n).1.length = pm1.length ∧
    (set_bounds_for_point_maps pm1 pm2 o1 o2 m1 m2 t d n).2.length = pm2.length := by
  unfold set_bounds_for_point_maps
  refine foldl_preserves (fun (maps : List Int × List Int) => maps.1.length = pm1.length ∧ maps.2.length = pm2.length)
    _ ?_ _ _ ⟨rfl, rfl⟩
  intro maps idx h
  unfold set_bounds_for_point_maps_thread
  split
  · exact h
  · split
    · exact h
    · simpa [wr_length] using h

theorem correct_bounds_for_point_maps_length (pm1 pm2 o1 o2 m1 m2 : List Int) (t : Int)
    (d : List work_item) (n : Nat) :
    (correct_bounds_for_point_maps pm1 pm2 o1 o2 m1 m2 t d n).1.length = pm1.length ∧
    (correct_bounds_for_point_maps pm1 pm2 o1 o2 m1 m2 t d n).2.length = pm2.length := by
  unfold correct_bounds_for_point_maps
  refine foldl_preserves (fun (maps : List Int × List Int) => maps.1.length = pm1.length ∧ maps.2.length = pm2.length)
    _ ?_ _ _ ⟨rfl, rfl⟩
  intro maps idx h
  unfold correct_bounds_for_point_maps_thread
  split
  · exact h
  · split
    · exact h
    · simpa [wr_length] using h

theorem set_bounds_for_work_item_maps_length (wm1 wm2 o1 o2 m1 m2 : List Int) (t : Int)
    (d : List work_item) (n : Nat) :
    (set_bounds_for_work_item_maps wm1 wm2 o1 o2 m1 m2 t d n).1.length = wm1.length ∧
    (set_bounds_for_work_item_maps wm1 wm2 o1 o2 m1 m2 t d n).2.length = wm2.length := by
  unfold set_bounds_for_work_item_maps
  refine foldl_preserves (fun (maps : List Int × List Int) => maps.1.length = wm1.length ∧ maps.2.length = wm2.length)
    _ ?_ _ _ ⟨rfl, rfl⟩
  intro maps idx h
  unfold set_bounds_for_work_item_maps_thread
  split
  · exact h
  · split
    · exact h
    · simpa [wr_length] using h

theorem correct_bounds_for_work_item_maps_length (wm1 wm2 o1 o2 m1 m2 : List Int) (t : Int)
    (d : List work_item) (n : Nat) :
    (correct_bounds_for_work_item_maps wm1 wm2 o1 o2 m1 m2 t d n).1.length = wm1.length ∧
    (correct_bounds_for_work_item_maps wm1 wm2 o1 o2 m1 m2 t d n).2.length = wm2.length := by
  unfold correct_bounds_for_work_item_maps
  refine foldl_preserves (fun (maps : List Int × List Int) => maps.1.length = wm1.length ∧ maps.2.length = wm2.length)
    _ ?_ _ _ ⟨rfl, rfl⟩
  intro maps idx h
  unfold correct_bounds_for_work_item_maps_thread
  split
  · exact h
  · split
    · exact h
    · simpa [wr_length] using h

theorem point_maps_length (mat_vec_data : List work_item) :
    (point_maps mat_vec_data).1.length = (block_total mat_vec_data 1).toNat ∧
    (point_maps mat_vec_data).2.length = (block_total mat_vec_data 2).toNat := by
  unfold point_maps
  simp only []
  constructor
  · rw [(correct_bounds_for_point_maps_length _ _ _ _ _ _ _ _ _).1, inclusive_scan_length,
      (set_bounds_for_point_maps_length _ _ _ _ _ _ _ _ _).1, fill_length]
  · rw [(correct_bounds_for_point_maps_length _ _ _ _ _ _ _ _ _).2, inclusive_scan_length,
      (set_bounds_for_point_maps_length _ _ _ _ _ _ _ _ _).2, fill_length]

theorem work_item_maps_length (mat_vec_data : List work_item) :
    (work_item_maps mat_vec_data).1.length = (block_total mat_vec_data 1).toNat ∧
    (work_item_maps mat_vec_data).2.length = (block_total mat_vec_data 2).toNat := by
  unfold work_item_maps
  simp only []
  constructor
  · rw [(correct_bounds_for_work_item_maps_length _ _ _ _ _ _ _ _ _).1, inclusive_scan_length,
      (set_bounds_for_work_item_maps_length _ _ _ _ _ _ _ _ _).1, fill_length]
  · rw [(correct_bounds_for_work_item_maps_length _ _ _ _ _ _ _ _ _).2, inclusive_scan_length,
      (set_bounds_for_work_item_maps_length _ _ _ _ _ _ _ _ _).2, fill_length]

theorem local_y_length {R : Type} (mat_vec_data : List work_item) (c : Nat → R) :
    (local_y mat_vec_data c).length = (block_total mat_vec_data 1).toNat := by
  simp [local_y, alloc]

theorem local_x_length {R : Type} [Zero R] (x : List R) (mat_vec_data : List work_item) :
    (local_x x mat_vec_data).length = (block_total mat_vec_data 2).toNat := by
  simp [local_x, gather, (point_maps_length mat_vec_data).2]

/-! ### C1, C2: index maps on a single-row block -/

/-- C1: the claim says that `point_map1[point_map_offsets1[i] + j] = set1_l[i] + j`
for every ACA item `i` and `j < m1[i]`.  On the two ACA items with rows `5..5`
and `10..12` the builder produces `point_map1 = [5, 6, 7, 12]` with
`point_map_offsets1[1] = 1`: the entries of item 1 at `j = 0` and `j = 1` are
`6` and `7` instead of `10` and `11`.  A block of one row stores its start
marker and its end marker in the same entry, so its entries do not sum to
zero and the running sum carries `1 - set1_l` into the following block. -/
theorem point_map_after_single_row_block :
    (point_maps [⟨5, 5, 7, 8, WT_ACA⟩, ⟨10, 12, 7, 8, WT_ACA⟩]).1 = [5, 6, 7, 12] ∧
    rd (point_map_offsets [⟨5, 5, 7, 8, WT_ACA⟩, ⟨10, 12, 7, 8, WT_ACA⟩] 1) 1 = 1 ∧
    rd (block_counts [⟨5, 5, 7, 8, WT_ACA⟩, ⟨10, 12, 7, 8, WT_ACA⟩] 1) 1 = 3 ∧
    rd (point_maps [⟨5, 5, 7, 8, WT_ACA⟩, ⟨10, 12, 7, 8, WT_ACA⟩]).1
      (rd (point_map_offsets [⟨5, 5, 7, 8, WT_ACA⟩, ⟨10, 12, 7, 8, WT_ACA⟩] 1) 1 + 0)
      ≠ 10 + 0 := by
  decide

/-- C2: the claim says that `work_item_map1[point_map_offsets1[i] + j] = i` for
every ACA item `i` and `j < m1[i]`.  On the three ACA items with rows `0..1`,
`5..5` and `10..12` the builder produces
`work_item_map1 = [0, 0, 1, 1, 1, 2]` with `point_map_offsets1[2] = 3`: the
entries of item 2 at `j = 0` and `j = 1` are `1` instead of `2`.  The one-row
item 1 stores `idx` and `-idx` in the same entry, so the running sum carries
`-1` into the following block. -/
theorem work_item_map_after_single_row_block :
    (work_item_maps [⟨0, 1, 7, 8, WT_ACA⟩, ⟨5, 5, 7, 8, WT_ACA⟩,
      ⟨10, 12, 7, 8, WT_ACA⟩]).1 = [0, 0, 1, 1, 1, 2] ∧
    rd (point_map_offsets [⟨0, 1, 7, 8, WT_ACA⟩, ⟨5, 5, 7, 8, WT_ACA⟩,
      ⟨10, 12, 7, 8, WT_ACA⟩] 1) 2 = 3 ∧
    rd (block_counts [⟨0, 1, 7, 8, WT_ACA⟩, ⟨5, 5, 7, 8, WT_ACA⟩,
      ⟨10, 12, 7, 8, WT_ACA⟩] 1) 2 = 3 ∧
    rd (work_item_maps [⟨0, 1, 7, 8, WT_ACA⟩, ⟨5, 5, 7, 8, WT_ACA⟩,
      ⟨10, 12, 7, 8, WT_ACA⟩]).1
      (rd (point_map_offsets [⟨0, 1, 7, 8, WT_ACA⟩, ⟨5, 5, 7, 8, WT_ACA⟩,
        ⟨10, 12, 7, 8, WT_ACA⟩] 1) 2 + 0) ≠ 2 := by
  decide

/-! ### C3: offset tables -/

theorem rd_exclusive_scan (m : List Int) (i : Nat) (h : i < m.length) :
    rd (exclusive_scan m 0) (i : Int) = (m.take i).sum := by
  rw [rd_natCast, exclusive_scan_getD m 0 i h, zero_add]

theorem rd_of_lt (m : List Int) (i : Nat) (h : i < m.length) : rd m (i : Int) = m[i] := by
  rw [rd_natCast, List.getD_eq_getElem _ _ h]

theorem exclusive_scan_succ (m : List Int) (i : Nat) (h : i + 1 < m.length) :
    rd (exclusive_scan m 0) ((i + 1 : Nat) : Int) =
      rd (exclusive_scan m 0) (i : Int) + rd m (i : Int) := by
  have hi : i < m.length := by omega
  rw [rd_exclusive_scan m (i + 1) h, rd_exclusive_scan m i hi, rd_of_lt m i hi,
    List.sum_take_succ m i hi]

theorem reduce_eq_last_offset (m : List Int) (h : 0 < m.length) :
    reduce m = rd (exclusive_scan m 0) ((m.length - 1 : Nat) : Int)
      + rd m ((m.length - 1 : Nat) : Int) := by
  have hi : m.length - 1 < m.length := by omega
  rw [rd_exclusive_scan m _ hi, rd_of_lt m _ hi, ← List.sum_take_succ m _ hi, reduce_eq_sum]
  have : m.length - 1 + 1 = m.length := by omega
  rw [this, List.take_length]

/-- C3: offset tables of `apply_batched_aca`, for the row space (`p = 1`) and
the column space (any other `p`).  The offset table has one entry per block,
starts at `0` and satisfies `offset[i+1] = offset[i] + count[i]`; the total
equals `offset[N-1] + count[N-1]` and is the sum of all counts; and a
non-negative total is exactly the length of the flattened buffers `point_map`,
`work_item_map`, `local_y` (rows) and `local_x` (columns). -/
theorem offset_tables {R : Type} [Zero R] (mat_vec_data : List work_item) (p : Int)
    (x : List R) (y_content : Nat → R) :
    (point_map_offsets mat_vec_data p).length = mat_vec_data.length ∧
    (0 < mat_vec_data.length → rd (point_map_offsets mat_vec_data p) 0 = 0) ∧
    (∀ i : Nat, i + 1 < mat_vec_data.length →
      rd (point_map_offsets mat_vec_data p) ((i + 1 : Nat) : Int) =
        rd (point_map_offsets mat_vec_data p) (i : Int)
          + rd (block_counts mat_vec_data p) (i : Int)) ∧
    (0 < mat_vec_data.length →
      block_total mat_vec_data p =
        rd (point_map_offsets mat_vec_data p) ((mat_vec_data.length - 1 : Nat) : Int)
          + rd (block_counts mat_vec_data p) ((mat_vec_data.length - 1 : Nat) : Int)) ∧
    block_total mat_vec_data p = (block_counts mat_vec_data p).sum ∧
    (0 ≤ block_total mat_vec_data 1 →
      ((point_maps mat_vec_data).1.length : Int) = block_total mat_vec_data 1 ∧
      ((work_item_maps mat_vec_data).1.length : Int) = block_total mat_vec_data 1 ∧
      ((local_y mat_vec_data y_content).length : Int) = block_total mat_vec_data 1) ∧
    (0 ≤ block_total mat_vec_data 2 →
      ((point_maps mat_vec_data).2.length : Int) = block_total mat_vec_data 2 ∧
      ((work_item_maps mat_vec_data).2.length : Int) = block_total mat_vec_data 2 ∧
      ((local_x x mat_vec_data).length : Int) = block_total mat_vec_data 2) := by
  have hlen := block_counts_length mat_vec_data p
  refine ⟨point_map_offsets_length _ _, ?_, ?_, ?_, ?_, ?_, ?_⟩
  · intro h
    have := rd_exclusive_scan (block_counts mat_vec_data p) 0 (by omega)
    simpa [point_map_offsets] using this
  · intro i h
    exact exclusive_scan_succ _ i (by omega)
  · intro h
    have := reduce_eq_last_offset (block_counts mat_vec_data p) (by omega)
    rw [hlen] at this
    exact this
  · exact reduce_eq_sum _
  · intro h
    rw [(point_maps_length _).1, (work_item_maps_length _).1, local_y_length,
      Int.toNat_of_nonneg h]
    exact ⟨rfl, rfl, rfl⟩
  · intro h
    rw [(point_maps_length _).2, (work_item_maps_length _).2, local_x_length,
      Int.toNat_of_nonneg h]
    exact ⟨rfl, rfl, rfl⟩

/-- C3, instance: three blocks with `2`, `0` (not of type ACA) and `3` rows. -/
theorem offset_tables_witness :
    (0 < [(⟨5, 6, 7, 8, WT_ACA⟩ : work_item), ⟨0, 0, 0, 0, WT_DENSE⟩,
        ⟨10, 12, 3, 5, WT_ACA⟩].length) ∧
    (0 ≤ block_total [⟨5, 6, 7, 8, WT_ACA⟩, ⟨0, 0, 0, 0, WT_DENSE⟩,
        ⟨10, 12, 3, 5, WT_ACA⟩] 1) ∧
    (0 ≤ block_total [⟨5, 6, 7, 8, WT_ACA⟩, ⟨0, 0, 0, 0, WT_DENSE⟩,
        ⟨10, 12, 3, 5, WT_ACA⟩] 2) ∧
    rd (point_map_offsets [⟨5, 6, 7, 8, WT_ACA⟩, ⟨0, 0, 0, 0, WT_DENSE⟩,
        ⟨10, 12, 3, 5, WT_ACA⟩] 1) ((1 + 1 : Nat) : Int) =
      rd (point_map_offsets [⟨5, 6, 7, 8, WT_ACA⟩, ⟨0, 0, 0, 0, WT_DENSE⟩,
        ⟨10, 12, 3, 5, WT_ACA⟩] 1) ((1 : Nat) : Int)
      + rd (block_counts [⟨5, 6, 7, 8, WT_ACA⟩, ⟨0, 0, 0, 0, WT_DENSE⟩,
        ⟨10, 12, 3, 5, WT_ACA⟩] 1) ((1 : Nat) : Int) ∧
    (((point_maps [⟨5, 6, 7, 8, WT_ACA⟩, ⟨0, 0, 0, 0, WT_DENSE⟩,
        ⟨10, 12, 3, 5, WT_ACA⟩]).1.length : Int) =
      block_total [⟨5, 6, 7, 8, WT_ACA⟩, ⟨0, 0, 0, 0, WT_DENSE⟩, ⟨10, 12, 3, 5, WT_ACA⟩] 1) :=
  ⟨by decide, by decide, by decide,
   (offset_tables [⟨5, 6, 7, 8, WT_ACA⟩, ⟨0, 0, 0, 0, WT_DENSE⟩, ⟨10, 12, 3, 5, WT_ACA⟩] 1
      ([] : List Int) (fun _ => 0)).2.2.1 1 (by decide),
   ((offset_tables [⟨5, 6, 7, 8, WT_ACA⟩, ⟨0, 0, 0, 0, WT_DENSE⟩, ⟨10, 12, 3, 5, WT_ACA⟩] 1
      ([] : List Int) (fun _ => 0)).2.2.2.2.2.1 (by decide)).1⟩

/-! ### C4: batch-compaction map -/

theorem rd_wr_ne {α : Type} [Zero α] (a : List α) (i j : Int) (v : α) (h : i ≠ j) :
    rd (wr a i v) j = rd a j := by
  unfold rd wr
  by_cases hj : 0 ≤ j
  · by_cases hi : 0 ≤ i
    · have hne : i.toNat ≠ j.toNat := by omega
      simp only [hj, hi, if_true, List.getD_eq_getElem?_getD, List.getElem?_set_ne hne]
    · simp [hi]
  · simp [hj]

theorem rd_wr_same {α : Type} [Zero α] (a : List α) (i : Nat) (v : α) (h : i < a.length) :
    rd (wr a (i : Int) v) (i : Int) = v := by
  simp [rd, wr, List.getD_eq_getElem?_getD, List.getElem?_set_self h]

theorem remove_if_cons {α β : Type} (a : α) (xs : List α) (w : β) (ws : List β)
    (pred : β → Bool) :
    remove_if (a :: xs) (w :: ws) pred =
      if pred w then remove_if xs ws pred else a :: remove_if xs ws pred := by
  cases h : pred w <;> simp [remove_if, List.filter_cons, h]

theorem scatter_cons (v : Int) (vs : List Int) (m : Int) (ms : List Int) (out : List Int) :
    scatter (v :: vs) (m :: ms) out = scatter vs ms (wr out m v) := rfl

theorem scatter_nil (ms out : List Int) : scatter [] ms out = out := rfl

/-- Compaction of the blocks `l` that start at position `s`, with batch slots
counted from `b0`: the filtered index list has one entry per ACA item, entries
outside `[s, s + |l|)` and entries of other items keep their content, and the
entry of an ACA item receives `b0` plus the number of ACA items before it. -/
theorem scatter_compaction (l : List work_item) (s b0 : Nat) (out : List Int)
    (hlen : s + l.length ≤ out.length) :
    (remove_if ((List.range' s l.length).map Int.ofNat) l is_not_WT_ACA).length
        = l.countP (fun w => !is_not_WT_ACA w) ∧
    (∀ i : Nat, (i < s ∨ s + l.length ≤ i) →
      rd (scatter ((List.range' b0 (remove_if ((List.range' s l.length).map Int.ofNat) l
            is_not_WT_ACA).length).map Int.ofNat)
          (remove_if ((List.range' s l.length).map Int.ofNat) l is_not_WT_ACA) out) (i : Int)
        = rd out (i : Int)) ∧
    (∀ (j : Nat) (hj : j < l.length),
      rd (scatter ((List.range' b0 (remove_if ((List.range' s l.length).map Int.ofNat) l
            is_not_WT_ACA).length).map Int.ofNat)
          (remove_if ((List.range' s l.length).map Int.ofNat) l is_not_WT_ACA) out)
          ((s + j : Nat) : Int)
        = if is_not_WT_ACA l[j] then rd out ((s + j : Nat) : Int)
          else ((b0 + (l.take j).countP (fun w => !is_not_WT_ACA w) : Nat) : Int)) := by
  induction l generalizing s b0 out with
  | nil =>
    refine ⟨by simp [remove_if], ?_, ?_⟩
    · intro i _
      simp [remove_if, scatter_nil]
    · intro j hj
      simp at hj
  | cons w ws ih =>
    have hlen1 : (s + 1) + ws.length ≤ out.length := by
      simp only [List.length_cons] at hlen; omega
    have hs : s < out.length := by
      simp only [List.length_cons] at hlen; omega
    simp only [List.length_cons, List.range'_succ, List.map_cons, remove_if_cons]
    cases hw : is_not_WT_ACA w
    · -- an ACA item: it takes slot `b0`
      have hlen2 : (s + 1) + ws.length ≤ (wr out (Int.ofNat s) (Int.ofNat b0)).length := by
        rw [wr_length]; exact hlen1
      obtain ⟨ih1, ih2, ih3⟩ := ih (s + 1) (b0 + 1) (wr out (Int.ofNat s) (Int.ofNat b0)) hlen2
      simp only [Bool.false_eq_true, if_false, List.length_cons, List.range'_succ,
        List.map_cons, scatter_cons]
      refine ⟨by simp [ih1, List.countP_cons, hw], ?_, ?_⟩
      · intro i hi
        rw [ih2 i (by omega)]
        apply rd_wr_ne
        simp only [Int.ofNat_eq_coe, ne_eq, Nat.cast_inj]
        omega
      · intro j hj
        cases j with
        | zero =>
          rw [show s + 0 = s from rfl, ih2 s (by omega)]
          simp only [List.getElem_cons_zero, hw, Bool.false_eq_true, if_false, List.take_zero,
            List.countP_nil, Nat.add_zero]
          exact rd_wr_same out s _ hs
        | succ j =>
          have hj2 : j < ws.length := by simpa using hj
          have e : s + (j + 1) = (s + 1) + j := by omega
          rw [e, ih3 j hj2]
          simp only [List.getElem_cons_succ, List.take_succ_cons, List.countP_cons, hw,
            Bool.not_false, if_true]
          split
          · apply rd_wr_ne
            simp only [Int.ofNat_eq_coe, ne_eq, Nat.cast_inj]
            omega
          · congr 1
            omega
    · -- an item of another type: no slot
      obtain ⟨ih1, ih2, ih3⟩ := ih (s + 1) b0 out hlen1
      simp only [if_true]
      refine ⟨by simp [ih1, List.countP_cons, hw], ?_, ?_⟩
      · intro i hi
        exact ih2 i (by omega)
      · intro j hj
        cases j with
        | zero =>
          rw [show s + 0 = s from rfl, ih2 s (by omega)]
          simp [hw]
        | succ j =>
          have hj2 : j < ws.length := by simpa using hj
          have e : s + (j + 1) = (s + 1) + j := by omega
          rw [e, ih3 j hj2]
          simp [List.take_succ_cons, List.countP_cons, hw]

theorem is_not_WT_ACA_eq (w : work_item) :
    (!is_not_WT_ACA w) = decide (w.work_type = WT_ACA) := by
  by_cases h : w.work_type = WT_ACA <;> simp [is_not_WT_ACA, h]

theorem countP_is_ACA (l : List work_item) :
    l.countP (fun w => !is_not_WT_ACA w) = l.countP (fun w => decide (w.work_type = WT_ACA)) := by
  congr 1
  funext w
  exact is_not_WT_ACA_eq w

theorem countP_take_lt {α : Type} (p : α → Bool) (l : List α) (i j : Nat) (hij : i < j)
    (hj : j < l.length) (hi : i < l.length) (hp : p l[i] = true) :
    (l.take i).countP p < (l.take j).countP p := by
  induction l generalizing i j with
  | nil => simp at hj
  | cons x xs ih =>
    cases j with
    | zero => omega
    | succ j =>
      have hj2 : j < xs.length := by simpa using hj
      cases i with
      | zero =>
        have hx : p x = true := by simpa using hp
        simp [List.take_succ_cons, List.countP_cons, hx]
      | succ i =>
        have := ih i j (by omega) hj2 (by omega) (by simpa using hp)
        simp only [List.take_succ_cons, List.countP_cons]
        omega

theorem exists_index_of_lt_countP {α : Type} (p : α → Bool) (l : List α) (b : Nat)
    (hb : b < l.countP p) :
    ∃ (i : Nat) (h : i < l.length), p l[i] = true ∧ (l.take i).countP p = b := by
  induction l generalizing b with
  | nil => simp at hb
  | cons x xs ih =>
    cases hx : p x
    · have hb2 : b < xs.countP p := by simpa [List.countP_cons, hx] using hb
      obtain ⟨i, hi, hpi, hc⟩ := ih b hb2
      exact ⟨i + 1, by simpa using hi, by simpa using hpi,
        by simpa [List.take_succ_cons, List.countP_cons, hx] using hc⟩
    · cases b with
      | zero => exact ⟨0, by simp, by simpa using hx, by simp⟩
      | succ b =>
        have hb2 : b < xs.countP p := by
          simp only [List.countP_cons, hx, if_true] at hb; omega
        obtain ⟨i, hi, hpi, hc⟩ := ih b hb2
        exact ⟨i + 1, by simpa using hi, by simpa using hpi,
          by simpa [List.take_succ_cons, List.countP_cons, hx] using hc⟩

theorem rd_fill (n : Nat) (v : Int) (i : Nat) (h : i < n) : rd (fill (n : Int) v) (i : Int) = v := by
  simp [rd, fill, List.getD_eq_getElem?_getD, List.getElem?_replicate, h]

theorem batch_count_eq (mat_vec_data : List work_item) :
    batch_count mat_vec_data
      = mat_vec_data.countP (fun w => decide (w.work_type = WT_ACA)) := by
  have h := (scatter_compaction mat_vec_data 0 0 (fill (mat_vec_data.length : Int) (-1))
    (by simp [fill])).1
  rw [countP_is_ACA] at h
  simpa [batch_count, tmp_field, sequence, List.range_eq_range'] using h

theorem work_item_to_batch_map_entry (mat_vec_data : List work_item) (i : Nat)
    (h : i < mat_vec_data.length) :
    rd (work_item_to_batch_map mat_vec_data) (i : Int) =
      if mat_vec_data[i].work_type = WT_ACA then
        (((mat_vec_data.take i).countP (fun w => decide (w.work_type = WT_ACA)) : Nat) : Int)
      else -1 := by
  have h3 := (scatter_compaction mat_vec_data 0 0 (fill (mat_vec_data.length : Int) (-1))
    (by simp [fill])).2.2 i h
  simp only [Nat.zero_add] at h3
  have e : work_item_to_batch_map mat_vec_data =
      scatter ((List.range' 0 (remove_if ((List.range' 0 mat_vec_data.length).map Int.ofNat)
            mat_vec_data is_not_WT_ACA).length).map Int.ofNat)
          (remove_if ((List.range' 0 mat_vec_data.length).map Int.ofNat) mat_vec_data
            is_not_WT_ACA) (fill (mat_vec_data.length : Int) (-1)) := by
    simp [work_item_to_batch_map, batch_count, tmp_field, sequence, List.range_eq_range']
  rw [e, h3, rd_fill _ _ _ h, countP_is_ACA]
  by_cases hw : mat_vec_data[i].work_type = WT_ACA <;> simp [is_not_WT_ACA, hw]

/-- C4: batch-compaction map of `apply_batched_aca`.  `batch_count` is the
number of ACA-type items; an item of another type is mapped to `-1`; an item
of type ACA is mapped to the number of ACA-type items before it; every slot
`0 .. batch_count-1` is taken by an ACA item (gap-free) and the slots increase
with the position of the item (original order). -/
theorem batch_compaction_map (mat_vec_data : List work_item) :
    batch_count mat_vec_data
      = mat_vec_data.countP (fun w => decide (w.work_type = WT_ACA)) ∧
    (∀ (i : Nat) (h : i < mat_vec_data.length), mat_vec_data[i].work_type ≠ WT_ACA →
      rd (work_item_to_batch_map mat_vec_data) (i : Int) = -1) ∧
    (∀ (i : Nat) (h : i < mat_vec_data.length), mat_vec_data[i].work_type = WT_ACA →
      rd (work_item_to_batch_map mat_vec_data) (i : Int) =
        (((mat_vec_data.take i).countP (fun w => decide (w.work_type = WT_ACA)) : Nat) : Int)) ∧
    (∀ b : Nat, b < batch_count mat_vec_data →
      ∃ (i : Nat) (h : i < mat_vec_data.length), mat_vec_data[i].work_type = WT_ACA ∧
        rd (work_item_to_batch_map mat_vec_data) (i : Int) = (b : Int)) ∧
    (∀ (i j : Nat) (hij : i < j) (hj : j < mat_vec_data.length),
      mat_vec_data[i].work_type = WT_ACA → mat_vec_data[j].work_type = WT_ACA →
      rd (work_item_to_batch_map mat_vec_data) (i : Int)
        < rd (work_item_to_batch_map mat_vec_data) (j : Int)) := by
  refine ⟨batch_count_eq _, ?_, ?_, ?_, ?_⟩
  · intro i h hw
    rw [work_item_to_batch_map_entry _ i h, if_neg hw]
  · intro i h hw
    rw [work_item_to_batch_map_entry _ i h, if_pos hw]
  · intro b hb
    rw [batch_count_eq] at hb
    obtain ⟨i, hi, hpi, hc⟩ := exists_index_of_lt_countP _ mat_vec_data b hb
    have hw : mat_vec_data[i].work_type = WT_ACA := by simpa using hpi
    exact ⟨i, hi, hw, by rw [work_item_to_batch_map_entry _ i hi, if_pos hw, hc]⟩
  · intro i j hij hj hwi hwj
    rw [work_item_to_batch_map_entry _ i (by omega), if_pos hwi,
      work_item_to_batch_map_entry _ j hj, if_pos hwj]
    have := countP_take_lt (fun w : work_item => decide (w.work_type = WT_ACA)) mat_vec_data
      i j hij hj (by omega) (by simpa using hwi)
    exact_mod_cast this

/-- C4, instance: items of type ACA, DENSE, ACA, ACA receive the slots
`0, -1, 1, 2`. -/
theorem batch_compaction_map_witness :
    rd (work_item_to_batch_map [⟨5, 6, 7, 8, WT_ACA⟩, ⟨0, 0, 0, 0, WT_DENSE⟩,
        ⟨10, 12, 3, 5, WT_ACA⟩, ⟨1, 3, 3, 5, WT_ACA⟩]) ((1 : Nat) : Int) = -1 ∧
    rd (work_item_to_batch_map [⟨5, 6, 7, 8, WT_ACA⟩, ⟨0, 0, 0, 0, WT_DENSE⟩,
        ⟨10, 12, 3, 5, WT_ACA⟩, ⟨1, 3, 3, 5, WT_ACA⟩]) ((2 : Nat) : Int)
      < rd (work_item_to_batch_map [⟨5, 6, 7, 8, WT_ACA⟩, ⟨0, 0, 0, 0, WT_DENSE⟩,
        ⟨10, 12, 3, 5, WT_ACA⟩, ⟨1, 3, 3, 5, WT_ACA⟩]) ((3 : Nat) : Int) :=
  ⟨(batch_compaction_map [⟨5, 6, 7, 8, WT_ACA⟩, ⟨0, 0, 0, 0, WT_DENSE⟩,
        ⟨10, 12, 3, 5, WT_ACA⟩, ⟨1, 3, 3, 5, WT_ACA⟩]).2.1 1 (by decide) (by decide),
   (batch_compaction_map [⟨5, 6, 7, 8, WT_ACA⟩, ⟨0, 0, 0, 0, WT_DENSE⟩,
        ⟨10, 12, 3, 5, WT_ACA⟩, ⟨1, 3, 3, 5, WT_ACA⟩]).2.2.2.2 2 3 (by decide) (by decide)
      (by decide) (by decide)⟩

/-! ### C5: per-block rank -/

theorem set_k_per_item_thread_eq_min (k a b : Int) :
    set_k_per_item_thread k a b = min k (min a b) := by
  unfold set_k_per_item_thread
  simp only [min_def]
  split_ifs <;> omega

theorem rd_block_counts (mat_vec_data : List work_item) (p : Int) (i : Nat)
    (h : i < mat_vec_data.length) :
    rd (block_counts mat_vec_data p) (i : Int) =
      if mat_vec_data[i].work_type = WT_ACA then
        (if p = 1 then mat_vec_data[i].set1_u - mat_vec_data[i].set1_l + 1
         else mat_vec_data[i].set2_u - mat_vec_data[i].set2_l + 1)
      else 0 := by
  rw [rd_of_lt _ i (by rw [block_counts_length]; exact h)]
  simp only [block_counts, get_work_item_point_set_limits_for_given_type, List.getElem_zipWith,
    List.getElem_map, minus_plus_1, limit_l, limit_u]
  by_cases hw : mat_vec_data[i].work_type = WT_ACA
  · by_cases hp : p = 1 <;> simp [hw, hp]
  · simp [hw]

theorem rd_k_per_item (mat_vec_data : List work_item) (k : Int) (i : Nat)
    (h : i < mat_vec_data.length) :
    rd (k_per_item mat_vec_data k) (i : Int) =
      min k (min (rd (block_counts mat_vec_data 1) (i : Int))
        (rd (block_counts mat_vec_data 2) (i : Int))) := by
  rw [rd_natCast]
  simp only [k_per_item, set_k_per_item]
  rw [List.getD_eq_getElem _ _ (by simpa using h)]
  simp [set_k_per_item_thread_eq_min]

/-- C5: per-block rank.  `set_k_per_item` stores
`k_per_item[i] = min(k, min(m1[i], m2[i]))`; the single-block procedure
`apply_aca_for_current_work_item` clamps its `k` to `min(k, min(m1, m2))` with
`m1`, `m2` the extents of the block; for a block of type ACA the two values
agree. -/
theorem per_block_rank (mat_vec_data : List work_item) (k : Int) (i : Nat)
    (h : i < mat_vec_data.length) :
    rd (k_per_item mat_vec_data k) (i : Int) =
      min k (min (rd (block_counts mat_vec_data 1) (i : Int))
        (rd (block_counts mat_vec_data 2) (i : Int))) ∧
    apply_aca_for_current_work_item_k mat_vec_data[i] k =
      min k (min (mat_vec_data[i].set1_u - mat_vec_data[i].set1_l + 1)
        (mat_vec_data[i].set2_u - mat_vec_data[i].set2_l + 1)) ∧
    (mat_vec_data[i].work_type = WT_ACA →
      rd (k_per_item mat_vec_data k) (i : Int) =
        apply_aca_for_current_work_item_k mat_vec_data[i] k) := by
  have h2 : apply_aca_for_current_work_item_k mat_vec_data[i] k =
      min k (min (mat_vec_data[i].set1_u - mat_vec_data[i].set1_l + 1)
        (mat_vec_data[i].set2_u - mat_vec_data[i].set2_l + 1)) :=
    set_k_per_item_thread_eq_min k _ _
  refine ⟨rd_k_per_item _ k i h, h2, ?_⟩
  intro hw
  rw [rd_k_per_item _ k i h, h2, rd_block_counts _ 1 i h, rd_block_counts _ 2 i h]
  simp [hw]

/-- C5, instance: a `3 x 2` ACA block with cap `5` gets rank `2` on both
paths. -/
theorem per_block_rank_witness :
    (1 < [(⟨0, 0, 0, 0, WT_DENSE⟩ : work_item), ⟨10, 12, 3, 4, WT_ACA⟩].length) ∧
    rd (k_per_item [⟨0, 0, 0, 0, WT_DENSE⟩, ⟨10, 12, 3, 4, WT_ACA⟩] 5) ((1 : Nat) : Int) =
      apply_aca_for_current_work_item_k ⟨10, 12, 3, 4, WT_ACA⟩ 5 :=
  ⟨by decide,
   (per_block_rank [⟨0, 0, 0, 0, WT_DENSE⟩, ⟨10, 12, 3, 4, WT_ACA⟩] 5 1 (by decide)).2.2
     (by decide)⟩

/-! ### C6: which blocks are excluded from the batch -/

theorem countP_eraseIdx {α : Type} (p : α → Bool) (l : List α) (i : Nat) (h : i < l.length) :
    l.countP p = (l.eraseIdx i).countP p + (if p l[i] = true then 1 else 0) := by
  induction l generalizing i with
  | nil => simp at h
  | cons x xs ih =>
    cases i with
    | zero => simp [List.countP_cons]
    | succ i =>
      have h2 : i < xs.length := by simpa using h
      have := ih i h2
      simp only [List.eraseIdx_cons_succ, List.countP_cons, List.getElem_cons_succ]
      omega

/-- C6, as stated, fails: in the batch of three ACA-type blocks whose block 2
has zero rows (`set1_u = set1_l - 1`), block 2 is not marked inapplicable, it
receives slot `2`, and `batch_count` is `3`, not `2`. -/
theorem degenerate_aca_block_keeps_slot :
    rd (block_counts [⟨0, 1, 0, 1, WT_ACA⟩, ⟨2, 3, 0, 1, WT_ACA⟩, ⟨4, 3, 0, 1, WT_ACA⟩] 1) 2 = 0 ∧
    ¬ (rd (work_item_to_batch_map
        [⟨0, 1, 0, 1, WT_ACA⟩, ⟨2, 3, 0, 1, WT_ACA⟩, ⟨4, 3, 0, 1, WT_ACA⟩]) 2 = -1) ∧
    rd (work_item_to_batch_map
        [⟨0, 1, 0, 1, WT_ACA⟩, ⟨2, 3, 0, 1, WT_ACA⟩, ⟨4, 3, 0, 1, WT_ACA⟩]) 2 = 2 ∧
    ¬ (batch_count [⟨0, 1, 0, 1, WT_ACA⟩, ⟨2, 3, 0, 1, WT_ACA⟩, ⟨4, 3, 0, 1, WT_ACA⟩] = 2) ∧
    batch_count [⟨0, 1, 0, 1, WT_ACA⟩, ⟨2, 3, 0, 1, WT_ACA⟩, ⟨4, 3, 0, 1, WT_ACA⟩] = 3 := by
  decide

/-- C6, amended: exclusion from the batch goes by the type tag.  `batch_count`
is the number of items of type ACA.  A work item that is not of type ACA is
given zero rows and zero columns, is marked inapplicable (`-1`) in
`work_item_to_batch_map` and is not counted by `batch_count` (removing it
leaves `batch_count` unchanged); an item of type ACA holds a slot in
`0 .. batch_count-1` and is counted, whatever its extents. -/
theorem exclusion_by_type (mat_vec_data : List work_item) (i : Nat)
    (h : i < mat_vec_data.length) :
    batch_count mat_vec_data
      = mat_vec_data.countP (fun w => decide (w.work_type = WT_ACA)) ∧
    (mat_vec_data[i].work_type ≠ WT_ACA →
      rd (block_counts mat_vec_data 1) (i : Int) = 0 ∧
      rd (block_counts mat_vec_data 2) (i : Int) = 0 ∧
      rd (work_item_to_batch_map mat_vec_data) (i : Int) = -1 ∧
      batch_count mat_vec_data = batch_count (mat_vec_data.eraseIdx i)) ∧
    (mat_vec_data[i].work_type = WT_ACA →
      0 ≤ rd (work_item_to_batch_map mat_vec_data) (i : Int) ∧
      rd (work_item_to_batch_map mat_vec_data) (i : Int) < (batch_count mat_vec_data : Int) ∧
      batch_count mat_vec_data = batch_count (mat_vec_data.eraseIdx i) + 1) := by
  have hc := countP_eraseIdx (fun w : work_item => decide (w.work_type = WT_ACA))
    mat_vec_data i h
  refine ⟨batch_count_eq _, ?_, ?_⟩
  · intro hw
    refine ⟨?_, ?_, ?_, ?_⟩
    · rw [rd_block_counts _ 1 i h, if_neg hw]
    · rw [rd_block_counts _ 2 i h, if_neg hw]
    · rw [work_item_to_batch_map_entry _ i h, if_neg hw]
    · rw [batch_count_eq, batch_count_eq, hc]
      simp [hw]
  · intro hw
    have hlt : (mat_vec_data.take i).countP (fun w => decide (w.work_type = WT_ACA))
        < mat_vec_data.countP (fun w => decide (w.work_type = WT_ACA)) := by
      have h1 : (mat_vec_data.take i).countP (fun w => decide (w.work_type = WT_ACA))
          ≤ (mat_vec_data.eraseIdx i).countP (fun w => decide (w.work_type = WT_ACA)) := by
        apply List.Sublist.countP_le
        rw [List.eraseIdx_eq_take_drop_succ]
        exact List.sublist_append_left _ _
      rw [hc]
      simp [hw]
      omega
    refine ⟨?_, ?_, ?_⟩
    · rw [work_item_to_batch_map_entry _ i h, if_pos hw]
      exact Int.ofNat_nonneg _
    · rw [work_item_to_batch_map_entry _ i h, if_pos hw, batch_count_eq]
      exact_mod_cast hlt
    · rw [batch_count_eq, batch_count_eq, hc]
      simp [hw]

/-- C6, amended, instance: in a batch of three blocks whose block 2 is not of
type ACA, block 2 is marked `-1` and `batch_count` is `2`; the zero-row block
of type ACA of the counterexample is counted. -/
theorem exclusion_by_type_witness :
    (2 < [(⟨0, 1, 0, 1, WT_ACA⟩ : work_item), ⟨2, 3, 0, 1, WT_ACA⟩,
        ⟨4, 5, 0, 1, WT_DENSE⟩].length) ∧
    rd (work_item_to_batch_map [⟨0, 1, 0, 1, WT_ACA⟩, ⟨2, 3, 0, 1, WT_ACA⟩,
        ⟨4, 5, 0, 1, WT_DENSE⟩]) ((2 : Nat) : Int) = -1 ∧
    batch_count [⟨0, 1, 0, 1, WT_ACA⟩, ⟨2, 3, 0, 1, WT_ACA⟩, ⟨4, 5, 0, 1, WT_DENSE⟩] = 2 ∧
    batch_count [⟨0, 1, 0, 1, WT_ACA⟩, ⟨2, 3, 0, 1, WT_ACA⟩, ⟨4, 3, 0, 1, WT_ACA⟩] =
      batch_count ([(⟨0, 1, 0, 1, WT_ACA⟩ : work_item), ⟨2, 3, 0, 1, WT_ACA⟩,
        ⟨4, 3, 0, 1, WT_ACA⟩].eraseIdx 2) + 1 :=
  ⟨by decide,
   ((exclusion_by_type [⟨0, 1, 0, 1, WT_ACA⟩, ⟨2, 3, 0, 1, WT_ACA⟩, ⟨4, 5, 0, 1, WT_DENSE⟩] 2
      (by decide)).2.1 (by decide)).2.2.1,
   by decide,
   ((exclusion_by_type [⟨0, 1, 0, 1, WT_ACA⟩, ⟨2, 3, 0, 1, WT_ACA⟩, ⟨4, 3, 0, 1, WT_ACA⟩] 2
      (by decide)).2.2 (by decide)).2.2⟩

/-! ### C7: contribution of a degenerate block -/

/-- C7: the claim says that a block with rows but no column contributes
exactly zero to `y`.  Take the ACA block `B` with rows `0..1`, columns `0..1`
and the ACA block `A` with rows `2..3` and no column (`set2_l = 2`,
`set2_u = 1`), cap `k = 1`.  The apply loop computes the segment of `B` and
skips `A`, whose segment of `local_y` keeps the content `y_content` that
`cudaMalloc` handed out; `add_batched_local_results_to_full_vector` adds it, so
`y[2]` and `y[3]` become `y2 + y_content 2` and `y3 + y_content 3`.  With `A`
removed from the batch they stay `y2` and `y3`. -/
theorem zero_column_block_adds_local_y_content {R : Type} [Ring R]
    (x0 x1 u0 u1 u2 u3 v0 v1 y0 y1 y2 y3 : R) (tmp_content y_content : Nat → R) :
    rd (block_counts [⟨0, 1, 0, 1, WT_ACA⟩, ⟨2, 3, 2, 1, WT_ACA⟩] 1) 1 = 2 ∧
    rd (block_counts [⟨0, 1, 0, 1, WT_ACA⟩, ⟨2, 3, 2, 1, WT_ACA⟩] 2) 1 = 0 ∧
    batched_low_rank_apply [x0, x1] [y0, y1, y2, y3]
        [⟨0, 1, 0, 1, WT_ACA⟩, ⟨2, 3, 2, 1, WT_ACA⟩] 1 [u0, u1, u2, u3] [v0, v1]
        tmp_content y_content
      = [y0 + u0 * (v0 * x0 + v1 * x1), y1 + u1 * (v0 * x0 + v1 * x1),
         y2 + y_content 2, y3 + y_content 3] ∧
    batched_low_rank_apply [x0, x1] [y0, y1, y2, y3]
        [⟨0, 1, 0, 1, WT_ACA⟩] 1 [u0, u1] [v0, v1] tmp_content y_content
      = [y0 + u0 * (v0 * x0 + v1 * x1), y1 + u1 * (v0 * x0 + v1 * x1), y2, y3] := by
  have e1 : batched_low_rank_apply [x0, x1] [y0, y1, y2, y3]
        [⟨0, 1, 0, 1, WT_ACA⟩, ⟨2, 3, 2, 1, WT_ACA⟩] 1 [u0, u1, u2, u3] [v0, v1]
        tmp_content y_content
      = [y0 + (0 + u0 * (0 + v0 * x0 + v1 * x1)), y1 + (0 + u1 * (0 + v0 * x0 + v1 * x1)),
         y2 + y_content 2, y3 + y_content 3] := rfl
  have e2 : batched_low_rank_apply [x0, x1] [y0, y1, y2, y3]
        [⟨0, 1, 0, 1, WT_ACA⟩] 1 [u0, u1] [v0, v1] tmp_content y_content
      = [y0 + (0 + u0 * (0 + v0 * x0 + v1 * x1)), y1 + (0 + u1 * (0 + v0 * x0 + v1 * x1)),
         y2, y3] := rfl
  rw [e1, e2]
  refine ⟨by decide, by decide, ?_, ?_⟩ <;> simp

/-! ### C8: column-pivot selection -/

/-- C8: the claim says that among several entries of maximum absolute value
the grouped reduction selects the first.  For the single ACA block with one
row (point `0` at coordinate `0`) and two columns (points at `-1` and `1`),
rank `0`, pivot row `0`: the candidate row is `[κ, κ]` with
`κ = kernel (sqrt 1)`, both entries attain the maximum, the reduction with
`tuple_absolute_maximum` yields `j_r_global = [1]` (the last one), while
`max_element` with `compare_absolute`, used by the single-block procedure,
yields position `0`. -/
theorem column_pivot_tie_takes_last {R : Type} [LinearOrderedRing R] (sqrt exp : R → R) :
    batched_fill_kernel_vector_and_scaled_substraction_for_v_r sqrt exp [0, 0]
        (point_maps [⟨0, 0, 0, 1, WT_ACA⟩]).2 (point_maps [⟨0, 0, 0, 1, WT_ACA⟩]).1
        (point_map_offsets [⟨0, 0, 0, 1, WT_ACA⟩] 1) (work_item_maps [⟨0, 0, 0, 1, WT_ACA⟩]).2
        [0] [1] (tie_input_set2 R) (tie_input_set1 R)
        (block_total [⟨0, 0, 0, 1, WT_ACA⟩] 2) (block_total [⟨0, 0, 0, 1, WT_ACA⟩] 1)
        [0, 0] [0] 0 (k_per_item [⟨0, 0, 0, 1, WT_ACA⟩] 1)
      = [kernel exp (sqrt 1), kernel exp (sqrt 1)] ∧
    j_r_global (work_item_maps [⟨0, 0, 0, 1, WT_ACA⟩]).2
        [kernel exp (sqrt 1), kernel exp (sqrt 1)] (block_total [⟨0, 0, 0, 1, WT_ACA⟩] 2)
      = [1] ∧
    max_element compare_absolute [kernel exp (sqrt 1), kernel exp (sqrt 1)] = 0 ∧
    j_r_global [0, 0, 0] [(-3 : Int), 2, 3] 3 = [2] ∧
    max_element compare_absolute [(-3 : Int), 2, 3] = 0 := by
  have hpm : point_maps [⟨0, 0, 0, 1, WT_ACA⟩] = ([0], [0, 1]) := by decide
  have hwm : work_item_maps [⟨0, 0, 0, 1, WT_ACA⟩] = ([0], [0, 0]) := by decide
  have hoff : point_map_offsets [⟨0, 0, 0, 1, WT_ACA⟩] 1 = [0] := by decide
  have ht2 : block_total [⟨0, 0, 0, 1, WT_ACA⟩] 2 = 2 := by decide
  have ht1 : block_total [⟨0, 0, 0, 1, WT_ACA⟩] 1 = 1 := by decide
  have hk : k_per_item [⟨0, 0, 0, 1, WT_ACA⟩] 1 = [1] := by decide
  rw [hpm, hwm, hoff, ht2, ht1, hk]
  refine ⟨?_, ?_, ?_, by decide, by decide⟩
  · simp [batched_fill_kernel_vector_and_scaled_substraction_for_v_r,
      batched_fill_kernel_vector_and_scaled_substraction_for_v_r_thread, List.mapIdx_cons,
      rd, distance, tie_input_set1, tie_input_set2, List.range_succ]
  · simp [j_r_global, reduce_by_key, reduce_by_key_go, sequence, tuple_absolute_maximum,
      List.range_succ]
  · simp [max_element, max_element_go, compare_absolute]

/-! ### C9, C10: the residual row and the column vector -/

theorem foldl_sub_range {R : Type} [Ring R] (f : Nat → R) (n : Nat) (init : R) :
    (List.range n).foldl (fun (val : R) (l : Nat) => val - f l) init
      = init - Finset.sum (Finset.range n) f := by
  induction n with
  | zero => simp
  | succ n ih =>
    rw [List.range_succ, List.foldl_append, ih, Finset.sum_range_succ]
    simp [sub_sub]

theorem distance_comm {R : Type} [Ring R] (sqrt : R → R) (dim : Nat) (a b : Nat → R) :
    distance sqrt dim a b = distance sqrt dim b a := by
  unfold distance
  congr 2
  funext val d
  rw [← neg_sub (b d) (a d), neg_mul_neg]

theorem rd_mapIdx {R : Type} [Zero R] (l : List R) (f : Nat → R → R) (i : Int)
    (h0 : 0 ≤ i) (h : i < (l.length : Int)) :
    rd (l.mapIdx f) i = f i.toNat (rd l i) := by
  have hi : i.toNat < l.length := by omega
  simp [rd, h0, List.getD_eq_getElem?_getD, List.getElem?_mapIdx, List.getElem?_eq_getElem hi]

theorem rd_eq_zero_of_not_lt {α : Type} [Zero α] (a : List α) (w : Int)
    (h : ¬ (0 ≤ w ∧ w.toNat < a.length)) : rd a w = 0 := by
  unfold rd
  by_cases h0 : 0 ≤ w
  · have h1 : a.length ≤ w.toNat := by
      by_contra hc
      exact h ⟨h0, by omega⟩
    simp [h0, List.getD_eq_getElem?_getD, List.getElem?_eq_none h1]
  · simp [h0]

theorem rd_wr_self {α : Type} [Zero α] (a : List α) (w : Int) (v : α)
    (h : 0 ≤ w ∧ w.toNat < a.length) : rd (wr a w v) w = v := by
  simp [rd, wr, h.1, List.getD_eq_getElem?_getD, List.getElem?_set_self h.2]

/-- Closed form of kernel `update_ir` on `n` threads: a flag is cleared when
some thread `idx < n` has the block as key and a value of absolute value at
least the threshold; otherwise the flag keeps its value. -/
theorem update_ir_fold {R : Type} [LinearOrderedField R] (keys : List Int) (vals : List R)
    (c : List Int) (n : Nat) (w : Int) :
    ((∃ idx : Nat, idx < n ∧ rd keys (idx : Int) = w
        ∧ update_ir_threshold R ≤ abs (rd vals (idx : Int))) →
      rd ((List.range n).foldl (update_ir_thread keys vals) c) w = 0) ∧
    ((¬ ∃ idx : Nat, idx < n ∧ rd keys (idx : Int) = w
        ∧ update_ir_threshold R ≤ abs (rd vals (idx : Int))) →
      rd ((List.range n).foldl (update_ir_thread keys vals) c) w = rd c w) ∧
    ((List.range n).foldl (update_ir_thread keys vals) c).length = c.length := by
  induction n with
  | zero =>
    refine ⟨?_, ?_, rfl⟩
    · rintro ⟨idx, h, _⟩
      omega
    · intro _
      rfl
  | succ n ih =>
    obtain ⟨ihA, ihB, ihL⟩ := ih
    rw [List.range_succ, List.foldl_append, List.foldl_cons, List.foldl_nil]
    generalize hcn : (List.range n).foldl (update_ir_thread keys vals) c = cn at ihA ihB ihL
    -- the value of the flag after `n` threads is `0` or the initial one
    have hprev : rd cn w = 0 ∨ rd cn w = rd c w := by
      by_cases hex : ∃ idx : Nat, idx < n ∧ rd keys (idx : Int) = w
          ∧ update_ir_threshold R ≤ abs (rd vals (idx : Int))
      · exact Or.inl (ihA hex)
      · exact Or.inr (ihB hex)
    have hstep : ∀ idx : Nat, idx < n + 1 → (idx < n ∨ idx = n) := fun idx h => by omega
    unfold update_ir_thread
    simp only []
    by_cases hkey : rd keys (n : Int) = w
    · -- thread `n` looks at the flag of `w`
      rw [hkey]
      by_cases hz : rd cn w = 0
      · rw [if_pos hz]
        refine ⟨fun _ => hz, ?_, ihL⟩
        intro hno
        have hno2 : ¬ ∃ idx : Nat, idx < n ∧ rd keys (idx : Int) = w
            ∧ update_ir_threshold R ≤ abs (rd vals (idx : Int)) := by
          rintro ⟨idx, h1, h2⟩
          exact hno ⟨idx, by omega, h2⟩
        exact ihB hno2
      · rw [if_neg hz]
        have hin : 0 ≤ w ∧ w.toNat < cn.length := by
          by_contra hc
          exact hz (rd_eq_zero_of_not_lt cn w hc)
        by_cases hthr : abs (rd vals (n : Int)) ≥ update_ir_threshold R
        · rw [if_pos hthr, wr_length]
          refine ⟨fun _ => rd_wr_self cn w 0 hin, ?_, ihL⟩
          intro hno
          exact absurd ⟨n, by omega, hkey, hthr⟩ hno
        · rw [if_neg hthr]
          refine ⟨?_, ?_, ihL⟩
          · rintro ⟨idx, h1, h2, h3⟩
            rcases hstep idx h1 with h | h
            · exact ihA ⟨idx, h, h2, h3⟩
            · subst h
              exact absurd h3 hthr
          · intro hno
            have hno2 : ¬ ∃ idx : Nat, idx < n ∧ rd keys (idx : Int) = w
                ∧ update_ir_threshold R ≤ abs (rd vals (idx : Int)) := by
              rintro ⟨idx, h1, h2⟩
              exact hno ⟨idx, by omega, h2⟩
            exact ihB hno2
    · -- thread `n` looks at the flag of another item
      have hsame : ∀ c2 : List Int, c2.length = cn.length →
          (rd c2 w = rd cn w) →
          ((∃ idx : Nat, idx < n + 1 ∧ rd keys (idx : Int) = w
              ∧ update_ir_threshold R ≤ abs (rd vals (idx : Int))) → rd c2 w = 0) ∧
          ((¬ ∃ idx : Nat, idx < n + 1 ∧ rd keys (idx : Int) = w
              ∧ update_ir_threshold R ≤ abs (rd vals (idx : Int))) → rd c2 w = rd c w) ∧
          c2.length = c.length := by
        intro c2 hl he
        refine ⟨?_, ?_, by rw [hl, ihL]⟩
        · rintro ⟨idx, h1, h2, h3⟩
          rcases hstep idx h1 with h | h
          · rw [he]; exact ihA ⟨idx, h, h2, h3⟩
          · subst h
            exact absurd h2 hkey
        · intro hno
          have hno2 : ¬ ∃ idx : Nat, idx < n ∧ rd keys (idx : Int) = w
              ∧ update_ir_threshold R ≤ abs (rd vals (idx : Int)) := by
            rintro ⟨idx, h1, h2⟩
            exact hno ⟨idx, by omega, h2⟩
          rw [he]; exact ihB hno2
      split
      · exact hsame cn rfl rfl
      · split
        · exact hsame _ (wr_length _ _ _) (rd_wr_ne _ _ _ _ hkey)
        · exact hsame cn rfl rfl

theorem rd_transform_if (input stencil : List Int) (op : Int → Int) (pred : Int → Bool)
    (b : Nat) (hb : b < input.length) :
    rd (transform_if input stencil op pred) (b : Int) =
      if pred (rd stencil (b : Int)) then op (rd input (b : Int)) else rd input (b : Int) := by
  unfold transform_if
  rw [rd_mapIdx _ _ _ (Int.ofNat_nonneg b) (by exact_mod_cast hb)]
  simp


theorem search_round_i_r {R : Type} [LinearOrderedField R] (sqrt exp : R → R)
    (mat_vec_data : List work_item) (k : Int) (input_set1 input_set2 : point_set R)
    (V U : List R) (r : Int) (st : search_state R) :
    (search_round sqrt exp mat_vec_data k input_set1 input_set2 V U r st).i_r
      = transform_if st.i_r st.compute_v_r add_one is_one := rfl

theorem update_ir_keeps_zero {R : Type} [LinearOrderedField R] (keys : List Int)
    (vals : List R) (c : List Int) (n : Nat) (w : Int) (h : rd c w = 0) :
    rd ((List.range n).foldl (update_ir_thread keys vals) c) w = 0 := by
  by_cases hex : ∃ idx : Nat, idx < n ∧ rd keys (idx : Int) = w
      ∧ update_ir_threshold R ≤ abs (rd vals (idx : Int))
  · exact (update_ir_fold keys vals c n w).1 hex
  · rw [(update_ir_fold keys vals c n w).2.1 hex]
    exact h

theorem search_round_compute_v_r {R : Type} [LinearOrderedField R] (sqrt exp : R → R)
    (mat_vec_data : List work_item) (k : Int) (input_set1 input_set2 : point_set R)
    (V U : List R) (r : Int) (st : search_state R) (w : Int)
    (h : rd st.compute_v_r w = 0) :
    rd (search_round sqrt exp mat_vec_data k input_set1 input_set2 V U r st).compute_v_r w
      = 0 := by
  simp only [search_round, update_ir, remove_rubbish_from_maxima]
  exact update_ir_keeps_zero _ _ _ _ w h

/-- C12: the claim puts the zero-norm threshold of the batched search at
`1e-13`.  Kernel `update_ir` clears the flag when `fabs(norm) >= 1.0e-14`: for
one flagged block whose candidate row has 2-norm `5e-14`, which is below
`1e-13`, the flag is cleared (the candidate is accepted) instead of staying
set; a norm of `5e-15` keeps the flag.  The single-block procedure
`apply_aca_for_current_work_item` tests `norm >= 1.0e-13`. -/
theorem zero_norm_threshold_of_update_ir :
    (5 / 10 ^ 14 : ℚ) < single_block_threshold ℚ ∧
    (update_ir (remove_rubbish_from_maxima
      (⟨[0], [1], [5 / 10 ^ 14], [0], [5 / 10 ^ 14]⟩ : search_state ℚ) 1) 1).compute_v_r
        = [0] ∧
    (update_ir (remove_rubbish_from_maxima
      (⟨[0], [1], [5 / 10 ^ 15], [0], [5 / 10 ^ 15]⟩ : search_state ℚ) 1) 1).compute_v_r
        = [1] := by
  refine ⟨?_, ?_, ?_⟩
  · norm_num [single_block_threshold]
  · simp [update_ir, remove_rubbish_from_maxima, update_ir_thread, update_ir_threshold, rd, wr,
      List.range_succ]
    norm_num [abs_of_pos]
  · simp [update_ir, remove_rubbish_from_maxima, update_ir_thread, update_ir_threshold, rd, wr,
      List.range_succ]
    norm_num [abs_of_pos]

/-- C13: pivot advance in the row-pivot search.  In a search round `i_r[b]`
becomes `i_r[b] + 1` for a block whose flag `compute_v_r[b]` is `1` and keeps
its value for a block whose flag is `0`; `update_ir` and
`remove_rubbish_from_maxima` leave `i_r` as it is, `remove_rubbish_from_maxima`
leaves the flags as they are, and neither `update_ir` nor a whole round turns
a flag from `0` to another value. -/
theorem pivot_advance {R : Type} [LinearOrderedField R] (sqrt exp : R → R)
    (mat_vec_data : List work_item) (k : Int) (input_set1 input_set2 : point_set R)
    (V U : List R) (r : Int) (st : search_state R) (b : Nat) (hb : b < st.i_r.length) :
    (rd st.compute_v_r (b : Int) = 1 →
      rd (search_round sqrt exp mat_vec_data k input_set1 input_set2 V U r st).i_r (b : Int) = rd st.i_r (b : Int) + 1) ∧
    (rd st.compute_v_r (b : Int) = 0 →
      rd (search_round sqrt exp mat_vec_data k input_set1 input_set2 V U r st).i_r (b : Int) = rd st.i_r (b : Int)) ∧
    (∀ n : Nat, (update_ir st n).i_r = st.i_r ∧
      (remove_rubbish_from_maxima st n).i_r = st.i_r ∧
      (remove_rubbish_from_maxima st n).compute_v_r = st.compute_v_r) ∧
    (∀ (n : Nat) (w : Int), rd st.compute_v_r w = 0 →
      rd (update_ir st n).compute_v_r w = 0) ∧
    (∀ w : Int, rd st.compute_v_r w = 0 → rd (search_round sqrt exp mat_vec_data k input_set1 input_set2 V U r st).compute_v_r w = 0) := by
  refine ⟨?_, ?_, fun n => ⟨rfl, rfl, rfl⟩, ?_, ?_⟩
  · intro h
    rw [search_round_i_r, rd_transform_if _ _ _ _ b hb, h]
    simp [is_one, add_one]
  · intro h
    rw [search_round_i_r, rd_transform_if _ _ _ _ b hb, h]
    simp [is_one]
  · intro n w h
    exact update_ir_keeps_zero _ _ _ n w h
  · intro w h
    exact search_round_compute_v_r sqrt exp mat_vec_data k input_set1 input_set2 V U r st w h


/-- C13, instance: one flagged `2 x 2` ACA block at rank `0`, pivot `-1`
before the round. -/
theorem pivot_advance_witness :
    (0 < (⟨[-1], [1], [0, 0], [], []⟩ : search_state ℚ).i_r.length) ∧
    rd (search_round id (fun _ => (1 : ℚ)) [⟨0, 1, 0, 1, WT_ACA⟩] 2 (⟨1, fun _ i => (i : ℚ)⟩ : point_set ℚ)
        (⟨1, fun _ i => (i : ℚ)⟩ : point_set ℚ) [0, 0, 0, 0] [0, 0, 0, 0] 0
        (⟨[-1], [1], [0, 0], [], []⟩ : search_state ℚ)).i_r ((0 : Nat) : Int)
      = rd (⟨[-1], [1], [0, 0], [], []⟩ : search_state ℚ).i_r ((0 : Nat) : Int) + 1 :=
  ⟨by decide,
   (pivot_advance id (fun _ => (1 : ℚ)) [⟨0, 1, 0, 1, WT_ACA⟩] 2 (⟨1, fun _ i => (i : ℚ)⟩ : point_set ℚ)
      (⟨1, fun _ i => (i : ℚ)⟩ : point_set ℚ) [0, 0, 0, 0] [0, 0, 0, 0] 0
      (⟨[-1], [1], [0, 0], [], []⟩ : search_state ℚ) 0 (by decide)).1 (by decide)⟩

/-! ### C15: terminal condition by rank -/

theorem rd_replace_if {β : Type} (xs : List Int) (stencil : List β) (pred : β → Bool)
    (v : Int) (b : Nat) (hb : b < xs.length) (hs : b < stencil.length) :
    rd (replace_if xs stencil pred v) (b : Int) =
      if pred stencil[b] then v else rd xs (b : Int) := by
  unfold replace_if
  rw [rd_mapIdx _ _ _ (Int.ofNat_nonneg b) (by exact_mod_cast hb)]
  simp [List.getElem?_eq_getElem hs]

theorem replace_if_length {α β : Type} (xs : List α) (stencil : List β) (pred : β → Bool)
    (v : α) : (replace_if xs stencil pred v).length = xs.length := by
  simp [replace_if]

theorem k_per_item_length (mat_vec_data : List work_item) (k : Int) :
    (k_per_item mat_vec_data k).length = mat_vec_data.length := by
  simp [k_per_item, set_k_per_item]

theorem rd_init_compute_v_r (mat_vec_data : List work_item) (k : Int) (r : Int) (b : Nat)
    (hb : b < mat_vec_data.length) :
    rd (init_compute_v_r mat_vec_data (k_per_item mat_vec_data k) r) (b : Int) =
      if mat_vec_data[b].work_type = WT_ACA ∧ r < rd (k_per_item mat_vec_data k) (b : Int)
      then 1 else 0 := by
  have hk : b < (k_per_item mat_vec_data k).length := by rw [k_per_item_length]; exact hb
  unfold init_compute_v_r
  rw [rd_replace_if _ _ _ _ b (by simpa [replace_if_length, fill] using hb) hk,
    rd_replace_if _ _ _ _ b (by simpa [fill] using hb) hb, rd_fill _ _ _ hb,
    rd_of_lt _ b hk]
  by_cases hw : mat_vec_data[b].work_type = WT_ACA
  · by_cases hr : (k_per_item mat_vec_data k)[b] ≤ r
    · have : ¬ r < (k_per_item mat_vec_data k)[b] := by omega
      simp [is_smaller_or_equal_r, is_not_WT_ACA, hw, hr, this]
    · have : r < (k_per_item mat_vec_data k)[b] := by omega
      simp [is_smaller_or_equal_r, is_not_WT_ACA, hw, hr, this]
  · by_cases hr : (k_per_item mat_vec_data k)[b] ≤ r <;>
      simp [is_smaller_or_equal_r, is_not_WT_ACA, hw, hr]

theorem foldl_max_ge (xs : List Int) (a : Int) :
    a ≤ xs.foldl (fun a b => max a b) a ∧
    ∀ (i : Nat) (h : i < xs.length), xs[i] ≤ xs.foldl (fun a b => max a b) a := by
  induction xs generalizing a with
  | nil => exact ⟨le_refl _, fun i h => by simp at h⟩
  | cons x xs ih =>
    obtain ⟨h1, h2⟩ := ih (max a x)
    refine ⟨le_trans (le_max_left a x) h1, ?_⟩
    intro i h
    cases i with
    | zero => exact le_trans (le_max_right a x) h1
    | succ i => exact h2 i (by simpa using h)

theorem rd_le_reduce_maximum (xs : List Int) (w : Int) : rd xs w ≤ reduce_maximum xs := by
  by_cases h : 0 ≤ w ∧ w.toNat < xs.length
  · have : rd xs w = xs[w.toNat] := by
      simp [rd, h.1, List.getD_eq_getElem?_getD, List.getElem?_eq_getElem h.2]
    rw [this]
    exact (foldl_max_ge xs 0).2 _ h.2
  · rw [rd_eq_zero_of_not_lt xs w h]
    exact (foldl_max_ge xs 0).1

theorem global_k_eq_min (mat_vec_data : List work_item) (k : Int) :
    global_k mat_vec_data k =
      min k (min (reduce_maximum (block_counts mat_vec_data 1))
        (reduce_maximum (block_counts mat_vec_data 2))) :=
  set_k_per_item_thread_eq_min k _ _

theorem k_per_item_le_global_k (mat_vec_data : List work_item) (k : Int) (b : Nat)
    (hb : b < mat_vec_data.length) :
    rd (k_per_item mat_vec_data k) (b : Int) ≤ global_k mat_vec_data k := by
  rw [rd_k_per_item _ k b hb, global_k_eq_min]
  have h1 := rd_le_reduce_maximum (block_counts mat_vec_data 1) (b : Int)
  have h2 := rd_le_reduce_maximum (block_counts mat_vec_data 2) (b : Int)
  simp only [min_def]
  split_ifs <;> omega


/-- C11: the claim says that every entry of the block, before and after the
pivot position, is divided by the value the pivot entry had before the call.
Each thread of `batched_scaling_of_v_r` reads the pivot entry
`v_r[j_r[batch_number]]` itself while the thread of the pivot position
overwrites it with `v_r[j] / v_r[j]`, and nothing orders the two.  For the ACA
block with one row and three columns, rank `0`, row `[a, b, c]` and pivot
column `0`: when the threads run in the order of their index the result is
`[a / a, b / (a / a), c / (a / a)]`, so the entries after the pivot are divided
by the new pivot entry; only when the pivot thread runs last the result is
`[a / a, b / a, c / a]`, which is what `divide_by` yields in
`apply_aca_for_current_work_item`, where the pivot value is copied out first.
For the row `[8, 4, 2]` (pivot column `0`) the index order gives `[1, 4, 2]`. -/
theorem scaling_reads_overwritten_pivot {R : Type} [DivisionRing R] (a b c : R) :
    batched_scaling_of_v_r (List.range 3) [a, b, c] (work_item_to_batch_map [⟨0, 0, 0, 2, WT_ACA⟩])
        (work_item_maps [⟨0, 0, 0, 2, WT_ACA⟩]).2 (k_per_item [⟨0, 0, 0, 2, WT_ACA⟩] 1) 0 [0] (block_total [⟨0, 0, 0, 2, WT_ACA⟩] 2)
      = [a / a, b / (a / a), c / (a / a)] ∧
    batched_scaling_of_v_r [2, 1, 0] [a, b, c] (work_item_to_batch_map [⟨0, 0, 0, 2, WT_ACA⟩])
        (work_item_maps [⟨0, 0, 0, 2, WT_ACA⟩]).2 (k_per_item [⟨0, 0, 0, 2, WT_ACA⟩] 1) 0 [0] (block_total [⟨0, 0, 0, 2, WT_ACA⟩] 2)
      = [a / a, b / a, c / a] ∧
    divide_by a [a, b, c] = [a / a, b / a, c / a] ∧
    j_r_global (work_item_maps [⟨0, 0, 0, 2, WT_ACA⟩]).2 [(8 : ℚ), 4, 2] (block_total [⟨0, 0, 0, 2, WT_ACA⟩] 2) = [0] ∧
    batched_scaling_of_v_r (List.range 3) [(8 : ℚ), 4, 2] (work_item_to_batch_map [⟨0, 0, 0, 2, WT_ACA⟩])
        (work_item_maps [⟨0, 0, 0, 2, WT_ACA⟩]).2 (k_per_item [⟨0, 0, 0, 2, WT_ACA⟩] 1) 0 [0] (block_total [⟨0, 0, 0, 2, WT_ACA⟩] 2) = [1, 4, 2] := by
  have hwm : work_item_maps [⟨0, 0, 0, 2, WT_ACA⟩] = ([0], [0, 0, 0]) := by decide
  have hbm : work_item_to_batch_map [⟨0, 0, 0, 2, WT_ACA⟩] = [0] := by decide
  have ht2 : block_total [⟨0, 0, 0, 2, WT_ACA⟩] 2 = 3 := by decide
  have hk : k_per_item [⟨0, 0, 0, 2, WT_ACA⟩] 1 = [1] := by decide
  rw [hwm, hbm, ht2, hk]
  refine ⟨rfl, rfl, rfl, ?_, ?_⟩
  · simp [j_r_global, reduce_by_key, reduce_by_key_go, sequence, tuple_absolute_maximum,
      List.range_succ]
    norm_num
  · have e : batched_scaling_of_v_r (List.range 3) [(8 : ℚ), 4, 2] [0] [0, 0, 0] [1] 0 [0] 3
        = [8 / 8, 4 / (8 / 8), 2 / (8 / 8)] := rfl
    rw [e]
    norm_num

/-- Two threads of `batched_scaling_of_v_r` of the same block, the thread of
the pivot position `j` first: the other thread divides by the new pivot entry
`v_r[j] / v_r[j]`, whatever the distance between the two positions. -/
theorem scaling_thread_after_pivot_thread {R : Type} [DivisionRing R]
    (work_item_to_batch_map work_item_map2 k_per_item : List Int) (r : Int) (j_r : List Int)
    (m2_total : Int) (v_r : List R) (idx j : Nat) (hne : idx ≠ j)
    (hidx : (idx : Int) < m2_total) (hj : (j : Int) < m2_total)
    (hlen : j < v_r.length) (hlen2 : idx < v_r.length)
    (hsame : rd work_item_map2 (idx : Int) = rd work_item_map2 (j : Int))
    (hr : r < rd k_per_item (rd work_item_map2 (j : Int)))
    (hpiv : rd j_r (rd work_item_to_batch_map (rd work_item_map2 (j : Int))) = (j : Int)) :
    rd (batched_scaling_of_v_r_thread work_item_to_batch_map work_item_map2 k_per_item r j_r
        m2_total
        (batched_scaling_of_v_r_thread work_item_to_batch_map work_item_map2 k_per_item r j_r
          m2_total v_r j) idx) (idx : Int)
      = rd v_r (idx : Int) / (rd v_r (j : Int) / rd v_r (j : Int)) := by
  have hneI : (j : Int) ≠ (idx : Int) := by
    intro h
    exact hne (by exact_mod_cast h.symm)
  have h1 : batched_scaling_of_v_r_thread work_item_to_batch_map work_item_map2 k_per_item r j_r
      m2_total v_r j = wr v_r (j : Int) (rd v_r (j : Int) / rd v_r (j : Int)) := by
    unfold batched_scaling_of_v_r_thread
    rw [if_neg (by omega), if_neg (by omega)]
    simp only [hpiv]
  rw [h1]
  unfold batched_scaling_of_v_r_thread
  rw [if_neg (by omega), if_neg (by rw [hsame]; omega)]
  simp only [hsame, hpiv]
  rw [rd_wr_self _ _ _ ⟨Int.ofNat_nonneg _, by rw [wr_length]; simpa using hlen2⟩,
    rd_wr_ne _ _ _ _ hneI, rd_wr_same _ _ _ hlen]

/-! ### C19, C20: the batched low-rank apply -/

/-- C19: the claim says that, with the index maps built by
`apply_batched_aca`, row `j` of an eligible block `b` is added to
`y[set1_l[b] + j]`.  Take the ACA block `A` with row `0` and the ACA block `B`
with rows `2..3`, both with columns `0..1`, cap `k = 1`.  The builder yields
`point_map1 = [0, 3, 3]` instead of `[0, 2, 3]` (the one-row block `A` makes the
running sum drift), so both rows of `B` are added to `y[3]` and `y[2]`, which is
row `0` of `B`, is left as it was. -/
theorem apply_after_single_row_block {R : Type} [Ring R]
    (x0 x1 u0 u1 u2 v0 v1 v2 v3 y0 y1 y2 y3 : R) (tmp_content y_content : Nat → R) :
    (point_maps [⟨0, 0, 0, 1, WT_ACA⟩, ⟨2, 3, 0, 1, WT_ACA⟩]).1 = [0, 3, 3] ∧
    batched_low_rank_apply [x0, x1] [y0, y1, y2, y3]
        [⟨0, 0, 0, 1, WT_ACA⟩, ⟨2, 3, 0, 1, WT_ACA⟩] 1 [u0, u1, u2] [v0, v1, v2, v3]
        tmp_content y_content
      = [y0 + u0 * (v0 * x0 + v1 * x1), y1, y2,
         y3 + u1 * (v2 * x0 + v3 * x1) + u2 * (v2 * x0 + v3 * x1)] := by
  have e : batched_low_rank_apply [x0, x1] [y0, y1, y2, y3]
        [⟨0, 0, 0, 1, WT_ACA⟩, ⟨2, 3, 0, 1, WT_ACA⟩] 1 [u0, u1, u2] [v0, v1, v2, v3]
        tmp_content y_content
      = [y0 + (0 + u0 * (0 + v0 * x0 + v1 * x1)), y1, y2,
         y3 + (0 + u1 * (0 + v2 * x0 + v3 * x1)) + (0 + u2 * (0 + v2 * x0 + v3 * x1))] := rfl
  rw [e]
  refine ⟨by decide, ?_⟩
  simp

/-- C20: the claim says that the contribution of the batched apply is additive
in `x` and is `0` for `x = 0`.  Take the ACA block with rows `0..1`, columns
`0..1` and the ACA block with rows `2..3` and no column, cap `k = 1`, `y = 0`,
so that the result is the contribution.  The apply loop skips the second
block and its segment of `local_y` keeps the content `y_content` of the fresh
memory: for `x = 0` the contribution is `[0, 0, y_content 2, y_content 3]`, and
the contribution for `x1 + x2` has `y_content 2` in row `2` where the sum of the
contributions for `x1` and `x2` has `y_content 2 + y_content 2`. -/
theorem apply_contribution_of_skipped_rows {R : Type} [Ring R]
    (a0 a1 b0 b1 u0 u1 u2 u3 v0 v1 : R) (tmp_content y_content : Nat → R) :
    batched_low_rank_apply [0, 0] [0, 0, 0, 0]
        [⟨0, 1, 0, 1, WT_ACA⟩, ⟨2, 3, 2, 1, WT_ACA⟩] 1 [u0, u1, u2, u3] [v0, v1]
        tmp_content y_content
      = [0, 0, y_content 2, y_content 3] ∧
    batched_low_rank_apply [a0 + b0, a1 + b1] [0, 0, 0, 0]
        [⟨0, 1, 0, 1, WT_ACA⟩, ⟨2, 3, 2, 1, WT_ACA⟩] 1 [u0, u1, u2, u3] [v0, v1]
        tmp_content y_content
      = [u0 * (v0 * (a0 + b0) + v1 * (a1 + b1)), u1 * (v0 * (a0 + b0) + v1 * (a1 + b1)),
         y_content 2, y_content 3] ∧
    List.zipWith (fun s t => s + t)
        (batched_low_rank_apply [a0, a1] [0, 0, 0, 0]
          [⟨0, 1, 0, 1, WT_ACA⟩, ⟨2, 3, 2, 1, WT_ACA⟩] 1 [u0, u1, u2, u3] [v0, v1]
          tmp_content y_content)
        (batched_low_rank_apply [b0, b1] [0, 0, 0, 0]
          [⟨0, 1, 0, 1, WT_ACA⟩, ⟨2, 3, 2, 1, WT_ACA⟩] 1 [u0, u1, u2, u3] [v0, v1]
          tmp_content y_content)
      = [u0 * (v0 * a0 + v1 * a1) + u0 * (v0 * b0 + v1 * b1),
         u1 * (v0 * a0 + v1 * a1) + u1 * (v0 * b0 + v1 * b1),
         y_content 2 + y_content 2, y_content 3 + y_content 3] ∧
    batched_low_rank_apply [0, 0] [0, 0, 0, 0]
        [⟨0, 1, 0, 1, WT_ACA⟩, ⟨2, 3, 2, 1, WT_ACA⟩] 1 [0, 0, 0, 0] [0, 0]
        (fun _ => 0) (fun _ => (7 : Int))
      = [0, 0, 7, 7] := by
  have e : ∀ x0 x1 : R, batched_low_rank_apply [x0, x1] [0, 0, 0, 0]
        [⟨0, 1, 0, 1, WT_ACA⟩, ⟨2, 3, 2, 1, WT_ACA⟩] 1 [u0, u1, u2, u3] [v0, v1]
        tmp_content y_content
      = [0 + (0 + u0 * (0 + v0 * x0 + v1 * x1)), 0 + (0 + u1 * (0 + v0 * x0 + v1 * x1)),
         0 + y_content 2, 0 + y_content 3] := fun _ _ => rfl
  rw [e, e, e, e]
  refine ⟨?_, ?_, ?_, by decide⟩ <;> simp

/-! ### C17, C18: the factors of a block behind a one-row block -/

/-- One search round at rank `0` on the batch of a `1 x 1` block followed by a
`2 x 1` block, both candidates accepted: the candidate row of the second block
is evaluated at row point `3` (its `point_map1` entry), not at row point `2`. -/
theorem search_round_behind_single_row_block {R : Type} [LinearOrderedField R]
    (sqrt exp : R → R) (dim : Nat) (c1 c2 : Nat → Int → R) (V U : List R) (x y : R)
    (ks : List Int) (ns : List R)
    (hA : update_ir_threshold R ≤ abs (sqrt (
      kernel_entry sqrt exp ⟨dim, c1⟩ ⟨dim, c2⟩ 0 0 * kernel_entry sqrt exp ⟨dim, c1⟩ ⟨dim, c2⟩ 0 0)))
    (hB : update_ir_threshold R ≤ abs (sqrt (
      kernel_entry sqrt exp ⟨dim, c1⟩ ⟨dim, c2⟩ 3 1 * kernel_entry sqrt exp ⟨dim, c1⟩ ⟨dim, c2⟩ 3 1))) :
    search_round sqrt exp [⟨0, 0, 0, 0, WT_ACA⟩, ⟨2, 3, 1, 1, WT_ACA⟩] 1 ⟨dim, c1⟩ ⟨dim, c2⟩ V U 0 ⟨[-1, -1], [1, 1], [x, y], ks, ns⟩
      = ⟨[0, 0], [0, 0],
         [kernel_entry sqrt exp ⟨dim, c1⟩ ⟨dim, c2⟩ 0 0, kernel_entry sqrt exp ⟨dim, c1⟩ ⟨dim, c2⟩ 3 1],
         [0, 1],
         [sqrt (kernel_entry sqrt exp ⟨dim, c1⟩ ⟨dim, c2⟩ 0 0 * kernel_entry sqrt exp ⟨dim, c1⟩ ⟨dim, c2⟩ 0 0),
          sqrt (kernel_entry sqrt exp ⟨dim, c1⟩ ⟨dim, c2⟩ 3 1 * kernel_entry sqrt exp ⟨dim, c1⟩ ⟨dim, c2⟩ 3 1)]⟩ := by
  show update_ir ⟨[0, 0], [1, 1],
         [kernel_entry sqrt exp ⟨dim, c1⟩ ⟨dim, c2⟩ 0 0, kernel_entry sqrt exp ⟨dim, c1⟩ ⟨dim, c2⟩ 3 1],
         [0, 1],
         [sqrt (kernel_entry sqrt exp ⟨dim, c1⟩ ⟨dim, c2⟩ 0 0 * kernel_entry sqrt exp ⟨dim, c1⟩ ⟨dim, c2⟩ 0 0),
          sqrt (kernel_entry sqrt exp ⟨dim, c1⟩ ⟨dim, c2⟩ 3 1 * kernel_entry sqrt exp ⟨dim, c1⟩ ⟨dim, c2⟩ 3 1)]⟩
      2 = _
  simp only [update_ir, List.range_succ, List.range_zero, List.nil_append, List.cons_append,
    List.foldl_cons, List.foldl_nil, update_ir_thread]
  simp [rd, wr, hA, hB]

/-- The factors that the rank loop of `apply_batched_aca` holds for the batch
of a `1 x 1` block (row point 0, column point 0) followed by a `2 x 1` block
(row points 2 and 3, column point 1) with `k = 1`, in either order of the two
threads of `batched_scaling_of_v_r`: both rows of the second block hold the
kernel value of row point 3. -/
theorem batched_aca_factors_behind_single_row_block {R : Type} [LinearOrderedField R]
    (sqrt exp : R → R) (dim : Nat) (c1 c2 : Nat → Int → R) (eta epsilon : R)
    (content : Nat → R) (fuel : Nat) (schedule : List Nat)
    (hsch : schedule = [0, 1] ∨ schedule = [1, 0])
    (hA : update_ir_threshold R ≤ abs (sqrt (
      kernel_entry sqrt exp ⟨dim, c1⟩ ⟨dim, c2⟩ 0 0 * kernel_entry sqrt exp ⟨dim, c1⟩ ⟨dim, c2⟩ 0 0)))
    (hB : update_ir_threshold R ≤ abs (sqrt (
      kernel_entry sqrt exp ⟨dim, c1⟩ ⟨dim, c2⟩ 3 1 * kernel_entry sqrt exp ⟨dim, c1⟩ ⟨dim, c2⟩ 3 1))) :
    batched_aca_factors sqrt exp [⟨0, 0, 0, 0, WT_ACA⟩, ⟨2, 3, 1, 1, WT_ACA⟩] 1 ⟨dim, c1⟩ ⟨dim, c2⟩ eta epsilon content (fuel + 1) schedule
      = some ⟨[kernel_entry sqrt exp ⟨dim, c1⟩ ⟨dim, c2⟩ 0 0,
               kernel_entry sqrt exp ⟨dim, c1⟩ ⟨dim, c2⟩ 3 1,
               kernel_entry sqrt exp ⟨dim, c1⟩ ⟨dim, c2⟩ 3 1],
              [kernel_entry sqrt exp ⟨dim, c1⟩ ⟨dim, c2⟩ 0 0 / kernel_entry sqrt exp ⟨dim, c1⟩ ⟨dim, c2⟩ 0 0,
               kernel_entry sqrt exp ⟨dim, c1⟩ ⟨dim, c2⟩ 3 1 / kernel_entry sqrt exp ⟨dim, c1⟩ ⟨dim, c2⟩ 3 1],
              [0, 0], [false, false]⟩ := by
  have hs := search_round_behind_single_row_block sqrt exp dim c1 c2 [0, 0] [0, 0, 0] 0 0 [] []
    hA hB
  have hsl : search_loop sqrt exp [⟨0, 0, 0, 0, WT_ACA⟩, ⟨2, 3, 1, 1, WT_ACA⟩] 1 ⟨dim, c1⟩ ⟨dim, c2⟩ [0, 0] [0, 0, 0] ((0 : Nat) : Int)
      (fuel + 1)
      ⟨[-1, -1], init_compute_v_r [⟨0, 0, 0, 0, WT_ACA⟩, ⟨2, 3, 1, 1, WT_ACA⟩] (k_per_item [⟨0, 0, 0, 0, WT_ACA⟩, ⟨2, 3, 1, 1, WT_ACA⟩] 1) ((0 : Nat) : Int),
        get_row [0, 0] 0 (block_total [⟨0, 0, 0, 0, WT_ACA⟩, ⟨2, 3, 1, 1, WT_ACA⟩] 2), [], []⟩
      = some ⟨[0, 0], [0, 0],
         [kernel_entry sqrt exp ⟨dim, c1⟩ ⟨dim, c2⟩ 0 0, kernel_entry sqrt exp ⟨dim, c1⟩ ⟨dim, c2⟩ 3 1],
         [0, 1],
         [sqrt (kernel_entry sqrt exp ⟨dim, c1⟩ ⟨dim, c2⟩ 0 0 * kernel_entry sqrt exp ⟨dim, c1⟩ ⟨dim, c2⟩ 0 0),
          sqrt (kernel_entry sqrt exp ⟨dim, c1⟩ ⟨dim, c2⟩ 3 1 * kernel_entry sqrt exp ⟨dim, c1⟩ ⟨dim, c2⟩ 3 1)]⟩ := by
    show search_loop sqrt exp [⟨0, 0, 0, 0, WT_ACA⟩, ⟨2, 3, 1, 1, WT_ACA⟩] 1 ⟨dim, c1⟩ ⟨dim, c2⟩ [0, 0] [0, 0, 0] 0 (fuel + 1)
      ⟨[-1, -1], [1, 1], [0, 0], [], []⟩ = _
    simp only [search_loop, hs]
    rfl
  show rank_loop sqrt exp [⟨0, 0, 0, 0, WT_ACA⟩, ⟨2, 3, 1, 1, WT_ACA⟩] 1 ⟨dim, c1⟩ ⟨dim, c2⟩ eta epsilon content (fuel + 1)
        schedule 1 0 ⟨[0, 0, 0], [0, 0], [-1, -1], [false, false]⟩ = _
  simp only [rank_loop, rank_iteration]
  rw [hsl]
  rcases hsch with h | h <;> subst h <;> rfl

/-- The factors that `apply_aca_for_current_work_item` holds for the `2 x 1`
block of row points 2 and 3 and column point 1 with `k = 1`, the candidate row
of row point 2 accepted. -/
theorem single_aca_factors_of_two_row_block {R : Type} [LinearOrderedField R]
    (sqrt exp : R → R) (dim : Nat) (c1 c2 : Nat → Int → R) (eta epsilon : R)
    (content : Nat → R) (fuel : Nat)
    (hC : single_block_threshold R ≤ sqrt (
      kernel_entry sqrt exp ⟨dim, c1⟩ ⟨dim, c2⟩ 2 1 * kernel_entry sqrt exp ⟨dim, c1⟩ ⟨dim, c2⟩ 2 1)) :
    single_aca_factors sqrt exp ⟨2, 3, 1, 1, WT_ACA⟩ ⟨dim, c1⟩ ⟨dim, c2⟩ eta epsilon 1 content
        (fuel + 1)
      = some ⟨[kernel_entry sqrt exp ⟨dim, c1⟩ ⟨dim, c2⟩ 2 1,
               kernel_entry sqrt exp ⟨dim, c1⟩ ⟨dim, c2⟩ 3 1],
              [kernel_entry sqrt exp ⟨dim, c1⟩ ⟨dim, c2⟩ 2 1 / kernel_entry sqrt exp ⟨dim, c1⟩ ⟨dim, c2⟩ 2 1],
              0⟩ := by
  have hsl : single_search_loop sqrt exp ⟨2, 3, 1, 1, WT_ACA⟩ ⟨dim, c1⟩ ⟨dim, c2⟩ 2 1 [0, 0] [0] 0
      (fuel + 1) (-1) [0]
      = some (0, [kernel_entry sqrt exp ⟨dim, c1⟩ ⟨dim, c2⟩ 2 1]) := by
    simp only [single_search_loop]
    have hn : sqrt (inner_product
        (fill_kernel_vector_and_substract_previous_vectors sqrt exp [0]
          (work_item.mk 2 3 1 1 WT_ACA).set2_l ((work_item.mk 2 3 1 1 WT_ACA).set1_l + (-1 + 1))
          ⟨dim, c2⟩ ⟨dim, c1⟩ 2 1 [0, 0] [0] ((0 : Nat) : Int) (-1 + 1))
        (fill_kernel_vector_and_substract_previous_vectors sqrt exp [0]
          (work_item.mk 2 3 1 1 WT_ACA).set2_l ((work_item.mk 2 3 1 1 WT_ACA).set1_l + (-1 + 1))
          ⟨dim, c2⟩ ⟨dim, c1⟩ 2 1 [0, 0] [0] ((0 : Nat) : Int) (-1 + 1)) 0)
        = sqrt (0 + kernel_entry sqrt exp ⟨dim, c1⟩ ⟨dim, c2⟩ 2 1 *
            kernel_entry sqrt exp ⟨dim, c1⟩ ⟨dim, c2⟩ 2 1) := rfl
    rw [hn, zero_add, if_pos hC]
    rfl
  show single_rank_loop sqrt exp ⟨2, 3, 1, 1, WT_ACA⟩ ⟨dim, c1⟩ ⟨dim, c2⟩ eta epsilon 1 content
      (fuel + 1) 1 0 ⟨[0, 0], [0], -1⟩ = _
  simp only [single_rank_loop, single_rank_iteration]
  rw [show single_search_loop sqrt exp ⟨2, 3, 1, 1, WT_ACA⟩ ⟨dim, c1⟩ ⟨dim, c2⟩ (3 - 2 + 1)
      (1 - 1 + 1) [0, 0] [0] 0 (fuel + 1) (-1) (get_row [0] 0 (1 - 1 + 1))
      = some (0, [kernel_entry sqrt exp ⟨dim, c1⟩ ⟨dim, c2⟩ 2 1]) from hsl]
  simp only [if_true, ite_self]
  have hU : ∀ (i j : Int), kernel exp (distance sqrt dim (fun d => c1 d i) (fun d => c2 d j))
      = kernel_entry sqrt exp ⟨dim, c1⟩ ⟨dim, c2⟩ i j := by
    intro i j
    unfold kernel_entry
    rw [distance_comm]
  simp only [← hU]
  rfl

/-- C17: the claim asks that the factors of every block with `k >= min(m1, m2)`
reconstruct the kernel values of the block.  In the batch of a `1 x 1` block
(row point 0, column point 0) followed by a `2 x 1` block `B` (row points 2 and
3, column point 1) with `k = 1`, the search accepts row `0` of `B` at rank `0`,
and after the rank loop the product `U[1] * V[1]` for row point 2 and column
point 1 is the kernel value of row point 3 and column point 1, which differs
from the kernel value of row point 2 and column point 1. -/
theorem block_behind_single_row_block_not_reconstructed {R : Type} [LinearOrderedField R]
    (sqrt exp : R → R) (dim : Nat) (c1 c2 : Nat → Int → R) (eta epsilon : R)
    (content : Nat → R) (fuel : Nat) (schedule : List Nat)
    (hsch : schedule = [0, 1] ∨ schedule = [1, 0])
    (hA : update_ir_threshold R ≤ abs (sqrt (
      kernel_entry sqrt exp ⟨dim, c1⟩ ⟨dim, c2⟩ 0 0 * kernel_entry sqrt exp ⟨dim, c1⟩ ⟨dim, c2⟩ 0 0)))
    (hB : update_ir_threshold R ≤ abs (sqrt (
      kernel_entry sqrt exp ⟨dim, c1⟩ ⟨dim, c2⟩ 3 1 * kernel_entry sqrt exp ⟨dim, c1⟩ ⟨dim, c2⟩ 3 1)))
    (hne : kernel_entry sqrt exp ⟨dim, c1⟩ ⟨dim, c2⟩ 3 1
      ≠ kernel_entry sqrt exp ⟨dim, c1⟩ ⟨dim, c2⟩ 2 1) :
    ∃ s : aca_state R,
      batched_aca_factors sqrt exp [⟨0, 0, 0, 0, WT_ACA⟩, ⟨2, 3, 1, 1, WT_ACA⟩] 1 ⟨dim, c1⟩ ⟨dim, c2⟩ eta epsilon content (fuel + 1)
        schedule = some s ∧
      rd (k_per_item [⟨0, 0, 0, 0, WT_ACA⟩, ⟨2, 3, 1, 1, WT_ACA⟩] 1) 1 = 1 ∧
      rd (point_map_offsets [⟨0, 0, 0, 0, WT_ACA⟩, ⟨2, 3, 1, 1, WT_ACA⟩] 1) 1 = 1 ∧
      rd (point_map_offsets [⟨0, 0, 0, 0, WT_ACA⟩, ⟨2, 3, 1, 1, WT_ACA⟩] 2) 1 = 1 ∧
      rd s.i_r 1 = 0 ∧
      rd s.U 1 * rd s.V 1 = kernel_entry sqrt exp ⟨dim, c1⟩ ⟨dim, c2⟩ 3 1 ∧
      rd s.U 1 * rd s.V 1 ≠ kernel_entry sqrt exp ⟨dim, c1⟩ ⟨dim, c2⟩ 2 1 := by
  have hprod : kernel_entry sqrt exp ⟨dim, c1⟩ ⟨dim, c2⟩ 3 1 *
      (kernel_entry sqrt exp ⟨dim, c1⟩ ⟨dim, c2⟩ 3 1 / kernel_entry sqrt exp ⟨dim, c1⟩ ⟨dim, c2⟩ 3 1)
      = kernel_entry sqrt exp ⟨dim, c1⟩ ⟨dim, c2⟩ 3 1 := by
    by_cases h0 : kernel_entry sqrt exp ⟨dim, c1⟩ ⟨dim, c2⟩ 3 1 = 0
    · rw [h0, zero_mul]
    · rw [div_self h0, mul_one]
  refine ⟨_, batched_aca_factors_behind_single_row_block sqrt exp dim c1 c2 eta epsilon content
    fuel schedule hsch hA hB, by decide, by decide, by decide, rfl, hprod, ?_⟩
  intro h
  exact hne (hprod.symm.trans h)

/-- C17, instance: points `0..3` on the row side, column points `10` and `13`,
`sqrt` the identity and `exp(-d) = 1/(1+d)^2`, so that the kernel value of row
point `i` and column point `j` is `1/(1 + (y_j - x_i)^2)`: `1/101` for row
point 3 and `1/122` for row point 2. -/
theorem block_behind_single_row_block_not_reconstructed_witness :
    ([0, 1] = [0, 1] ∨ [0, 1] = [1, 0]) ∧
    (update_ir_threshold ℚ ≤ abs (id (
      kernel_entry id (fun x : ℚ => 1 / ((1 - x) * (1 - x))) (⟨1, fun _ i => (i : ℚ)⟩ : point_set ℚ) (⟨1, fun _ j => 10 + 3 * (j : ℚ)⟩ : point_set ℚ) 0 0 * kernel_entry id (fun x : ℚ => 1 / ((1 - x) * (1 - x))) (⟨1, fun _ i => (i : ℚ)⟩ : point_set ℚ) (⟨1, fun _ j => 10 + 3 * (j : ℚ)⟩ : point_set ℚ) 0 0))) ∧
    (update_ir_threshold ℚ ≤ abs (id (
      kernel_entry id (fun x : ℚ => 1 / ((1 - x) * (1 - x))) (⟨1, fun _ i => (i : ℚ)⟩ : point_set ℚ) (⟨1, fun _ j => 10 + 3 * (j : ℚ)⟩ : point_set ℚ) 3 1 * kernel_entry id (fun x : ℚ => 1 / ((1 - x) * (1 - x))) (⟨1, fun _ i => (i : ℚ)⟩ : point_set ℚ) (⟨1, fun _ j => 10 + 3 * (j : ℚ)⟩ : point_set ℚ) 3 1))) ∧
    (kernel_entry id (fun x : ℚ => 1 / ((1 - x) * (1 - x))) (⟨1, fun _ i => (i : ℚ)⟩ : point_set ℚ) (⟨1, fun _ j => 10 + 3 * (j : ℚ)⟩ : point_set ℚ) 3 1 ≠ kernel_entry id (fun x : ℚ => 1 / ((1 - x) * (1 - x))) (⟨1, fun _ i => (i : ℚ)⟩ : point_set ℚ) (⟨1, fun _ j => 10 + 3 * (j : ℚ)⟩ : point_set ℚ) 2 1) ∧
    ∃ s : aca_state ℚ,
      batched_aca_factors id (fun x : ℚ => 1 / ((1 - x) * (1 - x))) [⟨0, 0, 0, 0, WT_ACA⟩, ⟨2, 3, 1, 1, WT_ACA⟩] 1 (⟨1, fun _ i => (i : ℚ)⟩ : point_set ℚ) (⟨1, fun _ j => 10 + 3 * (j : ℚ)⟩ : point_set ℚ) 0 0 (fun _ => 0) (0 + 1) [0, 1] = some s ∧
      rd (k_per_item [⟨0, 0, 0, 0, WT_ACA⟩, ⟨2, 3, 1, 1, WT_ACA⟩] 1) 1 = 1 ∧
      rd (point_map_offsets [⟨0, 0, 0, 0, WT_ACA⟩, ⟨2, 3, 1, 1, WT_ACA⟩] 1) 1 = 1 ∧
      rd (point_map_offsets [⟨0, 0, 0, 0, WT_ACA⟩, ⟨2, 3, 1, 1, WT_ACA⟩] 2) 1 = 1 ∧
      rd s.i_r 1 = 0 ∧
      rd s.U 1 * rd s.V 1 = kernel_entry id (fun x : ℚ => 1 / ((1 - x) * (1 - x))) (⟨1, fun _ i => (i : ℚ)⟩ : point_set ℚ) (⟨1, fun _ j => 10 + 3 * (j : ℚ)⟩ : point_set ℚ) 3 1 ∧
      rd s.U 1 * rd s.V 1 ≠ kernel_entry id (fun x : ℚ => 1 / ((1 - x) * (1 - x))) (⟨1, fun _ i => (i : ℚ)⟩ : point_set ℚ) (⟨1, fun _ j => 10 + 3 * (j : ℚ)⟩ : point_set ℚ) 2 1 :=
  have hA : update_ir_threshold ℚ ≤ abs (id (
      kernel_entry id (fun x : ℚ => 1 / ((1 - x) * (1 - x))) (⟨1, fun _ i => (i : ℚ)⟩ : point_set ℚ) (⟨1, fun _ j => 10 + 3 * (j : ℚ)⟩ : point_set ℚ) 0 0 * kernel_entry id (fun x : ℚ => 1 / ((1 - x) * (1 - x))) (⟨1, fun _ i => (i : ℚ)⟩ : point_set ℚ) (⟨1, fun _ j => 10 + 3 * (j : ℚ)⟩ : point_set ℚ) 0 0)) := by
    simp [kernel_entry, kernel, distance, update_ir_threshold, List.range_succ]
    norm_num [abs_of_pos]
  have hB : update_ir_threshold ℚ ≤ abs (id (
      kernel_entry id (fun x : ℚ => 1 / ((1 - x) * (1 - x))) (⟨1, fun _ i => (i : ℚ)⟩ : point_set ℚ) (⟨1, fun _ j => 10 + 3 * (j : ℚ)⟩ : point_set ℚ) 3 1 * kernel_entry id (fun x : ℚ => 1 / ((1 - x) * (1 - x))) (⟨1, fun _ i => (i : ℚ)⟩ : point_set ℚ) (⟨1, fun _ j => 10 + 3 * (j : ℚ)⟩ : point_set ℚ) 3 1)) := by
    simp [kernel_entry, kernel, distance, update_ir_threshold, List.range_succ]
    norm_num [abs_of_pos]
  have hne : kernel_entry id (fun x : ℚ => 1 / ((1 - x) * (1 - x))) (⟨1, fun _ i => (i : ℚ)⟩ : point_set ℚ) (⟨1, fun _ j => 10 + 3 * (j : ℚ)⟩ : point_set ℚ) 3 1 ≠ kernel_entry id (fun x : ℚ => 1 / ((1 - x) * (1 - x))) (⟨1, fun _ i => (i : ℚ)⟩ : point_set ℚ) (⟨1, fun _ j => 10 + 3 * (j : ℚ)⟩ : point_set ℚ) 2 1 := by
    simp [kernel_entry, kernel, distance, List.range_succ]
    norm_num
  ⟨Or.inl rfl, hA, hB, hne,
    block_behind_single_row_block_not_reconstructed id (fun x : ℚ => 1 / ((1 - x) * (1 - x))) 1 (fun _ i => (i : ℚ))
      (fun _ j => 10 + 3 * (j : ℚ)) 0 0 (fun _ => 0) 0 [0, 1] (Or.inl rfl) hA hB hne⟩

/-- Index-map drift against the single-block procedure (a slip that the rank by
rank comparison of the two procedures leaves out, see C1): the slices of `U`
that `apply_batched_aca` produces for a block can differ from the factors of
`apply_aca_for_current_work_item` on that block alone.  For the `2 x 1` block `B` (row points 2 and 3, column point
1) behind a `1 x 1` block with `k = 1`, both procedures accept pivot row `0`
and pivot column `0`; the slice of `U` of the batched engine is the kernel
value of row point 3 twice, the factor of the single-block procedure is the
kernel value of row point 2, then that of row point 3. -/
theorem batched_factors_differ_from_single_block {R : Type} [LinearOrderedField R]
    (sqrt exp : R → R) (dim : Nat) (c1 c2 : Nat → Int → R) (eta epsilon : R)
    (content : Nat → R) (fuel : Nat) (schedule : List Nat)
    (hsch : schedule = [0, 1] ∨ schedule = [1, 0])
    (hA : update_ir_threshold R ≤ abs (sqrt (
      kernel_entry sqrt exp ⟨dim, c1⟩ ⟨dim, c2⟩ 0 0 * kernel_entry sqrt exp ⟨dim, c1⟩ ⟨dim, c2⟩ 0 0)))
    (hB : update_ir_threshold R ≤ abs (sqrt (
      kernel_entry sqrt exp ⟨dim, c1⟩ ⟨dim, c2⟩ 3 1 * kernel_entry sqrt exp ⟨dim, c1⟩ ⟨dim, c2⟩ 3 1)))
    (hC : single_block_threshold R ≤ sqrt (
      kernel_entry sqrt exp ⟨dim, c1⟩ ⟨dim, c2⟩ 2 1 * kernel_entry sqrt exp ⟨dim, c1⟩ ⟨dim, c2⟩ 2 1))
    (hne : kernel_entry sqrt exp ⟨dim, c1⟩ ⟨dim, c2⟩ 3 1
      ≠ kernel_entry sqrt exp ⟨dim, c1⟩ ⟨dim, c2⟩ 2 1)
    (hneg : kernel_entry sqrt exp ⟨dim, c1⟩ ⟨dim, c2⟩ 3 1
      ≠ - kernel_entry sqrt exp ⟨dim, c1⟩ ⟨dim, c2⟩ 2 1) :
    ∃ (s : aca_state R) (t : single_state R),
      batched_aca_factors sqrt exp [⟨0, 0, 0, 0, WT_ACA⟩, ⟨2, 3, 1, 1, WT_ACA⟩] 1 ⟨dim, c1⟩ ⟨dim, c2⟩ eta epsilon content (fuel + 1)
        schedule = some s ∧
      single_aca_factors sqrt exp ⟨2, 3, 1, 1, WT_ACA⟩ ⟨dim, c1⟩ ⟨dim, c2⟩ eta epsilon 1 content
        (fuel + 1) = some t ∧
      rd (point_map_offsets [⟨0, 0, 0, 0, WT_ACA⟩, ⟨2, 3, 1, 1, WT_ACA⟩] 1) 1 = 1 ∧
      rd s.i_r 1 = t.i_r ∧
      (s.U.drop 1).take 2 = [kernel_entry sqrt exp ⟨dim, c1⟩ ⟨dim, c2⟩ 3 1,
        kernel_entry sqrt exp ⟨dim, c1⟩ ⟨dim, c2⟩ 3 1] ∧
      t.U = [kernel_entry sqrt exp ⟨dim, c1⟩ ⟨dim, c2⟩ 2 1,
        kernel_entry sqrt exp ⟨dim, c1⟩ ⟨dim, c2⟩ 3 1] ∧
      rd s.U 1 ≠ rd t.U 0 ∧ rd s.U 1 ≠ - rd t.U 0 :=
  ⟨_, _, batched_aca_factors_behind_single_row_block sqrt exp dim c1 c2 eta epsilon content
      fuel schedule hsch hA hB,
    single_aca_factors_of_two_row_block sqrt exp dim c1 c2 eta epsilon content fuel hC,
    by decide, rfl, rfl, rfl, hne, hneg⟩

/-- Index-map drift against the single-block procedure, instance: points `0..3` on the row side, column points `10` and `13`,
`sqrt` the identity and `exp(-d) = 1/(1+d)^2`: the batched slice of `U` is
`1/101, 1/101`, the single-block factor is `1/122, 1/101`. -/
theorem batched_factors_differ_from_single_block_witness :
    ([1, 0] = [0, 1] ∨ [1, 0] = [1, 0]) ∧
    (update_ir_threshold ℚ ≤ abs (id (
      kernel_entry id (fun x : ℚ => 1 / ((1 - x) * (1 - x))) (⟨1, fun _ i => (i : ℚ)⟩ : point_set ℚ) (⟨1, fun _ j => 10 + 3 * (j : ℚ)⟩ : point_set ℚ) 0 0 * kernel_entry id (fun x : ℚ => 1 / ((1 - x) * (1 - x))) (⟨1, fun _ i => (i : ℚ)⟩ : point_set ℚ) (⟨1, fun _ j => 10 + 3 * (j : ℚ)⟩ : point_set ℚ) 0 0))) ∧
    (update_ir_threshold ℚ ≤ abs (id (
      kernel_entry id (fun x : ℚ => 1 / ((1 - x) * (1 - x))) (⟨1, fun _ i => (i : ℚ)⟩ : point_set ℚ) (⟨1, fun _ j => 10 + 3 * (j : ℚ)⟩ : point_set ℚ) 3 1 * kernel_entry id (fun x : ℚ => 1 / ((1 - x) * (1 - x))) (⟨1, fun _ i => (i : ℚ)⟩ : point_set ℚ) (⟨1, fun _ j => 10 + 3 * (j : ℚ)⟩ : point_set ℚ) 3 1))) ∧
    (single_block_threshold ℚ ≤ id (
      kernel_entry id (fun x : ℚ => 1 / ((1 - x) * (1 - x))) (⟨1, fun _ i => (i : ℚ)⟩ : point_set ℚ) (⟨1, fun _ j => 10 + 3 * (j : ℚ)⟩ : point_set ℚ) 2 1 * kernel_entry id (fun x : ℚ => 1 / ((1 - x) * (1 - x))) (⟨1, fun _ i => (i : ℚ)⟩ : point_set ℚ) (⟨1, fun _ j => 10 + 3 * (j : ℚ)⟩ : point_set ℚ) 2 1)) ∧
    (kernel_entry id (fun x : ℚ => 1 / ((1 - x) * (1 - x))) (⟨1, fun _ i => (i : ℚ)⟩ : point_set ℚ) (⟨1, fun _ j => 10 + 3 * (j : ℚ)⟩ : point_set ℚ) 3 1 ≠ kernel_entry id (fun x : ℚ => 1 / ((1 - x) * (1 - x))) (⟨1, fun _ i => (i : ℚ)⟩ : point_set ℚ) (⟨1, fun _ j => 10 + 3 * (j : ℚ)⟩ : point_set ℚ) 2 1) ∧
    (kernel_entry id (fun x : ℚ => 1 / ((1 - x) * (1 - x))) (⟨1, fun _ i => (i : ℚ)⟩ : point_set ℚ) (⟨1, fun _ j => 10 + 3 * (j : ℚ)⟩ : point_set ℚ) 3 1 ≠ - kernel_entry id (fun x : ℚ => 1 / ((1 - x) * (1 - x))) (⟨1, fun _ i => (i : ℚ)⟩ : point_set ℚ) (⟨1, fun _ j => 10 + 3 * (j : ℚ)⟩ : point_set ℚ) 2 1) ∧
    ∃ (s : aca_state ℚ) (t : single_state ℚ),
      batched_aca_factors id (fun x : ℚ => 1 / ((1 - x) * (1 - x))) [⟨0, 0, 0, 0, WT_ACA⟩, ⟨2, 3, 1, 1, WT_ACA⟩] 1 (⟨1, fun _ i => (i : ℚ)⟩ : point_set ℚ) (⟨1, fun _ j => 10 + 3 * (j : ℚ)⟩ : point_set ℚ) 0 0 (fun _ => 0) (0 + 1) [1, 0] = some s ∧
      single_aca_factors id (fun x : ℚ => 1 / ((1 - x) * (1 - x))) ⟨2, 3, 1, 1, WT_ACA⟩ (⟨1, fun _ i => (i : ℚ)⟩ : point_set ℚ) (⟨1, fun _ j => 10 + 3 * (j : ℚ)⟩ : point_set ℚ) 0 0 1 (fun _ => 0) (0 + 1) = some t ∧
      rd (point_map_offsets [⟨0, 0, 0, 0, WT_ACA⟩, ⟨2, 3, 1, 1, WT_ACA⟩] 1) 1 = 1 ∧
      rd s.i_r 1 = t.i_r ∧
      (s.U.drop 1).take 2 = [kernel_entry id (fun x : ℚ => 1 / ((1 - x) * (1 - x))) (⟨1, fun _ i => (i : ℚ)⟩ : point_set ℚ) (⟨1, fun _ j => 10 + 3 * (j : ℚ)⟩ : point_set ℚ) 3 1, kernel_entry id (fun x : ℚ => 1 / ((1 - x) * (1 - x))) (⟨1, fun _ i => (i : ℚ)⟩ : point_set ℚ) (⟨1, fun _ j => 10 + 3 * (j : ℚ)⟩ : point_set ℚ) 3 1] ∧
      t.U = [kernel_entry id (fun x : ℚ => 1 / ((1 - x) * (1 - x))) (⟨1, fun _ i => (i : ℚ)⟩ : point_set ℚ) (⟨1, fun _ j => 10 + 3 * (j : ℚ)⟩ : point_set ℚ) 2 1, kernel_entry id (fun x : ℚ => 1 / ((1 - x) * (1 - x))) (⟨1, fun _ i => (i : ℚ)⟩ : point_set ℚ) (⟨1, fun _ j => 10 + 3 * (j : ℚ)⟩ : point_set ℚ) 3 1] ∧
      rd s.U 1 ≠ rd t.U 0 ∧ rd s.U 1 ≠ - rd t.U 0 :=
  have hA : update_ir_threshold ℚ ≤ abs (id (
      kernel_entry id (fun x : ℚ => 1 / ((1 - x) * (1 - x))) (⟨1, fun _ i => (i : ℚ)⟩ : point_set ℚ) (⟨1, fun _ j => 10 + 3 * (j : ℚ)⟩ : point_set ℚ) 0 0 * kernel_entry id (fun x : ℚ => 1 / ((1 - x) * (1 - x))) (⟨1, fun _ i => (i : ℚ)⟩ : point_set ℚ) (⟨1, fun _ j => 10 + 3 * (j : ℚ)⟩ : point_set ℚ) 0 0)) := by
    simp [kernel_entry, kernel, distance, update_ir_threshold, List.range_succ]
    norm_num [abs_of_pos]
  have hB : update_ir_threshold ℚ ≤ abs (id (
      kernel_entry id (fun x : ℚ => 1 / ((1 - x) * (1 - x))) (⟨1, fun _ i => (i : ℚ)⟩ : point_set ℚ) (⟨1, fun _ j => 10 + 3 * (j : ℚ)⟩ : point_set ℚ) 3 1 * kernel_entry id (fun x : ℚ => 1 / ((1 - x) * (1 - x))) (⟨1, fun _ i => (i : ℚ)⟩ : point_set ℚ) (⟨1, fun _ j => 10 + 3 * (j : ℚ)⟩ : point_set ℚ) 3 1)) := by
    simp [kernel_entry, kernel, distance, update_ir_threshold, List.range_succ]
    norm_num [abs_of_pos]
  have hC : single_block_threshold ℚ ≤ id (
      kernel_entry id (fun x : ℚ => 1 / ((1 - x) * (1 - x))) (⟨1, fun _ i => (i : ℚ)⟩ : point_set ℚ) (⟨1, fun _ j => 10 + 3 * (j : ℚ)⟩ : point_set ℚ) 2 1 * kernel_entry id (fun x : ℚ => 1 / ((1 - x) * (1 - x))) (⟨1, fun _ i => (i : ℚ)⟩ : point_set ℚ) (⟨1, fun _ j => 10 + 3 * (j : ℚ)⟩ : point_set ℚ) 2 1) := by
    simp [kernel_entry, kernel, distance, single_block_threshold, List.range_succ]
    norm_num
  have hne : kernel_entry id (fun x : ℚ => 1 / ((1 - x) * (1 - x))) (⟨1, fun _ i => (i : ℚ)⟩ : point_set ℚ) (⟨1, fun _ j => 10 + 3 * (j : ℚ)⟩ : point_set ℚ) 3 1 ≠ kernel_entry id (fun x : ℚ => 1 / ((1 - x) * (1 - x))) (⟨1, fun _ i => (i : ℚ)⟩ : point_set ℚ) (⟨1, fun _ j => 10 + 3 * (j : ℚ)⟩ : point_set ℚ) 2 1 := by
    simp [kernel_entry, kernel, distance, List.range_succ]
    norm_num
  have hneg : kernel_entry id (fun x : ℚ => 1 / ((1 - x) * (1 - x))) (⟨1, fun _ i => (i : ℚ)⟩ : point_set ℚ) (⟨1, fun _ j => 10 + 3 * (j : ℚ)⟩ : point_set ℚ) 3 1 ≠ - kernel_entry id (fun x : ℚ => 1 / ((1 - x) * (1 - x))) (⟨1, fun _ i => (i : ℚ)⟩ : point_set ℚ) (⟨1, fun _ j => 10 + 3 * (j : ℚ)⟩ : point_set ℚ) 2 1 := by
    simp [kernel_entry, kernel, distance, List.range_succ]
    norm_num
  ⟨Or.inr rfl, hA, hB, hC, hne, hneg,
    batched_factors_differ_from_single_block id (fun x : ℚ => 1 / ((1 - x) * (1 - x))) 1 (fun _ i => (i : ℚ))
      (fun _ j => 10 + 3 * (j : ℚ)) 0 0 (fun _ => 0) 0 [1, 0] (Or.inr rfl) hA hB hC hne hneg⟩

/-! ### C14: exit of the row-pivot search -/

theorem foldl_max_eq_self (xs : List Int) (a : Int) (h : ∀ x ∈ xs, x ≤ a) :
    xs.foldl (fun a b => max a b) a = a := by
  induction xs with
  | nil => rfl
  | cons x xs ih =>
    have hx : x ≤ a := h x (List.mem_cons_self x xs)
    rw [List.foldl_cons, max_eq_left hx]
    exact ih (fun y hy => h y (List.mem_cons_of_mem x hy))

theorem rd_mem_or_zero {α : Type} [Zero α] (a : List α) (w : Int) : rd a w ∈ a ∨ rd a w = 0 := by
  by_cases h : 0 ≤ w ∧ w.toNat < a.length
  · left
    have : rd a w = a[w.toNat] := by
      simp [rd, h.1, List.getD_eq_getElem?_getD, List.getElem?_eq_getElem h.2]
    rw [this]
    exact List.getElem_mem h.2
  · right
    exact rd_eq_zero_of_not_lt a w h

theorem mem_eq_rd {α : Type} [Zero α] (a : List α) (x : α) (h : x ∈ a) :
    ∃ i : Nat, i < a.length ∧ rd a (i : Int) = x := by
  obtain ⟨i, hi, he⟩ := List.getElem_of_mem h
  refine ⟨i, hi, ?_⟩
  rw [rd_natCast, List.getD_eq_getElem?_getD, List.getElem?_eq_getElem hi]
  simpa using he

theorem search_exit_iff {R : Type} (st : search_state R)
    (hflags : ∀ x ∈ st.compute_v_r, x = 0 ∨ x = 1) :
    search_exit st = true ↔ ∀ b : Int, rd st.compute_v_r b = 0 := by
  unfold search_exit
  rw [beq_iff_eq]
  constructor
  · intro h b
    have h1 := rd_le_reduce_maximum st.compute_v_r b
    rcases rd_mem_or_zero st.compute_v_r b with hm | hz
    · rcases hflags _ hm with h0 | h1x
      · exact h0
      · omega
    · exact hz
  · intro h
    unfold reduce_maximum
    apply foldl_max_eq_self
    intro x hx
    obtain ⟨i, _, he⟩ := mem_eq_rd _ x hx
    rw [← he, h]

theorem search_round_compute_v_r_eq {R : Type} [LinearOrderedField R] (sqrt exp : R → R)
    (mat_vec_data : List work_item) (k : Int) (input_set1 input_set2 : point_set R)
    (V U : List R) (r : Int) (st : search_state R) :
    (search_round sqrt exp mat_vec_data k input_set1 input_set2 V U r st).compute_v_r
      = (List.range
          (search_round sqrt exp mat_vec_data k input_set1 input_set2 V U r st).keys_output.length).foldl
        (update_ir_thread
          (search_round sqrt exp mat_vec_data k input_set1 input_set2 V U r st).keys_output
          (search_round sqrt exp mat_vec_data k input_set1 input_set2 V U r st).v_r_norms)
        st.compute_v_r := rfl

theorem search_round_flag_cases {R : Type} [LinearOrderedField R] (sqrt exp : R → R)
    (mat_vec_data : List work_item) (k : Int) (input_set1 input_set2 : point_set R)
    (V U : List R) (r : Int) (st : search_state R) (w : Int) :
    (rd (search_round sqrt exp mat_vec_data k input_set1 input_set2 V U r st).compute_v_r w = 0 ∧
      (rd st.compute_v_r w = 0 ∨
        ∃ idx : Nat,
          idx < (search_round sqrt exp mat_vec_data k input_set1 input_set2 V U r
            st).keys_output.length ∧
          rd (search_round sqrt exp mat_vec_data k input_set1 input_set2 V U r st).keys_output
            (idx : Int) = w ∧
          update_ir_threshold R ≤ abs (rd (search_round sqrt exp mat_vec_data k input_set1
            input_set2 V U r st).v_r_norms (idx : Int)))) ∨
    (rd (search_round sqrt exp mat_vec_data k input_set1 input_set2 V U r st).compute_v_r w
        = rd st.compute_v_r w ∧ rd st.compute_v_r w ≠ 0) := by
  rw [search_round_compute_v_r_eq]
  generalize (search_round sqrt exp mat_vec_data k input_set1 input_set2 V U r st).keys_output
    = keys
  generalize (search_round sqrt exp mat_vec_data k input_set1 input_set2 V U r st).v_r_norms
    = vals
  obtain ⟨hA, hB, _⟩ := update_ir_fold keys vals st.compute_v_r keys.length w
  by_cases hex : ∃ idx : Nat, idx < keys.length ∧ rd keys (idx : Int) = w
      ∧ update_ir_threshold R ≤ abs (rd vals (idx : Int))
  · exact Or.inl ⟨hA hex, Or.inr hex⟩
  · by_cases hz : rd st.compute_v_r w = 0
    · exact Or.inl ⟨by rw [hB hex]; exact hz, Or.inl hz⟩
    · exact Or.inr ⟨hB hex, hz⟩

theorem search_round_flags {R : Type} [LinearOrderedField R] (sqrt exp : R → R)
    (mat_vec_data : List work_item) (k : Int) (input_set1 input_set2 : point_set R)
    (V U : List R) (r : Int) (st : search_state R)
    (hflags : ∀ x ∈ st.compute_v_r, x = 0 ∨ x = 1) :
    ∀ x ∈ (search_round sqrt exp mat_vec_data k input_set1 input_set2 V U r st).compute_v_r,
      x = 0 ∨ x = 1 := by
  intro x hx
  obtain ⟨i, _, he⟩ := mem_eq_rd _ x hx
  rw [← he]
  rcases search_round_flag_cases sqrt exp mat_vec_data k input_set1 input_set2 V U r st
    (i : Int) with h | h
  · exact Or.inl h.1
  · rw [h.1]
    rcases rd_mem_or_zero st.compute_v_r (i : Int) with hm | hz
    · exact hflags _ hm
    · exact Or.inl hz

theorem search_round_keeps_accepted {R : Type} [LinearOrderedField R] (sqrt exp : R → R)
    (mat_vec_data : List work_item) (k : Int) (input_set1 input_set2 : point_set R)
    (V U : List R) (r : Int) (st : search_state R) (b : Int)
    (h : rd st.compute_v_r b = 0) :
    rd (search_round sqrt exp mat_vec_data k input_set1 input_set2 V U r st).i_r b
      = rd st.i_r b ∧
    ∀ idx : Int, rd (work_item_maps mat_vec_data).2 idx = b →
      rd (search_round sqrt exp mat_vec_data k input_set1 input_set2 V U r st).v_r idx
        = rd st.v_r idx := by
  constructor
  · rw [search_round_i_r]
    by_cases hb : 0 ≤ b ∧ b.toNat < st.i_r.length
    · have hbb : ((b.toNat : Nat) : Int) = b := Int.toNat_of_nonneg hb.1
      have := rd_transform_if st.i_r st.compute_v_r add_one is_one b.toNat hb.2
      rw [hbb] at this
      rw [this, h]
      simp [is_one]
    · rw [rd_eq_zero_of_not_lt _ _ hb, rd_eq_zero_of_not_lt]
      simpa [transform_if] using hb
  · intro idx hidx
    show rd (batched_fill_kernel_vector_and_scaled_substraction_for_v_r sqrt exp st.v_r
      (point_maps mat_vec_data).2 (point_maps mat_vec_data).1 (point_map_offsets mat_vec_data 1)
      (work_item_maps mat_vec_data).2 (transform_if st.i_r st.compute_v_r add_one is_one)
      st.compute_v_r input_set2 input_set1 (block_total mat_vec_data 2)
      (block_total mat_vec_data 1) V U r (k_per_item mat_vec_data k)) idx = rd st.v_r idx
    unfold batched_fill_kernel_vector_and_scaled_substraction_for_v_r
    by_cases hi : 0 ≤ idx ∧ idx.toNat < st.v_r.length
    · have hii : ((idx.toNat : Nat) : Int) = idx := Int.toNat_of_nonneg hi.1
      rw [rd_mapIdx _ _ _ hi.1 (by omega), hii]
      unfold batched_fill_kernel_vector_and_scaled_substraction_for_v_r_thread
      simp only [hidx, h]
      simp
    · rw [rd_eq_zero_of_not_lt _ _ hi, rd_eq_zero_of_not_lt]
      simpa using hi


theorem search_loop_keeps_accepted {R : Type} [LinearOrderedField R] (sqrt exp : R → R)
    (mat_vec_data : List work_item) (k : Int) (input_set1 input_set2 : point_set R)
    (V U : List R) (r : Int) (b : Int) (fuel : Nat) :
    ∀ (st s : search_state R), search_loop sqrt exp mat_vec_data k input_set1 input_set2 V U r fuel st = some s → rd st.compute_v_r b = 0 →
      rd s.i_r b = rd st.i_r b ∧
      ∀ idx : Int, rd (work_item_maps mat_vec_data).2 idx = b → rd s.v_r idx = rd st.v_r idx := by
  induction fuel with
  | zero =>
    intro st s h
    simp [search_loop] at h
  | succ fuel ih =>
    intro st s h hz
    have hk := search_round_keeps_accepted sqrt exp mat_vec_data k input_set1 input_set2 V U r
      st b hz
    simp only [search_loop] at h
    split_ifs at h with hexit
    · have hs : s = (search_round sqrt exp mat_vec_data k input_set1 input_set2 V U r) st := (Option.some.inj h).symm
      rw [hs]
      exact hk
    · have hz1 := search_round_compute_v_r sqrt exp mat_vec_data k input_set1 input_set2 V U r
        st b hz
      obtain ⟨h1, h2⟩ := ih ((search_round sqrt exp mat_vec_data k input_set1 input_set2 V U r) st) s h hz1
      refine ⟨h1.trans hk.1, fun idx hidx => ?_⟩
      rw [h2 idx hidx, hk.2 idx hidx]

theorem search_loop_exit {R : Type} [LinearOrderedField R] (sqrt exp : R → R)
    (mat_vec_data : List work_item) (k : Int) (input_set1 input_set2 : point_set R)
    (V U : List R) (r : Int) (fuel : Nat) :
    ∀ (st s : search_state R), (∀ x ∈ st.compute_v_r, x = 0 ∨ x = 1) →
      search_loop sqrt exp mat_vec_data k input_set1 input_set2 V U r fuel st = some s →
      (∀ b : Int, rd s.compute_v_r b = 0) ∧
      ∀ b : Int, rd st.compute_v_r b = 1 →
        ∃ n : Nat,
          rd (((search_round sqrt exp mat_vec_data k input_set1 input_set2 V U r))^[n] st).compute_v_r b = 1 ∧
          (∃ idx : Nat, idx < (((search_round sqrt exp mat_vec_data k input_set1 input_set2 V U r))^[n + 1] st).keys_output.length ∧
            rd (((search_round sqrt exp mat_vec_data k input_set1 input_set2 V U r))^[n + 1] st).keys_output (idx : Int) = b ∧
            update_ir_threshold R ≤ abs (rd (((search_round sqrt exp mat_vec_data k input_set1 input_set2 V U r))^[n + 1] st).v_r_norms (idx : Int))) ∧
          rd s.i_r b = rd (((search_round sqrt exp mat_vec_data k input_set1 input_set2 V U r))^[n + 1] st).i_r b ∧
          ∀ idx : Int, rd (work_item_maps mat_vec_data).2 idx = b →
            rd s.v_r idx = rd (((search_round sqrt exp mat_vec_data k input_set1 input_set2 V U r))^[n + 1] st).v_r idx := by
  induction fuel with
  | zero =>
    intro st s _ h
    simp [search_loop] at h
  | succ fuel ih =>
    intro st s hflags h
    have hflags1 := search_round_flags sqrt exp mat_vec_data k input_set1 input_set2 V U r st
      hflags
    simp only [search_loop] at h
    split_ifs at h with hexit
    · have hs : s = (search_round sqrt exp mat_vec_data k input_set1 input_set2 V U r) st := (Option.some.inj h).symm
      have hall := (search_exit_iff _ hflags1).1 hexit
      rw [hs]
      refine ⟨hall, fun b hb => ⟨0, hb, ?_, rfl, fun _ _ => rfl⟩⟩
      rcases search_round_flag_cases sqrt exp mat_vec_data k input_set1 input_set2 V U r st b
        with hc | hc
      · rcases hc.2 with h0 | hex
        · rw [hb] at h0
          exact absurd h0 (by decide)
        · exact hex
      · rw [hall b] at hc
        exact absurd hc.1.symm hc.2
    · obtain ⟨hall, hacc⟩ := ih ((search_round sqrt exp mat_vec_data k input_set1 input_set2 V U r) st) s hflags1 h
      refine ⟨hall, fun b hb => ?_⟩
      rcases search_round_flag_cases sqrt exp mat_vec_data k input_set1 input_set2 V U r st b
        with hc | hc
      · rcases hc.2 with h0 | hex
        · rw [hb] at h0
          exact absurd h0 (by decide)
        · have hk := search_loop_keeps_accepted sqrt exp mat_vec_data k input_set1 input_set2
            V U r b fuel ((search_round sqrt exp mat_vec_data k input_set1 input_set2 V U r) st) s h hc.1
          exact ⟨0, hb, hex, hk.1, hk.2⟩
      · obtain ⟨n, h1, h2, h3, h4⟩ := hacc b (by rw [hc.1]; exact hb)
        exact ⟨n + 1, h1, h2, h3, h4⟩

theorem init_compute_v_r_flags (mat_vec_data : List work_item) (k : Int) (r : Int) :
    ∀ x ∈ init_compute_v_r mat_vec_data (k_per_item mat_vec_data k) r, x = 0 ∨ x = 1 := by
  intro x hx
  obtain ⟨i, hi, he⟩ := mem_eq_rd _ x hx
  have hlen : (init_compute_v_r mat_vec_data (k_per_item mat_vec_data k) r).length
      = mat_vec_data.length := by
    simp [init_compute_v_r, replace_if_length, fill]
  rw [hlen] at hi
  rw [← he, rd_init_compute_v_r mat_vec_data k r i hi]
  split_ifs
  · exact Or.inr rfl
  · exact Or.inl rfl

/-- C14: exit condition of the row-pivot search.  The flags `compute_v_r` are
`0` or `1` at the start of a rank iteration and stay so in every round.  After
a round the exit test `max_of_compute_v_r == 0` holds if and only if
`compute_v_r[b] = 0` for every `b`, and the loop returns the state of that
round when the test holds and runs the next round otherwise.  When the loop
has left with state `s`, every flag is `0`, and every block `b` whose flag was
`1` at the start was flagged before some round that ended with an entry of key
`b` and norm of absolute value at least the threshold, and `s` still holds the
pivot `i_r[b]` and the row entries `v_r[idx]` (for `work_item_map2[idx] = b`)
of that round. -/
theorem search_exit_condition {R : Type} [LinearOrderedField R] (sqrt exp : R → R)
    (mat_vec_data : List work_item) (k : Int) (input_set1 input_set2 : point_set R)
    (V U : List R) (r : Int) (st : search_state R)
    (hflags : ∀ x ∈ st.compute_v_r, x = 0 ∨ x = 1) :
    (∀ x ∈ init_compute_v_r mat_vec_data (k_per_item mat_vec_data k) r, x = 0 ∨ x = 1) ∧
    (∀ x ∈ ((search_round sqrt exp mat_vec_data k input_set1 input_set2 V U r) st).compute_v_r, x = 0 ∨ x = 1) ∧
    (search_exit ((search_round sqrt exp mat_vec_data k input_set1 input_set2 V U r) st) = true ↔ ∀ b : Int, rd ((search_round sqrt exp mat_vec_data k input_set1 input_set2 V U r) st).compute_v_r b = 0) ∧
    (∀ fuel : Nat, search_loop sqrt exp mat_vec_data k input_set1 input_set2 V U r (fuel + 1) st =
      if search_exit ((search_round sqrt exp mat_vec_data k input_set1 input_set2 V U r) st) then some ((search_round sqrt exp mat_vec_data k input_set1 input_set2 V U r) st) else search_loop sqrt exp mat_vec_data k input_set1 input_set2 V U r fuel ((search_round sqrt exp mat_vec_data k input_set1 input_set2 V U r) st)) ∧
    (∀ (fuel : Nat) (s : search_state R), search_loop sqrt exp mat_vec_data k input_set1 input_set2 V U r fuel st = some s →
      (∀ b : Int, rd s.compute_v_r b = 0) ∧
      ∀ b : Int, rd st.compute_v_r b = 1 →
        ∃ n : Nat,
          rd (((search_round sqrt exp mat_vec_data k input_set1 input_set2 V U r))^[n] st).compute_v_r b = 1 ∧
          (∃ idx : Nat, idx < (((search_round sqrt exp mat_vec_data k input_set1 input_set2 V U r))^[n + 1] st).keys_output.length ∧
            rd (((search_round sqrt exp mat_vec_data k input_set1 input_set2 V U r))^[n + 1] st).keys_output (idx : Int) = b ∧
            update_ir_threshold R ≤ abs (rd (((search_round sqrt exp mat_vec_data k input_set1 input_set2 V U r))^[n + 1] st).v_r_norms (idx : Int))) ∧
          rd s.i_r b = rd (((search_round sqrt exp mat_vec_data k input_set1 input_set2 V U r))^[n + 1] st).i_r b ∧
          ∀ idx : Int, rd (work_item_maps mat_vec_data).2 idx = b →
            rd s.v_r idx = rd (((search_round sqrt exp mat_vec_data k input_set1 input_set2 V U r))^[n + 1] st).v_r idx) :=
  ⟨init_compute_v_r_flags mat_vec_data k r,
    search_round_flags sqrt exp mat_vec_data k input_set1 input_set2 V U r st hflags,
    search_exit_iff _
      (search_round_flags sqrt exp mat_vec_data k input_set1 input_set2 V U r st hflags),
    fun _ => rfl,
    fun fuel s h =>
      search_loop_exit sqrt exp mat_vec_data k input_set1 input_set2 V U r fuel st s hflags h⟩

/-- C14, instance: the batch of a `1 x 1` block and a `2 x 1` block at rank `0`,
both flagged; the loop leaves after the first round with both flags `0`. -/
theorem search_exit_condition_witness :
    (∀ x ∈ (⟨[-1, -1], [1, 1], [0, 0], [], []⟩ : search_state ℚ).compute_v_r, x = 0 ∨ x = 1) ∧
    search_loop id (fun x : ℚ => 1 / ((1 - x) * (1 - x))) [⟨0, 0, 0, 0, WT_ACA⟩, ⟨2, 3, 1, 1, WT_ACA⟩] 1 (⟨1, fun _ i => (i : ℚ)⟩ : point_set ℚ) (⟨1, fun _ j => 10 + 3 * (j : ℚ)⟩ : point_set ℚ) [0, 0] [0, 0, 0] 0 1 ⟨[-1, -1], [1, 1], [0, 0], [], []⟩
      = some ⟨[0, 0], [0, 0],
          [kernel_entry id (fun x : ℚ => 1 / ((1 - x) * (1 - x))) (⟨1, fun _ i => (i : ℚ)⟩ : point_set ℚ) (⟨1, fun _ j => 10 + 3 * (j : ℚ)⟩ : point_set ℚ) 0 0, kernel_entry id (fun x : ℚ => 1 / ((1 - x) * (1 - x))) (⟨1, fun _ i => (i : ℚ)⟩ : point_set ℚ) (⟨1, fun _ j => 10 + 3 * (j : ℚ)⟩ : point_set ℚ) 3 1], [0, 1],
          [id (kernel_entry id (fun x : ℚ => 1 / ((1 - x) * (1 - x))) (⟨1, fun _ i => (i : ℚ)⟩ : point_set ℚ) (⟨1, fun _ j => 10 + 3 * (j : ℚ)⟩ : point_set ℚ) 0 0 * kernel_entry id (fun x : ℚ => 1 / ((1 - x) * (1 - x))) (⟨1, fun _ i => (i : ℚ)⟩ : point_set ℚ) (⟨1, fun _ j => 10 + 3 * (j : ℚ)⟩ : point_set ℚ) 0 0),
           id (kernel_entry id (fun x : ℚ => 1 / ((1 - x) * (1 - x))) (⟨1, fun _ i => (i : ℚ)⟩ : point_set ℚ) (⟨1, fun _ j => 10 + 3 * (j : ℚ)⟩ : point_set ℚ) 3 1 * kernel_entry id (fun x : ℚ => 1 / ((1 - x) * (1 - x))) (⟨1, fun _ i => (i : ℚ)⟩ : point_set ℚ) (⟨1, fun _ j => 10 + 3 * (j : ℚ)⟩ : point_set ℚ) 3 1)]⟩ ∧
    (∀ b : Int, rd (⟨[0, 0], [0, 0],
          [kernel_entry id (fun x : ℚ => 1 / ((1 - x) * (1 - x))) (⟨1, fun _ i => (i : ℚ)⟩ : point_set ℚ) (⟨1, fun _ j => 10 + 3 * (j : ℚ)⟩ : point_set ℚ) 0 0, kernel_entry id (fun x : ℚ => 1 / ((1 - x) * (1 - x))) (⟨1, fun _ i => (i : ℚ)⟩ : point_set ℚ) (⟨1, fun _ j => 10 + 3 * (j : ℚ)⟩ : point_set ℚ) 3 1], [0, 1],
          [id (kernel_entry id (fun x : ℚ => 1 / ((1 - x) * (1 - x))) (⟨1, fun _ i => (i : ℚ)⟩ : point_set ℚ) (⟨1, fun _ j => 10 + 3 * (j : ℚ)⟩ : point_set ℚ) 0 0 * kernel_entry id (fun x : ℚ => 1 / ((1 - x) * (1 - x))) (⟨1, fun _ i => (i : ℚ)⟩ : point_set ℚ) (⟨1, fun _ j => 10 + 3 * (j : ℚ)⟩ : point_set ℚ) 0 0),
           id (kernel_entry id (fun x : ℚ => 1 / ((1 - x) * (1 - x))) (⟨1, fun _ i => (i : ℚ)⟩ : point_set ℚ) (⟨1, fun _ j => 10 + 3 * (j : ℚ)⟩ : point_set ℚ) 3 1 * kernel_entry id (fun x : ℚ => 1 / ((1 - x) * (1 - x))) (⟨1, fun _ i => (i : ℚ)⟩ : point_set ℚ) (⟨1, fun _ j => 10 + 3 * (j : ℚ)⟩ : point_set ℚ) 3 1)]⟩ :
        search_state ℚ).compute_v_r b = 0) :=
  have hA : update_ir_threshold ℚ ≤ abs (id (
      kernel_entry id (fun x : ℚ => 1 / ((1 - x) * (1 - x))) (⟨1, fun _ i => (i : ℚ)⟩ : point_set ℚ) (⟨1, fun _ j => 10 + 3 * (j : ℚ)⟩ : point_set ℚ) 0 0 * kernel_entry id (fun x : ℚ => 1 / ((1 - x) * (1 - x))) (⟨1, fun _ i => (i : ℚ)⟩ : point_set ℚ) (⟨1, fun _ j => 10 + 3 * (j : ℚ)⟩ : point_set ℚ) 0 0)) := by
    simp [kernel_entry, kernel, distance, update_ir_threshold, List.range_succ]
    norm_num [abs_of_pos]
  have hB : update_ir_threshold ℚ ≤ abs (id (
      kernel_entry id (fun x : ℚ => 1 / ((1 - x) * (1 - x))) (⟨1, fun _ i => (i : ℚ)⟩ : point_set ℚ) (⟨1, fun _ j => 10 + 3 * (j : ℚ)⟩ : point_set ℚ) 3 1 * kernel_entry id (fun x : ℚ => 1 / ((1 - x) * (1 - x))) (⟨1, fun _ i => (i : ℚ)⟩ : point_set ℚ) (⟨1, fun _ j => 10 + 3 * (j : ℚ)⟩ : point_set ℚ) 3 1)) := by
    simp [kernel_entry, kernel, distance, update_ir_threshold, List.range_succ]
    norm_num [abs_of_pos]
  have hloop : search_loop id (fun x : ℚ => 1 / ((1 - x) * (1 - x))) [⟨0, 0, 0, 0, WT_ACA⟩, ⟨2, 3, 1, 1, WT_ACA⟩] 1 (⟨1, fun _ i => (i : ℚ)⟩ : point_set ℚ) (⟨1, fun _ j => 10 + 3 * (j : ℚ)⟩ : point_set ℚ) [0, 0] [0, 0, 0] 0 1
      ⟨[-1, -1], [1, 1], [0, 0], [], []⟩
      = some ⟨[0, 0], [0, 0],
          [kernel_entry id (fun x : ℚ => 1 / ((1 - x) * (1 - x))) (⟨1, fun _ i => (i : ℚ)⟩ : point_set ℚ) (⟨1, fun _ j => 10 + 3 * (j : ℚ)⟩ : point_set ℚ) 0 0, kernel_entry id (fun x : ℚ => 1 / ((1 - x) * (1 - x))) (⟨1, fun _ i => (i : ℚ)⟩ : point_set ℚ) (⟨1, fun _ j => 10 + 3 * (j : ℚ)⟩ : point_set ℚ) 3 1], [0, 1],
          [id (kernel_entry id (fun x : ℚ => 1 / ((1 - x) * (1 - x))) (⟨1, fun _ i => (i : ℚ)⟩ : point_set ℚ) (⟨1, fun _ j => 10 + 3 * (j : ℚ)⟩ : point_set ℚ) 0 0 * kernel_entry id (fun x : ℚ => 1 / ((1 - x) * (1 - x))) (⟨1, fun _ i => (i : ℚ)⟩ : point_set ℚ) (⟨1, fun _ j => 10 + 3 * (j : ℚ)⟩ : point_set ℚ) 0 0),
           id (kernel_entry id (fun x : ℚ => 1 / ((1 - x) * (1 - x))) (⟨1, fun _ i => (i : ℚ)⟩ : point_set ℚ) (⟨1, fun _ j => 10 + 3 * (j : ℚ)⟩ : point_set ℚ) 3 1 * kernel_entry id (fun x : ℚ => 1 / ((1 - x) * (1 - x))) (⟨1, fun _ i => (i : ℚ)⟩ : point_set ℚ) (⟨1, fun _ j => 10 + 3 * (j : ℚ)⟩ : point_set ℚ) 3 1)]⟩ := by
    simp only [search_loop, search_round_behind_single_row_block id (fun x : ℚ => 1 / ((1 - x) * (1 - x))) 1 (fun _ i => (i : ℚ))
      (fun _ j => 10 + 3 * (j : ℚ)) [0, 0] [0, 0, 0] 0 0 [] [] hA hB]
    rfl
  ⟨by decide, hloop,
    ((search_exit_condition id (fun x : ℚ => 1 / ((1 - x) * (1 - x))) [⟨0, 0, 0, 0, WT_ACA⟩, ⟨2, 3, 1, 1, WT_ACA⟩] 1 (⟨1, fun _ i => (i : ℚ)⟩ : point_set ℚ) (⟨1, fun _ j => 10 + 3 * (j : ℚ)⟩ : point_set ℚ) [0, 0] [0, 0, 0] 0
      ⟨[-1, -1], [1, 1], [0, 0], [], []⟩ (by decide)).2.2.2.2 1 _ hloop).1⟩

/-! ### C16: the stopping criterion of the batched engine -/

theorem search_round_two_by_two_rank0 {R : Type} [LinearOrderedField R]
    (sqrt exp : R → R) (dim : Nat) (c1 c2 : Nat → Int → R) (V U : List R) (x y : R)
    (ks : List Int) (ns : List R)
    (h0 : update_ir_threshold R ≤ abs (sqrt (kernel_entry sqrt exp ⟨dim, c1⟩ ⟨dim, c2⟩ 0 0 * kernel_entry sqrt exp ⟨dim, c1⟩ ⟨dim, c2⟩ 0 0 + kernel_entry sqrt exp ⟨dim, c1⟩ ⟨dim, c2⟩ 0 1 * kernel_entry sqrt exp ⟨dim, c1⟩ ⟨dim, c2⟩ 0 1))) :
    search_round sqrt exp [⟨0, 1, 0, 1, WT_ACA⟩] 2 ⟨dim, c1⟩ ⟨dim, c2⟩ V U 0 ⟨[-1], [1], [x, y], ks, ns⟩
      = ⟨[0], [0], [kernel_entry sqrt exp ⟨dim, c1⟩ ⟨dim, c2⟩ 0 0, kernel_entry sqrt exp ⟨dim, c1⟩ ⟨dim, c2⟩ 0 1], [0], [sqrt (kernel_entry sqrt exp ⟨dim, c1⟩ ⟨dim, c2⟩ 0 0 * kernel_entry sqrt exp ⟨dim, c1⟩ ⟨dim, c2⟩ 0 0 + kernel_entry sqrt exp ⟨dim, c1⟩ ⟨dim, c2⟩ 0 1 * kernel_entry sqrt exp ⟨dim, c1⟩ ⟨dim, c2⟩ 0 1)]⟩ := by
  show update_ir ⟨[0], [1], [kernel_entry sqrt exp ⟨dim, c1⟩ ⟨dim, c2⟩ 0 0, kernel_entry sqrt exp ⟨dim, c1⟩ ⟨dim, c2⟩ 0 1], [0], [sqrt (kernel_entry sqrt exp ⟨dim, c1⟩ ⟨dim, c2⟩ 0 0 * kernel_entry sqrt exp ⟨dim, c1⟩ ⟨dim, c2⟩ 0 0 + kernel_entry sqrt exp ⟨dim, c1⟩ ⟨dim, c2⟩ 0 1 * kernel_entry sqrt exp ⟨dim, c1⟩ ⟨dim, c2⟩ 0 1)]⟩ 1 = _
  simp only [update_ir, List.range_succ, List.range_zero, List.nil_append, List.cons_append,
    List.foldl_cons, List.foldl_nil, update_ir_thread]
  simp [rd, wr, h0]

theorem rank_iteration_two_by_two_rank0 {R : Type} [LinearOrderedField R]
    (sqrt exp : R → R) (dim : Nat) (c1 c2 : Nat → Int → R) (eta epsilon : R)
    (content : Nat → R) (fuel : Nat)
    (h0 : update_ir_threshold R ≤ abs (sqrt (kernel_entry sqrt exp ⟨dim, c1⟩ ⟨dim, c2⟩ 0 0 * kernel_entry sqrt exp ⟨dim, c1⟩ ⟨dim, c2⟩ 0 0 + kernel_entry sqrt exp ⟨dim, c1⟩ ⟨dim, c2⟩ 0 1 * kernel_entry sqrt exp ⟨dim, c1⟩ ⟨dim, c2⟩ 0 1)))
    (hp0 : abs (kernel_entry sqrt exp ⟨dim, c1⟩ ⟨dim, c2⟩ 0 0) > abs (kernel_entry sqrt exp ⟨dim, c1⟩ ⟨dim, c2⟩ 0 1)) :
    rank_iteration sqrt exp [⟨0, 1, 0, 1, WT_ACA⟩] 2 ⟨dim, c1⟩ ⟨dim, c2⟩ eta epsilon content (fuel + 1) [1, 0] 0
        ⟨[0, 0, 0, 0], [0, 0, 0, 0], [-1], [false]⟩
      = some (⟨[kernel_entry sqrt exp ⟨dim, c1⟩ ⟨dim, c2⟩ 0 0, kernel_entry sqrt exp ⟨dim, c1⟩ ⟨dim, c2⟩ 1 0, 0, 0], [kernel_entry sqrt exp ⟨dim, c1⟩ ⟨dim, c2⟩ 0 0 / kernel_entry sqrt exp ⟨dim, c1⟩ ⟨dim, c2⟩ 0 0, kernel_entry sqrt exp ⟨dim, c1⟩ ⟨dim, c2⟩ 0 1 / kernel_entry sqrt exp ⟨dim, c1⟩ ⟨dim, c2⟩ 0 0, 0, 0], [0], [false]⟩, false) := by
  have hs := search_round_two_by_two_rank0 sqrt exp dim c1 c2 [0, 0, 0, 0] [0, 0, 0, 0] 0 0 [] []
    h0
  have hsl : search_loop sqrt exp [⟨0, 1, 0, 1, WT_ACA⟩] 2 ⟨dim, c1⟩ ⟨dim, c2⟩ [0, 0, 0, 0] [0, 0, 0, 0]
      ((0 : Nat) : Int) (fuel + 1)
      ⟨[-1], init_compute_v_r [⟨0, 1, 0, 1, WT_ACA⟩] (k_per_item [⟨0, 1, 0, 1, WT_ACA⟩] 2) ((0 : Nat) : Int),
        get_row [0, 0, 0, 0] 0 (block_total [⟨0, 1, 0, 1, WT_ACA⟩] 2), [], []⟩
      = some ⟨[0], [0], [kernel_entry sqrt exp ⟨dim, c1⟩ ⟨dim, c2⟩ 0 0, kernel_entry sqrt exp ⟨dim, c1⟩ ⟨dim, c2⟩ 0 1], [0], [sqrt (kernel_entry sqrt exp ⟨dim, c1⟩ ⟨dim, c2⟩ 0 0 * kernel_entry sqrt exp ⟨dim, c1⟩ ⟨dim, c2⟩ 0 0 + kernel_entry sqrt exp ⟨dim, c1⟩ ⟨dim, c2⟩ 0 1 * kernel_entry sqrt exp ⟨dim, c1⟩ ⟨dim, c2⟩ 0 1)]⟩ := by
    show search_loop sqrt exp [⟨0, 1, 0, 1, WT_ACA⟩] 2 ⟨dim, c1⟩ ⟨dim, c2⟩ [0, 0, 0, 0] [0, 0, 0, 0] 0 (fuel + 1)
      ⟨[-1], [1], [0, 0], [], []⟩ = _
    simp only [search_loop, hs]
    rfl
  simp only [rank_iteration]
  rw [hsl]
  have hj : j_r_global (work_item_maps [⟨0, 1, 0, 1, WT_ACA⟩]).2 [kernel_entry sqrt exp ⟨dim, c1⟩ ⟨dim, c2⟩ 0 0, kernel_entry sqrt exp ⟨dim, c1⟩ ⟨dim, c2⟩ 0 1] (block_total [⟨0, 1, 0, 1, WT_ACA⟩] 2) = [0] := by
    show (reduce_by_key [(0 : Int), 0] [(kernel_entry sqrt exp ⟨dim, c1⟩ ⟨dim, c2⟩ 0 0, (0 : Int)), (kernel_entry sqrt exp ⟨dim, c1⟩ ⟨dim, c2⟩ 0 1, 1)]
      tuple_absolute_maximum).map (fun p => p.2.2) = [0]
    simp [reduce_by_key, reduce_by_key_go, tuple_absolute_maximum, hp0]
  simp only [hj]
  rfl


theorem rank_iteration_no_stop {R : Type} [LinearOrderedField R] (sqrt exp : R → R)
    (mat_vec_data : List work_item) (k : Int) (input_set1 input_set2 : point_set R)
    (eta epsilon : R) (content : Nat → R) (fuel : Nat) (schedule : List Nat) (r : Nat)
    (st : aca_state R) (p : aca_state R × Bool) (h : rank_iteration sqrt exp mat_vec_data k input_set1 input_set2 eta epsilon content fuel schedule r st = some p) :
    p.2 = false ∧ p.1.stop_aca_as_soon_as_possible = st.stop_aca_as_soon_as_possible := by
  simp only [rank_iteration, check_frobenius, Bool.false_and] at h
  split at h
  · exact absurd h (by simp)
  · simp only [Bool.false_eq_true, if_false] at h
    have hp := (Option.some.inj h).symm
    rw [hp]
    exact ⟨rfl, rfl⟩

theorem rank_loop_succ {R : Type} [LinearOrderedField R] (sqrt exp : R → R)
    (mat_vec_data : List work_item) (k : Int) (input_set1 input_set2 : point_set R)
    (eta epsilon : R) (content : Nat → R) (fuel : Nat) (schedule : List Nat) (n r : Nat)
    (st : aca_state R) :
    rank_loop sqrt exp mat_vec_data k input_set1 input_set2 eta epsilon content fuel schedule (n + 1) r st = (rank_iteration sqrt exp mat_vec_data k input_set1 input_set2 eta epsilon content fuel schedule r st).bind (fun p => rank_loop sqrt exp mat_vec_data k input_set1 input_set2 eta epsilon content fuel schedule n (r + 1) p.1) := by
  simp only [rank_loop]
  cases h : rank_iteration sqrt exp mat_vec_data k input_set1 input_set2 eta epsilon content fuel schedule r st with
  | none => rfl
  | some p =>
    obtain ⟨st1, leave⟩ := p
    have hl : leave = false := (rank_iteration_no_stop sqrt exp mat_vec_data k input_set1
      input_set2 eta epsilon content fuel schedule r st (st1, leave) h).1
    subst hl
    rfl

theorem list_ext_rd {α : Type} [Zero α] (l1 l2 : List α) (h : l1.length = l2.length)
    (hr : ∀ c : Nat, c < l1.length → rd l1 (c : Int) = rd l2 (c : Int)) : l1 = l2 := by
  apply List.ext_getElem h
  intro c h1 h2
  have := hr c h1
  rw [rd_natCast, rd_natCast, List.getD_eq_getElem _ _ h1, List.getD_eq_getElem _ _ h2] at this
  exact this

theorem rd_drop_take {α : Type} [Zero α] (l : List α) (o n c : Nat) (hc : c < n) :
    rd ((l.drop o).take n) (c : Int) = rd l ((o + c : Nat) : Int) := by
  rw [rd_natCast, rd_natCast]
  simp [List.getD_eq_getElem?_getD, List.getElem?_take, hc]

theorem rd_append_left {α : Type} [Zero α] (l1 l2 : List α) (c : Nat) (hc : c < l1.length) :
    rd (l1 ++ l2) (c : Int) = rd l1 (c : Int) := by
  rw [rd_natCast, rd_natCast]
  simp [List.getD_eq_getElem?_getD, List.getElem?_append_left hc]

theorem rd_append_right {α : Type} [Zero α] (l1 l2 : List α) (c : Nat) :
    rd (l1 ++ l2) ((l1.length + c : Nat) : Int) = rd l2 (c : Int) := by
  rw [rd_natCast, rd_natCast]
  simp [List.getD_eq_getElem?_getD, List.getElem?_append_right]

theorem get_row_length {R : Type} (buf : List R) (r : Nat) (m : Int)
    (h : (r + 1) * m.toNat ≤ buf.length) : (get_row buf r m).length = m.toNat := by
  unfold get_row
  rw [List.length_take, List.length_drop]
  have : r * m.toNat + m.toNat ≤ buf.length := by
    have e : (r + 1) * m.toNat = r * m.toNat + m.toNat := by ring
    omega
  omega

theorem rd_get_row {R : Type} [Zero R] (buf : List R) (r : Nat) (m : Int) (c : Nat)
    (hc : c < m.toNat) :
    rd (get_row buf r m) (c : Int) = rd buf ((r * m.toNat + c : Nat) : Int) := by
  unfold get_row
  exact rd_drop_take buf _ _ c hc

theorem put_row_length {R : Type} (buf : List R) (r : Nat) (m : Int) (row : List R)
    (hrow : row.length = m.toNat) (h : (r + 1) * m.toNat ≤ buf.length) :
    (put_row buf r m row).length = buf.length := by
  unfold put_row
  have e : (r + 1) * m.toNat = r * m.toNat + m.toNat := by ring
  simp only [List.length_append, List.length_take, List.length_drop, hrow]
  omega

theorem rd_put_row_same {R : Type} [Zero R] (buf : List R) (r : Nat) (m : Int) (row : List R)
    (hrow : row.length = m.toNat) (h : (r + 1) * m.toNat ≤ buf.length) (c : Nat)
    (hc : c < m.toNat) :
    rd (put_row buf r m row) ((r * m.toNat + c : Nat) : Int) = rd row (c : Int) := by
  unfold put_row
  have e : (r + 1) * m.toNat = r * m.toNat + m.toNat := by ring
  have hl : (buf.take (r * m.toNat)).length = r * m.toNat := by
    rw [List.length_take]; omega
  rw [List.append_assoc]
  have := rd_append_right (buf.take (r * m.toNat)) (row ++ buf.drop ((r + 1) * m.toNat)) c
  rw [hl] at this
  rw [this]
  exact rd_append_left _ _ c (by omega)

theorem rd_put_row_other {R : Type} [Zero R] (buf : List R) (r : Nat) (m : Int) (row : List R)
    (hrow : row.length = m.toNat) (h : (r + 1) * m.toNat ≤ buf.length) (l c : Nat)
    (hl : l ≠ r) (hc : c < m.toNat) :
    rd (put_row buf r m row) ((l * m.toNat + c : Nat) : Int)
      = rd buf ((l * m.toNat + c : Nat) : Int) := by
  unfold put_row
  have e : (r + 1) * m.toNat = r * m.toNat + m.toNat := by ring
  have hlen : (buf.take (r * m.toNat)).length = r * m.toNat := by
    rw [List.length_take]; omega
  rw [rd_natCast, rd_natCast]
  rcases Nat.lt_or_gt_of_ne hl with hlt | hgt
  · have h1 : l * m.toNat + c < r * m.toNat := by
      have : (l + 1) * m.toNat ≤ r * m.toNat := Nat.mul_le_mul_right _ hlt
      have e2 : (l + 1) * m.toNat = l * m.toNat + m.toNat := by ring
      omega
    simp only [List.getD_eq_getElem?_getD]
    rw [List.append_assoc, List.getElem?_append_left (by omega), List.getElem?_take_of_lt h1]
  · have h1 : (r + 1) * m.toNat ≤ l * m.toNat := Nat.mul_le_mul_right _ hgt
    have h2 : r * m.toNat + m.toNat ≤ l * m.toNat + c := by omega
    have h3 : (buf.take (r * m.toNat) ++ row).length = r * m.toNat + m.toNat := by
      rw [List.length_append, hlen, hrow]
    simp only [List.getD_eq_getElem?_getD]
    rw [List.getElem?_append_right (by omega), h3, List.getElem?_drop]
    congr 2
    omega

/-! ### Segmented reduction over grouped keys -/

theorem reduce_by_key_go_run {κ α : Type} [DecidableEq κ] (op : α → α → α) (k : κ) (acc : α)
    (l : List (κ × α)) (h : ∀ p ∈ l, p.1 = k) :
    reduce_by_key_go op k acc l = [(k, (l.map Prod.snd).foldl op acc)] := by
  induction l generalizing acc with
  | nil => rfl
  | cons p t ih =>
    obtain ⟨k1, v1⟩ := p
    have hk : k = k1 := (h (k1, v1) (List.mem_cons_self _ _)).symm
    simp only [reduce_by_key_go, hk, if_true, List.map_cons, List.foldl_cons]
    rw [← hk]
    exact ih _ (fun p hp => h p (List.mem_cons_of_mem _ hp))

theorem reduce_by_key_go_append {κ α : Type} [DecidableEq κ] (op : α → α → α) (k : κ) (acc : α)
    (l1 : List (κ × α)) (k2 : κ) (v2 : α) (l2 : List (κ × α)) (hk : k ≠ k2)
    (h1 : ∀ p ∈ l1, p.1 ≠ k2) :
    reduce_by_key_go op k acc (l1 ++ (k2, v2) :: l2)
      = reduce_by_key_go op k acc l1 ++ reduce_by_key_go op k2 v2 l2 := by
  induction l1 generalizing k acc with
  | nil => simp [reduce_by_key_go, hk]
  | cons p t ih =>
    obtain ⟨k1, v1⟩ := p
    have hk1 : k1 ≠ k2 := h1 (k1, v1) (List.mem_cons_self _ _)
    have ht : ∀ p ∈ t, p.1 ≠ k2 := fun p hp => h1 p (List.mem_cons_of_mem _ hp)
    simp only [List.cons_append, reduce_by_key_go]
    split
    · exact ih k _ hk ht
    · show (k, acc) :: reduce_by_key_go op k1 v1 (t ++ (k2, v2) :: l2) = _
      rw [ih k1 _ hk1 ht]
      rfl

theorem reduce_by_key_go_keys {κ α : Type} [DecidableEq κ] (op : α → α → α) (k : κ) (acc : α)
    (l : List (κ × α)) :
    ∀ p ∈ reduce_by_key_go op k acc l, p.1 = k ∨ ∃ q ∈ l, q.1 = p.1 := by
  induction l generalizing k acc with
  | nil =>
    intro p hp
    simp only [reduce_by_key_go, List.mem_singleton] at hp
    exact Or.inl (by rw [hp])
  | cons q t ih =>
    obtain ⟨k1, v1⟩ := q
    intro p hp
    simp only [reduce_by_key_go] at hp
    split at hp
    · rcases ih k _ p hp with h | ⟨q, hq, he⟩
      · exact Or.inl h
      · exact Or.inr ⟨q, List.mem_cons_of_mem _ hq, he⟩
    · rcases List.mem_cons.1 hp with h | h
      · exact Or.inl (by rw [h])
      · rcases ih k1 _ p h with h | ⟨q, hq, he⟩
        · exact Or.inr ⟨(k1, v1), List.mem_cons_self _ _, h.symm⟩
        · exact Or.inr ⟨q, List.mem_cons_of_mem _ hq, he⟩

theorem reduce_by_key_keys {κ α : Type} [DecidableEq κ] (op : α → α → α) (keys : List κ)
    (values : List α) :
    ∀ p ∈ reduce_by_key keys values op, p.1 ∈ keys := by
  intro p hp
  unfold reduce_by_key at hp
  cases hz : keys.zip values with
  | nil => simp [hz] at hp
  | cons q t =>
    obtain ⟨k1, v1⟩ := q
    rw [hz] at hp
    have hmem : ∀ q ∈ keys.zip values, q.1 ∈ keys := fun q hq => (List.of_mem_zip hq).1
    rcases reduce_by_key_go_keys op k1 v1 t p hp with h | ⟨q, hq, he⟩
    · rw [h]
      exact hmem (k1, v1) (by rw [hz]; exact List.mem_cons_self _ _)
    · rw [← he]
      exact hmem q (by rw [hz]; exact List.mem_cons_of_mem _ hq)

/-- A maximal run of the key `kb` between a prefix and a suffix that do not
hold `kb` yields a single entry, between the entries of the prefix and those of
the suffix. -/
theorem reduce_by_key_block {κ α : Type} [DecidableEq κ] (op : α → α → α)
    (KP KQ : List κ) (vP vQ : List α) (kb : κ) (v0 : α) (vt : List α)
    (hP : KP.length = vP.length) (hKP : kb ∉ KP) (hKQ : kb ∉ KQ) :
    reduce_by_key (KP ++ List.replicate (vt.length + 1) kb ++ KQ) (vP ++ (v0 :: vt) ++ vQ) op
      = reduce_by_key KP vP op ++ [(kb, vt.foldl op v0)] ++ reduce_by_key KQ vQ op := by
  have hzip : (KP ++ List.replicate (vt.length + 1) kb ++ KQ).zip (vP ++ (v0 :: vt) ++ vQ)
      = KP.zip vP ++ ((kb, v0) :: (List.replicate vt.length kb).zip vt) ++ KQ.zip vQ := by
    rw [List.zip_append (by simp [hP]), List.zip_append hP]
    rfl
  have hrun : ∀ p ∈ (List.replicate vt.length kb).zip vt, p.1 = kb := by
    intro p hp
    exact List.eq_of_mem_replicate (List.of_mem_zip hp).1
  have hrunv : ((List.replicate vt.length kb).zip vt).map Prod.snd = vt := by
    rw [List.map_snd_zip]
    simp
  -- the run followed by the suffix
  have hmid : ∀ acc : α, reduce_by_key_go op kb acc ((List.replicate vt.length kb).zip vt ++ KQ.zip vQ)
      = [(kb, vt.foldl op acc)] ++ reduce_by_key KQ vQ op := by
    intro acc
    unfold reduce_by_key
    cases hz : KQ.zip vQ with
    | nil =>
      simp only [List.append_nil]
      rw [reduce_by_key_go_run op kb acc _ hrun, hrunv]
    | cons q t =>
      obtain ⟨k3, v3⟩ := q
      have hk3 : kb ≠ k3 := by
        intro h
        apply hKQ
        have : (k3, v3) ∈ KQ.zip vQ := by rw [hz]; exact List.mem_cons_self _ _
        rw [h]
        exact (List.of_mem_zip this).1
      rw [reduce_by_key_go_append op kb acc _ k3 v3 t hk3
        (fun p hp => by rw [hrun p hp]; exact hk3),
        reduce_by_key_go_run op kb acc _ hrun, hrunv]
  unfold reduce_by_key
  rw [hzip]
  cases hz : KP.zip vP with
  | nil =>
    simp only [List.nil_append, List.cons_append]
    have := hmid v0
    unfold reduce_by_key at this
    rw [this]
    rfl
  | cons q t =>
    obtain ⟨k1, v1⟩ := q
    have hmem : ∀ p ∈ KP.zip vP, p.1 ≠ kb := by
      intro p hp h
      apply hKP
      rw [← h]
      exact (List.of_mem_zip hp).1
    have hk1 : k1 ≠ kb := hmem (k1, v1) (by rw [hz]; exact List.mem_cons_self _ _)
    have ht : ∀ p ∈ t, p.1 ≠ kb := fun p hp =>
      hmem p (by rw [hz]; exact List.mem_cons_of_mem _ hp)
    simp only [List.cons_append, List.append_assoc]
    rw [reduce_by_key_go_append op k1 v1 t kb v0 _ hk1 ht]
    have := hmid v0
    unfold reduce_by_key at this
    rw [this]
    simp

/-! ### The block-owner map as a concatenation of runs -/

theorem grouped_keys_mem (cnt : Nat → Nat) (n : Nat) :
    ∀ x ∈ (List.range n).flatMap (fun (i : Nat) => List.replicate (cnt i) (i : Int)),
      ∃ i : Nat, i < n ∧ x = (i : Int) := by
  intro x hx
  obtain ⟨i, hi, hxi⟩ := List.mem_flatMap.1 hx
  exact ⟨i, List.mem_range.1 hi, List.eq_of_mem_replicate hxi⟩

theorem grouped_keys_length (cnt : Nat → Nat) (n : Nat) :
    ((List.range n).flatMap (fun (i : Nat) => List.replicate (cnt i) (i : Int))).length
      = ((List.range n).map cnt).sum := by
  induction n with
  | zero => rfl
  | succ n ih =>
    rw [List.range_succ, List.flatMap_append, List.length_append, ih, List.map_append,
      List.sum_append]
    simp

theorem grouped_keys_split (cnt : Nat → Nat) (b t : Nat) :
    (List.range (b + 1 + t)).flatMap (fun (i : Nat) => List.replicate (cnt i) (i : Int))
      = (List.range b).flatMap (fun (i : Nat) => List.replicate (cnt i) (i : Int))
        ++ List.replicate (cnt b) (b : Int)
        ++ ((List.range t).map (fun j => b + 1 + j)).flatMap
            (fun (i : Nat) => List.replicate (cnt i) (i : Int)) := by
  rw [List.range_add, List.flatMap_append, List.range_succ, List.flatMap_append]
  simp

/-- An entry of the candidate row of the batched engine, for a flagged block
whose map entries are exact, equals the entry that the single-block kernel
computes from block-local factor buffers that agree with the batched ones. -/
theorem v_r_entry_agree {R : Type} [Ring R] (sqrt exp : R → R)
    (v_r vec : List R) (point_map2 point_map1 point_map_offsets1 work_item_map2 i_r
      compute_v_r k_per_item : List Int) (input_set2 input_set1 : point_set R)
    (m2_total m1_total : Int) (V U Vs Us : List R) (r : Nat) (b : Int) (o1 o2 : Int) (c : Nat)
    (set1_l set2_l m1 m2 i : Int)
    (hpos : 0 ≤ o2) (htot : o2 + (c : Int) < m2_total)
    (hlen : (v_r.length : Int) = m2_total) (hc : (c : Int) < m2) (hvec : c < vec.length)
    (hown : rd work_item_map2 (o2 + (c : Int)) = b)
    (hflag : rd compute_v_r b ≠ 0)
    (hp2 : rd point_map2 (o2 + (c : Int)) = set2_l + (c : Int))
    (ho1 : rd point_map_offsets1 b = o1)
    (hp1 : rd point_map1 o1 = set1_l)
    (hi : rd i_r b = i)
    (hr : (r : Int) ≤ rd k_per_item b)
    (hU : ∀ l : Nat, l < r → rd U ((l : Int) * m1_total + o1 + i) = rd Us ((l : Int) * m1 + i))
    (hV : ∀ l : Nat, l < r →
      rd V ((l : Int) * m2_total + (o2 + (c : Int))) = rd Vs ((l : Int) * m2 + (c : Int))) :
    rd (batched_fill_kernel_vector_and_scaled_substraction_for_v_r sqrt exp v_r point_map2
        point_map1 point_map_offsets1 work_item_map2 i_r compute_v_r input_set2 input_set1
        m2_total m1_total V U (r : Int) k_per_item) (o2 + (c : Int))
      = rd (fill_kernel_vector_and_substract_previous_vectors sqrt exp vec set2_l (set1_l + i)
          input_set2 input_set1 m1 m2 Us Vs (r : Int) i) (c : Int) := by
  have hpos2 : 0 ≤ o2 + (c : Int) := by omega
  have hcast : ((o2 + (c : Int)).toNat : Int) = o2 + (c : Int) := Int.toNat_of_nonneg hpos2
  have hnot : ¬ (o2 + (c : Int) ≥ m2_total) := by omega
  have hnot2 : ¬ ((c : Int) ≥ m2) := by omega
  unfold batched_fill_kernel_vector_and_scaled_substraction_for_v_r
    fill_kernel_vector_and_substract_previous_vectors
  rw [rd_mapIdx _ _ _ hpos2 (by omega), hcast,
    rd_mapIdx _ _ _ (Int.ofNat_nonneg c) (by exact_mod_cast hvec)]
  unfold batched_fill_kernel_vector_and_scaled_substraction_for_v_r_thread
    fill_kernel_vector_and_substract_previous_vectors_thread
  simp only [Int.toNat_ofNat, hnot, hnot2, if_false, hown, hflag, hp2, ho1, hp1, hi]
  have hmin : (min (r : Int) (rd k_per_item b)).toNat = r := by
    rw [min_eq_left hr]; simp
  rw [hmin, foldl_sub_range (fun l => rd U ((l : Int) * m1_total + o1 + i)
      * rd V ((l : Int) * m2_total + (o2 + (c : Int)))),
    foldl_sub_range (fun l => rd Us ((l : Int) * m1 + i) * rd Vs ((l : Int) * m2 + (c : Int)))]
  congr 1
  apply Finset.sum_congr rfl
  intro l hl
  have hl2 : l < r := Finset.mem_range.1 hl
  rw [hU l hl2, hV l hl2]

theorem block_is_ACA_of_count (mat_vec_data : List work_item) (p : Int) (i : Nat)
    (hi : i < mat_vec_data.length) (h : 1 ≤ rd (block_counts mat_vec_data p) (i : Int)) :
    mat_vec_data[i].work_type = WT_ACA := by
  by_contra hw
  rw [rd_block_counts mat_vec_data p i hi, if_neg hw] at h
  omega

theorem inner_product_self_eq {R : Type} [Ring R] (s0 : R) (st : List R) :
    ((st.map square).foldl (fun a b => a + b) (square s0))
      = inner_product (s0 :: st) (s0 :: st) 0 := by
  unfold inner_product
  rw [List.zipWith_same]
  simp only [List.map_cons, List.foldl_cons, zero_add]
  rfl

theorem fill_kernel_length {R : Type} [Ring R] (sqrt exp : R → R) (vec : List R) (lA iB : Int)
    (input_setA input_setB : point_set R) (m1 m2 : Int) (U V : List R) (r i_r : Int) :
    (fill_kernel_vector_and_substract_previous_vectors sqrt exp vec lA iB input_setA input_setB
      m1 m2 U V r i_r).length = vec.length := by
  simp [fill_kernel_vector_and_substract_previous_vectors]

theorem v_r_kernel_length {R : Type} [Ring R] (sqrt exp : R → R)
    (v_r : List R) (point_map2 point_map1 point_map_offsets1 work_item_map2 i_r
      compute_v_r k_per_item : List Int) (input_set2 input_set1 : point_set R)
    (m2_total m1_total : Int) (V U : List R) (r : Int) :
    (batched_fill_kernel_vector_and_scaled_substraction_for_v_r sqrt exp v_r point_map2
        point_map1 point_map_offsets1 work_item_map2 i_r compute_v_r input_set2 input_set1
        m2_total m1_total V U r k_per_item).length = v_r.length := by
  simp [batched_fill_kernel_vector_and_scaled_substraction_for_v_r]

theorem search_round_shape {R : Type} [LinearOrderedField R] (sqrt exp : R → R)
    (mat_vec_data : List work_item) (k : Int) (input_set1 input_set2 : point_set R)
    (V U : List R) (r : Int) (t : search_state R) :
    (search_round sqrt exp mat_vec_data k input_set1 input_set2 V U r t).v_r.length
      = t.v_r.length ∧
    (search_round sqrt exp mat_vec_data k input_set1 input_set2 V U r t).i_r.length
      = t.i_r.length := by
  constructor
  · exact v_r_kernel_length _ _ _ _ _ _ _ _ _ _ _ _ _ _ _ _ _
  · rw [search_round_i_r]
    simp [transform_if]

theorem search_loop_shape {R : Type} [LinearOrderedField R] (sqrt exp : R → R)
    (mat_vec_data : List work_item) (k : Int) (input_set1 input_set2 : point_set R)
    (V U : List R) (r : Int) (fuel : Nat) :
    ∀ (t s : search_state R),
      search_loop sqrt exp mat_vec_data k input_set1 input_set2 V U r fuel t = some s →
      s.v_r.length = t.v_r.length ∧ s.i_r.length = t.i_r.length := by
  induction fuel with
  | zero =>
    intro t s h
    simp [search_loop] at h
  | succ fuel ih =>
    intro t s h
    have hsh := search_round_shape sqrt exp mat_vec_data k input_set1 input_set2 V U r t
    simp only [search_loop] at h
    split_ifs at h with hexit
    · rw [← Option.some.inj h]
      exact hsh
    · obtain ⟨h1, h2⟩ := ih _ s h
      exact ⟨h1.trans hsh.1, h2.trans hsh.2⟩

theorem scaling_thread_length {R : Type} [DivisionRing R] (work_item_to_batch_map
    work_item_map2 k_per_item : List Int) (r : Int) (j_r : List Int) (m2_total : Int)
    (x : List R) (idx : Nat) :
    (batched_scaling_of_v_r_thread work_item_to_batch_map work_item_map2 k_per_item r j_r
      m2_total x idx).length = x.length := by
  unfold batched_scaling_of_v_r_thread
  split
  · rfl
  · simp only []
    split
    · rfl
    · exact wr_length _ _ _

theorem scaling_thread_other {R : Type} [DivisionRing R] (work_item_to_batch_map
    work_item_map2 k_per_item : List Int) (r : Int) (j_r : List Int) (m2_total : Int)
    (x : List R) (idx q : Nat) (hq : q ≠ idx) :
    rd (batched_scaling_of_v_r_thread work_item_to_batch_map work_item_map2 k_per_item r j_r
      m2_total x idx) (q : Int) = rd x (q : Int) := by
  have hne : (idx : Int) ≠ (q : Int) := by
    intro h
    exact hq (by exact_mod_cast h.symm)
  unfold batched_scaling_of_v_r_thread
  split
  · rfl
  · simp only []
    split
    · rfl
    · exact rd_wr_ne _ _ _ _ hne

theorem rank_iteration_some {R : Type} [LinearOrderedField R] (sqrt exp : R → R)
    (mat_vec_data : List work_item) (k : Int) (input_set1 input_set2 : point_set R)
    (eta epsilon : R) (content : Nat → R) (fuel : Nat) (schedule : List Nat) (r : Nat)
    (st st2 : aca_state R) (leave : Bool)
    (h : rank_iteration sqrt exp mat_vec_data k input_set1 input_set2 eta epsilon content fuel
      schedule r st = some (st2, leave)) :
    ∃ s : search_state R,
      search_loop sqrt exp mat_vec_data k input_set1 input_set2 st.V st.U (r : Int) fuel
        ⟨st.i_r, init_compute_v_r mat_vec_data (k_per_item mat_vec_data k) (r : Int),
          get_row st.V r (block_total mat_vec_data 2), [], []⟩ = some s ∧
      st2.i_r = s.i_r ∧
      st2.V = put_row st.V r (block_total mat_vec_data 2)
        (batched_scaling_of_v_r schedule s.v_r (work_item_to_batch_map mat_vec_data)
          (work_item_maps mat_vec_data).2 (k_per_item mat_vec_data k) (r : Int)
          (j_r_global (work_item_maps mat_vec_data).2 s.v_r (block_total mat_vec_data 2))
          (block_total mat_vec_data 2)) ∧
      st2.U = put_row st.U r (block_total mat_vec_data 1)
        (batched_fill_kernel_vector_and_scaled_substraction_for_u_r sqrt exp
          (get_row st.U r (block_total mat_vec_data 1)) (point_maps mat_vec_data).1
          (point_maps mat_vec_data).2 (work_item_to_batch_map mat_vec_data)
          (work_item_maps mat_vec_data).1 (k_per_item mat_vec_data k) (r : Int)
          (j_r_global (work_item_maps mat_vec_data).2 s.v_r (block_total mat_vec_data 2))
          input_set1 input_set2 (block_total mat_vec_data 1) (block_total mat_vec_data 2) st.U
          st2.V) := by
  simp only [rank_iteration, check_frobenius, Bool.false_and] at h
  split at h
  · exact absurd h (by simp)
  · rename_i s hsl
    simp only [Bool.false_eq_true, if_false] at h
    have := (Prod.mk.inj (Option.some.inj h)).1
    rw [← this]
    exact ⟨s, hsl, rfl, rfl, rfl⟩

/-! ### One rank of the batched engine against one rank of the single-block procedure -/

/-- C22: the claim asks that `compute_frobenius_norm_of_low_rank_matrix` returns
`sqrt(sum over i, j < k of (U'U)[i,j] * (V'V)[i,j])`.  The second product of
the source is `V' * U` with leading dimension `m2` for both operands.  With
`sqrt` the identity on the integers: for `U = [2]`, `V = [3]`,
`m1 = m2 = k = 1` the function returns `(2*2) * (3*2) = 24`, the claimed value
is `(2*2) * (3*3) = 36`; for the `2 x 2` matrix `U = [1, 2, 3, 4]` and the
`1 x 2` matrix `V = [5, 6]` the function returns `501`, the claimed value is
`1685`. -/
theorem frobenius_norm_multiplies_V_with_U :
    compute_frobenius_norm_of_low_rank_matrix (fun x : Int => x) [2] [3] 1 1 1 (fun _ => 0) = 24 ∧
    frobenius_of_gram_matrices (fun x : Int => x) [2] [3] 1 1 1 = 36 ∧
    compute_frobenius_norm_of_low_rank_matrix (fun x : Int => x) [1, 2, 3, 4] [5, 6] 2 1 2
      (fun _ => 0) = 501 ∧
    frobenius_of_gram_matrices (fun x : Int => x) [1, 2, 3, 4] [5, 6] 2 1 2 = 1685 := by
  decide

/-! ### C30: size of the factor buffers -/

theorem offset_add_count_le_total_of_nonneg (mat_vec_data : List work_item) (p : Int) (b : Nat)
    (hb : b < mat_vec_data.length)
    (hc : ∀ i : Nat, i < mat_vec_data.length → 0 ≤ rd (block_counts mat_vec_data p) (i : Int)) :
    0 ≤ rd (point_map_offsets mat_vec_data p) (b : Int) ∧
    rd (point_map_offsets mat_vec_data p) (b : Int) + rd (block_counts mat_vec_data p) (b : Int)
      ≤ block_total mat_vec_data p := by
  have hlen := block_counts_length mat_vec_data p
  have hb2 : b < (block_counts mat_vec_data p).length := by omega
  have hnn : ∀ l : List Int, (∀ x ∈ l, 0 ≤ x) → 0 ≤ l.sum := fun l h => List.sum_nonneg h
  have hmem : ∀ x ∈ block_counts mat_vec_data p, 0 ≤ x := by
    intro x hx
    obtain ⟨i, hi, he⟩ := List.getElem_of_mem hx
    have := hc i (by omega)
    rw [rd_of_lt _ _ hi] at this
    rw [← he]
    exact this
  unfold block_total point_map_offsets
  rw [reduce_eq_sum, rd_exclusive_scan _ b hb2, rd_of_lt _ b hb2]
  constructor
  · exact hnn _ (fun x hx => hmem x (List.mem_of_mem_take hx))
  · rw [← List.sum_take_succ _ b hb2]
    have hsplit := List.sum_take_add_sum_drop (block_counts mat_vec_data p) (b + 1)
    have := hnn _ (fun x hx => hmem x (List.mem_of_mem_drop hx) :
      ∀ x ∈ (block_counts mat_vec_data p).drop (b + 1), 0 ≤ x)
    omega

theorem block_total_nonneg (mat_vec_data : List work_item) (p : Int)
    (hc : ∀ i : Nat, i < mat_vec_data.length → 0 ≤ rd (block_counts mat_vec_data p) (i : Int)) :
    0 ≤ block_total mat_vec_data p := by
  have hlen := block_counts_length mat_vec_data p
  unfold block_total
  rw [reduce_eq_sum]
  apply List.sum_nonneg
  intro x hx
  obtain ⟨i, hi, he⟩ := List.getElem_of_mem hx
  have := hc i (by omega)
  rw [rd_of_lt _ _ hi] at this
  rw [← he]
  exact this

theorem factor_index_in_buffer (total offset count kb kg : Int) (l j : Nat)
    (h0 : 0 ≤ offset) (h1 : offset + count ≤ total) (hk : kb ≤ kg)
    (hl : (l : Int) < kb) (hj : (j : Int) < count) :
    0 ≤ (l : Int) * total + offset + (j : Int) ∧
    (l : Int) * total + offset + (j : Int) < total * kg := by
  have ht : 0 ≤ total := by omega
  have hl0 : (0 : Int) ≤ (l : Int) := Int.ofNat_nonneg l
  have h2 : 0 ≤ (l : Int) * total := mul_nonneg hl0 ht
  have h3 : ((l : Int) + 1) * total ≤ kg * total :=
    mul_le_mul_of_nonneg_right (by omega) ht
  constructor
  · omega
  · nlinarith

/-- C30: size of the factor buffers.  With `global_k` the cap computed in
`apply_batched_aca`, `k_per_item[b] <= global_k` for every block `b`.  When no
block has a negative number of rows or columns, every factor index
`l*m1_total + offset1[b] + j` with `l < k_per_item[b]` and `j < m1[b]` is
non-negative and below `m1_total * global_k`, the number of entries of `U`, and
every index `l*m2_total + offset2[b] + c` with `c < m2[b]` is non-negative and
below `m2_total * global_k`, the number of entries of `V`. -/
theorem factor_buffers_large_enough (R : Type) [LinearOrderedField R]
    (mat_vec_data : List work_item) (k : Int) (b : Nat) (hb : b < mat_vec_data.length)
    (hc : ∀ i : Nat, i < mat_vec_data.length →
      0 ≤ rd (block_counts mat_vec_data 1) (i : Int) ∧
      0 ≤ rd (block_counts mat_vec_data 2) (i : Int))
    (l j c : Nat) (hl : (l : Int) < rd (k_per_item mat_vec_data k) (b : Int))
    (hj : (j : Int) < rd (block_counts mat_vec_data 1) (b : Int))
    (hcc : (c : Int) < rd (block_counts mat_vec_data 2) (b : Int)) :
    rd (k_per_item mat_vec_data k) (b : Int) ≤ global_k mat_vec_data k ∧
    (0 ≤ (l : Int) * block_total mat_vec_data 1
        + rd (point_map_offsets mat_vec_data 1) (b : Int) + (j : Int) ∧
      (l : Int) * block_total mat_vec_data 1
        + rd (point_map_offsets mat_vec_data 1) (b : Int) + (j : Int)
        < block_total mat_vec_data 1 * global_k mat_vec_data k ∧
      ((l : Int) * block_total mat_vec_data 1
        + rd (point_map_offsets mat_vec_data 1) (b : Int) + (j : Int)).toNat
        < (init_aca_state R mat_vec_data k).U.length) ∧
    (0 ≤ (l : Int) * block_total mat_vec_data 2
        + rd (point_map_offsets mat_vec_data 2) (b : Int) + (c : Int) ∧
      (l : Int) * block_total mat_vec_data 2
        + rd (point_map_offsets mat_vec_data 2) (b : Int) + (c : Int)
        < block_total mat_vec_data 2 * global_k mat_vec_data k ∧
      ((l : Int) * block_total mat_vec_data 2
        + rd (point_map_offsets mat_vec_data 2) (b : Int) + (c : Int)).toNat
        < (init_aca_state R mat_vec_data k).V.length) := by
  have hk := k_per_item_le_global_k mat_vec_data k b hb
  obtain ⟨h01, h11⟩ := offset_add_count_le_total_of_nonneg mat_vec_data 1 b hb
    (fun i hi => (hc i hi).1)
  obtain ⟨h02, h12⟩ := offset_add_count_le_total_of_nonneg mat_vec_data 2 b hb
    (fun i hi => (hc i hi).2)
  obtain ⟨hU0, hU1⟩ := factor_index_in_buffer _ _ _ _ _ l j h01 h11 hk hl hj
  obtain ⟨hV0, hV1⟩ := factor_index_in_buffer _ _ _ _ _ l c h02 h12 hk hl hcc
  refine ⟨hk, ⟨hU0, hU1, ?_⟩, ⟨hV0, hV1, ?_⟩⟩
  · simp only [init_aca_state, List.length_replicate]
    omega
  · simp only [init_aca_state, List.length_replicate]
    omega

/-- C30, instance: a `2 x 3` block behind a `3 x 2` block with `k = 5`; rank
index `1`, row `1` and column `2` of the second block. -/
theorem factor_buffers_large_enough_witness :
    rd (k_per_item [⟨0, 2, 0, 1, WT_ACA⟩, ⟨3, 4, 2, 4, WT_ACA⟩] 5) ((1 : Nat) : Int)
      ≤ global_k [⟨0, 2, 0, 1, WT_ACA⟩, ⟨3, 4, 2, 4, WT_ACA⟩] 5 ∧
    (0 ≤ ((1 : Nat) : Int) * block_total [⟨0, 2, 0, 1, WT_ACA⟩, ⟨3, 4, 2, 4, WT_ACA⟩] 1
        + rd (point_map_offsets [⟨0, 2, 0, 1, WT_ACA⟩, ⟨3, 4, 2, 4, WT_ACA⟩] 1) ((1 : Nat) : Int)
        + ((1 : Nat) : Int) ∧
      ((1 : Nat) : Int) * block_total [⟨0, 2, 0, 1, WT_ACA⟩, ⟨3, 4, 2, 4, WT_ACA⟩] 1
        + rd (point_map_offsets [⟨0, 2, 0, 1, WT_ACA⟩, ⟨3, 4, 2, 4, WT_ACA⟩] 1) ((1 : Nat) : Int)
        + ((1 : Nat) : Int)
        < block_total [⟨0, 2, 0, 1, WT_ACA⟩, ⟨3, 4, 2, 4, WT_ACA⟩] 1
          * global_k [⟨0, 2, 0, 1, WT_ACA⟩, ⟨3, 4, 2, 4, WT_ACA⟩] 5 ∧
      (((1 : Nat) : Int) * block_total [⟨0, 2, 0, 1, WT_ACA⟩, ⟨3, 4, 2, 4, WT_ACA⟩] 1
        + rd (point_map_offsets [⟨0, 2, 0, 1, WT_ACA⟩, ⟨3, 4, 2, 4, WT_ACA⟩] 1) ((1 : Nat) : Int)
        + ((1 : Nat) : Int)).toNat
        < (init_aca_state ℚ [⟨0, 2, 0, 1, WT_ACA⟩, ⟨3, 4, 2, 4, WT_ACA⟩] 5).U.length) ∧
    (0 ≤ ((1 : Nat) : Int) * block_total [⟨0, 2, 0, 1, WT_ACA⟩, ⟨3, 4, 2, 4, WT_ACA⟩] 2
        + rd (point_map_offsets [⟨0, 2, 0, 1, WT_ACA⟩, ⟨3, 4, 2, 4, WT_ACA⟩] 2) ((1 : Nat) : Int)
        + ((2 : Nat) : Int) ∧
      ((1 : Nat) : Int) * block_total [⟨0, 2, 0, 1, WT_ACA⟩, ⟨3, 4, 2, 4, WT_ACA⟩] 2
        + rd (point_map_offsets [⟨0, 2, 0, 1, WT_ACA⟩, ⟨3, 4, 2, 4, WT_ACA⟩] 2) ((1 : Nat) : Int)
        + ((2 : Nat) : Int)
        < block_total [⟨0, 2, 0, 1, WT_ACA⟩, ⟨3, 4, 2, 4, WT_ACA⟩] 2
          * global_k [⟨0, 2, 0, 1, WT_ACA⟩, ⟨3, 4, 2, 4, WT_ACA⟩] 5 ∧
      (((1 : Nat) : Int) * block_total [⟨0, 2, 0, 1, WT_ACA⟩, ⟨3, 4, 2, 4, WT_ACA⟩] 2
        + rd (point_map_offsets [⟨0, 2, 0, 1, WT_ACA⟩, ⟨3, 4, 2, 4, WT_ACA⟩] 2) ((1 : Nat) : Int)
        + ((2 : Nat) : Int)).toNat
        < (init_aca_state ℚ [⟨0, 2, 0, 1, WT_ACA⟩, ⟨3, 4, 2, 4, WT_ACA⟩] 5).V.length) :=
  factor_buffers_large_enough ℚ [⟨0, 2, 0, 1, WT_ACA⟩, ⟨3, 4, 2, 4, WT_ACA⟩] 5 1 (by decide)
    (by
      intro i hi
      have h : i = 0 ∨ i = 1 := by
        simp only [List.length_cons, List.length_nil] at hi
        omega
      rcases h with h | h <;> subst h <;> decide)
    1 1 2 (by decide) (by decide) (by decide)

/-! ### C23: the work-item classifier -/

theorem stable_sort_insert_perm {α : Type} (comp : α → α → Bool) (a : α) (l : List α) :
    (stable_sort_insert comp a l).Perm (a :: l) := by
  induction l with
  | nil => exact List.Perm.refl _
  | cons b l ih =>
    simp only [stable_sort_insert]
    split
    · exact (List.Perm.cons b ih).trans (List.Perm.swap a b l)
    · exact List.Perm.refl _

theorem stable_sort_perm {α : Type} (comp : α → α → Bool) (l : List α) :
    (stable_sort comp l).Perm l := by
  induction l with
  | nil => exact List.Perm.refl _
  | cons a l ih =>
    show (stable_sort_insert comp a (stable_sort comp l)).Perm (a :: l)
    exact (stable_sort_insert_perm comp a _).trans (List.Perm.cons a ih)

theorem stable_sort_insert_filter {α : Type} (comp : α → α → Bool) (p : α → Bool) (a : α)
    (l : List α) (h : ∀ b ∈ l, comp b a = true → p a = true → p b = false) :
    (stable_sort_insert comp a l).filter p = (a :: l).filter p := by
  induction l with
  | nil => rfl
  | cons b l ih =>
    have ih2 := ih (fun c hc => h c (List.mem_cons_of_mem b hc))
    simp only [stable_sort_insert]
    split
    · rename_i hba
      by_cases hpa : p a = true
      · have hpb := h b (List.mem_cons_self b l) hba hpa
        rw [List.filter_cons_of_neg (by simp [hpb]), ih2, List.filter_cons_of_pos hpa,
          List.filter_cons_of_pos hpa, List.filter_cons_of_neg (by simp [hpb])]
      · have hpa2 : ¬ (p a = true) := hpa
        rw [List.filter_cons, ih2, List.filter_cons_of_neg hpa2, List.filter_cons_of_neg hpa2,
          List.filter_cons]
    · rfl

theorem stable_sort_filter {α : Type} (comp : α → α → Bool) (p : α → Bool)
    (h : ∀ a b : α, comp b a = true → p a = true → p b = false) (l : List α) :
    (stable_sort comp l).filter p = l.filter p := by
  induction l with
  | nil => rfl
  | cons a l ih =>
    show (stable_sort_insert comp a (stable_sort comp l)).filter p = (a :: l).filter p
    rw [stable_sort_insert_filter comp p a _ (fun b _ => h a b), List.filter_cons,
      List.filter_cons, ih]

theorem stable_sort_insert_sorted (a : work_item) (l : List work_item)
    (h : l.Pairwise (fun x y => y.work_type ≤ x.work_type)) :
    (stable_sort_insert mat_vec_type_smaller a l).Pairwise
      (fun x y => y.work_type ≤ x.work_type) := by
  induction l with
  | nil => exact List.pairwise_singleton _ _
  | cons b l ih =>
    rw [List.pairwise_cons] at h
    simp only [stable_sort_insert]
    split
    · rename_i hba
      have hba2 : a.work_type < b.work_type := by
        simpa [mat_vec_type_smaller] using hba
      rw [List.pairwise_cons]
      refine ⟨?_, ih h.2⟩
      intro y hy
      rcases List.mem_cons.1 ((stable_sort_insert_perm _ a l).subset hy) with hya | hyl
      · rw [hya]; omega
      · exact h.1 y hyl
    · rename_i hba
      have hba2 : b.work_type ≤ a.work_type := by
        simpa [mat_vec_type_smaller] using hba
      rw [List.pairwise_cons]
      refine ⟨?_, List.pairwise_cons.2 h⟩
      intro y hy
      rcases List.mem_cons.1 hy with hyb | hyl
      · rw [hyb]; exact hba2
      · exact le_trans (h.1 y hyl) hba2

theorem sort_mat_vec_data_sorted (l : List work_item) :
    (sort_mat_vec_data l).Pairwise (fun x y => y.work_type ≤ x.work_type) := by
  induction l with
  | nil => exact List.Pairwise.nil
  | cons a l ih => exact stable_sort_insert_sorted a _ ih

/-- C23: the work-item classifier.  `sort_mat_vec_data` returns a permutation
of its input; no item of type ACA stands in front of an item of type DENSE;
and for every type tag the items of that tag stand in the order of the input
(so the DENSE items among themselves and the ACA items among themselves keep
their order). -/
theorem sort_mat_vec_data_stable_partition (mat_vec_data : List work_item) :
    (sort_mat_vec_data mat_vec_data).Perm mat_vec_data ∧
    (sort_mat_vec_data mat_vec_data).Pairwise
      (fun a b => ¬ (a.work_type = WT_ACA ∧ b.work_type = WT_DENSE)) ∧
    (∀ t : Int, (sort_mat_vec_data mat_vec_data).filter (fun w => decide (w.work_type = t))
      = mat_vec_data.filter (fun w => decide (w.work_type = t))) := by
  refine ⟨stable_sort_perm _ _, ?_, ?_⟩
  · refine (sort_mat_vec_data_sorted mat_vec_data).imp ?_
    intro a b hab hcon
    rw [hcon.1, hcon.2] at hab
    exact absurd hab (by decide)
  · intro t
    apply stable_sort_filter
    intro a b hba hpa
    have h1 : a.work_type < b.work_type := by simpa [mat_vec_type_smaller] using hba
    have h2 : a.work_type = t := by simpa using hpa
    have h3 : ¬ b.work_type = t := by omega
    simpa using h3

/-! ### C21: segmented sum by key -/

theorem zip_of_runs {α : Type} (runs : List (Int × α × List α)) :
    (runs.flatMap (fun r => List.replicate (r.2.2.length + 1) r.1)).zip
      (runs.flatMap (fun r => r.2.1 :: r.2.2))
      = runs.flatMap (fun r => (r.1, r.2.1) :: r.2.2.map (fun v => (r.1, v))) := by
  induction runs with
  | nil => rfl
  | cons r rs ih =>
    simp only [List.flatMap_cons]
    rw [List.zip_append (by simp), ih]
    congr 1
    rw [List.replicate_succ, List.zip_cons_cons]
    congr 1
    generalize r.2.2 = vt
    induction vt with
    | nil => rfl
    | cons v vt ih2 =>
      rw [List.length_cons, List.replicate_succ, List.zip_cons_cons, ih2, List.map_cons]

theorem runs_lengths {α : Type} (runs : List (Int × α × List α)) :
    (runs.flatMap (fun r => List.replicate (r.2.2.length + 1) r.1)).length
      = (runs.flatMap (fun r => r.2.1 :: r.2.2)).length := by
  induction runs with
  | nil => rfl
  | cons r rs ih =>
    simp only [List.flatMap_cons, List.length_append, ih, List.length_replicate,
      List.length_cons]

theorem reduce_by_key_go_of_runs {α : Type} (op : α → α → α) :
    ∀ (runs : List (Int × α × List α)) (k : Int) (acc : α) (vt : List α),
      List.Chain (fun a b => a.1 ≠ b.1) (k, acc, vt) runs →
      reduce_by_key_go op k acc (vt.map (fun v => (k, v))
          ++ runs.flatMap (fun r => (r.1, r.2.1) :: r.2.2.map (fun v => (r.1, v))))
        = ((k, acc, vt) :: runs).map (fun r => (r.1, r.2.2.foldl op r.2.1)) := by
  intro runs
  induction runs with
  | nil =>
    intro k acc vt _
    rw [List.flatMap_nil, List.append_nil, reduce_by_key_go_run op k acc _ (by simp)]
    simp [Function.comp_def]
  | cons r rs ih =>
    intro k acc vt hch
    rw [List.chain_cons] at hch
    obtain ⟨hne, hrest⟩ := hch
    have hne2 : k ≠ r.1 := hne
    rw [List.flatMap_cons, List.cons_append,
      reduce_by_key_go_append op k acc _ r.1 r.2.1 _ hne2 (by
        intro p hp
        obtain ⟨v, _, hv⟩ := List.mem_map.1 hp
        rw [← hv]
        exact hne2),
      reduce_by_key_go_run op k acc _ (by simp), ih r.1 r.2.1 r.2.2 hrest]
    simp [Function.comp_def]

theorem reduce_by_key_of_runs {α : Type} (op : α → α → α) (runs : List (Int × α × List α))
    (h : runs.Chain' (fun a b => a.1 ≠ b.1)) :
    reduce_by_key (runs.flatMap (fun r => List.replicate (r.2.2.length + 1) r.1))
        (runs.flatMap (fun r => r.2.1 :: r.2.2)) op
      = runs.map (fun r => (r.1, r.2.2.foldl op r.2.1)) := by
  unfold reduce_by_key
  rw [zip_of_runs]
  cases runs with
  | nil => rfl
  | cons r rs =>
    rw [List.flatMap_cons, List.cons_append]
    exact reduce_by_key_go_of_runs op rs r.1 r.2.1 r.2.2 h

theorem runs_of_pairs {α : Type} :
    ∀ kv : List (Int × α), ∃ runs : List (Int × α × List α),
      runs.Chain' (fun a b => a.1 ≠ b.1) ∧
      runs.flatMap (fun r => (r.1, r.2.1) :: r.2.2.map (fun v => (r.1, v))) = kv := by
  intro kv
  induction kv with
  | nil => exact ⟨[], List.chain'_nil, rfl⟩
  | cons p kv ih =>
    obtain ⟨runs, hch, hkv⟩ := ih
    cases runs with
    | nil =>
      refine ⟨[(p.1, p.2, [])], List.chain'_singleton _, ?_⟩
      rw [← hkv]
      rfl
    | cons r rs =>
      by_cases hk : p.1 = r.1
      · refine ⟨(r.1, p.2, r.2.1 :: r.2.2) :: rs, ?_, ?_⟩
        · cases rs with
          | nil => exact List.chain'_singleton _
          | cons r2 rs2 =>
            rw [List.chain'_cons] at hch ⊢
            exact hch
        · rw [← hkv]
          simp only [List.flatMap_cons, List.map_cons, List.cons_append]
          rw [← hk]
      · refine ⟨(p.1, p.2, []) :: r :: rs, List.chain'_cons.2 ⟨hk, hch⟩, ?_⟩
        rw [← hkv]
        rfl

theorem foldl_add_eq_sum {R : Type} [Ring R] (l : List R) (a : R) :
    l.foldl (fun x y => x + y) a = a + l.sum := by
  induction l generalizing a with
  | nil => simp
  | cons b l ih => rw [List.foldl_cons, ih, List.sum_cons, add_assoc]

/-- C21: segmented sum by key.  A value array `x` and a key array of the same
length `m_total` split into maximal runs of equal consecutive keys: a list of
runs, each with its key, its first value and its further values, in which
neighbouring runs have different keys.  `compute_batched_norms_with_keys_output`
returns one entry per run, in run order: the key of the run in `keys_output`
and the square root of the sum of the squares of the values of the run in
`batched_norms`; the number of entries (`norm_count`) is the number of runs. -/
theorem segmented_norms_per_run {R : Type} [Ring R] (sqrt : R → R) (x : List R)
    (work_item_map : List Int) (m_total : Int) (hx : x.length = m_total.toNat)
    (hk : work_item_map.length = m_total.toNat) :
    ∃ runs : List (Int × R × List R),
      runs.Chain' (fun a b => a.1 ≠ b.1) ∧
      work_item_map = runs.flatMap (fun r => List.replicate (r.2.2.length + 1) r.1) ∧
      x = runs.flatMap (fun r => r.2.1 :: r.2.2) ∧
      compute_batched_norms_with_keys_output sqrt x m_total work_item_map
        = (runs.map (fun r => r.1),
           runs.map (fun r => sqrt (((r.2.1 :: r.2.2).map (fun v => v * v)).sum))) ∧
      (compute_batched_norms_with_keys_output sqrt x m_total work_item_map).1.length
        = runs.length := by
  obtain ⟨runs, hch, hkv⟩ := runs_of_pairs (work_item_map.zip x)
  have hz := zip_of_runs runs
  rw [hkv] at hz
  have hkeys : work_item_map = runs.flatMap (fun r => List.replicate (r.2.2.length + 1) r.1) := by
    have h1 := congrArg (fun l => l.map Prod.fst) hz
    simp only at h1
    rw [List.map_fst_zip _ _ (le_of_eq (runs_lengths runs)),
      List.map_fst_zip _ _ (by omega)] at h1
    exact h1.symm
  have hvals : x = runs.flatMap (fun r => r.2.1 :: r.2.2) := by
    have h1 := congrArg (fun l => l.map Prod.snd) hz
    simp only at h1
    rw [List.map_snd_zip _ _ (le_of_eq (runs_lengths runs).symm),
      List.map_snd_zip _ _ (by omega)] at h1
    exact h1.symm
  have hsq : (runs.flatMap (fun r => r.2.1 :: r.2.2)).map square
      = (runs.map (fun r => (r.1, square r.2.1, r.2.2.map square))).flatMap
          (fun r => r.2.1 :: r.2.2) := by
    rw [List.map_flatMap, List.flatMap_map]
    rfl
  have hkq : runs.flatMap (fun r => List.replicate (r.2.2.length + 1) r.1)
      = (runs.map (fun r => (r.1, square r.2.1, r.2.2.map square))).flatMap
          (fun r => List.replicate (r.2.2.length + 1) r.1) := by
    rw [List.flatMap_map]
    simp
  have hchq : (runs.map (fun r => (r.1, square r.2.1, r.2.2.map square))).Chain'
      (fun a b => a.1 ≠ b.1) := by
    rw [List.chain'_map]
    exact hch
  have hout : compute_batched_norms_with_keys_output sqrt x m_total work_item_map
      = (runs.map (fun r => r.1),
         runs.map (fun r => sqrt (((r.2.1 :: r.2.2).map (fun v => v * v)).sum))) := by
    unfold compute_batched_norms_with_keys_output
    have htx : x.take m_total.toNat = x := by rw [← hx]; exact List.take_length x
    have htk : work_item_map.take m_total.toNat = work_item_map := by
      rw [← hk]; exact List.take_length work_item_map
    simp only [htx, htk]
    have hred : reduce_by_key work_item_map (x.map square) (fun a b => a + b)
        = (runs.map (fun r => (r.1, square r.2.1, r.2.2.map square))).map
            (fun r => (r.1, r.2.2.foldl (fun a b => a + b) r.2.1)) := by
      conv_lhs => rw [hkeys, hvals, hsq, hkq]
      exact reduce_by_key_of_runs _ _ hchq
    rw [hred]
    simp only [List.map_map]
    refine Prod.ext ?_ ?_
    · rfl
    · simp only
      apply List.map_congr_left
      intro r _
      simp only [Function.comp_def, foldl_add_eq_sum, List.map_cons, List.sum_cons, square]
      rfl
  refine ⟨runs, hch, hkeys, hvals, hout, ?_⟩
  rw [hout]
  simp

/-- C21, instance: the values `3, 4, 1, 2, 2` with the keys `0, 0, 2, 2, 2`, the
square root replaced by the identity on the integers. -/
theorem segmented_norms_per_run_witness :
    ∃ runs : List (Int × Int × List Int),
      runs.Chain' (fun a b => a.1 ≠ b.1) ∧
      [0, 0, 2, 2, 2] = runs.flatMap (fun r => List.replicate (r.2.2.length + 1) r.1) ∧
      [3, 4, 1, 2, 2] = runs.flatMap (fun r => r.2.1 :: r.2.2) ∧
      compute_batched_norms_with_keys_output (fun v : Int => v) [3, 4, 1, 2, 2] 5 [0, 0, 2, 2, 2]
        = (runs.map (fun r => r.1),
           runs.map (fun r => (fun v : Int => v) (((r.2.1 :: r.2.2).map (fun v => v * v)).sum))) ∧
      (compute_batched_norms_with_keys_output (fun v : Int => v) [3, 4, 1, 2, 2] 5
        [0, 0, 2, 2, 2]).1.length = runs.length :=
  segmented_norms_per_run (fun v : Int => v) [3, 4, 1, 2, 2] [0, 0, 2, 2, 2] 5 (by decide)
    (by decide)

/-! ### C24: dense blocks -/

theorem rd_map_range {R : Type} [Zero R] (f : Nat → R) (n c : Nat) (hc : c < n) :
    rd ((List.range n).map f) (c : Int) = f c := by
  rw [rd_natCast, List.getD_eq_getElem?_getD, List.getElem?_map, List.getElem?_range hc]
  rfl

theorem dense_product_failure {R : Type} [Ring R] (sqrt exp : R → R)
    (x y : List R) (current_mat_vec_data : work_item) (input_set1 input_set2 : point_set R)
    (matrix_content y_content : Nat → R) :
    apply_dense_matrix_for_current_work_item sqrt exp x y current_mat_vec_data input_set1
      input_set2 false matrix_content y_content = none := rfl

theorem search_round_one_by_one {R : Type} [LinearOrderedField R]
    (sqrt exp : R → R) (dim : Nat) (c1 c2 : Nat → Int → R) (V U : List R) (x : R)
    (ks : List Int) (ns : List R)
    (h0 : update_ir_threshold R ≤ abs (sqrt (kernel_entry sqrt exp ⟨dim, c1⟩ ⟨dim, c2⟩ 0 0 * kernel_entry sqrt exp ⟨dim, c1⟩ ⟨dim, c2⟩ 0 0))) :
    search_round sqrt exp [⟨0, 0, 0, 0, WT_ACA⟩] 1 ⟨dim, c1⟩ ⟨dim, c2⟩ V U 0 ⟨[-1], [1], [x], ks, ns⟩
      = ⟨[0], [0], [kernel_entry sqrt exp ⟨dim, c1⟩ ⟨dim, c2⟩ 0 0], [0], [sqrt (kernel_entry sqrt exp ⟨dim, c1⟩ ⟨dim, c2⟩ 0 0 * kernel_entry sqrt exp ⟨dim, c1⟩ ⟨dim, c2⟩ 0 0)]⟩ := by
  show update_ir ⟨[0], [1], [kernel_entry sqrt exp ⟨dim, c1⟩ ⟨dim, c2⟩ 0 0], [0], [sqrt (kernel_entry sqrt exp ⟨dim, c1⟩ ⟨dim, c2⟩ 0 0 * kernel_entry sqrt exp ⟨dim, c1⟩ ⟨dim, c2⟩ 0 0)]⟩ 1 = _
  simp only [update_ir, List.range_succ, List.range_zero, List.nil_append, List.cons_append,
    List.foldl_cons, List.foldl_nil, update_ir_thread]
  simp [rd, wr, h0]

/-- The rank loop of `apply_batched_aca` on one `1 x 1` block of type ACA, `k = 1`: one rank
iteration, which accepts the only row. -/
theorem batched_aca_factors_one_by_one {R : Type} [LinearOrderedField R]
    (sqrt exp : R → R) (dim : Nat) (c1 c2 : Nat → Int → R) (eta epsilon : R)
    (content : Nat → R) (fuel : Nat)
    (h0 : update_ir_threshold R ≤ abs (sqrt (kernel_entry sqrt exp ⟨dim, c1⟩ ⟨dim, c2⟩ 0 0 * kernel_entry sqrt exp ⟨dim, c1⟩ ⟨dim, c2⟩ 0 0))) :
    batched_aca_factors sqrt exp [⟨0, 0, 0, 0, WT_ACA⟩] 1 ⟨dim, c1⟩ ⟨dim, c2⟩ eta epsilon content (fuel + 1) [0]
      = some ⟨[kernel_entry sqrt exp ⟨dim, c1⟩ ⟨dim, c2⟩ 0 0], [kernel_entry sqrt exp ⟨dim, c1⟩ ⟨dim, c2⟩ 0 0 / kernel_entry sqrt exp ⟨dim, c1⟩ ⟨dim, c2⟩ 0 0], [0], [false]⟩ := by
  have hs := search_round_one_by_one sqrt exp dim c1 c2 [0] [0] 0 [] [] h0
  have hsl : search_loop sqrt exp [⟨0, 0, 0, 0, WT_ACA⟩] 1 ⟨dim, c1⟩ ⟨dim, c2⟩ [0] [0]
      ((0 : Nat) : Int) (fuel + 1)
      ⟨[-1], init_compute_v_r [⟨0, 0, 0, 0, WT_ACA⟩] (k_per_item [⟨0, 0, 0, 0, WT_ACA⟩] 1) ((0 : Nat) : Int),
        get_row [0] 0 (block_total [⟨0, 0, 0, 0, WT_ACA⟩] 2), [], []⟩
      = some ⟨[0], [0], [kernel_entry sqrt exp ⟨dim, c1⟩ ⟨dim, c2⟩ 0 0], [0], [sqrt (kernel_entry sqrt exp ⟨dim, c1⟩ ⟨dim, c2⟩ 0 0 * kernel_entry sqrt exp ⟨dim, c1⟩ ⟨dim, c2⟩ 0 0)]⟩ := by
    show search_loop sqrt exp [⟨0, 0, 0, 0, WT_ACA⟩] 1 ⟨dim, c1⟩ ⟨dim, c2⟩ [0] [0] 0 (fuel + 1)
      ⟨[-1], [1], [0], [], []⟩ = _
    simp only [search_loop, hs]
    rfl
  have hit : rank_iteration sqrt exp [⟨0, 0, 0, 0, WT_ACA⟩] 1 ⟨dim, c1⟩ ⟨dim, c2⟩ eta epsilon content (fuel + 1) [0] 0
      ⟨[0], [0], [-1], [false]⟩
      = some (⟨[kernel_entry sqrt exp ⟨dim, c1⟩ ⟨dim, c2⟩ 0 0], [kernel_entry sqrt exp ⟨dim, c1⟩ ⟨dim, c2⟩ 0 0 / kernel_entry sqrt exp ⟨dim, c1⟩ ⟨dim, c2⟩ 0 0], [0], [false]⟩, false) := by
    simp only [rank_iteration]
    rw [hsl]
    rfl
  show rank_loop sqrt exp [⟨0, 0, 0, 0, WT_ACA⟩] 1 ⟨dim, c1⟩ ⟨dim, c2⟩ eta epsilon content (fuel + 1) [0] 1 0
    ⟨[0], [0], [-1], [false]⟩ = _
  rw [rank_loop_succ, hit]
  simp only [Option.some_bind]
  rfl

theorem search_round_one_by_one_and_other_type {R : Type} [LinearOrderedField R]
    (sqrt exp : R → R) (dim : Nat) (c1 c2 : Nat → Int → R) (V U : List R) (x : R)
    (ks : List Int) (ns : List R)
    (h0 : update_ir_threshold R ≤ abs (sqrt (kernel_entry sqrt exp ⟨dim, c1⟩ ⟨dim, c2⟩ 0 0 * kernel_entry sqrt exp ⟨dim, c1⟩ ⟨dim, c2⟩ 0 0))) :
    search_round sqrt exp [⟨0, 0, 0, 0, WT_ACA⟩, ⟨1, 1, 1, 1, 0⟩] 1 ⟨dim, c1⟩ ⟨dim, c2⟩ V U 0 ⟨[-1, -1], [1, 0], [x], ks, ns⟩
      = ⟨[0, -1], [0, 0], [kernel_entry sqrt exp ⟨dim, c1⟩ ⟨dim, c2⟩ 0 0], [0], [sqrt (kernel_entry sqrt exp ⟨dim, c1⟩ ⟨dim, c2⟩ 0 0 * kernel_entry sqrt exp ⟨dim, c1⟩ ⟨dim, c2⟩ 0 0)]⟩ := by
  show update_ir ⟨[0, -1], [1, 0], [kernel_entry sqrt exp ⟨dim, c1⟩ ⟨dim, c2⟩ 0 0], [0], [sqrt (kernel_entry sqrt exp ⟨dim, c1⟩ ⟨dim, c2⟩ 0 0 * kernel_entry sqrt exp ⟨dim, c1⟩ ⟨dim, c2⟩ 0 0)]⟩ 1 = _
  simp only [update_ir, List.range_succ, List.range_zero, List.nil_append, List.cons_append,
    List.foldl_cons, List.foldl_nil, update_ir_thread]
  simp [rd, wr, h0]

/-- The rank loop of `apply_batched_aca` on a `1 x 1` block of type ACA followed by an item with type tag `0`, `k = 1`: one rank
iteration, which accepts the only row. -/
theorem batched_aca_factors_one_by_one_and_other_type {R : Type} [LinearOrderedField R]
    (sqrt exp : R → R) (dim : Nat) (c1 c2 : Nat → Int → R) (eta epsilon : R)
    (content : Nat → R) (fuel : Nat)
    (h0 : update_ir_threshold R ≤ abs (sqrt (kernel_entry sqrt exp ⟨dim, c1⟩ ⟨dim, c2⟩ 0 0 * kernel_entry sqrt exp ⟨dim, c1⟩ ⟨dim, c2⟩ 0 0))) :
    batched_aca_factors sqrt exp [⟨0, 0, 0, 0, WT_ACA⟩, ⟨1, 1, 1, 1, 0⟩] 1 ⟨dim, c1⟩ ⟨dim, c2⟩ eta epsilon content (fuel + 1) [0]
      = some ⟨[kernel_entry sqrt exp ⟨dim, c1⟩ ⟨dim, c2⟩ 0 0], [kernel_entry sqrt exp ⟨dim, c1⟩ ⟨dim, c2⟩ 0 0 / kernel_entry sqrt exp ⟨dim, c1⟩ ⟨dim, c2⟩ 0 0], [0, -1], [false]⟩ := by
  have hs := search_round_one_by_one_and_other_type sqrt exp dim c1 c2 [0] [0] 0 [] [] h0
  have hsl : search_loop sqrt exp [⟨0, 0, 0, 0, WT_ACA⟩, ⟨1, 1, 1, 1, 0⟩] 1 ⟨dim, c1⟩ ⟨dim, c2⟩ [0] [0]
      ((0 : Nat) : Int) (fuel + 1)
      ⟨[-1, -1], init_compute_v_r [⟨0, 0, 0, 0, WT_ACA⟩, ⟨1, 1, 1, 1, 0⟩] (k_per_item [⟨0, 0, 0, 0, WT_ACA⟩, ⟨1, 1, 1, 1, 0⟩] 1) ((0 : Nat) : Int),
        get_row [0] 0 (block_total [⟨0, 0, 0, 0, WT_ACA⟩, ⟨1, 1, 1, 1, 0⟩] 2), [], []⟩
      = some ⟨[0, -1], [0, 0], [kernel_entry sqrt exp ⟨dim, c1⟩ ⟨dim, c2⟩ 0 0], [0], [sqrt (kernel_entry sqrt exp ⟨dim, c1⟩ ⟨dim, c2⟩ 0 0 * kernel_entry sqrt exp ⟨dim, c1⟩ ⟨dim, c2⟩ 0 0)]⟩ := by
    show search_loop sqrt exp [⟨0, 0, 0, 0, WT_ACA⟩, ⟨1, 1, 1, 1, 0⟩] 1 ⟨dim, c1⟩ ⟨dim, c2⟩ [0] [0] 0 (fuel + 1)
      ⟨[-1, -1], [1, 0], [0], [], []⟩ = _
    simp only [search_loop, hs]
    rfl
  have hit : rank_iteration sqrt exp [⟨0, 0, 0, 0, WT_ACA⟩, ⟨1, 1, 1, 1, 0⟩] 1 ⟨dim, c1⟩ ⟨dim, c2⟩ eta epsilon content (fuel + 1) [0] 0
      ⟨[0], [0], [-1, -1], [false]⟩
      = some (⟨[kernel_entry sqrt exp ⟨dim, c1⟩ ⟨dim, c2⟩ 0 0], [kernel_entry sqrt exp ⟨dim, c1⟩ ⟨dim, c2⟩ 0 0 / kernel_entry sqrt exp ⟨dim, c1⟩ ⟨dim, c2⟩ 0 0], [0, -1], [false]⟩, false) := by
    simp only [rank_iteration]
    rw [hsl]
    rfl
  show rank_loop sqrt exp [⟨0, 0, 0, 0, WT_ACA⟩, ⟨1, 1, 1, 1, 0⟩] 1 ⟨dim, c1⟩ ⟨dim, c2⟩ eta epsilon content (fuel + 1) [0] 1 0
    ⟨[0], [0], [-1, -1], [false]⟩ = _
  rw [rank_loop_succ, hit]
  simp only [Option.some_bind]
  rfl

theorem apply_batched_aca_no_blocks {R : Type} [LinearOrderedField R] (sqrt exp : R → R)
    (x y : List R) (input_set1 input_set2 : point_set R) (eta epsilon : R) (k : Int)
    (stat : Nat → Bool) (content tmp_content y_content : Nat → R) (fuel : Nat)
    (schedule : List Nat) :
    apply_batched_aca sqrt exp x y [] input_set1 input_set2 eta epsilon k stat content
      tmp_content y_content fuel schedule = none := rfl

/-- A kernel launch on at least one thread has a thread block, and a launch on
no thread has none. -/
theorem launch_rejected_iff (n : Int) : launch_rejected n = true ↔ n ≤ 0 := by
  unfold launch_rejected launch_grid
  rw [decide_eq_true_iff]
  by_cases h : 0 ≤ n + (512 - 1)
  · rw [Int.tdiv_eq_ediv h (by decide)]
    omega
  · have h1 : Int.tdiv (n + (512 - 1)) 512 ≤ 0 := by
      have h2 : 0 ≤ Int.tdiv (-(n + (512 - 1))) 512 := Int.tdiv_nonneg (by omega) (by decide)
      rw [Int.neg_tdiv] at h2
      omega
    constructor
    · intro _
      omega
    · intro _
      exact h1

theorem zero_fill_of_short {R : Type} [Zero R] (y : List R) (point_count : Int)
    (hy : (y.length : Int) ≤ point_count) :
    y.mapIdx (fun (i : Nat) (v : R) => if (i : Int) < point_count then 0 else v)
      = List.replicate y.length 0 := by
  apply List.ext_getElem (by simp)
  intro i h1 h2
  rw [List.getElem_mapIdx, List.getElem_replicate, if_pos]
  simp only [List.length_mapIdx] at h1
  omega

/-- The entry point on one `1 x 1` block of type ACA with `k = 1`: the initial
content `b` of `y` is replaced by `0`, the rank loop accepts the only row and
the apply stage adds `U * (V * x)` to `0`. -/
theorem mvp_one_by_one {R : Type} [LinearOrderedField R]
    (sqrt exp : R → R) (dim : Nat) (c1 c2 : Nat → Int → R) (eta epsilon : R) (a b : R)
    (stat_dense : Nat → Bool) (matrix_content content tmp_content y_content : Nat → R)
    (fuel : Nat)
    (h0 : update_ir_threshold R ≤ abs (sqrt (kernel_entry sqrt exp ⟨dim, c1⟩ ⟨dim, c2⟩ 0 0 * kernel_entry sqrt exp ⟨dim, c1⟩ ⟨dim, c2⟩ 0 0))) :
    sequential_h_matrix_mvp sqrt exp [a] [b] [⟨0, 0, 0, 0, WT_ACA⟩] ⟨dim, c1⟩ ⟨dim, c2⟩ 1 eta epsilon 1
        stat_dense (fun _ => true) matrix_content content tmp_content y_content (fuel + 1) [0]
      = some [0 + (0 + kernel_entry sqrt exp ⟨dim, c1⟩ ⟨dim, c2⟩ 0 0 * (0 + kernel_entry sqrt exp ⟨dim, c1⟩ ⟨dim, c2⟩ 0 0 / kernel_entry sqrt exp ⟨dim, c1⟩ ⟨dim, c2⟩ 0 0 * a))] := by
  show apply_batched_aca sqrt exp [a] [0] [⟨0, 0, 0, 0, WT_ACA⟩] ⟨dim, c1⟩ ⟨dim, c2⟩ eta epsilon 1
    (fun _ => true) content tmp_content y_content (fuel + 1) [0] = _
  have hl : launch_rejected ((([⟨0, 0, 0, 0, WT_ACA⟩] : List work_item).length : Nat) : Int) = false := by decide
  have hl1 : launch_rejected (block_total [⟨0, 0, 0, 0, WT_ACA⟩] 1) = false := by decide
  simp only [apply_batched_aca, hl, hl1, Bool.false_eq_true, if_false,
    batched_aca_factors_one_by_one sqrt exp dim c1 c2 eta epsilon content fuel h0]
  rfl

/-- The entry point on an item with type tag `0` and a `1 x 1` block of type
ACA, `k = 1`: the sort puts the block first, the loop over the dense blocks
passes both items by, `apply_batched_aca` receives both items and the item with
tag `0` owns no position. -/
theorem mvp_with_item_of_type_zero {R : Type} [LinearOrderedField R]
    (sqrt exp : R → R) (dim : Nat) (c1 c2 : Nat → Int → R) (eta epsilon : R) (a a2 b b2 : R)
    (stat_dense : Nat → Bool) (matrix_content content tmp_content y_content : Nat → R)
    (fuel : Nat)
    (h0 : update_ir_threshold R ≤ abs (sqrt (kernel_entry sqrt exp ⟨dim, c1⟩ ⟨dim, c2⟩ 0 0 * kernel_entry sqrt exp ⟨dim, c1⟩ ⟨dim, c2⟩ 0 0))) :
    sequential_h_matrix_mvp sqrt exp [a, a2] [b, b2] [⟨1, 1, 1, 1, 0⟩, ⟨0, 0, 0, 0, WT_ACA⟩] ⟨dim, c1⟩ ⟨dim, c2⟩ 2 eta epsilon 1
        stat_dense (fun _ => true) matrix_content content tmp_content y_content (fuel + 1) [0]
      = some [0 + (0 + kernel_entry sqrt exp ⟨dim, c1⟩ ⟨dim, c2⟩ 0 0 * (0 + kernel_entry sqrt exp ⟨dim, c1⟩ ⟨dim, c2⟩ 0 0 / kernel_entry sqrt exp ⟨dim, c1⟩ ⟨dim, c2⟩ 0 0 * a)), 0] := by
  show apply_batched_aca sqrt exp [a, a2] [0, 0] [⟨0, 0, 0, 0, WT_ACA⟩, ⟨1, 1, 1, 1, 0⟩] ⟨dim, c1⟩ ⟨dim, c2⟩ eta epsilon 1
    (fun _ => true) content tmp_content y_content (fuel + 1) [0] = _
  have hl : launch_rejected ((([⟨0, 0, 0, 0, WT_ACA⟩, ⟨1, 1, 1, 1, 0⟩] : List work_item).length : Nat) : Int) = false := by decide
  have hl1 : launch_rejected (block_total [⟨0, 0, 0, 0, WT_ACA⟩, ⟨1, 1, 1, 1, 0⟩] 1) = false := by decide
  simp only [apply_batched_aca, hl, hl1, Bool.false_eq_true, if_false,
    batched_aca_factors_one_by_one_and_other_type sqrt exp dim c1 c2 eta epsilon content fuel h0]
  rfl

/-- The entry point on an item with type tag `3` and a `1 x 1` block of type
ACA, `k = 1`: the sort leaves the item in front, the loop over the dense blocks
passes it by, `partition_point` counts it among the leading items that are not
of type ACA, and `apply_batched_aca` receives the block alone. -/
theorem mvp_with_item_of_type_three {R : Type} [LinearOrderedField R]
    (sqrt exp : R → R) (dim : Nat) (c1 c2 : Nat → Int → R) (eta epsilon : R) (a a2 b b2 : R)
    (stat_dense : Nat → Bool) (matrix_content content tmp_content y_content : Nat → R)
    (fuel : Nat)
    (h0 : update_ir_threshold R ≤ abs (sqrt (kernel_entry sqrt exp ⟨dim, c1⟩ ⟨dim, c2⟩ 0 0 * kernel_entry sqrt exp ⟨dim, c1⟩ ⟨dim, c2⟩ 0 0))) :
    sequential_h_matrix_mvp sqrt exp [a, a2] [b, b2] [⟨1, 1, 1, 1, 3⟩, ⟨0, 0, 0, 0, WT_ACA⟩] ⟨dim, c1⟩ ⟨dim, c2⟩ 2 eta epsilon 1
        stat_dense (fun _ => true) matrix_content content tmp_content y_content (fuel + 1) [0]
      = some [0 + (0 + kernel_entry sqrt exp ⟨dim, c1⟩ ⟨dim, c2⟩ 0 0 * (0 + kernel_entry sqrt exp ⟨dim, c1⟩ ⟨dim, c2⟩ 0 0 / kernel_entry sqrt exp ⟨dim, c1⟩ ⟨dim, c2⟩ 0 0 * a)), 0] := by
  show apply_batched_aca sqrt exp [a, a2] [0, 0] [⟨0, 0, 0, 0, WT_ACA⟩] ⟨dim, c1⟩ ⟨dim, c2⟩ eta epsilon 1
    (fun _ => true) content tmp_content y_content (fuel + 1) [0] = _
  have hl : launch_rejected ((([⟨0, 0, 0, 0, WT_ACA⟩] : List work_item).length : Nat) : Int) = false := by decide
  have hl1 : launch_rejected (block_total [⟨0, 0, 0, 0, WT_ACA⟩] 1) = false := by decide
  simp only [apply_batched_aca, hl, hl1, Bool.false_eq_true, if_false,
    batched_aca_factors_one_by_one sqrt exp dim c1 c2 eta epsilon content fuel h0]
  rfl

/-- The loop over the dense blocks passes an item by whose type is not DENSE,
whatever its type is. -/
theorem dense_blocks_loop_passes_by {R : Type} [Ring R] (sqrt exp : R → R) (x : List R)
    (input_set1 input_set2 : point_set R) (stat : Nat → Bool)
    (matrix_content y_content : Nat → R) (w : work_item) (rest : List work_item) (i : Nat)
    (y : List R) (hd : w.work_type ≠ WT_DENSE) :
    dense_blocks_loop sqrt exp x input_set1 input_set2 stat matrix_content y_content
        (w :: rest) i y
      = dense_blocks_loop sqrt exp x input_set1 input_set2 stat matrix_content y_content rest
        (i + 1) y := by
  simp only [dense_blocks_loop, if_neg hd]

theorem first_entry_of_rational_model :
    update_ir_threshold ℚ ≤ abs (id (kernel_entry id (fun x : ℚ => 1 / ((1 - x) * (1 - x))) (⟨1, fun _ i => (i : ℚ)⟩ : point_set ℚ) (⟨1, fun _ j => 10 + 3 * (j : ℚ)⟩ : point_set ℚ) 0 0 * kernel_entry id (fun x : ℚ => 1 / ((1 - x) * (1 - x))) (⟨1, fun _ i => (i : ℚ)⟩ : point_set ℚ) (⟨1, fun _ j => 10 + 3 * (j : ℚ)⟩ : point_set ℚ) 0 0)) ∧
    kernel_entry id (fun x : ℚ => 1 / ((1 - x) * (1 - x))) (⟨1, fun _ i => (i : ℚ)⟩ : point_set ℚ) (⟨1, fun _ j => 10 + 3 * (j : ℚ)⟩ : point_set ℚ) 0 0 = 1 / 101 := by
  constructor
  · simp [kernel_entry, kernel, distance, update_ir_threshold, List.range_succ]
    norm_num [abs_of_pos]
  · simp [kernel_entry, kernel, distance, List.range_succ]
    norm_num

theorem contribution_of_rational_model : 0 + (0 + kernel_entry id (fun x : ℚ => 1 / ((1 - x) * (1 - x))) (⟨1, fun _ i => (i : ℚ)⟩ : point_set ℚ) (⟨1, fun _ j => 10 + 3 * (j : ℚ)⟩ : point_set ℚ) 0 0 * (0 + kernel_entry id (fun x : ℚ => 1 / ((1 - x) * (1 - x))) (⟨1, fun _ i => (i : ℚ)⟩ : point_set ℚ) (⟨1, fun _ j => 10 + 3 * (j : ℚ)⟩ : point_set ℚ) 0 0 / kernel_entry id (fun x : ℚ => 1 / ((1 - x) * (1 - x))) (⟨1, fun _ i => (i : ℚ)⟩ : point_set ℚ) (⟨1, fun _ j => 10 + 3 * (j : ℚ)⟩ : point_set ℚ) 0 0 * (1 : ℚ))) = 1 / 101 := by
  rw [first_entry_of_rational_model.2]
  norm_num

/-- C25, counterexample: one `1 x 1` block of type ACA (row point `0`, column
point `10`), `k = 1`, `x = [1]`, `point_count = 1`, over the rationals with
`sqrt` the identity and `exp(-d) = 1/(1+d)^2`; the block has the entry
`1/101`.  Called with `y = [0]` the function returns `[1/101]`, the
contribution of the block.  Called with `y = [5]` the claim asks for
`[5 + 1/101]`; the function returns `[1/101]`. -/
theorem mvp_overwrites_initial_y :
    sequential_h_matrix_mvp id (fun x : ℚ => 1 / ((1 - x) * (1 - x))) [1] [0] [⟨0, 0, 0, 0, WT_ACA⟩] (⟨1, fun _ i => (i : ℚ)⟩ : point_set ℚ) (⟨1, fun _ j => 10 + 3 * (j : ℚ)⟩ : point_set ℚ) 1 0 0 1
        (fun _ => true) (fun _ => true) (fun _ => 0) (fun _ => 0) (fun _ => 0) (fun _ => 0) 1 [0]
      = some [1 / 101] ∧
    sequential_h_matrix_mvp id (fun x : ℚ => 1 / ((1 - x) * (1 - x))) [1] [5] [⟨0, 0, 0, 0, WT_ACA⟩] (⟨1, fun _ i => (i : ℚ)⟩ : point_set ℚ) (⟨1, fun _ j => 10 + 3 * (j : ℚ)⟩ : point_set ℚ) 1 0 0 1
        (fun _ => true) (fun _ => true) (fun _ => 0) (fun _ => 0) (fun _ => 0) (fun _ => 0) 1 [0]
      = some [1 / 101] := by
  constructor
  · rw [mvp_one_by_one id (fun x : ℚ => 1 / ((1 - x) * (1 - x))) 1 (fun _ i => (i : ℚ)) (fun _ j => 10 + 3 * (j : ℚ)) 0 0 1 0
      (fun _ => true) (fun _ => 0) (fun _ => 0) (fun _ => 0) (fun _ => 0) 0
      first_entry_of_rational_model.1, contribution_of_rational_model]
  · rw [mvp_one_by_one id (fun x : ℚ => 1 / ((1 - x) * (1 - x))) 1 (fun _ i => (i : ℚ)) (fun _ j => 10 + 3 * (j : ℚ)) 0 0 1 5
      (fun _ => true) (fun _ => 0) (fun _ => 0) (fun _ => 0) (fun _ => 0) 0
      first_entry_of_rational_model.1, contribution_of_rational_model]

/-- C25: `sequential_h_matrix_mvp` fills `y[0 .. point_count-1]` with `0.0`
before the first block is handled.  For a `y` of at most `point_count` entries
the outcome (the final `y`, or no return) is the one for the zero vector of
the same length: the final `y` holds the contributions of the dense and ACA
blocks added to zero, whatever the initial content of `y`. -/
theorem mvp_result_from_zero {R : Type} [LinearOrderedField R] (sqrt exp : R → R)
    (x y : List R) (mat_vec_data : List work_item) (input_set1 input_set2 : point_set R)
    (point_count : Int) (eta epsilon : R) (k : Int) (stat_dense stat_aca : Nat → Bool)
    (matrix_content content tmp_content y_content : Nat → R) (fuel : Nat)
    (schedule : List Nat) (hy : (y.length : Int) ≤ point_count) :
    sequential_h_matrix_mvp sqrt exp x y mat_vec_data input_set1 input_set2 point_count eta
        epsilon k stat_dense stat_aca matrix_content content tmp_content y_content fuel schedule
      = sequential_h_matrix_mvp sqrt exp x (List.replicate y.length 0) mat_vec_data input_set1
          input_set2 point_count eta epsilon k stat_dense stat_aca matrix_content content
          tmp_content y_content fuel schedule := by
  unfold sequential_h_matrix_mvp
  rw [zero_fill_of_short y point_count hy,
    zero_fill_of_short (List.replicate y.length 0) point_count (by simpa using hy)]
  simp

/-- C25, instance: one `1 x 1` block of type ACA (row point `0`, column point
`10`), `k = 1`, `x = [1]`, `y = [5]`, `point_count = 1`, over the rationals with
`sqrt` the identity and `exp(-d) = 1/(1+d)^2`. -/
theorem mvp_result_from_zero_witness :
    sequential_h_matrix_mvp id (fun x : ℚ => 1 / ((1 - x) * (1 - x))) [1] [5] [⟨0, 0, 0, 0, WT_ACA⟩] (⟨1, fun _ i => (i : ℚ)⟩ : point_set ℚ) (⟨1, fun _ j => 10 + 3 * (j : ℚ)⟩ : point_set ℚ) 1 0 0 1
        (fun _ => true) (fun _ => true) (fun _ => 0) (fun _ => 0) (fun _ => 0) (fun _ => 0) 1 [0]
      = sequential_h_matrix_mvp id (fun x : ℚ => 1 / ((1 - x) * (1 - x))) [1] (List.replicate ([5] : List ℚ).length 0) [⟨0, 0, 0, 0, WT_ACA⟩]
          (⟨1, fun _ i => (i : ℚ)⟩ : point_set ℚ) (⟨1, fun _ j => 10 + 3 * (j : ℚ)⟩ : point_set ℚ) 1 0 0 1
          (fun _ => true) (fun _ => true) (fun _ => 0) (fun _ => 0) (fun _ => 0) (fun _ => 0) 1 [0] :=
  mvp_result_from_zero id (fun x : ℚ => 1 / ((1 - x) * (1 - x))) [1] [5] [⟨0, 0, 0, 0, WT_ACA⟩] (⟨1, fun _ i => (i : ℚ)⟩ : point_set ℚ) (⟨1, fun _ j => 10 + 3 * (j : ℚ)⟩ : point_set ℚ) 1 0 0 1 (fun _ => true) (fun _ => true)
    (fun _ => 0) (fun _ => 0) (fun _ => 0) (fun _ => 0) 1 [0] (by decide)

/-- C26: the claim asks that `sequential_h_matrix_mvp` aborts on an item whose
type is neither DENSE nor ACA.  A list of an item with rows `1..1`, columns
`1..1` and such a type tag and of a `1 x 1` block of type ACA (row point `0`,
column point `10`), `k = 1`, `x = [1, 1]`, `y = [5, 5]`, `point_count = 2`, over
the rationals with `sqrt` the identity and `exp(-d) = 1/(1+d)^2`.  With the
tag `0` the item is sorted behind the block and handed to `apply_batched_aca`,
where it owns no position; with the tag `3` it is sorted in front, and
`partition_point` counts it among the leading items that are not of type ACA.
In both cases the loop over the dense blocks passes the item by and the
function returns `[1/101, 0]`, the contribution of the block of type ACA. -/
theorem invalid_work_type_is_passed_by :
    (0 : Int) ≠ WT_DENSE ∧ (0 : Int) ≠ WT_ACA ∧ (3 : Int) ≠ WT_DENSE ∧ (3 : Int) ≠ WT_ACA ∧
    sequential_h_matrix_mvp id (fun x : ℚ => 1 / ((1 - x) * (1 - x))) [1, 1] [5, 5] [⟨1, 1, 1, 1, 0⟩, ⟨0, 0, 0, 0, WT_ACA⟩] (⟨1, fun _ i => (i : ℚ)⟩ : point_set ℚ) (⟨1, fun _ j => 10 + 3 * (j : ℚ)⟩ : point_set ℚ) 2 0 0 1
        (fun _ => true) (fun _ => true) (fun _ => 0) (fun _ => 0) (fun _ => 0) (fun _ => 0) 1 [0]
      = some [1 / 101, 0] ∧
    sequential_h_matrix_mvp id (fun x : ℚ => 1 / ((1 - x) * (1 - x))) [1, 1] [5, 5] [⟨1, 1, 1, 1, 3⟩, ⟨0, 0, 0, 0, WT_ACA⟩] (⟨1, fun _ i => (i : ℚ)⟩ : point_set ℚ) (⟨1, fun _ j => 10 + 3 * (j : ℚ)⟩ : point_set ℚ) 2 0 0 1
        (fun _ => true) (fun _ => true) (fun _ => 0) (fun _ => 0) (fun _ => 0) (fun _ => 0) 1 [0]
      = some [1 / 101, 0] := by
  refine ⟨by decide, by decide, by decide, by decide, ?_, ?_⟩
  · rw [mvp_with_item_of_type_zero id (fun x : ℚ => 1 / ((1 - x) * (1 - x))) 1 (fun _ i => (i : ℚ)) (fun _ j => 10 + 3 * (j : ℚ))
      0 0 1 1 5 5 (fun _ => true) (fun _ => 0) (fun _ => 0) (fun _ => 0) (fun _ => 0) 0
      first_entry_of_rational_model.1, contribution_of_rational_model]
  · rw [mvp_with_item_of_type_three id (fun x : ℚ => 1 / ((1 - x) * (1 - x))) 1 (fun _ i => (i : ℚ)) (fun _ j => 10 + 3 * (j : ℚ))
      0 0 1 1 5 5 (fun _ => true) (fun _ => 0) (fun _ => 0) (fun _ => 0) (fun _ => 0) 0
      first_entry_of_rational_model.1, contribution_of_rational_model]

/-- C27: the claim asks that a product that reports a failure is fatal on
every path.  The dense path aborts (first part).  In `apply_batched_aca` the
status of the products of the apply loop is not looked at: whether the
function returns does not depend on the statuses (second part).  For the
`1 x 1` block with `U = [2]`, `V = [3]`, `x = [1]`, `y = [0]` over the integers,
`local_y` allocated with content `9`: when both products report a failure the
apply stage returns `y = [9]`, when they succeed it returns `y = [6]`. -/
theorem batched_apply_goes_on_after_backend_failure {R : Type} [LinearOrderedField R]
    (sqrt exp : R → R) (x y : List R) (w : work_item) (mat_vec_data : List work_item)
    (input_set1 input_set2 : point_set R) (eta epsilon : R) (k : Int)
    (stat stat2 : Nat → Bool) (matrix_content content tmp_content y_content : Nat → R)
    (fuel : Nat) (schedule : List Nat) :
    apply_dense_matrix_for_current_work_item sqrt exp x y w input_set1 input_set2 false
      matrix_content y_content = none ∧
    (apply_batched_aca sqrt exp x y mat_vec_data input_set1 input_set2 eta epsilon k stat
        content tmp_content y_content fuel schedule).isSome
      = (apply_batched_aca sqrt exp x y mat_vec_data input_set1 input_set2 eta epsilon k stat2
        content tmp_content y_content fuel schedule).isSome ∧
    batched_low_rank_apply_stat (fun _ => false) [(1 : Int)] [0] [⟨0, 0, 0, 0, WT_ACA⟩] 1 [2] [3]
      (fun _ => 7) (fun _ => 9) = [9] ∧
    batched_low_rank_apply_stat (fun _ => true) [(1 : Int)] [0] [⟨0, 0, 0, 0, WT_ACA⟩] 1 [2] [3]
      (fun _ => 7) (fun _ => 9) = [6] := by
  refine ⟨rfl, ?_, by decide, by decide⟩
  unfold apply_batched_aca
  split
  · rfl
  · cases batched_aca_factors sqrt exp mat_vec_data k input_set1 input_set2 eta epsilon content
      fuel schedule with
    | none => rfl
    | some st =>
      simp only []
      split <;> rfl

theorem apply_loop_body_stat_success {R : Type} [Ring R] (k : Int)
    (m1_h m2_h point_map_offsets1_h point_map_offsets2_h k_per_item_h : List Int)
    (m1_total m2_total : Int) (U V local_x : List R) :
    apply_loop_body_stat (fun _ => true) k m1_h m2_h point_map_offsets1_h point_map_offsets2_h
        k_per_item_h m1_total m2_total U V local_x
      = apply_loop_body k m1_h m2_h point_map_offsets1_h point_map_offsets2_h k_per_item_h
          m1_total m2_total U V local_x := by
  funext st s
  unfold apply_loop_body_stat apply_loop_body
  simp

/-- When every product of the apply loop reports success, the apply stage with
statuses is the apply stage `batched_low_rank_apply`. -/
theorem batched_low_rank_apply_stat_success {R : Type} [Ring R] (x y : List R)
    (mat_vec_data : List work_item) (k : Int) (U V : List R)
    (tmp_content y_content : Nat → R) :
    batched_low_rank_apply_stat (fun _ => true) x y mat_vec_data k U V tmp_content y_content
      = batched_low_rank_apply x y mat_vec_data k U V tmp_content y_content := by
  simp only [batched_low_rank_apply_stat, batched_low_rank_apply, apply_loop_body_stat_success]

/-! ### C29: the pivot row and the rows of its block -/

theorem search_round_two_by_two_rank1_rejected {R : Type} [LinearOrderedField R]
    (sqrt exp : R → R) (dim : Nat) (c1 c2 : Nat → Int → R) (x y : R)
    (ks : List Int) (ns : List R)
    (h1 : ¬ update_ir_threshold R ≤ abs (sqrt ((kernel_entry sqrt exp ⟨dim, c1⟩ ⟨dim, c2⟩ 1 0 - kernel_entry sqrt exp ⟨dim, c1⟩ ⟨dim, c2⟩ 1 0 * (kernel_entry sqrt exp ⟨dim, c1⟩ ⟨dim, c2⟩ 0 0 / kernel_entry sqrt exp ⟨dim, c1⟩ ⟨dim, c2⟩ 0 0)) * (kernel_entry sqrt exp ⟨dim, c1⟩ ⟨dim, c2⟩ 1 0 - kernel_entry sqrt exp ⟨dim, c1⟩ ⟨dim, c2⟩ 1 0 * (kernel_entry sqrt exp ⟨dim, c1⟩ ⟨dim, c2⟩ 0 0 / kernel_entry sqrt exp ⟨dim, c1⟩ ⟨dim, c2⟩ 0 0)) + (kernel_entry sqrt exp ⟨dim, c1⟩ ⟨dim, c2⟩ 1 1 - kernel_entry sqrt exp ⟨dim, c1⟩ ⟨dim, c2⟩ 1 0 * (kernel_entry sqrt exp ⟨dim, c1⟩ ⟨dim, c2⟩ 0 1 / kernel_entry sqrt exp ⟨dim, c1⟩ ⟨dim, c2⟩ 0 0)) * (kernel_entry sqrt exp ⟨dim, c1⟩ ⟨dim, c2⟩ 1 1 - kernel_entry sqrt exp ⟨dim, c1⟩ ⟨dim, c2⟩ 1 0 * (kernel_entry sqrt exp ⟨dim, c1⟩ ⟨dim, c2⟩ 0 1 / kernel_entry sqrt exp ⟨dim, c1⟩ ⟨dim, c2⟩ 0 0))))) :
    search_round sqrt exp [⟨0, 1, 0, 1, WT_ACA⟩] 2 ⟨dim, c1⟩ ⟨dim, c2⟩ [kernel_entry sqrt exp ⟨dim, c1⟩ ⟨dim, c2⟩ 0 0 / kernel_entry sqrt exp ⟨dim, c1⟩ ⟨dim, c2⟩ 0 0, kernel_entry sqrt exp ⟨dim, c1⟩ ⟨dim, c2⟩ 0 1 / kernel_entry sqrt exp ⟨dim, c1⟩ ⟨dim, c2⟩ 0 0, 0, 0] [kernel_entry sqrt exp ⟨dim, c1⟩ ⟨dim, c2⟩ 0 0, kernel_entry sqrt exp ⟨dim, c1⟩ ⟨dim, c2⟩ 1 0, 0, 0] 1
        ⟨[0], [1], [x, y], ks, ns⟩
      = ⟨[1], [1], [(kernel_entry sqrt exp ⟨dim, c1⟩ ⟨dim, c2⟩ 1 0 - kernel_entry sqrt exp ⟨dim, c1⟩ ⟨dim, c2⟩ 1 0 * (kernel_entry sqrt exp ⟨dim, c1⟩ ⟨dim, c2⟩ 0 0 / kernel_entry sqrt exp ⟨dim, c1⟩ ⟨dim, c2⟩ 0 0)), (kernel_entry sqrt exp ⟨dim, c1⟩ ⟨dim, c2⟩ 1 1 - kernel_entry sqrt exp ⟨dim, c1⟩ ⟨dim, c2⟩ 1 0 * (kernel_entry sqrt exp ⟨dim, c1⟩ ⟨dim, c2⟩ 0 1 / kernel_entry sqrt exp ⟨dim, c1⟩ ⟨dim, c2⟩ 0 0))], [0], [sqrt ((kernel_entry sqrt exp ⟨dim, c1⟩ ⟨dim, c2⟩ 1 0 - kernel_entry sqrt exp ⟨dim, c1⟩ ⟨dim, c2⟩ 1 0 * (kernel_entry sqrt exp ⟨dim, c1⟩ ⟨dim, c2⟩ 0 0 / kernel_entry sqrt exp ⟨dim, c1⟩ ⟨dim, c2⟩ 0 0)) * (kernel_entry sqrt exp ⟨dim, c1⟩ ⟨dim, c2⟩ 1 0 - kernel_entry sqrt exp ⟨dim, c1⟩ ⟨dim, c2⟩ 1 0 * (kernel_entry sqrt exp ⟨dim, c1⟩ ⟨dim, c2⟩ 0 0 / kernel_entry sqrt exp ⟨dim, c1⟩ ⟨dim, c2⟩ 0 0)) + (kernel_entry sqrt exp ⟨dim, c1⟩ ⟨dim, c2⟩ 1 1 - kernel_entry sqrt exp ⟨dim, c1⟩ ⟨dim, c2⟩ 1 0 * (kernel_entry sqrt exp ⟨dim, c1⟩ ⟨dim, c2⟩ 0 1 / kernel_entry sqrt exp ⟨dim, c1⟩ ⟨dim, c2⟩ 0 0)) * (kernel_entry sqrt exp ⟨dim, c1⟩ ⟨dim, c2⟩ 1 1 - kernel_entry sqrt exp ⟨dim, c1⟩ ⟨dim, c2⟩ 1 0 * (kernel_entry sqrt exp ⟨dim, c1⟩ ⟨dim, c2⟩ 0 1 / kernel_entry sqrt exp ⟨dim, c1⟩ ⟨dim, c2⟩ 0 0)))]⟩ := by
  show update_ir ⟨[1], [1], [(kernel_entry sqrt exp ⟨dim, c1⟩ ⟨dim, c2⟩ 1 0 - kernel_entry sqrt exp ⟨dim, c1⟩ ⟨dim, c2⟩ 1 0 * (kernel_entry sqrt exp ⟨dim, c1⟩ ⟨dim, c2⟩ 0 0 / kernel_entry sqrt exp ⟨dim, c1⟩ ⟨dim, c2⟩ 0 0)), (kernel_entry sqrt exp ⟨dim, c1⟩ ⟨dim, c2⟩ 1 1 - kernel_entry sqrt exp ⟨dim, c1⟩ ⟨dim, c2⟩ 1 0 * (kernel_entry sqrt exp ⟨dim, c1⟩ ⟨dim, c2⟩ 0 1 / kernel_entry sqrt exp ⟨dim, c1⟩ ⟨dim, c2⟩ 0 0))], [0], [sqrt ((kernel_entry sqrt exp ⟨dim, c1⟩ ⟨dim, c2⟩ 1 0 - kernel_entry sqrt exp ⟨dim, c1⟩ ⟨dim, c2⟩ 1 0 * (kernel_entry sqrt exp ⟨dim, c1⟩ ⟨dim, c2⟩ 0 0 / kernel_entry sqrt exp ⟨dim, c1⟩ ⟨dim, c2⟩ 0 0)) * (kernel_entry sqrt exp ⟨dim, c1⟩ ⟨dim, c2⟩ 1 0 - kernel_entry sqrt exp ⟨dim, c1⟩ ⟨dim, c2⟩ 1 0 * (kernel_entry sqrt exp ⟨dim, c1⟩ ⟨dim, c2⟩ 0 0 / kernel_entry sqrt exp ⟨dim, c1⟩ ⟨dim, c2⟩ 0 0)) + (kernel_entry sqrt exp ⟨dim, c1⟩ ⟨dim, c2⟩ 1 1 - kernel_entry sqrt exp ⟨dim, c1⟩ ⟨dim, c2⟩ 1 0 * (kernel_entry sqrt exp ⟨dim, c1⟩ ⟨dim, c2⟩ 0 1 / kernel_entry sqrt exp ⟨dim, c1⟩ ⟨dim, c2⟩ 0 0)) * (kernel_entry sqrt exp ⟨dim, c1⟩ ⟨dim, c2⟩ 1 1 - kernel_entry sqrt exp ⟨dim, c1⟩ ⟨dim, c2⟩ 1 0 * (kernel_entry sqrt exp ⟨dim, c1⟩ ⟨dim, c2⟩ 0 1 / kernel_entry sqrt exp ⟨dim, c1⟩ ⟨dim, c2⟩ 0 0)))]⟩ 1 = _
  simp only [update_ir, List.range_succ, List.range_zero, List.nil_append, List.cons_append,
    List.foldl_cons, List.foldl_nil, update_ir_thread]
  simp [rd, wr, h1]

theorem coinciding_rows_first_row_accepted :
    update_ir_threshold ℚ ≤ abs (id (kernel_entry id (fun x : ℚ => 1 / ((1 - x) * (1 - x))) (⟨1, fun _ _ => 0⟩ : point_set ℚ) (⟨1, fun _ j => 10 + 3 * (j : ℚ)⟩ : point_set ℚ) 0 0 * kernel_entry id (fun x : ℚ => 1 / ((1 - x) * (1 - x))) (⟨1, fun _ _ => 0⟩ : point_set ℚ) (⟨1, fun _ j => 10 + 3 * (j : ℚ)⟩ : point_set ℚ) 0 0 + kernel_entry id (fun x : ℚ => 1 / ((1 - x) * (1 - x))) (⟨1, fun _ _ => 0⟩ : point_set ℚ) (⟨1, fun _ j => 10 + 3 * (j : ℚ)⟩ : point_set ℚ) 0 1 * kernel_entry id (fun x : ℚ => 1 / ((1 - x) * (1 - x))) (⟨1, fun _ _ => 0⟩ : point_set ℚ) (⟨1, fun _ j => 10 + 3 * (j : ℚ)⟩ : point_set ℚ) 0 1)) := by
  simp [kernel_entry, kernel, distance, update_ir_threshold, List.range_succ]
  norm_num [abs_of_pos]

theorem coinciding_rows_first_pivot :
    abs (kernel_entry id (fun x : ℚ => 1 / ((1 - x) * (1 - x))) (⟨1, fun _ _ => 0⟩ : point_set ℚ) (⟨1, fun _ j => 10 + 3 * (j : ℚ)⟩ : point_set ℚ) 0 0) > abs (kernel_entry id (fun x : ℚ => 1 / ((1 - x) * (1 - x))) (⟨1, fun _ _ => 0⟩ : point_set ℚ) (⟨1, fun _ j => 10 + 3 * (j : ℚ)⟩ : point_set ℚ) 0 1) := by
  simp [kernel_entry, kernel, distance, List.range_succ]
  norm_num [abs_of_pos]

theorem coinciding_rows_second_row_rejected :
    ¬ update_ir_threshold ℚ ≤ abs (id ((kernel_entry id (fun x : ℚ => 1 / ((1 - x) * (1 - x))) (⟨1, fun _ _ => 0⟩ : point_set ℚ) (⟨1, fun _ j => 10 + 3 * (j : ℚ)⟩ : point_set ℚ) 1 0 - kernel_entry id (fun x : ℚ => 1 / ((1 - x) * (1 - x))) (⟨1, fun _ _ => 0⟩ : point_set ℚ) (⟨1, fun _ j => 10 + 3 * (j : ℚ)⟩ : point_set ℚ) 1 0 * (kernel_entry id (fun x : ℚ => 1 / ((1 - x) * (1 - x))) (⟨1, fun _ _ => 0⟩ : point_set ℚ) (⟨1, fun _ j => 10 + 3 * (j : ℚ)⟩ : point_set ℚ) 0 0 / kernel_entry id (fun x : ℚ => 1 / ((1 - x) * (1 - x))) (⟨1, fun _ _ => 0⟩ : point_set ℚ) (⟨1, fun _ j => 10 + 3 * (j : ℚ)⟩ : point_set ℚ) 0 0)) * (kernel_entry id (fun x : ℚ => 1 / ((1 - x) * (1 - x))) (⟨1, fun _ _ => 0⟩ : point_set ℚ) (⟨1, fun _ j => 10 + 3 * (j : ℚ)⟩ : point_set ℚ) 1 0 - kernel_entry id (fun x : ℚ => 1 / ((1 - x) * (1 - x))) (⟨1, fun _ _ => 0⟩ : point_set ℚ) (⟨1, fun _ j => 10 + 3 * (j : ℚ)⟩ : point_set ℚ) 1 0 * (kernel_entry id (fun x : ℚ => 1 / ((1 - x) * (1 - x))) (⟨1, fun _ _ => 0⟩ : point_set ℚ) (⟨1, fun _ j => 10 + 3 * (j : ℚ)⟩ : point_set ℚ) 0 0 / kernel_entry id (fun x : ℚ => 1 / ((1 - x) * (1 - x))) (⟨1, fun _ _ => 0⟩ : point_set ℚ) (⟨1, fun _ j => 10 + 3 * (j : ℚ)⟩ : point_set ℚ) 0 0)) + (kernel_entry id (fun x : ℚ => 1 / ((1 - x) * (1 - x))) (⟨1, fun _ _ => 0⟩ : point_set ℚ) (⟨1, fun _ j => 10 + 3 * (j : ℚ)⟩ : point_set ℚ) 1 1 - kernel_entry id (fun x : ℚ => 1 / ((1 - x) * (1 - x))) (⟨1, fun _ _ => 0⟩ : point_set ℚ) (⟨1, fun _ j => 10 + 3 * (j : ℚ)⟩ : point_set ℚ) 1 0 * (kernel_entry id (fun x : ℚ => 1 / ((1 - x) * (1 - x))) (⟨1, fun _ _ => 0⟩ : point_set ℚ) (⟨1, fun _ j => 10 + 3 * (j : ℚ)⟩ : point_set ℚ) 0 1 / kernel_entry id (fun x : ℚ => 1 / ((1 - x) * (1 - x))) (⟨1, fun _ _ => 0⟩ : point_set ℚ) (⟨1, fun _ j => 10 + 3 * (j : ℚ)⟩ : point_set ℚ) 0 0)) * (kernel_entry id (fun x : ℚ => 1 / ((1 - x) * (1 - x))) (⟨1, fun _ _ => 0⟩ : point_set ℚ) (⟨1, fun _ j => 10 + 3 * (j : ℚ)⟩ : point_set ℚ) 1 1 - kernel_entry id (fun x : ℚ => 1 / ((1 - x) * (1 - x))) (⟨1, fun _ _ => 0⟩ : point_set ℚ) (⟨1, fun _ j => 10 + 3 * (j : ℚ)⟩ : point_set ℚ) 1 0 * (kernel_entry id (fun x : ℚ => 1 / ((1 - x) * (1 - x))) (⟨1, fun _ _ => 0⟩ : point_set ℚ) (⟨1, fun _ j => 10 + 3 * (j : ℚ)⟩ : point_set ℚ) 0 1 / kernel_entry id (fun x : ℚ => 1 / ((1 - x) * (1 - x))) (⟨1, fun _ _ => 0⟩ : point_set ℚ) (⟨1, fun _ j => 10 + 3 * (j : ℚ)⟩ : point_set ℚ) 0 0)))) := by
  simp [kernel_entry, kernel, distance, update_ir_threshold, List.range_succ]
  norm_num

/-- C29: the claim asks that the pivot row of a block stays below the number
of rows of the block in every search round that evaluates the residual row.
One `2 x 2` block of type ACA with `k = 2` whose two row points coincide (both
at `0`; column points `10` and `13`), `sqrt` the identity and
`exp(-d) = 1/(1+d)^2` over the rationals.  Rank `0` accepts row `0`.  At rank
`1` the block is flagged (`k_per_item = 2`); the first search round moves the
pivot row to `1`, the residual row is `[0, 0]`, the flag stays `1` and the loop
does not leave; the second round evaluates the residual row for the pivot row
`2`, the number of rows of the block. -/
theorem pivot_row_leaves_block :
    ∃ (st1 : aca_state ℚ) (t1 : search_state ℚ),
      rank_iteration id (fun x : ℚ => 1 / ((1 - x) * (1 - x))) [⟨0, 1, 0, 1, WT_ACA⟩] 2 (⟨1, fun _ _ => 0⟩ : point_set ℚ) (⟨1, fun _ j => 10 + 3 * (j : ℚ)⟩ : point_set ℚ) 0 0 (fun _ => 0) 1 [1, 0] 0
        (init_aca_state ℚ [⟨0, 1, 0, 1, WT_ACA⟩] 2) = some (st1, false) ∧
      rd (block_counts [⟨0, 1, 0, 1, WT_ACA⟩] 1) 0 = 2 ∧
      rd (k_per_item [⟨0, 1, 0, 1, WT_ACA⟩] 2) 0 = 2 ∧
      rd (init_compute_v_r [⟨0, 1, 0, 1, WT_ACA⟩] (k_per_item [⟨0, 1, 0, 1, WT_ACA⟩] 2) 1) 0 = 1 ∧
      search_round id (fun x : ℚ => 1 / ((1 - x) * (1 - x))) [⟨0, 1, 0, 1, WT_ACA⟩] 2 (⟨1, fun _ _ => 0⟩ : point_set ℚ) (⟨1, fun _ j => 10 + 3 * (j : ℚ)⟩ : point_set ℚ) st1.V st1.U 1 ⟨st1.i_r, init_compute_v_r [⟨0, 1, 0, 1, WT_ACA⟩] (k_per_item [⟨0, 1, 0, 1, WT_ACA⟩] 2) 1, get_row st1.V 1 (block_total [⟨0, 1, 0, 1, WT_ACA⟩] 2), [], []⟩ = t1 ∧
      rd t1.i_r 0 = 1 ∧ rd t1.compute_v_r 0 = 1 ∧ t1.v_r = [0, 0] ∧ search_exit t1 = false ∧
      rd (search_round id (fun x : ℚ => 1 / ((1 - x) * (1 - x))) [⟨0, 1, 0, 1, WT_ACA⟩] 2 (⟨1, fun _ _ => 0⟩ : point_set ℚ) (⟨1, fun _ j => 10 + 3 * (j : ℚ)⟩ : point_set ℚ) st1.V st1.U 1 t1).i_r 0 = 2 := by
  refine ⟨_, _,
    rank_iteration_two_by_two_rank0 id (fun x : ℚ => 1 / ((1 - x) * (1 - x))) 1 (fun _ _ => 0) (fun _ j => 10 + 3 * (j : ℚ)) 0 0 (fun _ => 0) 0
      coinciding_rows_first_row_accepted coinciding_rows_first_pivot,
    by decide, by decide, by decide,
    search_round_two_by_two_rank1_rejected id (fun x : ℚ => 1 / ((1 - x) * (1 - x))) 1 (fun _ _ => 0) (fun _ j => 10 + 3 * (j : ℚ)) 0 0 [] []
      coinciding_rows_second_row_rejected,
    rfl, rfl, ?_, rfl, rfl⟩
  simp [kernel_entry, kernel, distance, List.range_succ]
  norm_num

/-! ### C28: the scan-and-correct fill of the index maps -/

theorem foldl_pair {α β ι : Type} (f : α → ι → α) (g : β → ι → β) (l : List ι) (a : α) (b : β) :
    l.foldl (fun (p : α × β) (i : ι) => (f p.1 i, g p.2 i)) (a, b)
      = (l.foldl f a, l.foldl g b) := by
  induction l generalizing a b with
  | nil => rfl
  | cons i l ih => exact ih (f a i) (g b i)

theorem set_bounds_for_point_maps_eq (point_map1 point_map2 point_map_offsets1
    point_map_offsets2 m1 m2 : List Int) (t : Int) (data : List work_item) (n : Nat) :
    set_bounds_for_point_maps point_map1 point_map2 point_map_offsets1 point_map_offsets2 m1 m2
        t data n
      = ((List.range n).foldl (set_bounds_thread point_map_offsets1 m1 t data
            (fun w _ => w.set1_l) (fun w _ => -(w.set1_u - 1))) point_map1,
         (List.range n).foldl (set_bounds_thread point_map_offsets2 m2 t data
            (fun w _ => w.set2_l) (fun w _ => -(w.set2_u - 1))) point_map2) := by
  unfold set_bounds_for_point_maps
  rw [← foldl_pair]
  congr 1
  funext maps idx
  unfold set_bounds_for_point_maps_thread set_bounds_thread
  cases data.get? idx with
  | none => rfl
  | some w =>
    simp only
    split <;> rfl

theorem correct_bounds_for_point_maps_eq (point_map1 point_map2 point_map_offsets1
    point_map_offsets2 m1 m2 : List Int) (t : Int) (data : List work_item) (n : Nat) :
    correct_bounds_for_point_maps point_map1 point_map2 point_map_offsets1 point_map_offsets2
        m1 m2 t data n
      = ((List.range n).foldl (correct_bounds_thread point_map_offsets1 m1 t data
            (fun w _ => w.set1_u)) point_map1,
         (List.range n).foldl (correct_bounds_thread point_map_offsets2 m2 t data
            (fun w _ => w.set2_u)) point_map2) := by
  unfold correct_bounds_for_point_maps
  rw [← foldl_pair]
  congr 1
  funext maps idx
  unfold correct_bounds_for_point_maps_thread correct_bounds_thread
  cases data.get? idx with
  | none => rfl
  | some w =>
    simp only
    split <;> rfl

theorem set_bounds_for_work_item_maps_eq (work_item_map1 work_item_map2 point_map_offsets1
    point_map_offsets2 m1 m2 : List Int) (t : Int) (data : List work_item) (n : Nat) :
    set_bounds_for_work_item_maps work_item_map1 work_item_map2 point_map_offsets1
        point_map_offsets2 m1 m2 t data n
      = ((List.range n).foldl (set_bounds_thread point_map_offsets1 m1 t data
            (fun _ idx => (idx : Int)) (fun _ idx => -(idx : Int))) work_item_map1,
         (List.range n).foldl (set_bounds_thread point_map_offsets2 m2 t data
            (fun _ idx => (idx : Int)) (fun _ idx => -(idx : Int))) work_item_map2) := by
  unfold set_bounds_for_work_item_maps
  rw [← foldl_pair]
  congr 1
  funext maps idx
  unfold set_bounds_for_work_item_maps_thread set_bounds_thread
  cases data.get? idx with
  | none => rfl
  | some w =>
    simp only
    split <;> rfl

theorem correct_bounds_for_work_item_maps_eq (work_item_map1 work_item_map2
    point_map_offsets1 point_map_offsets2 m1 m2 : List Int) (t : Int) (data : List work_item)
    (n : Nat) :
    correct_bounds_for_work_item_maps work_item_map1 work_item_map2 point_map_offsets1
        point_map_offsets2 m1 m2 t data n
      = ((List.range n).foldl (correct_bounds_thread point_map_offsets1 m1 t data
            (fun _ idx => (idx : Int))) work_item_map1,
         (List.range n).foldl (correct_bounds_thread point_map_offsets2 m2 t data
            (fun _ idx => (idx : Int))) work_item_map2) := by
  unfold correct_bounds_for_work_item_maps
  rw [← foldl_pair]
  congr 1
  funext maps idx
  unfold correct_bounds_for_work_item_maps_thread correct_bounds_thread
  cases data.get? idx with
  | none => rfl
  | some w =>
    simp only
    split <;> rfl

theorem sum_toNat_take (counts : List Int) (hnn : ∀ i : Nat, 0 ≤ rd counts (i : Int)) (n : Nat)
    (hn : n ≤ counts.length) :
    ((((List.range n).map (fun (i : Nat) => (rd counts (i : Int)).toNat)).sum : Nat) : Int)
      = (counts.take n).sum := by
  induction n with
  | zero => simp
  | succ n ih =>
    have hn2 : n < counts.length := by omega
    rw [List.range_succ, List.map_append, List.sum_append, List.sum_take_succ counts n hn2]
    simp only [List.map_cons, List.map_nil, List.sum_cons, List.sum_nil, add_zero]
    rw [Nat.cast_add, ih (by omega), Int.toNat_of_nonneg (hnn n), rd_of_lt _ n hn2]

theorem counts_nonneg_of_fit (counts : List Int) (t : Int) (data : List work_item)
    (hlen : counts.length = data.length)
    (hc : ∀ (i : Nat) (w : work_item), data.get? i = some w →
      (w.work_type = t → 2 ≤ rd counts (i : Int)) ∧ (w.work_type ≠ t → rd counts (i : Int) = 0))
    (i : Nat) : 0 ≤ rd counts (i : Int) := by
  by_cases hi : i < data.length
  · have hg : data.get? i = some data[i] := by
      rw [List.get?_eq_getElem?, List.getElem?_eq_getElem hi]
    obtain ⟨h1, h2⟩ := hc i _ hg
    by_cases ht : data[i].work_type = t
    · have := h1 ht; omega
    · rw [h2 ht]
  · rw [rd_eq_zero_of_not_lt]
    intro h
    have := h.2
    simp only [Int.toNat_ofNat] at this
    omega

theorem marker_block_length (counts : List Int) (t : Int) (data : List work_item)
    (first last : work_item → Nat → Int) (c : Int)
    (hlen : counts.length = data.length)
    (hc : ∀ (i : Nat) (w : work_item), data.get? i = some w →
      (w.work_type = t → 2 ≤ rd counts (i : Int)) ∧ (w.work_type ≠ t → rd counts (i : Int) = 0))
    (i : Nat) :
    (marker_block counts t data first last c i).length = (rd counts (i : Int)).toNat := by
  unfold marker_block
  cases hg : data.get? i with
  | none =>
    have hi : ¬ i < data.length := by
      intro hi
      rw [List.get?_eq_getElem?, List.getElem?_eq_getElem hi] at hg
      exact absurd hg (by simp)
    rw [rd_eq_zero_of_not_lt]
    · rfl
    · intro h
      have := h.2
      simp only [Int.toNat_ofNat] at this
      omega
  | some w =>
    obtain ⟨h1, h2⟩ := hc i w hg
    simp only
    split
    · rename_i ht
      rw [h2 ht]; rfl
    · rename_i ht
      have := h1 (not_not.1 ht)
      simp only [List.length_cons, List.length_append, List.length_replicate, List.length_nil]
      omega

theorem scanned_block_length (counts : List Int) (t : Int) (data : List work_item)
    (first : work_item → Nat → Int) (c : Int)
    (hlen : counts.length = data.length)
    (hc : ∀ (i : Nat) (w : work_item), data.get? i = some w →
      (w.work_type = t → 2 ≤ rd counts (i : Int)) ∧ (w.work_type ≠ t → rd counts (i : Int) = 0))
    (i : Nat) :
    (scanned_block counts t data first c i).length = (rd counts (i : Int)).toNat := by
  unfold scanned_block
  cases hg : data.get? i with
  | none =>
    have hi : ¬ i < data.length := by
      intro hi
      rw [List.get?_eq_getElem?, List.getElem?_eq_getElem hi] at hg
      exact absurd hg (by simp)
    rw [rd_eq_zero_of_not_lt]
    · rfl
    · intro h
      have := h.2
      simp only [Int.toNat_ofNat] at this
      omega
  | some w =>
    obtain ⟨h1, h2⟩ := hc i w hg
    simp only
    split
    · rename_i ht
      rw [h2 ht]; rfl
    · rename_i ht
      have := h1 (not_not.1 ht)
      simp only [List.length_append, List.length_map, List.length_range, List.length_cons,
        List.length_nil]
      omega

theorem exact_block_length (counts : List Int) (t : Int) (data : List work_item)
    (first : work_item → Nat → Int) (c : Int)
    (hlen : counts.length = data.length)
    (hc : ∀ (i : Nat) (w : work_item), data.get? i = some w →
      (w.work_type = t → 2 ≤ rd counts (i : Int)) ∧ (w.work_type ≠ t → rd counts (i : Int) = 0))
    (i : Nat) :
    (exact_block counts t data first c i).length = (rd counts (i : Int)).toNat := by
  unfold exact_block
  cases hg : data.get? i with
  | none =>
    have hi : ¬ i < data.length := by
      intro hi
      rw [List.get?_eq_getElem?, List.getElem?_eq_getElem hi] at hg
      exact absurd hg (by simp)
    rw [rd_eq_zero_of_not_lt]
    · rfl
    · intro h
      have := h.2
      simp only [Int.toNat_ofNat] at this
      omega
  | some w =>
    obtain ⟨h1, h2⟩ := hc i w hg
    simp only
    split
    · rename_i ht
      rw [h2 ht]; rfl
    · simp only [List.length_map, List.length_range]

theorem flatMap_blocks_length (blk : Nat → List Int) (f : Nat → Nat)
    (h : ∀ i, (blk i).length = f i) (l : List Nat) :
    (l.flatMap blk).length = (l.map f).sum := by
  induction l with
  | nil => rfl
  | cons a l ih =>
    rw [List.flatMap_cons, List.length_append, ih, h a, List.map_cons, List.sum_cons]

theorem replicate_split (K m : Nat) (c : Int) (hm : 2 ≤ m) (hK : m ≤ K) :
    List.replicate K c
      = c :: (List.replicate (m - 2) c ++ c :: List.replicate (K - m) c) := by
  have hK2 : K = 1 + ((m - 2) + (1 + (K - m))) := by omega
  conv_lhs => rw [hK2]
  rw [List.replicate_add, List.replicate_add, List.replicate_add]
  rfl

theorem wr_markers (L : List Int) (K m : Nat) (a b c : Int) (hm : 2 ≤ m) (hK : m ≤ K) :
    wr (wr (L ++ List.replicate K c) (L.length : Int) a) ((L.length : Int) + (m : Int) - 1) b
      = L ++ (a :: (List.replicate (m - 2) c ++ [b])) ++ List.replicate (K - m) c := by
  have h1 : (0 : Int) ≤ (L.length : Int) := Int.ofNat_nonneg _
  have h2 : (0 : Int) ≤ (L.length : Int) + (m : Int) - 1 := by omega
  have h3 : ((L.length : Int) + (m : Int) - 1).toNat = L.length + ((m - 2) + 1) := by omega
  unfold wr
  rw [if_pos h1, if_pos h2, h3, Int.toNat_ofNat, replicate_split K m c hm hK,
    List.set_append, if_neg (by omega), Nat.sub_self, List.set_cons_zero,
    List.set_append, if_neg (by omega), Nat.add_sub_cancel_left, List.set_cons_succ,
    List.set_append, if_neg (by simp), List.length_replicate, Nat.sub_self, List.set_cons_zero]
  simp

theorem wr_last (L B Rest : List Int) (x v : Int) :
    wr (L ++ (B ++ [x]) ++ Rest) ((L.length : Int) + (B.length : Int)) v
      = L ++ (B ++ [v]) ++ Rest := by
  have h2 : (0 : Int) ≤ (L.length : Int) + (B.length : Int) := by omega
  have h3 : ((L.length : Int) + (B.length : Int)).toNat = L.length + B.length := by omega
  unfold wr
  rw [if_pos h2, h3, List.append_assoc, List.set_append, if_neg (by omega),
    Nat.add_sub_cancel_left, List.append_assoc, List.set_append, if_neg (by omega),
    Nat.sub_self]
  simp

theorem leading_sum_mono (f : Nat → Nat) (n n2 : Nat) (h : n ≤ n2) :
    ((List.range n).map f).sum ≤ ((List.range n2).map f).sum := by
  induction n2 with
  | zero =>
    have : n = 0 := by omega
    subst this
    exact le_refl _
  | succ n2 ih =>
    by_cases hn : n = n2 + 1
    · subst hn; exact le_refl _
    · have := ih (by omega)
      rw [List.range_succ, List.map_append, List.sum_append]
      omega

theorem rd_offsets_eq_leading_sum (counts : List Int) (hnn : ∀ i : Nat, 0 ≤ rd counts (i : Int))
    (n : Nat) (hn : n < counts.length) :
    rd (exclusive_scan counts 0) (n : Int)
      = ((((List.range n).map (fun (i : Nat) => (rd counts (i : Int)).toNat)).sum : Nat) : Int) := by
  rw [rd_exclusive_scan counts n hn, sum_toNat_take counts hnn n (by omega)]

theorem get?_of_lt (data : List work_item) (n : Nat) (hn : n < data.length) :
    data.get? n = some data[n] := by
  rw [List.get?_eq_getElem?, List.getElem?_eq_getElem hn]

/-- The marker kernel on one map, threads `n .. n + k - 1`: the blocks in front
of `n` hold their markers, the rest of the map still holds the fill value. -/
theorem set_bounds_fold_from (counts : List Int) (t : Int) (data : List work_item)
    (first last : work_item → Nat → Int) (c : Int)
    (hlen : counts.length = data.length)
    (hc : ∀ (i : Nat) (w : work_item), data.get? i = some w →
      (w.work_type = t → 2 ≤ rd counts (i : Int)) ∧ (w.work_type ≠ t → rd counts (i : Int) = 0)) :
    ∀ (k n : Nat), n + k = data.length →
      (List.range' n k).foldl
          (set_bounds_thread (exclusive_scan counts 0) counts t data first last)
          ((List.range n).flatMap (marker_block counts t data first last c)
            ++ List.replicate
              (((List.range data.length).map (fun (i : Nat) => (rd counts (i : Int)).toNat)).sum
                - ((List.range n).map (fun (i : Nat) => (rd counts (i : Int)).toNat)).sum) c)
        = (List.range data.length).flatMap (marker_block counts t data first last c) := by
  have hnn := counts_nonneg_of_fit counts t data hlen hc
  intro k
  induction k with
  | zero =>
    intro n hn
    have : n = data.length := by omega
    subst this
    simp
  | succ k ih =>
    intro n hn
    have hn2 : n < data.length := by omega
    rw [List.range'_succ, List.foldl_cons]
    have hstep : set_bounds_thread (exclusive_scan counts 0) counts t data first last
        ((List.range n).flatMap (marker_block counts t data first last c)
          ++ List.replicate
            (((List.range data.length).map (fun (i : Nat) => (rd counts (i : Int)).toNat)).sum
              - ((List.range n).map (fun (i : Nat) => (rd counts (i : Int)).toNat)).sum) c) n
        = (List.range (n + 1)).flatMap (marker_block counts t data first last c)
          ++ List.replicate
            (((List.range data.length).map (fun (i : Nat) => (rd counts (i : Int)).toNat)).sum
              - ((List.range (n + 1)).map (fun (i : Nat) => (rd counts (i : Int)).toNat)).sum)
            c := by
      have hS : ((List.range (n + 1)).map (fun (i : Nat) => (rd counts (i : Int)).toNat)).sum
          = ((List.range n).map (fun (i : Nat) => (rd counts (i : Int)).toNat)).sum
            + (rd counts (n : Int)).toNat := by
        rw [List.range_succ, List.map_append, List.sum_append]
        simp
      have hF : (List.range (n + 1)).flatMap (marker_block counts t data first last c)
          = (List.range n).flatMap (marker_block counts t data first last c)
            ++ marker_block counts t data first last c n := by
        rw [List.range_succ, List.flatMap_append]
        simp
      have hmono := leading_sum_mono (fun (i : Nat) => (rd counts (i : Int)).toNat) (n + 1)
        data.length (by omega)
      have hFl : ((List.range n).flatMap (marker_block counts t data first last c)).length
          = ((List.range n).map (fun (i : Nat) => (rd counts (i : Int)).toNat)).sum :=
        flatMap_blocks_length _ _ (marker_block_length counts t data first last c hlen hc) _
      have hg := get?_of_lt data n hn2
      obtain ⟨h1, h2⟩ := hc n _ hg
      have hb : marker_block counts t data first last c n
          = if data[n].work_type ≠ t then []
            else first data[n] n
              :: (List.replicate (rd counts (n : Int) - 2).toNat c ++ [last data[n] n]) := by
        unfold marker_block
        rw [hg]
      rw [hS, hF, hb]
      generalize (List.range n).flatMap (marker_block counts t data first last c) = F at hFl ⊢
      unfold set_bounds_thread
      rw [hg]
      simp only
      by_cases ht : data[n].work_type = t
      · have hm := h1 ht
        have hmn : ((rd counts (n : Int)).toNat : Int) = rd counts (n : Int) :=
          Int.toNat_of_nonneg (by omega)
        have hw := wr_markers F
          (((List.range data.length).map (fun (i : Nat) => (rd counts (i : Int)).toNat)).sum
            - F.length) (rd counts (n : Int)).toNat (first data[n] n) (last data[n] n) c
          (by omega) (by rw [hFl]; omega)
        rw [hmn] at hw
        have e1 : (rd counts (n : Int) - 2).toNat = (rd counts (n : Int)).toNat - 2 := by omega
        rw [if_neg (not_not.2 ht), if_neg (not_not.2 ht),
          rd_offsets_eq_leading_sum counts hnn n (by omega), ← hFl, e1, ← Nat.sub_sub]
        exact hw
      · rw [if_pos ht, if_pos ht, h2 ht]
        simp
    rw [hstep]
    exact ih (n + 1) (by omega)

/-- The marker kernel on one map that is filled with `c`: every block of the
given type holds its two markers and `c` in between. -/
theorem set_bounds_fold (counts : List Int) (t : Int) (data : List work_item)
    (first last : work_item → Nat → Int) (c : Int)
    (hlen : counts.length = data.length)
    (hc : ∀ (i : Nat) (w : work_item), data.get? i = some w →
      (w.work_type = t → 2 ≤ rd counts (i : Int)) ∧ (w.work_type ≠ t → rd counts (i : Int) = 0)) :
    (List.range data.length).foldl
        (set_bounds_thread (exclusive_scan counts 0) counts t data first last)
        (fill (reduce counts) c)
      = (List.range data.length).flatMap (marker_block counts t data first last c) := by
  have hnn := counts_nonneg_of_fit counts t data hlen hc
  have htot : (reduce counts).toNat
      = ((List.range data.length).map (fun (i : Nat) => (rd counts (i : Int)).toNat)).sum := by
    have := sum_toNat_take counts hnn counts.length (le_refl _)
    rw [List.take_length, hlen] at this
    rw [reduce_eq_sum, ← this]
    exact Int.toNat_ofNat _
  have := set_bounds_fold_from counts t data first last c hlen hc data.length 0 (by omega)
  rw [List.range_eq_range']
  rw [List.range_eq_range'] at this
  simpa [fill, htot, List.range_eq_range'] using this

theorem inclusive_scan_from_append (l1 l2 : List Int) (acc : Int) :
    inclusive_scan_from acc (l1 ++ l2)
      = inclusive_scan_from acc l1 ++ inclusive_scan_from (acc + l1.sum) l2 := by
  induction l1 generalizing acc with
  | nil => simp [inclusive_scan_from]
  | cons a l1 ih =>
    rw [List.cons_append, inclusive_scan_from, inclusive_scan_from, ih, List.sum_cons,
      add_assoc, List.cons_append]

theorem inclusive_scan_from_replicate (k : Nat) (c acc : Int) :
    inclusive_scan_from acc (List.replicate k c)
      = (List.range k).map (fun (j : Nat) => acc + ((j : Int) + 1) * c) := by
  induction k generalizing acc with
  | zero => rfl
  | succ k ih =>
    rw [List.replicate_succ, inclusive_scan_from, ih, List.range_succ_eq_map, List.map_cons,
      List.map_map]
    congr 1
    · simp
    · apply List.map_congr_left
      intro j _
      simp only [Function.comp_apply]
      push_cast
      ring

theorem inclusive_scan_from_markers (k : Nat) (a b c : Int) :
    inclusive_scan_from 0 (a :: (List.replicate k c ++ [b]))
      = (List.range (k + 1)).map (fun (j : Nat) => a + (j : Int) * c) ++ [a + (k : Int) * c + b] := by
  rw [inclusive_scan_from, inclusive_scan_from_append, inclusive_scan_from_replicate,
    List.range_succ_eq_map, List.map_cons, List.map_map, List.sum_replicate]
  simp only [inclusive_scan_from, zero_add, List.cons_append, smul_eq_mul, nsmul_eq_mul]
  have e : List.map ((fun (j : Nat) => a + (j : Int) * c) ∘ Nat.succ) (List.range k)
      = List.map (fun (j : Nat) => a + ((j : Int) + 1) * c) (List.range k) := by
    apply List.map_congr_left
    intro j _
    simp only [Function.comp_apply]
    push_cast
    ring
  rw [e]
  simp

theorem inclusive_scan_flatMap (blk : Nat → List Int) (l : List Nat)
    (h : ∀ i ∈ l, (blk i).sum = 0) :
    inclusive_scan_from 0 (l.flatMap blk)
      = l.flatMap (fun i => inclusive_scan_from 0 (blk i)) := by
  induction l with
  | nil => rfl
  | cons a l ih =>
    rw [List.flatMap_cons, List.flatMap_cons, inclusive_scan_from_append,
      h a (List.mem_cons_self a l), zero_add, ih (fun i hi => h i (List.mem_cons_of_mem a hi))]

/-- The running sum over the markers of one block, started at `0`: when
`first + (count - 2) * c + last = 0`, the sum is back at `0` at the last
position of the block. -/
theorem scan_marker_block (counts : List Int) (t : Int) (data : List work_item)
    (first last : work_item → Nat → Int) (c : Int)
    (hc : ∀ (i : Nat) (w : work_item), data.get? i = some w →
      (w.work_type = t → 2 ≤ rd counts (i : Int)) ∧ (w.work_type ≠ t → rd counts (i : Int) = 0))
    (hz : ∀ (i : Nat) (w : work_item), data.get? i = some w → w.work_type = t →
      first w i + (rd counts (i : Int) - 2) * c + last w i = 0)
    (i : Nat) :
    inclusive_scan_from 0 (marker_block counts t data first last c i)
      = scanned_block counts t data first c i ∧
    (marker_block counts t data first last c i).sum = 0 := by
  unfold marker_block scanned_block
  cases hg : data.get? i with
  | none => exact ⟨rfl, rfl⟩
  | some w =>
    simp only
    by_cases ht : w.work_type = t
    · have hm := (hc i w hg).1 ht
      have hzz := hz i w hg ht
      have hk : (((rd counts (i : Int) - 2).toNat : Nat) : Int) = rd counts (i : Int) - 2 :=
        Int.toNat_of_nonneg (by omega)
      have e1 : (rd counts (i : Int) - 1).toNat = (rd counts (i : Int) - 2).toNat + 1 := by omega
      rw [if_neg (not_not.2 ht), if_neg (not_not.2 ht), inclusive_scan_from_markers, hk, hzz, e1]
      refine ⟨rfl, ?_⟩
      rw [List.sum_cons, List.sum_append, List.sum_replicate, List.sum_singleton, nsmul_eq_mul,
        hk]
      linarith
    · rw [if_pos ht, if_pos ht]
      exact ⟨rfl, rfl⟩

theorem inclusive_scan_markers (counts : List Int) (t : Int) (data : List work_item)
    (first last : work_item → Nat → Int) (c : Int)
    (hc : ∀ (i : Nat) (w : work_item), data.get? i = some w →
      (w.work_type = t → 2 ≤ rd counts (i : Int)) ∧ (w.work_type ≠ t → rd counts (i : Int) = 0))
    (hz : ∀ (i : Nat) (w : work_item), data.get? i = some w → w.work_type = t →
      first w i + (rd counts (i : Int) - 2) * c + last w i = 0)
    (l : List Nat) :
    inclusive_scan (l.flatMap (marker_block counts t data first last c))
      = l.flatMap (scanned_block counts t data first c) := by
  unfold inclusive_scan
  rw [inclusive_scan_flatMap _ _
    (fun i _ => (scan_marker_block counts t data first last c hc hz i).2)]
  congr 1
  funext i
  exact (scan_marker_block counts t data first last c hc hz i).1

/-- The corrective kernel on one map, threads `n .. n + k - 1`: the blocks in
front of `n` hold their final entries, the blocks from `n` on hold the running
sum. -/
theorem correct_bounds_fold_from (counts : List Int) (t : Int) (data : List work_item)
    (first value : work_item → Nat → Int) (c : Int)
    (hlen : counts.length = data.length)
    (hc : ∀ (i : Nat) (w : work_item), data.get? i = some w →
      (w.work_type = t → 2 ≤ rd counts (i : Int)) ∧ (w.work_type ≠ t → rd counts (i : Int) = 0))
    (hv : ∀ (i : Nat) (w : work_item), data.get? i = some w → w.work_type = t →
      value w i = first w i + (rd counts (i : Int) - 1) * c) :
    ∀ (k n : Nat), n + k = data.length →
      (List.range' n k).foldl
          (correct_bounds_thread (exclusive_scan counts 0) counts t data value)
          ((List.range n).flatMap (exact_block counts t data first c)
            ++ (List.range' n k).flatMap (scanned_block counts t data first c))
        = (List.range data.length).flatMap (exact_block counts t data first c) := by
  have hnn := counts_nonneg_of_fit counts t data hlen hc
  intro k
  induction k with
  | zero =>
    intro n hn
    have : n = data.length := by omega
    subst this
    simp
  | succ k ih =>
    intro n hn
    have hn2 : n < data.length := by omega
    rw [List.range'_succ, List.foldl_cons, List.flatMap_cons]
    have hstep : correct_bounds_thread (exclusive_scan counts 0) counts t data value
        ((List.range n).flatMap (exact_block counts t data first c)
          ++ (scanned_block counts t data first c n
            ++ (List.range' (n + 1) k).flatMap (scanned_block counts t data first c))) n
        = (List.range (n + 1)).flatMap (exact_block counts t data first c)
          ++ (List.range' (n + 1) k).flatMap (scanned_block counts t data first c) := by
      have hF : (List.range (n + 1)).flatMap (exact_block counts t data first c)
          = (List.range n).flatMap (exact_block counts t data first c)
            ++ exact_block counts t data first c n := by
        rw [List.range_succ, List.flatMap_append]
        simp
      have hFl : ((List.range n).flatMap (exact_block counts t data first c)).length
          = ((List.range n).map (fun (i : Nat) => (rd counts (i : Int)).toNat)).sum :=
        flatMap_blocks_length _ _ (exact_block_length counts t data first c hlen hc) _
      have hg := get?_of_lt data n hn2
      obtain ⟨h1, h2⟩ := hc n _ hg
      have hs : scanned_block counts t data first c n
          = if data[n].work_type ≠ t then []
            else (List.range (rd counts (n : Int) - 1).toNat).map
              (fun (j : Nat) => first data[n] n + (j : Int) * c) ++ [0] := by
        unfold scanned_block
        rw [hg]
      have he : exact_block counts t data first c n
          = if data[n].work_type ≠ t then []
            else (List.range (rd counts (n : Int)).toNat).map
              (fun (j : Nat) => first data[n] n + (j : Int) * c) := by
        unfold exact_block
        rw [hg]
      rw [hF, hs, he]
      generalize (List.range n).flatMap (exact_block counts t data first c) = F at hFl ⊢
      generalize (List.range' (n + 1) k).flatMap (scanned_block counts t data first c) = Rest
      unfold correct_bounds_thread
      rw [hg]
      simp only
      by_cases ht : data[n].work_type = t
      · have hm := h1 ht
        have e1 : (rd counts (n : Int)).toNat = (rd counts (n : Int) - 1).toNat + 1 := by omega
        have hB : (((List.range (rd counts (n : Int) - 1).toNat).map
            (fun (j : Nat) => first data[n] n + (j : Int) * c)).length : Int)
            = rd counts (n : Int) - 1 := by
          rw [List.length_map, List.length_range]
          exact Int.toNat_of_nonneg (by omega)
        have hw := wr_last F ((List.range (rd counts (n : Int) - 1).toNat).map
            (fun (j : Nat) => first data[n] n + (j : Int) * c)) Rest 0 (value data[n] n)
        rw [hB] at hw
        rw [if_neg (not_not.2 ht), if_neg (not_not.2 ht), if_neg (not_not.2 ht),
          rd_offsets_eq_leading_sum counts hnn n (by omega), ← hFl, ← List.append_assoc,
          show (F.length : Int) + rd counts (n : Int) - 1
            = (F.length : Int) + (rd counts (n : Int) - 1) from by ring,
          hw, e1, List.range_succ, List.map_append, hv n _ hg ht]
        simp only [List.map_cons, List.map_nil]
        rw [Int.toNat_of_nonneg (by omega)]
      · rw [if_pos ht, if_pos ht, if_pos ht]
        simp
    rw [hstep]
    exact ih (n + 1) (by omega)

/-- The corrective kernel on one map that holds the running sum: every block
of the given type holds `first`, `first + c`, ..., `first + (count - 1) * c`. -/
theorem correct_bounds_fold (counts : List Int) (t : Int) (data : List work_item)
    (first value : work_item → Nat → Int) (c : Int)
    (hlen : counts.length = data.length)
    (hc : ∀ (i : Nat) (w : work_item), data.get? i = some w →
      (w.work_type = t → 2 ≤ rd counts (i : Int)) ∧ (w.work_type ≠ t → rd counts (i : Int) = 0))
    (hv : ∀ (i : Nat) (w : work_item), data.get? i = some w → w.work_type = t →
      value w i = first w i + (rd counts (i : Int) - 1) * c) :
    (List.range data.length).foldl
        (correct_bounds_thread (exclusive_scan counts 0) counts t data value)
        ((List.range data.length).flatMap (scanned_block counts t data first c))
      = (List.range data.length).flatMap (exact_block counts t data first c) := by
  have := correct_bounds_fold_from counts t data first value c hlen hc hv data.length 0
    (by omega)
  rw [List.range_eq_range']
  rw [List.range_eq_range'] at this
  simpa [List.range_eq_range'] using this

/-- The scan-and-correct fill of one map: markers, running sum, corrective
write.  When every block of the given type has at least two entries, the other
items have none, the markers of a block add up to `0` together with the fill
values in between, and the corrective value continues the progression, the map
is the concatenation of the progressions `first, first + c, ...` of the
blocks. -/
theorem scan_and_correct_fill (counts : List Int) (t : Int) (data : List work_item)
    (first last value : work_item → Nat → Int) (c : Int)
    (hlen : counts.length = data.length)
    (hc : ∀ (i : Nat) (w : work_item), data.get? i = some w →
      (w.work_type = t → 2 ≤ rd counts (i : Int)) ∧ (w.work_type ≠ t → rd counts (i : Int) = 0))
    (hz : ∀ (i : Nat) (w : work_item), data.get? i = some w → w.work_type = t →
      first w i + (rd counts (i : Int) - 2) * c + last w i = 0)
    (hv : ∀ (i : Nat) (w : work_item), data.get? i = some w → w.work_type = t →
      value w i = first w i + (rd counts (i : Int) - 1) * c) :
    (List.range data.length).foldl
        (correct_bounds_thread (exclusive_scan counts 0) counts t data value)
        (inclusive_scan ((List.range data.length).foldl
          (set_bounds_thread (exclusive_scan counts 0) counts t data first last)
          (fill (reduce counts) c)))
      = (List.range data.length).flatMap (exact_block counts t data first c) := by
  rw [set_bounds_fold counts t data first last c hlen hc,
    inclusive_scan_markers counts t data first last c hc hz,
    correct_bounds_fold counts t data first value c hlen hc hv]

theorem rd_flatMap_block (blk : Nat → List Int) (f : Nat → Nat)
    (h : ∀ i, (blk i).length = f i) (N i j : Nat) (hi : i < N) (hj : j < f i) :
    rd ((List.range N).flatMap blk) ((((List.range i).map f).sum + j : Nat) : Int)
      = rd (blk i) (j : Int) := by
  induction N with
  | zero => omega
  | succ N ih =>
    rw [List.range_succ, List.flatMap_append]
    simp only [List.flatMap_cons, List.flatMap_nil, List.append_nil]
    by_cases hN : i = N
    · subst hN
      rw [← flatMap_blocks_length blk f h (List.range i)]
      exact rd_append_right _ _ j
    · have hi2 : i < N := by omega
      have hlen : ((List.range i).map f).sum + j < ((List.range N).flatMap blk).length := by
        rw [flatMap_blocks_length blk f h (List.range N)]
        have hm := leading_sum_mono f (i + 1) N (by omega)
        rw [List.range_succ, List.map_append, List.sum_append] at hm
        simp only [List.map_cons, List.map_nil, List.sum_cons, List.sum_nil, add_zero] at hm
        omega
      rw [rd_append_left _ _ _ hlen]
      exact ih hi2

/-- The entries of one map after the scan-and-correct fill, and the running sum
at the last position of a block before the corrective write. -/
theorem scan_and_correct_entries (counts : List Int) (t : Int) (data : List work_item)
    (first last value : work_item → Nat → Int) (c : Int)
    (hlen : counts.length = data.length)
    (hc : ∀ (i : Nat) (w : work_item), data.get? i = some w →
      (w.work_type = t → 2 ≤ rd counts (i : Int)) ∧ (w.work_type ≠ t → rd counts (i : Int) = 0))
    (hz : ∀ (i : Nat) (w : work_item), data.get? i = some w → w.work_type = t →
      first w i + (rd counts (i : Int) - 2) * c + last w i = 0)
    (hv : ∀ (i : Nat) (w : work_item), data.get? i = some w → w.work_type = t →
      value w i = first w i + (rd counts (i : Int) - 1) * c)
    (i : Nat) (w : work_item) (hg : data.get? i = some w) (ht : w.work_type = t) :
    (∀ j : Nat, (j : Int) < rd counts (i : Int) →
      rd ((List.range data.length).foldl
          (correct_bounds_thread (exclusive_scan counts 0) counts t data value)
          (inclusive_scan ((List.range data.length).foldl
            (set_bounds_thread (exclusive_scan counts 0) counts t data first last)
            (fill (reduce counts) c))))
        (rd (exclusive_scan counts 0) (i : Int) + (j : Int)) = first w i + (j : Int) * c) ∧
    rd (inclusive_scan ((List.range data.length).foldl
          (set_bounds_thread (exclusive_scan counts 0) counts t data first last)
          (fill (reduce counts) c)))
        (rd (exclusive_scan counts 0) (i : Int) + rd counts (i : Int) - 1) = 0 := by
  have hnn := counts_nonneg_of_fit counts t data hlen hc
  have hi : i < data.length := by
    by_contra hi
    rw [List.get?_eq_getElem?, List.getElem?_eq_none (by omega)] at hg
    exact Option.noConfusion hg
  have hm := (hc i w hg).1 ht
  have hoff := rd_offsets_eq_leading_sum counts hnn i (by omega)
  constructor
  · intro j hj
    rw [scan_and_correct_fill counts t data first last value c hlen hc hz hv, hoff,
      ← Nat.cast_add,
      rd_flatMap_block _ _ (exact_block_length counts t data first c hlen hc) data.length i j hi
        (by omega)]
    unfold exact_block
    rw [hg]
    simp only
    rw [if_neg (not_not.2 ht), rd_map_range _ _ _ (by omega)]
  · rw [set_bounds_fold counts t data first last c hlen hc,
      inclusive_scan_markers counts t data first last c hc hz, hoff]
    have e : ((((List.range i).map (fun (i : Nat) => (rd counts (i : Int)).toNat)).sum : Nat)
        : Int) + rd counts (i : Int) - 1
        = ((((List.range i).map (fun (i : Nat) => (rd counts (i : Int)).toNat)).sum
            + (rd counts (i : Int) - 1).toNat : Nat) : Int) := by
      rw [Nat.cast_add, Int.toNat_of_nonneg (by omega)]
      ring
    rw [e, rd_flatMap_block _ _ (scanned_block_length counts t data first c hlen hc)
      data.length i _ hi (by omega)]
    unfold scanned_block
    rw [hg]
    simp only
    rw [if_neg (not_not.2 ht)]
    have hl : ∀ (B : List Int) (n : Nat), n = B.length → rd (B ++ [0]) (n : Int) = 0 := by
      intro B n hn
      subst hn
      have := rd_append_right B [0] 0
      rw [Nat.add_zero] at this
      rw [this]
      rfl
    exact hl _ _ (by rw [List.length_map, List.length_range])

theorem block_counts_fit (mat_vec_data : List work_item) (p : Int)
    (h2 : ∀ w ∈ mat_vec_data, w.work_type = WT_ACA →
      w.set1_l + 1 ≤ w.set1_u ∧ w.set2_l + 1 ≤ w.set2_u) :
    ∀ (i : Nat) (w : work_item), mat_vec_data.get? i = some w →
      (w.work_type = WT_ACA → 2 ≤ rd (block_counts mat_vec_data p) (i : Int)) ∧
      (w.work_type ≠ WT_ACA → rd (block_counts mat_vec_data p) (i : Int) = 0) := by
  intro i w hg
  have hi : i < mat_vec_data.length := by
    by_contra hi
    rw [List.get?_eq_getElem?, List.getElem?_eq_none (by omega)] at hg
    exact Option.noConfusion hg
  have hw : mat_vec_data[i] = w := by
    rw [List.get?_eq_getElem?, List.getElem?_eq_getElem hi] at hg
    exact Option.some.inj hg
  have hmem : w ∈ mat_vec_data := by
    rw [← hw]
    exact List.getElem_mem hi
  rw [rd_block_counts mat_vec_data p i hi, hw]
  constructor
  · intro ht
    have := h2 w hmem ht
    rw [if_pos ht]
    split <;> omega
  · intro ht
    rw [if_neg ht]

theorem rd_block_counts_of_get? (mat_vec_data : List work_item) (p : Int) (i : Nat)
    (w : work_item) (hg : mat_vec_data.get? i = some w) (ht : w.work_type = WT_ACA) :
    rd (block_counts mat_vec_data p) (i : Int)
      = if p = 1 then w.set1_u - w.set1_l + 1 else w.set2_u - w.set2_l + 1 := by
  have hi : i < mat_vec_data.length := by
    by_contra hi
    rw [List.get?_eq_getElem?, List.getElem?_eq_none (by omega)] at hg
    exact Option.noConfusion hg
  have hw : mat_vec_data[i] = w := by
    rw [List.get?_eq_getElem?, List.getElem?_eq_getElem hi] at hg
    exact Option.some.inj hg
  rw [rd_block_counts mat_vec_data p i hi, hw, if_pos ht]

/-- The row point map of a batch whose low-rank blocks have at least two rows
and two columns: exact on every block, and the running sum is `0` at the last
position of the block before the corrective write. -/
theorem point_map1_exact (mat_vec_data : List work_item)
    (h2 : ∀ w ∈ mat_vec_data, w.work_type = WT_ACA →
      w.set1_l + 1 ≤ w.set1_u ∧ w.set2_l + 1 ≤ w.set2_u)
    (i : Nat) (w : work_item) (hg : mat_vec_data.get? i = some w) (ht : w.work_type = WT_ACA) :
    (∀ j : Nat, (j : Int) < rd (block_counts mat_vec_data 1) (i : Int) →
      rd (point_maps mat_vec_data).1 (rd (point_map_offsets mat_vec_data 1) (i : Int) + (j : Int))
        = w.set1_l + (j : Int)) ∧
    rd (inclusive_scan (set_bounds_for_point_maps (fill (block_total mat_vec_data 1) 1)
          (fill (block_total mat_vec_data 2) 1) (point_map_offsets mat_vec_data 1)
          (point_map_offsets mat_vec_data 2) (block_counts mat_vec_data 1)
          (block_counts mat_vec_data 2) WT_ACA mat_vec_data mat_vec_data.length).1)
        (rd (point_map_offsets mat_vec_data 1) (i : Int)
          + rd (block_counts mat_vec_data 1) (i : Int) - 1) = 0 := by
  have h := scan_and_correct_entries (block_counts mat_vec_data 1) WT_ACA mat_vec_data
    (fun w _ => w.set1_l) (fun w _ => -(w.set1_u - 1)) (fun w _ => w.set1_u) 1
    (block_counts_length mat_vec_data 1) (block_counts_fit mat_vec_data 1 h2)
    (by
      intro q v hq hv
      rw [rd_block_counts_of_get? mat_vec_data 1 q v hq hv, if_pos rfl]
      ring)
    (by
      intro q v hq hv
      rw [rd_block_counts_of_get? mat_vec_data 1 q v hq hv, if_pos rfl]
      ring)
    i w hg ht
  simp only [mul_one] at h
  refine ⟨?_, ?_⟩
  · intro j hj
    unfold point_maps
    simp only []
    rw [set_bounds_for_point_maps_eq, correct_bounds_for_point_maps_eq]
    exact h.1 j hj
  · rw [set_bounds_for_point_maps_eq]
    exact h.2

/-- The column point map, as `point_map1_exact`. -/
theorem point_map2_exact (mat_vec_data : List work_item)
    (h2 : ∀ w ∈ mat_vec_data, w.work_type = WT_ACA →
      w.set1_l + 1 ≤ w.set1_u ∧ w.set2_l + 1 ≤ w.set2_u)
    (i : Nat) (w : work_item) (hg : mat_vec_data.get? i = some w) (ht : w.work_type = WT_ACA) :
    (∀ j : Nat, (j : Int) < rd (block_counts mat_vec_data 2) (i : Int) →
      rd (point_maps mat_vec_data).2 (rd (point_map_offsets mat_vec_data 2) (i : Int) + (j : Int))
        = w.set2_l + (j : Int)) ∧
    rd (inclusive_scan (set_bounds_for_point_maps (fill (block_total mat_vec_data 1) 1)
          (fill (block_total mat_vec_data 2) 1) (point_map_offsets mat_vec_data 1)
          (point_map_offsets mat_vec_data 2) (block_counts mat_vec_data 1)
          (block_counts mat_vec_data 2) WT_ACA mat_vec_data mat_vec_data.length).2)
        (rd (point_map_offsets mat_vec_data 2) (i : Int)
          + rd (block_counts mat_vec_data 2) (i : Int) - 1) = 0 := by
  have h := scan_and_correct_entries (block_counts mat_vec_data 2) WT_ACA mat_vec_data
    (fun w _ => w.set2_l) (fun w _ => -(w.set2_u - 1)) (fun w _ => w.set2_u) 1
    (block_counts_length mat_vec_data 2) (block_counts_fit mat_vec_data 2 h2)
    (by
      intro q v hq hv
      rw [rd_block_counts_of_get? mat_vec_data 2 q v hq hv, if_neg (by decide)]
      ring)
    (by
      intro q v hq hv
      rw [rd_block_counts_of_get? mat_vec_data 2 q v hq hv, if_neg (by decide)]
      ring)
    i w hg ht
  simp only [mul_one] at h
  refine ⟨?_, ?_⟩
  · intro j hj
    unfold point_maps
    simp only []
    rw [set_bounds_for_point_maps_eq, correct_bounds_for_point_maps_eq]
    exact h.1 j hj
  · rw [set_bounds_for_point_maps_eq]
    exact h.2

/-- The row work-item map of a batch whose low-rank blocks have at least two
rows and two columns: every position of a block holds the index of the block,
and the running sum is `0` at the last position of the block before the
corrective write. -/
theorem work_item_map1_exact (mat_vec_data : List work_item)
    (h2 : ∀ w ∈ mat_vec_data, w.work_type = WT_ACA →
      w.set1_l + 1 ≤ w.set1_u ∧ w.set2_l + 1 ≤ w.set2_u)
    (i : Nat) (w : work_item) (hg : mat_vec_data.get? i = some w) (ht : w.work_type = WT_ACA) :
    (∀ j : Nat, (j : Int) < rd (block_counts mat_vec_data 1) (i : Int) →
      rd (work_item_maps mat_vec_data).1
          (rd (point_map_offsets mat_vec_data 1) (i : Int) + (j : Int)) = (i : Int)) ∧
    rd (inclusive_scan (set_bounds_for_work_item_maps (fill (block_total mat_vec_data 1) 0)
          (fill (block_total mat_vec_data 2) 0) (point_map_offsets mat_vec_data 1)
          (point_map_offsets mat_vec_data 2) (block_counts mat_vec_data 1)
          (block_counts mat_vec_data 2) WT_ACA mat_vec_data mat_vec_data.length).1)
        (rd (point_map_offsets mat_vec_data 1) (i : Int)
          + rd (block_counts mat_vec_data 1) (i : Int) - 1) = 0 := by
  have h := scan_and_correct_entries (block_counts mat_vec_data 1) WT_ACA mat_vec_data
    (fun _ idx => (idx : Int)) (fun _ idx => -(idx : Int)) (fun _ idx => (idx : Int)) 0
    (block_counts_length mat_vec_data 1) (block_counts_fit mat_vec_data 1 h2)
    (by
      intro q v _ _
      ring)
    (by
      intro q v _ _
      ring)
    i w hg ht
  simp only [mul_zero, add_zero] at h
  refine ⟨?_, ?_⟩
  · intro j hj
    unfold work_item_maps
    simp only []
    rw [set_bounds_for_work_item_maps_eq, correct_bounds_for_work_item_maps_eq]
    exact h.1 j hj
  · rw [set_bounds_for_work_item_maps_eq]
    exact h.2

/-- The column work-item map, as `work_item_map1_exact`. -/
theorem work_item_map2_exact (mat_vec_data : List work_item)
    (h2 : ∀ w ∈ mat_vec_data, w.work_type = WT_ACA →
      w.set1_l + 1 ≤ w.set1_u ∧ w.set2_l + 1 ≤ w.set2_u)
    (i : Nat) (w : work_item) (hg : mat_vec_data.get? i = some w) (ht : w.work_type = WT_ACA) :
    (∀ j : Nat, (j : Int) < rd (block_counts mat_vec_data 2) (i : Int) →
      rd (work_item_maps mat_vec_data).2
          (rd (point_map_offsets mat_vec_data 2) (i : Int) + (j : Int)) = (i : Int)) ∧
    rd (inclusive_scan (set_bounds_for_work_item_maps (fill (block_total mat_vec_data 1) 0)
          (fill (block_total mat_vec_data 2) 0) (point_map_offsets mat_vec_data 1)
          (point_map_offsets mat_vec_data 2) (block_counts mat_vec_data 1)
          (block_counts mat_vec_data 2) WT_ACA mat_vec_data mat_vec_data.length).2)
        (rd (point_map_offsets mat_vec_data 2) (i : Int)
          + rd (block_counts mat_vec_data 2) (i : Int) - 1) = 0 := by
  have h := scan_and_correct_entries (block_counts mat_vec_data 2) WT_ACA mat_vec_data
    (fun _ idx => (idx : Int)) (fun _ idx => -(idx : Int)) (fun _ idx => (idx : Int)) 0
    (block_counts_length mat_vec_data 2) (block_counts_fit mat_vec_data 2 h2)
    (by
      intro q v _ _
      ring)
    (by
      intro q v _ _
      ring)
    i w hg ht
  simp only [mul_zero, add_zero] at h
  refine ⟨?_, ?_⟩
  · intro j hj
    unfold work_item_maps
    simp only []
    rw [set_bounds_for_work_item_maps_eq, correct_bounds_for_work_item_maps_eq]
    exact h.1 j hj
  · rw [set_bounds_for_work_item_maps_eq]
    exact h.2

/-- C28: index maps are exact when no low-rank block has a single element.  If
every item of type `WT_ACA` has at least two rows and at least two columns,
then after the build of the maps in `apply_batched_aca`, for every item `i` of
type `WT_ACA` and every `j < m1[i]`, `point_map1[offset1[i] + j] = set1_l[i] + j`
and `work_item_map1[offset1[i] + j] = i`, likewise for the column maps with
`j < m2[i]`; the inclusive running sum of each of the four maps is `0` at the
last position of the block before the corrective write; and the items of the
other types have `m1 = m2 = 0`. -/
theorem index_maps_exact_of_two_element_blocks (mat_vec_data : List work_item)
    (h2 : ∀ w ∈ mat_vec_data, w.work_type = WT_ACA →
      w.set1_l + 1 ≤ w.set1_u ∧ w.set2_l + 1 ≤ w.set2_u)
    (i : Nat) (w : work_item) (hg : mat_vec_data.get? i = some w) (ht : w.work_type = WT_ACA) :
    (∀ j : Nat, (j : Int) < rd (block_counts mat_vec_data 1) (i : Int) →
      rd (point_maps mat_vec_data).1
          (rd (point_map_offsets mat_vec_data 1) (i : Int) + (j : Int)) = w.set1_l + (j : Int) ∧
      rd (work_item_maps mat_vec_data).1
          (rd (point_map_offsets mat_vec_data 1) (i : Int) + (j : Int)) = (i : Int)) ∧
    (∀ j : Nat, (j : Int) < rd (block_counts mat_vec_data 2) (i : Int) →
      rd (point_maps mat_vec_data).2
          (rd (point_map_offsets mat_vec_data 2) (i : Int) + (j : Int)) = w.set2_l + (j : Int) ∧
      rd (work_item_maps mat_vec_data).2
          (rd (point_map_offsets mat_vec_data 2) (i : Int) + (j : Int)) = (i : Int)) ∧
    rd (block_counts mat_vec_data 1) (i : Int) = w.set1_u - w.set1_l + 1 ∧
    rd (block_counts mat_vec_data 2) (i : Int) = w.set2_u - w.set2_l + 1 ∧
    rd (inclusive_scan (set_bounds_for_point_maps (fill (block_total mat_vec_data 1) 1)
          (fill (block_total mat_vec_data 2) 1) (point_map_offsets mat_vec_data 1)
          (point_map_offsets mat_vec_data 2) (block_counts mat_vec_data 1)
          (block_counts mat_vec_data 2) WT_ACA mat_vec_data mat_vec_data.length).1)
        (rd (point_map_offsets mat_vec_data 1) (i : Int)
          + rd (block_counts mat_vec_data 1) (i : Int) - 1) = 0 ∧
    rd (inclusive_scan (set_bounds_for_point_maps (fill (block_total mat_vec_data 1) 1)
          (fill (block_total mat_vec_data 2) 1) (point_map_offsets mat_vec_data 1)
          (point_map_offsets mat_vec_data 2) (block_counts mat_vec_data 1)
          (block_counts mat_vec_data 2) WT_ACA mat_vec_data mat_vec_data.length).2)
        (rd (point_map_offsets mat_vec_data 2) (i : Int)
          + rd (block_counts mat_vec_data 2) (i : Int) - 1) = 0 ∧
    rd (inclusive_scan (set_bounds_for_work_item_maps (fill (block_total mat_vec_data 1) 0)
          (fill (block_total mat_vec_data 2) 0) (point_map_offsets mat_vec_data 1)
          (point_map_offsets mat_vec_data 2) (block_counts mat_vec_data 1)
          (block_counts mat_vec_data 2) WT_ACA mat_vec_data mat_vec_data.length).1)
        (rd (point_map_offsets mat_vec_data 1) (i : Int)
          + rd (block_counts mat_vec_data 1) (i : Int) - 1) = 0 ∧
    rd (inclusive_scan (set_bounds_for_work_item_maps (fill (block_total mat_vec_data 1) 0)
          (fill (block_total mat_vec_data 2) 0) (point_map_offsets mat_vec_data 1)
          (point_map_offsets mat_vec_data 2) (block_counts mat_vec_data 1)
          (block_counts mat_vec_data 2) WT_ACA mat_vec_data mat_vec_data.length).2)
        (rd (point_map_offsets mat_vec_data 2) (i : Int)
          + rd (block_counts mat_vec_data 2) (i : Int) - 1) = 0 ∧
    (∀ (q : Nat) (v : work_item), mat_vec_data.get? q = some v → v.work_type ≠ WT_ACA →
      rd (block_counts mat_vec_data 1) (q : Int) = 0 ∧
      rd (block_counts mat_vec_data 2) (q : Int) = 0) := by
  have p1 := point_map1_exact mat_vec_data h2 i w hg ht
  have p2 := point_map2_exact mat_vec_data h2 i w hg ht
  have w1 := work_item_map1_exact mat_vec_data h2 i w hg ht
  have w2 := work_item_map2_exact mat_vec_data h2 i w hg ht
  refine ⟨fun j hj => ⟨p1.1 j hj, w1.1 j hj⟩, fun j hj => ⟨p2.1 j hj, w2.1 j hj⟩, ?_, ?_,
    p1.2, p2.2, w1.2, w2.2, ?_⟩
  · rw [rd_block_counts_of_get? mat_vec_data 1 i w hg ht, if_pos rfl]
  · rw [rd_block_counts_of_get? mat_vec_data 2 i w hg ht, if_neg (by decide)]
  · intro q v hq hv
    exact ⟨(block_counts_fit mat_vec_data 1 h2 q v hq).2 hv,
      (block_counts_fit mat_vec_data 2 h2 q v hq).2 hv⟩

/-- C28, instance: a batch of a `2 x 3` low-rank block, a dense block and a
`3 x 2` low-rank block, at the last block; the four maps of the batch. -/
theorem index_maps_exact_of_two_element_blocks_witness :
    (∀ w ∈ [(⟨0, 1, 0, 2, WT_ACA⟩ : work_item), ⟨2, 5, 3, 3, WT_DENSE⟩, ⟨6, 8, 3, 4, WT_ACA⟩],
      w.work_type = WT_ACA → w.set1_l + 1 ≤ w.set1_u ∧ w.set2_l + 1 ≤ w.set2_u) ∧
    (∀ j : Nat, (j : Int) < 3 →
      rd (point_maps [(⟨0, 1, 0, 2, WT_ACA⟩ : work_item), ⟨2, 5, 3, 3, WT_DENSE⟩,
          ⟨6, 8, 3, 4, WT_ACA⟩]).1 (2 + (j : Int)) = 6 + (j : Int) ∧
      rd (work_item_maps [(⟨0, 1, 0, 2, WT_ACA⟩ : work_item), ⟨2, 5, 3, 3, WT_DENSE⟩,
          ⟨6, 8, 3, 4, WT_ACA⟩]).1 (2 + (j : Int)) = 2) ∧
    (∀ j : Nat, (j : Int) < 2 →
      rd (point_maps [(⟨0, 1, 0, 2, WT_ACA⟩ : work_item), ⟨2, 5, 3, 3, WT_DENSE⟩,
          ⟨6, 8, 3, 4, WT_ACA⟩]).2 (3 + (j : Int)) = 3 + (j : Int) ∧
      rd (work_item_maps [(⟨0, 1, 0, 2, WT_ACA⟩ : work_item), ⟨2, 5, 3, 3, WT_DENSE⟩,
          ⟨6, 8, 3, 4, WT_ACA⟩]).2 (3 + (j : Int)) = 2) ∧
    point_maps [(⟨0, 1, 0, 2, WT_ACA⟩ : work_item), ⟨2, 5, 3, 3, WT_DENSE⟩,
        ⟨6, 8, 3, 4, WT_ACA⟩] = ([0, 1, 6, 7, 8], [0, 1, 2, 3, 4]) ∧
    work_item_maps [(⟨0, 1, 0, 2, WT_ACA⟩ : work_item), ⟨2, 5, 3, 3, WT_DENSE⟩,
        ⟨6, 8, 3, 4, WT_ACA⟩] = ([0, 0, 2, 2, 2], [0, 0, 0, 2, 2]) := by
  have h := index_maps_exact_of_two_element_blocks
    [(⟨0, 1, 0, 2, WT_ACA⟩ : work_item), ⟨2, 5, 3, 3, WT_DENSE⟩, ⟨6, 8, 3, 4, WT_ACA⟩]
    (by decide) 2 ⟨6, 8, 3, 4, WT_ACA⟩ rfl rfl
  exact ⟨by decide, h.1, h.2.1, by decide, by decide⟩

/-! ## The reduction results, the search loop and the apply loop of the batched engine -/

/-! ### C35: the reduction operator of the column-pivot selection -/

/-- C35: `tuple_absolute_maximum` as a reduction operator.  For all pairs
(value, index) `a`, `b`, `c`: `op(op(a, b), c) = op(a, op(b, c))`; `op(a, b)` is
one of `a` and `b`; and the absolute value of its value component is
`max(|a.value|, |b.value|)`. -/
theorem tuple_absolute_maximum_reduction_operator {R : Type} [LinearOrderedRing R] :
    (∀ a b c : R × Int,
      tuple_absolute_maximum (tuple_absolute_maximum a b) c
        = tuple_absolute_maximum a (tuple_absolute_maximum b c)) ∧
    (∀ a b : R × Int, tuple_absolute_maximum a b = a ∨ tuple_absolute_maximum a b = b) ∧
    (∀ a b : R × Int, abs (tuple_absolute_maximum a b).1 = max (abs a.1) (abs b.1)) := by
  refine ⟨?_, ?_, ?_⟩
  · intro a b c
    unfold tuple_absolute_maximum
    by_cases h1 : abs a.1 > abs b.1
    · by_cases h2 : abs b.1 > abs c.1
      · have h3 : abs a.1 > abs c.1 := lt_trans h2 h1
        simp only [h1, h2, h3, if_true]
      · by_cases h3 : abs a.1 > abs c.1
        · simp only [h1, h2, h3, if_true, if_false]
        · simp only [h1, h2, h3, if_true, if_false]
    · by_cases h2 : abs b.1 > abs c.1
      · simp only [h1, h2, if_true, if_false]
      · have h3 : ¬ abs a.1 > abs c.1 := by
          intro h
          exact h2 (lt_of_lt_of_le h (not_lt.1 h1))
        simp only [h1, h2, h3, if_false]
  · intro a b
    unfold tuple_absolute_maximum
    by_cases h : abs a.1 > abs b.1
    · exact Or.inl (if_pos h)
    · exact Or.inr (if_neg h)
  · intro a b
    unfold tuple_absolute_maximum
    by_cases h : abs a.1 > abs b.1
    · rw [if_pos h, max_eq_left (le_of_lt h)]
    · rw [if_neg h, max_eq_right (not_lt.1 h)]

/-! ### C39: the comparison of the sort -/

/-- C39: the comparison `mat_vec_type_smaller` (`lhs.work_type > rhs.work_type`)
is a strict weak ordering: it is irreflexive, asymmetric and transitive, two
items are incomparable exactly when their type tags are equal, and
incomparability is transitive.  The body `lhs.work_type == WT_DENSE` that the
source keeps as a comment is not irreflexive: it holds for an item of type
DENSE compared with itself. -/
theorem mat_vec_type_smaller_strict_weak_ordering :
    (∀ a : work_item, mat_vec_type_smaller a a = false) ∧
    (∀ a b : work_item, mat_vec_type_smaller a b = true → mat_vec_type_smaller b a = false) ∧
    (∀ a b c : work_item, mat_vec_type_smaller a b = true → mat_vec_type_smaller b c = true →
      mat_vec_type_smaller a c = true) ∧
    (∀ a b : work_item,
      (mat_vec_type_smaller a b = false ∧ mat_vec_type_smaller b a = false)
        ↔ a.work_type = b.work_type) ∧
    (∀ a b c : work_item,
      (mat_vec_type_smaller a b = false ∧ mat_vec_type_smaller b a = false) →
      (mat_vec_type_smaller b c = false ∧ mat_vec_type_smaller c b = false) →
      (mat_vec_type_smaller a c = false ∧ mat_vec_type_smaller c a = false)) ∧
    (∀ a : work_item, a.work_type = WT_DENSE → mat_vec_type_smaller_commented_out a a = true) ∧
    mat_vec_type_smaller_commented_out ⟨0, 0, 0, 0, WT_DENSE⟩ ⟨0, 0, 0, 0, WT_DENSE⟩ = true := by
  refine ⟨?_, ?_, ?_, ?_, ?_, ?_, by decide⟩
  · intro a
    simp [mat_vec_type_smaller]
  · intro a b h
    simp only [mat_vec_type_smaller, decide_eq_true_eq, decide_eq_false_iff_not] at h ⊢
    omega
  · intro a b c h1 h2
    simp only [mat_vec_type_smaller, decide_eq_true_eq] at h1 h2 ⊢
    omega
  · intro a b
    simp only [mat_vec_type_smaller, decide_eq_false_iff_not]
    constructor
    · intro h
      omega
    · intro h
      omega
  · intro a b c h1 h2
    simp only [mat_vec_type_smaller, decide_eq_false_iff_not] at h1 h2 ⊢
    omega
  · intro a h
    simp [mat_vec_type_smaller_commented_out, h]

/-- C39, instance: items of the types DENSE, ACA and `0`. -/
theorem mat_vec_type_smaller_strict_weak_ordering_witness :
    mat_vec_type_smaller ⟨0, 0, 0, 0, WT_DENSE⟩ ⟨0, 0, 0, 0, WT_ACA⟩ = true ∧
    mat_vec_type_smaller ⟨0, 0, 0, 0, WT_ACA⟩ ⟨0, 0, 0, 0, 0⟩ = true ∧
    mat_vec_type_smaller ⟨0, 0, 0, 0, WT_DENSE⟩ ⟨0, 0, 0, 0, 0⟩ = true :=
  ⟨by decide, by decide,
    mat_vec_type_smaller_strict_weak_ordering.2.2.1 ⟨0, 0, 0, 0, WT_DENSE⟩
      ⟨0, 0, 0, 0, WT_ACA⟩ ⟨0, 0, 0, 0, 0⟩ (by decide) (by decide)⟩

/-! ### C38: the per-block counts -/

/-- C38: the per-block counts of `apply_batched_aca`.  For item `i` the kernel
`get_work_item_point_set_limits_for_given_type` writes the lower and upper
limit of the item when it is of type ACA and `-1` and `-2` otherwise, and
`minus_plus_1` turns them into `m1[i] = set1_u - set1_l + 1`,
`m2[i] = set2_u - set2_l + 1` for an item of type ACA and `m1[i] = m2[i] = 0`
for any other item.  An item of another type occupies no position of the
flattened buffers (its offset plus its count is its offset) and has
`k_per_item = 0` for every `k >= 0`. -/
theorem per_block_counts (mat_vec_data : List work_item) (i : Nat) (w : work_item)
    (hg : mat_vec_data.get? i = some w) :
    (w.work_type = WT_ACA →
      rd (block_counts mat_vec_data 1) (i : Int) = w.set1_u - w.set1_l + 1 ∧
      rd (block_counts mat_vec_data 2) (i : Int) = w.set2_u - w.set2_l + 1) ∧
    (w.work_type ≠ WT_ACA →
      limit_l WT_ACA 1 w = -1 ∧ limit_u WT_ACA 1 w = -2 ∧
      limit_l WT_ACA 2 w = -1 ∧ limit_u WT_ACA 2 w = -2 ∧
      rd (block_counts mat_vec_data 1) (i : Int) = 0 ∧
      rd (block_counts mat_vec_data 2) (i : Int) = 0 ∧
      rd (point_map_offsets mat_vec_data 1) (i : Int) + rd (block_counts mat_vec_data 1) (i : Int)
        = rd (point_map_offsets mat_vec_data 1) (i : Int) ∧
      rd (point_map_offsets mat_vec_data 2) (i : Int) + rd (block_counts mat_vec_data 2) (i : Int)
        = rd (point_map_offsets mat_vec_data 2) (i : Int) ∧
      ∀ k : Int, 0 ≤ k → rd (k_per_item mat_vec_data k) (i : Int) = 0) := by
  have hi : i < mat_vec_data.length := by
    by_contra hi
    rw [List.get?_eq_getElem?, List.getElem?_eq_none (by omega)] at hg
    exact Option.noConfusion hg
  have hw : mat_vec_data[i] = w := by
    rw [List.get?_eq_getElem?, List.getElem?_eq_getElem hi] at hg
    exact Option.some.inj hg
  have h1 := rd_block_counts mat_vec_data 1 i hi
  have h2 := rd_block_counts mat_vec_data 2 i hi
  rw [hw] at h1 h2
  constructor
  · intro ht
    rw [h1, h2, if_pos ht, if_pos ht, if_pos rfl, if_neg (by decide)]
    exact ⟨rfl, rfl⟩
  · intro ht
    rw [if_neg ht] at h1 h2
    refine ⟨by simp [limit_l, ht], by simp [limit_u, ht], by simp [limit_l, ht],
      by simp [limit_u, ht], h1, h2, by rw [h1, add_zero], by rw [h2, add_zero], ?_⟩
    intro k hk
    have hk2 := rd_k_per_item mat_vec_data k i hi
    rw [hk2, h1, h2, min_self]
    exact min_eq_right hk

/-- C38, instance: the batch of an ACA block with rows `5..7` and columns
`2..3` and a DENSE block, at both items. -/
theorem per_block_counts_witness :
    (rd (block_counts [⟨5, 7, 2, 3, WT_ACA⟩, ⟨0, 4, 0, 4, WT_DENSE⟩] 1) ((0 : Nat) : Int)
        = 7 - 5 + 1 ∧
      rd (block_counts [⟨5, 7, 2, 3, WT_ACA⟩, ⟨0, 4, 0, 4, WT_DENSE⟩] 2) ((0 : Nat) : Int)
        = 3 - 2 + 1) ∧
    rd (block_counts [⟨5, 7, 2, 3, WT_ACA⟩, ⟨0, 4, 0, 4, WT_DENSE⟩] 1) ((1 : Nat) : Int) = 0 ∧
    rd (k_per_item [⟨5, 7, 2, 3, WT_ACA⟩, ⟨0, 4, 0, 4, WT_DENSE⟩] 9) ((1 : Nat) : Int) = 0 :=
  ⟨(per_block_counts [⟨5, 7, 2, 3, WT_ACA⟩, ⟨0, 4, 0, 4, WT_DENSE⟩] 0 ⟨5, 7, 2, 3, WT_ACA⟩
      rfl).1 rfl,
    ((per_block_counts [⟨5, 7, 2, 3, WT_ACA⟩, ⟨0, 4, 0, 4, WT_DENSE⟩] 1
      ⟨0, 4, 0, 4, WT_DENSE⟩ rfl).2 (by decide)).2.2.2.2.1,
    ((per_block_counts [⟨5, 7, 2, 3, WT_ACA⟩, ⟨0, 4, 0, 4, WT_DENSE⟩] 1
      ⟨0, 4, 0, 4, WT_DENSE⟩ rfl).2 (by decide)).2.2.2.2.2.2.2.2 9 (by decide)⟩

/-! ### C36: the scatter of the local results -/

theorem add_local_results_length {R : Type} [Ring R] (y y_local : List R)
    (point_map1 : List Int) (n : Nat) :
    ((List.range n).foldl
      (fun (y : List R) (idx : Nat) =>
        wr y (rd point_map1 (idx : Int))
          (rd y (rd point_map1 (idx : Int)) + rd y_local (idx : Int))) y).length = y.length := by
  induction n with
  | zero => rfl
  | succ n ih =>
    rw [List.range_succ, List.foldl_append, List.foldl_cons, List.foldl_nil, wr_length, ih]

theorem add_local_results_entry {R : Type} [Ring R] (y y_local : List R)
    (point_map1 : List Int) (p : Nat) (hp : p < y.length) (n : Nat) :
    rd ((List.range n).foldl
      (fun (y : List R) (idx : Nat) =>
        wr y (rd point_map1 (idx : Int))
          (rd y (rd point_map1 (idx : Int)) + rd y_local (idx : Int))) y) (p : Int)
      = rd y (p : Int) + (Finset.range n).sum
          (fun idx => if rd point_map1 (idx : Int) = (p : Int) then rd y_local (idx : Int)
            else 0) := by
  induction n with
  | zero => simp
  | succ n ih =>
    rw [List.range_succ, List.foldl_append, List.foldl_cons, List.foldl_nil,
      Finset.sum_range_succ, ← add_assoc, ← ih]
    by_cases hq : rd point_map1 (n : Int) = (p : Int)
    · rw [if_pos hq, hq]
      exact rd_wr_same _ p _ (by rw [add_local_results_length]; exact hp)
    · rw [if_neg hq, add_zero]
      exact rd_wr_ne _ _ _ _ hq

/-- C36: scatter with overlapping rows.  For every local result vector
`y_local`, every point map and every row `p` of `y`,
`add_batched_local_results_to_full_vector` yields
`y[p] = y_old[p] + sum of y_local[idx] over all idx < m1_total with
point_map1[idx] = p`: all contributions to a row are added, whatever number of
positions share the row, and a row that no position hits is unchanged.  The
length of `y` is kept. -/
theorem scatter_with_overlapping_rows {R : Type} [Ring R] (y y_local : List R)
    (point_map1 : List Int) (m1_total : Int) (p : Nat) (hp : p < y.length) :
    rd (add_batched_local_results_to_full_vector y y_local point_map1 m1_total) (p : Int)
      = rd y (p : Int) + (Finset.range m1_total.toNat).sum
          (fun idx => if rd point_map1 (idx : Int) = (p : Int) then rd y_local (idx : Int)
            else 0) ∧
    ((∀ idx : Nat, idx < m1_total.toNat → rd point_map1 (idx : Int) ≠ (p : Int)) →
      rd (add_batched_local_results_to_full_vector y y_local point_map1 m1_total) (p : Int)
        = rd y (p : Int)) ∧
    (add_batched_local_results_to_full_vector y y_local point_map1 m1_total).length
      = y.length := by
  have h := add_local_results_entry y y_local point_map1 p hp m1_total.toNat
  refine ⟨h, ?_, add_local_results_length y y_local point_map1 m1_total.toNat⟩
  intro hno
  unfold add_batched_local_results_to_full_vector
  rw [h, Finset.sum_eq_zero, add_zero]
  intro idx hidx
  rw [if_neg (hno idx (Finset.mem_range.1 hidx))]

/-- C36, instance: `y = [10, 20, 30]`, local results `[1, 2, 4, 8]` and the
point map `[2, 0, 2, 2]` over the integers: row `2` receives three
contributions, row `1` none. -/
theorem scatter_with_overlapping_rows_witness :
    add_batched_local_results_to_full_vector [(10 : Int), 20, 30] [1, 2, 4, 8] [2, 0, 2, 2] 4
      = [12, 20, 43] ∧
    rd (add_batched_local_results_to_full_vector [(10 : Int), 20, 30] [1, 2, 4, 8] [2, 0, 2, 2] 4)
        ((2 : Nat) : Int)
      = rd [(10 : Int), 20, 30] ((2 : Nat) : Int) + (Finset.range (4 : Int).toNat).sum
          (fun idx => if rd [(2 : Int), 0, 2, 2] (idx : Int) = ((2 : Nat) : Int)
            then rd [(1 : Int), 2, 4, 8] (idx : Int) else 0) :=
  ⟨by decide,
    (scatter_with_overlapping_rows [(10 : Int), 20, 30] [1, 2, 4, 8] [2, 0, 2, 2] 4 2
      (by decide)).1⟩

/-! ### C37: the batch counter of the apply loop -/

theorem apply_loop_body_stat_current_batch {R : Type} [Ring R] (stat : Nat → Bool) (k : Int)
    (m1_h m2_h o1 o2 kp : List Int) (m1_total m2_total : Int) (U V lx : List R)
    (st : apply_state R) (s : Nat) :
    (apply_loop_body_stat stat k m1_h m2_h o1 o2 kp m1_total m2_total U V lx st s).current_batch
      = st.current_batch
        + (if rd m2_h (s : Int) > 0 ∧ rd m1_h (s : Int) > 0 then 1 else 0) := by
  unfold apply_loop_body_stat
  by_cases h : rd m2_h (s : Int) > 0 ∧ rd m1_h (s : Int) > 0
  · rw [if_pos h, if_pos h]
  · rw [if_neg h, if_neg h, add_zero]

theorem apply_loop_current_batch {R : Type} [Ring R] (stat : Nat → Bool) (k : Int)
    (m1_h m2_h o1 o2 kp : List Int) (m1_total m2_total : Int) (U V lx : List R)
    (st : apply_state R) (s : Nat) :
    ((List.range s).foldl
        (apply_loop_body_stat stat k m1_h m2_h o1 o2 kp m1_total m2_total U V lx) st).current_batch
      = st.current_batch
        + (((List.range s).countP
            (fun (i : Nat) => decide (rd m2_h (i : Int) > 0 ∧ rd m1_h (i : Int) > 0)) : Nat)
          : Int) := by
  induction s with
  | zero => simp
  | succ s ih =>
    rw [List.range_succ, List.foldl_append, List.foldl_cons, List.foldl_nil, List.countP_append,
      List.countP_cons, List.countP_nil, apply_loop_body_stat_current_batch, ih]
    by_cases h : rd m2_h (s : Int) > 0 ∧ rd m1_h (s : Int) > 0
    · rw [if_pos h, if_pos (decide_eq_true h)]
      push_cast
      ring
    · rw [if_neg h, if_neg (by simpa using h)]
      simp

theorem countP_range_eq_countP_take (mat_vec_data : List work_item) (q : Nat → Bool)
    (p : work_item → Bool)
    (h : ∀ (i : Nat) (hi : i < mat_vec_data.length), q i = p mat_vec_data[i]) (s : Nat)
    (hs : s ≤ mat_vec_data.length) :
    (List.range s).countP q = (mat_vec_data.take s).countP p := by
  induction s with
  | zero => simp
  | succ s ih =>
    have hs2 : s < mat_vec_data.length := by omega
    rw [List.range_succ, List.countP_append, ih (by omega), List.take_succ,
      List.countP_append, List.getElem?_eq_getElem hs2]
    simp [List.countP_cons, h s hs2]

theorem countP_range_le_countP_take (mat_vec_data : List work_item) (q : Nat → Bool)
    (p : work_item → Bool)
    (h : ∀ (i : Nat) (hi : i < mat_vec_data.length), q i = true → p mat_vec_data[i] = true)
    (s : Nat) (hs : s ≤ mat_vec_data.length) :
    (List.range s).countP q ≤ (mat_vec_data.take s).countP p := by
  induction s with
  | zero => simp
  | succ s ih =>
    have hs2 : s < mat_vec_data.length := by omega
    rw [List.range_succ, List.countP_append, List.take_succ,
      List.countP_append, List.getElem?_eq_getElem hs2]
    have := ih (by omega)
    have h2 := h s hs2
    simp only [List.countP_cons, List.countP_nil, Option.toList_some, zero_add]
    by_cases hq : q s = true
    · rw [if_pos hq, if_pos (h2 hq)]
      omega
    · rw [if_neg hq]
      split <;> omega

theorem countP_take_lt_countP {α : Type} (p : α → Bool) (l : List α) (s : Nat)
    (hs : s < l.length) (hp : p l[s] = true) :
    (l.take s).countP p < l.countP p := by
  have h1 : (l.take (s + 1)).countP p = (l.take s).countP p + 1 := by
    rw [List.take_succ, List.countP_append, List.getElem?_eq_getElem hs]
    simp [List.countP_cons, hp]
  have h2 : (l.take (s + 1)).countP p ≤ l.countP p :=
    List.Sublist.countP_le p (List.take_sublist _ _)
  omega

/-- C37: the batch counter of the apply loop of `apply_batched_aca`.  Before
item `s` the counter `current_batch` is the number of items before `s` with
`m1 > 0` and `m2 > 0`.  When item `s` has `m1 > 0` and `m2 > 0` (the loop uses
`streams[current_batch]` and `local_tmp[current_batch*k]`), the item is of type
ACA and `0 <= current_batch < batch_count`.  When every item of type ACA has
`m1 > 0` and `m2 > 0`, the counter at an item `s` of type ACA is
`work_item_to_batch_map[s]`. -/
theorem apply_loop_batch_counter {R : Type} [Ring R] (stat : Nat → Bool)
    (mat_vec_data : List work_item) (k : Int) (U V lx tmp ly : List R) (s : Nat)
    (w : work_item) (hg : mat_vec_data.get? s = some w) :
    (rd (block_counts mat_vec_data 2) (s : Int) > 0 ∧ rd (block_counts mat_vec_data 1) (s : Int) > 0
      → w.work_type = WT_ACA ∧
        0 ≤ ((List.range s).foldl
          (apply_loop_body_stat stat (global_k mat_vec_data k) (block_counts mat_vec_data 1)
            (block_counts mat_vec_data 2) (point_map_offsets mat_vec_data 1)
            (point_map_offsets mat_vec_data 2) (k_per_item mat_vec_data k)
            (block_total mat_vec_data 1) (block_total mat_vec_data 2) U V lx)
          { current_batch := 0, local_tmp := tmp, local_y := ly }).current_batch ∧
        ((List.range s).foldl
          (apply_loop_body_stat stat (global_k mat_vec_data k) (block_counts mat_vec_data 1)
            (block_counts mat_vec_data 2) (point_map_offsets mat_vec_data 1)
            (point_map_offsets mat_vec_data 2) (k_per_item mat_vec_data k)
            (block_total mat_vec_data 1) (block_total mat_vec_data 2) U V lx)
          { current_batch := 0, local_tmp := tmp, local_y := ly }).current_batch
          < (batch_count mat_vec_data : Int)) ∧
    ((∀ v ∈ mat_vec_data, v.work_type = WT_ACA → v.set1_l ≤ v.set1_u ∧ v.set2_l ≤ v.set2_u) →
      w.work_type = WT_ACA →
      ((List.range s).foldl
          (apply_loop_body_stat stat (global_k mat_vec_data k) (block_counts mat_vec_data 1)
            (block_counts mat_vec_data 2) (point_map_offsets mat_vec_data 1)
            (point_map_offsets mat_vec_data 2) (k_per_item mat_vec_data k)
            (block_total mat_vec_data 1) (block_total mat_vec_data 2) U V lx)
          { current_batch := 0, local_tmp := tmp, local_y := ly }).current_batch
        = rd (work_item_to_batch_map mat_vec_data) (s : Int)) := by
  have hs : s < mat_vec_data.length := by
    by_contra hi
    rw [List.get?_eq_getElem?, List.getElem?_eq_none (by omega)] at hg
    exact Option.noConfusion hg
  have hw : mat_vec_data[s] = w := by
    rw [List.get?_eq_getElem?, List.getElem?_eq_getElem hs] at hg
    exact Option.some.inj hg
  rw [apply_loop_current_batch]
  simp only [zero_add]
  constructor
  · intro hm
    have hA : mat_vec_data[s].work_type = WT_ACA :=
      block_is_ACA_of_count mat_vec_data 1 s hs (by omega)
    have hle := countP_range_le_countP_take mat_vec_data
      (fun (i : Nat) => decide (rd (block_counts mat_vec_data 2) (i : Int) > 0
        ∧ rd (block_counts mat_vec_data 1) (i : Int) > 0))
      (fun v => decide (v.work_type = WT_ACA))
      (fun i hi hq => by
        have hq2 := of_decide_eq_true hq
        exact decide_eq_true (block_is_ACA_of_count mat_vec_data 1 i hi (by omega)))
      s (by omega)
    have hlt := countP_take_lt_countP (fun v => decide (v.work_type = WT_ACA)) mat_vec_data s hs
      (decide_eq_true hA)
    rw [batch_count_eq]
    refine ⟨hw ▸ hA, Int.ofNat_nonneg _, ?_⟩
    exact_mod_cast lt_of_le_of_lt hle hlt
  · intro hall ht
    rw [work_item_to_batch_map_entry mat_vec_data s hs, if_pos (hw ▸ ht)]
    congr 1
    apply countP_range_eq_countP_take mat_vec_data _ _ _ s (by omega)
    intro i hi
    have h1 := rd_block_counts mat_vec_data 1 i hi
    have h2 := rd_block_counts mat_vec_data 2 i hi
    by_cases hA : mat_vec_data[i].work_type = WT_ACA
    · have := hall _ (List.getElem_mem hi) hA
      rw [if_pos hA, if_pos rfl] at h1
      rw [if_pos hA, if_neg (by decide)] at h2
      rw [decide_eq_true hA]
      exact decide_eq_true ⟨by omega, by omega⟩
    · rw [if_neg hA] at h1 h2
      rw [decide_eq_false hA]
      exact decide_eq_false (by omega)

/-- C37, instance: the batch of an ACA block, a DENSE block and an ACA block,
at the last item: the counter is `1`, the batch slot of the item, and
`batch_count = 2`. -/
theorem apply_loop_batch_counter_witness :
    ((List.range 2).foldl
        (apply_loop_body_stat (fun _ => true)
          (global_k [⟨0, 1, 0, 2, WT_ACA⟩, ⟨2, 5, 3, 3, WT_DENSE⟩, ⟨6, 8, 3, 4, WT_ACA⟩] 2)
          (block_counts [⟨0, 1, 0, 2, WT_ACA⟩, ⟨2, 5, 3, 3, WT_DENSE⟩, ⟨6, 8, 3, 4, WT_ACA⟩] 1)
          (block_counts [⟨0, 1, 0, 2, WT_ACA⟩, ⟨2, 5, 3, 3, WT_DENSE⟩, ⟨6, 8, 3, 4, WT_ACA⟩] 2)
          (point_map_offsets [⟨0, 1, 0, 2, WT_ACA⟩, ⟨2, 5, 3, 3, WT_DENSE⟩, ⟨6, 8, 3, 4, WT_ACA⟩] 1)
          (point_map_offsets [⟨0, 1, 0, 2, WT_ACA⟩, ⟨2, 5, 3, 3, WT_DENSE⟩, ⟨6, 8, 3, 4, WT_ACA⟩] 2)
          (k_per_item [⟨0, 1, 0, 2, WT_ACA⟩, ⟨2, 5, 3, 3, WT_DENSE⟩, ⟨6, 8, 3, 4, WT_ACA⟩] 2)
          (block_total [⟨0, 1, 0, 2, WT_ACA⟩, ⟨2, 5, 3, 3, WT_DENSE⟩, ⟨6, 8, 3, 4, WT_ACA⟩] 1)
          (block_total [⟨0, 1, 0, 2, WT_ACA⟩, ⟨2, 5, 3, 3, WT_DENSE⟩, ⟨6, 8, 3, 4, WT_ACA⟩] 2)
          ([] : List Int) [] [])
        { current_batch := 0, local_tmp := [], local_y := [] }).current_batch
      = rd (work_item_to_batch_map
          [⟨0, 1, 0, 2, WT_ACA⟩, ⟨2, 5, 3, 3, WT_DENSE⟩, ⟨6, 8, 3, 4, WT_ACA⟩]) ((2 : Nat) : Int) ∧
    rd (work_item_to_batch_map
        [⟨0, 1, 0, 2, WT_ACA⟩, ⟨2, 5, 3, 3, WT_DENSE⟩, ⟨6, 8, 3, 4, WT_ACA⟩]) ((2 : Nat) : Int) = 1 ∧
    batch_count [⟨0, 1, 0, 2, WT_ACA⟩, ⟨2, 5, 3, 3, WT_DENSE⟩, ⟨6, 8, 3, 4, WT_ACA⟩] = 2 :=
  ⟨(apply_loop_batch_counter (fun _ => true)
      [⟨0, 1, 0, 2, WT_ACA⟩, ⟨2, 5, 3, 3, WT_DENSE⟩, ⟨6, 8, 3, 4, WT_ACA⟩] 2
      ([] : List Int) [] [] [] [] 2 ⟨6, 8, 3, 4, WT_ACA⟩ rfl).2 (by decide) rfl,
    by decide, by decide⟩

/-! ### C34: factor columns beyond the rank of a block -/

theorem batched_scaling_length {R : Type} [DivisionRing R] (schedule : List Nat) (v : List R)
    (wtb wm2 kp : List Int) (r : Int) (j_r : List Int) (m2_total : Int) :
    (batched_scaling_of_v_r schedule v wtb wm2 kp r j_r m2_total).length = v.length := by
  unfold batched_scaling_of_v_r
  induction schedule generalizing v with
  | nil => rfl
  | cons idx rest ih =>
    rw [List.foldl_cons, ih, scaling_thread_length]

/-- A thread of `batched_scaling_of_v_r` whose position belongs to a block with
`r >= k_per_item` leaves the row as it is. -/
theorem scaling_thread_beyond_rank {R : Type} [DivisionRing R] (wtb wm2 kp : List Int) (r : Int)
    (j_r : List Int) (m2_total : Int) (v : List R) (idx : Nat) (b : Int)
    (hown : rd wm2 (idx : Int) = b) (hr : rd kp b ≤ r) :
    batched_scaling_of_v_r_thread wtb wm2 kp r j_r m2_total v idx = v := by
  unfold batched_scaling_of_v_r_thread
  split
  · rfl
  · simp only [hown]
    rw [if_pos (by omega)]

/-- Kernel `batched_scaling_of_v_r`, whatever the thread order: an entry whose
position belongs to a block with `r >= k_per_item` is not changed. -/
theorem batched_scaling_beyond_rank {R : Type} [DivisionRing R] (schedule : List Nat)
    (wtb wm2 kp : List Int) (r : Int) (j_r : List Int) (m2_total : Int) (q : Nat) (b : Int)
    (hown : rd wm2 (q : Int) = b) (hr : rd kp b ≤ r) (v : List R) :
    rd (batched_scaling_of_v_r schedule v wtb wm2 kp r j_r m2_total) (q : Int) = rd v (q : Int) := by
  unfold batched_scaling_of_v_r
  induction schedule generalizing v with
  | nil => rfl
  | cons idx rest ih =>
    rw [List.foldl_cons, ih]
    by_cases hq : q = idx
    · rw [← hq, scaling_thread_beyond_rank wtb wm2 kp r j_r m2_total v q b hown hr]
    · exact scaling_thread_other wtb wm2 kp r j_r m2_total v idx q hq

/-- Kernel `batched_fill_kernel_vector_and_scaled_substraction_for_u_r`: an
entry whose position belongs to a block with `r >= k_per_item` is not
changed. -/
theorem u_r_kernel_beyond_rank {R : Type} [Ring R] (sqrt exp : R → R) (u_r : List R)
    (pm1 pm2 wtb wm1 kp : List Int) (r : Int) (j_r : List Int)
    (input_set1 input_set2 : point_set R) (m1_total m2_total : Int) (U V : List R)
    (q : Nat) (b : Int) (hq : q < u_r.length) (hown : rd wm1 (q : Int) = b)
    (hr : rd kp b ≤ r) :
    rd (batched_fill_kernel_vector_and_scaled_substraction_for_u_r sqrt exp u_r pm1 pm2 wtb wm1
        kp r j_r input_set1 input_set2 m1_total m2_total U V) (q : Int) = rd u_r (q : Int) := by
  unfold batched_fill_kernel_vector_and_scaled_substraction_for_u_r
  rw [rd_mapIdx _ _ _ (Int.ofNat_nonneg q) (by exact_mod_cast hq)]
  unfold batched_fill_kernel_vector_and_scaled_substraction_for_u_r_thread
  rw [Int.toNat_ofNat]
  split
  · rfl
  · simp only [hown]
    rw [if_pos (by omega)]

theorem u_r_kernel_length {R : Type} [Ring R] (sqrt exp : R → R) (u_r : List R)
    (pm1 pm2 wtb wm1 kp : List Int) (r : Int) (j_r : List Int)
    (input_set1 input_set2 : point_set R) (m1_total m2_total : Int) (U V : List R) :
    (batched_fill_kernel_vector_and_scaled_substraction_for_u_r sqrt exp u_r pm1 pm2 wtb wm1
        kp r j_r input_set1 input_set2 m1_total m2_total U V).length = u_r.length := by
  simp [batched_fill_kernel_vector_and_scaled_substraction_for_u_r]

/-- One rank iteration of the batched engine writes row `r` of the factor
buffers only: the lengths of `U` and `V` are kept and every entry of another
row is kept. -/
theorem rank_iteration_other_rows {R : Type} [LinearOrderedField R] (sqrt exp : R → R)
    (mat_vec_data : List work_item) (k : Int) (input_set1 input_set2 : point_set R)
    (eta epsilon : R) (content : Nat → R) (fuel : Nat) (schedule : List Nat) (r : Nat)
    (st st2 : aca_state R) (leave : Bool)
    (hU : (r + 1) * (block_total mat_vec_data 1).toNat ≤ st.U.length)
    (hV : (r + 1) * (block_total mat_vec_data 2).toNat ≤ st.V.length)
    (h : rank_iteration sqrt exp mat_vec_data k input_set1 input_set2 eta epsilon content fuel
      schedule r st = some (st2, leave)) :
    st2.U.length = st.U.length ∧ st2.V.length = st.V.length ∧
    (∀ l c : Nat, l ≠ r → c < (block_total mat_vec_data 1).toNat →
      rd st2.U ((l * (block_total mat_vec_data 1).toNat + c : Nat) : Int)
        = rd st.U ((l * (block_total mat_vec_data 1).toNat + c : Nat) : Int)) ∧
    (∀ l c : Nat, l ≠ r → c < (block_total mat_vec_data 2).toNat →
      rd st2.V ((l * (block_total mat_vec_data 2).toNat + c : Nat) : Int)
        = rd st.V ((l * (block_total mat_vec_data 2).toNat + c : Nat) : Int)) := by
  obtain ⟨s, hs, _, hV2, hU2⟩ := rank_iteration_some sqrt exp mat_vec_data k input_set1
    input_set2 eta epsilon content fuel schedule r st st2 leave h
  have hsh := search_loop_shape sqrt exp mat_vec_data k input_set1 input_set2 st.V st.U (r : Int)
    fuel _ s hs
  have hvlen : (batched_scaling_of_v_r schedule s.v_r (work_item_to_batch_map mat_vec_data)
      (work_item_maps mat_vec_data).2 (k_per_item mat_vec_data k) (r : Int)
      (j_r_global (work_item_maps mat_vec_data).2 s.v_r (block_total mat_vec_data 2))
      (block_total mat_vec_data 2)).length = (block_total mat_vec_data 2).toNat := by
    rw [batched_scaling_length, hsh.1]
    exact get_row_length st.V r _ hV
  have hulen : (batched_fill_kernel_vector_and_scaled_substraction_for_u_r sqrt exp
      (get_row st.U r (block_total mat_vec_data 1)) (point_maps mat_vec_data).1
      (point_maps mat_vec_data).2 (work_item_to_batch_map mat_vec_data)
      (work_item_maps mat_vec_data).1 (k_per_item mat_vec_data k) (r : Int)
      (j_r_global (work_item_maps mat_vec_data).2 s.v_r (block_total mat_vec_data 2))
      input_set1 input_set2 (block_total mat_vec_data 1) (block_total mat_vec_data 2) st.U
      st2.V).length = (block_total mat_vec_data 1).toNat := by
    rw [u_r_kernel_length]
    exact get_row_length st.U r _ hU
  refine ⟨?_, ?_, ?_, ?_⟩
  · rw [hU2]
    exact put_row_length _ _ _ _ hulen hU
  · rw [hV2]
    exact put_row_length _ _ _ _ hvlen hV
  · intro l c hl hc
    rw [hU2]
    exact rd_put_row_other _ _ _ _ hulen hU l c hl hc
  · intro l c hl hc
    rw [hV2]
    exact rd_put_row_other _ _ _ _ hvlen hV l c hl hc

/-- A rank iteration `r` of the batched engine and a block `b` with
`r >= k_per_item[b]` whose positions carry `b` in the block-owner maps: the
entries of the block in row `r` of `U` and `V` are kept. -/
theorem rank_iteration_beyond_rank {R : Type} [LinearOrderedField R] (sqrt exp : R → R)
    (mat_vec_data : List work_item) (k : Int) (input_set1 input_set2 : point_set R)
    (eta epsilon : R) (content : Nat → R) (fuel : Nat) (schedule : List Nat) (r : Nat)
    (st st2 : aca_state R) (leave : Bool) (b : Nat) (hb : b < mat_vec_data.length)
    (hU : (r + 1) * (block_total mat_vec_data 1).toNat ≤ st.U.length)
    (hV : (r + 1) * (block_total mat_vec_data 2).toNat ≤ st.V.length)
    (hr : rd (k_per_item mat_vec_data k) (b : Int) ≤ (r : Int))
    (h : rank_iteration sqrt exp mat_vec_data k input_set1 input_set2 eta epsilon content fuel
      schedule r st = some (st2, leave)) :
    (∀ q : Nat, q < (block_total mat_vec_data 1).toNat →
      rd (work_item_maps mat_vec_data).1 (q : Int) = (b : Int) →
      rd st2.U ((r * (block_total mat_vec_data 1).toNat + q : Nat) : Int)
        = rd st.U ((r * (block_total mat_vec_data 1).toNat + q : Nat) : Int)) ∧
    (∀ q : Nat, q < (block_total mat_vec_data 2).toNat →
      rd (work_item_maps mat_vec_data).2 (q : Int) = (b : Int) →
      rd st2.V ((r * (block_total mat_vec_data 2).toNat + q : Nat) : Int)
        = rd st.V ((r * (block_total mat_vec_data 2).toNat + q : Nat) : Int)) := by
  obtain ⟨s, hs, _, hV2, hU2⟩ := rank_iteration_some sqrt exp mat_vec_data k input_set1
    input_set2 eta epsilon content fuel schedule r st st2 leave h
  have hsh := search_loop_shape sqrt exp mat_vec_data k input_set1 input_set2 st.V st.U (r : Int)
    fuel _ s hs
  have hvlen : (batched_scaling_of_v_r schedule s.v_r (work_item_to_batch_map mat_vec_data)
      (work_item_maps mat_vec_data).2 (k_per_item mat_vec_data k) (r : Int)
      (j_r_global (work_item_maps mat_vec_data).2 s.v_r (block_total mat_vec_data 2))
      (block_total mat_vec_data 2)).length = (block_total mat_vec_data 2).toNat := by
    rw [batched_scaling_length, hsh.1]
    exact get_row_length st.V r _ hV
  have hglen := get_row_length st.U r _ hU
  have hulen : (batched_fill_kernel_vector_and_scaled_substraction_for_u_r sqrt exp
      (get_row st.U r (block_total mat_vec_data 1)) (point_maps mat_vec_data).1
      (point_maps mat_vec_data).2 (work_item_to_batch_map mat_vec_data)
      (work_item_maps mat_vec_data).1 (k_per_item mat_vec_data k) (r : Int)
      (j_r_global (work_item_maps mat_vec_data).2 s.v_r (block_total mat_vec_data 2))
      input_set1 input_set2 (block_total mat_vec_data 1) (block_total mat_vec_data 2) st.U
      st2.V).length = (block_total mat_vec_data 1).toNat := by
    rw [u_r_kernel_length]
    exact hglen
  have hflag : rd (init_compute_v_r mat_vec_data (k_per_item mat_vec_data k) (r : Int)) (b : Int)
      = 0 := by
    rw [rd_init_compute_v_r mat_vec_data k (r : Int) b hb, if_neg]
    intro hh
    omega
  constructor
  · intro q hq hown
    rw [hU2, rd_put_row_same _ _ _ _ hulen hU q hq,
      u_r_kernel_beyond_rank sqrt exp _ _ _ _ _ _ _ _ _ _ _ _ _ _ q (b : Int)
        (by rw [hglen]; exact hq) hown hr,
      rd_get_row _ _ _ _ hq]
  · intro q hq hown
    have hk := (search_loop_keeps_accepted sqrt exp mat_vec_data k input_set1 input_set2 st.V
      st.U (r : Int) (b : Int) fuel _ s hs hflag).2 (q : Int) hown
    rw [hV2, rd_put_row_same _ _ _ _ hvlen hV q hq,
      batched_scaling_beyond_rank schedule _ _ _ _ _ _ q (b : Int) hown hr, hk]
    exact rd_get_row _ _ _ _ hq

theorem toNat_mul_of_nonneg (a b : Int) (ha : 0 ≤ a) (hb : 0 ≤ b) :
    (a * b).toNat = a.toNat * b.toNat := by
  obtain ⟨m, rfl⟩ := Int.eq_ofNat_of_zero_le ha
  obtain ⟨n, rfl⟩ := Int.eq_ofNat_of_zero_le hb
  rw [← Nat.cast_mul, Int.toNat_ofNat, Int.toNat_ofNat, Int.toNat_ofNat]

/-- The flattened position `l * m_total + offset + j` of the factor buffers as
a position of row `l`. -/
theorem factor_position (total offset count : Int) (l j : Nat) (h0 : 0 ≤ offset)
    (h1 : offset + count ≤ total) (hj : (j : Int) < count) :
    (l : Int) * total + offset + (j : Int)
      = ((l * total.toNat + (offset + (j : Int)).toNat : Nat) : Int) ∧
    (offset + (j : Int)).toNat < total.toNat ∧
    (((offset + (j : Int)).toNat : Nat) : Int) = offset + (j : Int) := by
  have hj0 : (0 : Int) ≤ (j : Int) := Int.ofNat_nonneg j
  have ht : 0 ≤ total := by omega
  refine ⟨?_, by omega, Int.toNat_of_nonneg (by omega)⟩
  rw [Nat.cast_add, Nat.cast_mul, Int.toNat_of_nonneg ht, Int.toNat_of_nonneg (by omega)]
  ring

/-- The rank loop of the batched engine keeps the zeros of the rows
`l >= k_per_item[b]` at the positions of block `b`. -/
theorem rank_loop_keeps_zero {R : Type} [LinearOrderedField R] (sqrt exp : R → R)
    (mat_vec_data : List work_item) (k : Int) (input_set1 input_set2 : point_set R)
    (eta epsilon : R) (content : Nat → R) (fuel : Nat) (schedule : List Nat)
    (b : Nat) (hb : b < mat_vec_data.length) (K : Nat) :
    ∀ (n r : Nat) (st st2 : aca_state R), r + n = K →
      st.U.length = (block_total mat_vec_data 1).toNat * K →
      st.V.length = (block_total mat_vec_data 2).toNat * K →
      (∀ l q : Nat, rd (k_per_item mat_vec_data k) (b : Int) ≤ (l : Int) → l < K →
        (q < (block_total mat_vec_data 1).toNat →
          rd (work_item_maps mat_vec_data).1 (q : Int) = (b : Int) →
          rd st.U ((l * (block_total mat_vec_data 1).toNat + q : Nat) : Int) = 0) ∧
        (q < (block_total mat_vec_data 2).toNat →
          rd (work_item_maps mat_vec_data).2 (q : Int) = (b : Int) →
          rd st.V ((l * (block_total mat_vec_data 2).toNat + q : Nat) : Int) = 0)) →
      rank_loop sqrt exp mat_vec_data k input_set1 input_set2 eta epsilon content fuel schedule
        n r st = some st2 →
      (∀ l q : Nat, rd (k_per_item mat_vec_data k) (b : Int) ≤ (l : Int) → l < K →
        (q < (block_total mat_vec_data 1).toNat →
          rd (work_item_maps mat_vec_data).1 (q : Int) = (b : Int) →
          rd st2.U ((l * (block_total mat_vec_data 1).toNat + q : Nat) : Int) = 0) ∧
        (q < (block_total mat_vec_data 2).toNat →
          rd (work_item_maps mat_vec_data).2 (q : Int) = (b : Int) →
          rd st2.V ((l * (block_total mat_vec_data 2).toNat + q : Nat) : Int) = 0)) := by
  intro n
  induction n with
  | zero =>
    intro r st st2 _ _ _ hz h
    simp only [rank_loop] at h
    rw [← Option.some.inj h]
    exact hz
  | succ n ih =>
    intro r st st2 hrn hUl hVl hz h
    simp only [rank_loop] at h
    have hrK : r + 1 ≤ K := by omega
    have hU : (r + 1) * (block_total mat_vec_data 1).toNat ≤ st.U.length := by
      rw [hUl, Nat.mul_comm]
      exact Nat.mul_le_mul_left _ hrK
    have hV : (r + 1) * (block_total mat_vec_data 2).toNat ≤ st.V.length := by
      rw [hVl, Nat.mul_comm]
      exact Nat.mul_le_mul_left _ hrK
    cases hit : rank_iteration sqrt exp mat_vec_data k input_set1 input_set2 eta epsilon content
        fuel schedule r st with
    | none =>
      rw [hit] at h
      exact absurd h (by simp)
    | some res =>
      obtain ⟨st1, leave⟩ := res
      rw [hit] at h
      simp only at h
      obtain ⟨hl1, hl2, ho1, ho2⟩ := rank_iteration_other_rows sqrt exp mat_vec_data k
        input_set1 input_set2 eta epsilon content fuel schedule r st st1 leave hU hV hit
      have hz1 : ∀ l q : Nat, rd (k_per_item mat_vec_data k) (b : Int) ≤ (l : Int) → l < K →
          (q < (block_total mat_vec_data 1).toNat →
            rd (work_item_maps mat_vec_data).1 (q : Int) = (b : Int) →
            rd st1.U ((l * (block_total mat_vec_data 1).toNat + q : Nat) : Int) = 0) ∧
          (q < (block_total mat_vec_data 2).toNat →
            rd (work_item_maps mat_vec_data).2 (q : Int) = (b : Int) →
            rd st1.V ((l * (block_total mat_vec_data 2).toNat + q : Nat) : Int) = 0) := by
        intro l q hl hlK
        by_cases hlr : l = r
        · subst hlr
          obtain ⟨hb1, hb2⟩ := rank_iteration_beyond_rank sqrt exp mat_vec_data k input_set1
            input_set2 eta epsilon content fuel schedule l st st1 leave b hb hU hV hl hit
          exact ⟨fun hq hown => by rw [hb1 q hq hown]; exact (hz l q hl hlK).1 hq hown,
            fun hq hown => by rw [hb2 q hq hown]; exact (hz l q hl hlK).2 hq hown⟩
        · exact ⟨fun hq hown => by rw [ho1 l q hlr hq]; exact (hz l q hl hlK).1 hq hown,
            fun hq hown => by rw [ho2 l q hlr hq]; exact (hz l q hl hlK).2 hq hown⟩
      by_cases hlv : leave = true
      · rw [if_pos hlv] at h
        rw [← Option.some.inj h]
        exact hz1
      · rw [if_neg hlv] at h
        exact ih (r + 1) st1 st2 (by omega) (by rw [hl1, hUl]) (by rw [hl2, hVl]) hz1 h

theorem rd_replicate_zero {R : Type} [Zero R] (n : Nat) (i : Int) :
    rd (List.replicate n (0 : R)) i = 0 := by
  unfold rd
  split
  · rw [List.getD_eq_getElem?_getD, List.getElem?_replicate]
    split <;> rfl
  · rfl

/-- C34: factor columns beyond the rank of a block stay zero.  Let block `b`
carry its own index in the block-owner maps at all its row and column
positions, and let no block have a negative number of rows or columns.  A rank
iteration `r >= k_per_item[b]` (with `r < k_global`) that returns does not
change any entry of block `b` in `U` or `V`, in any row `l < k_global` of the
factor buffers.  When the rank loop of `apply_batched_aca` returns, then for
every `l` with `k_per_item[b] <= l < k_global`,
`U[l*m1_total + offset1[b] + j] = 0` for all `j < m1[b]` and
`V[l*m2_total + offset2[b] + c] = 0` for all `c < m2[b]`. -/
theorem factor_columns_beyond_rank_stay_zero {R : Type} [LinearOrderedField R]
    (sqrt exp : R → R) (mat_vec_data : List work_item) (k : Int)
    (input_set1 input_set2 : point_set R) (eta epsilon : R) (content : Nat → R) (fuel : Nat)
    (schedule : List Nat) (b : Nat) (hb : b < mat_vec_data.length)
    (hc1 : ∀ i : Nat, i < mat_vec_data.length → 0 ≤ rd (block_counts mat_vec_data 1) (i : Int))
    (hc2 : ∀ i : Nat, i < mat_vec_data.length → 0 ≤ rd (block_counts mat_vec_data 2) (i : Int))
    (hw1 : ∀ j : Nat, (j : Int) < rd (block_counts mat_vec_data 1) (b : Int) →
      rd (work_item_maps mat_vec_data).1 (rd (point_map_offsets mat_vec_data 1) (b : Int) + (j : Int))
        = (b : Int))
    (hw2 : ∀ c : Nat, (c : Int) < rd (block_counts mat_vec_data 2) (b : Int) →
      rd (work_item_maps mat_vec_data).2 (rd (point_map_offsets mat_vec_data 2) (b : Int) + (c : Int))
        = (b : Int)) :
    (∀ (r : Nat) (st st2 : aca_state R) (leave : Bool),
      rd (k_per_item mat_vec_data k) (b : Int) ≤ (r : Int) → (r : Int) < global_k mat_vec_data k →
      st.U.length = (block_total mat_vec_data 1 * global_k mat_vec_data k).toNat →
      st.V.length = (block_total mat_vec_data 2 * global_k mat_vec_data k).toNat →
      rank_iteration sqrt exp mat_vec_data k input_set1 input_set2 eta epsilon content fuel
        schedule r st = some (st2, leave) →
      ∀ l : Nat,
        (∀ j : Nat, (j : Int) < rd (block_counts mat_vec_data 1) (b : Int) →
          rd st2.U ((l : Int) * block_total mat_vec_data 1
              + rd (point_map_offsets mat_vec_data 1) (b : Int) + (j : Int))
            = rd st.U ((l : Int) * block_total mat_vec_data 1
              + rd (point_map_offsets mat_vec_data 1) (b : Int) + (j : Int))) ∧
        (∀ c : Nat, (c : Int) < rd (block_counts mat_vec_data 2) (b : Int) →
          rd st2.V ((l : Int) * block_total mat_vec_data 2
              + rd (point_map_offsets mat_vec_data 2) (b : Int) + (c : Int))
            = rd st.V ((l : Int) * block_total mat_vec_data 2
              + rd (point_map_offsets mat_vec_data 2) (b : Int) + (c : Int)))) ∧
    (∀ st : aca_state R,
      batched_aca_factors sqrt exp mat_vec_data k input_set1 input_set2 eta epsilon content fuel
        schedule = some st →
      ∀ l : Nat, rd (k_per_item mat_vec_data k) (b : Int) ≤ (l : Int) →
        (l : Int) < global_k mat_vec_data k →
        (∀ j : Nat, (j : Int) < rd (block_counts mat_vec_data 1) (b : Int) →
          rd st.U ((l : Int) * block_total mat_vec_data 1
              + rd (point_map_offsets mat_vec_data 1) (b : Int) + (j : Int)) = 0) ∧
        (∀ c : Nat, (c : Int) < rd (block_counts mat_vec_data 2) (b : Int) →
          rd st.V ((l : Int) * block_total mat_vec_data 2
              + rd (point_map_offsets mat_vec_data 2) (b : Int) + (c : Int)) = 0)) := by
  obtain ⟨ho1, ht1⟩ := offset_add_count_le_total_of_nonneg mat_vec_data 1 b hb hc1
  obtain ⟨ho2, ht2⟩ := offset_add_count_le_total_of_nonneg mat_vec_data 2 b hb hc2
  have hm1 := block_total_nonneg mat_vec_data 1 hc1
  have hm2 := block_total_nonneg mat_vec_data 2 hc2
  constructor
  · intro r st st2 leave hr hrk hUl hVl hit l
    have hk0 : 0 ≤ global_k mat_vec_data k := by omega
    have hrK : r + 1 ≤ (global_k mat_vec_data k).toNat := by omega
    rw [toNat_mul_of_nonneg _ _ hm1 hk0] at hUl
    rw [toNat_mul_of_nonneg _ _ hm2 hk0] at hVl
    have hU : (r + 1) * (block_total mat_vec_data 1).toNat ≤ st.U.length := by
      rw [hUl, Nat.mul_comm]
      exact Nat.mul_le_mul_left _ hrK
    have hV : (r + 1) * (block_total mat_vec_data 2).toNat ≤ st.V.length := by
      rw [hVl, Nat.mul_comm]
      exact Nat.mul_le_mul_left _ hrK
    obtain ⟨_, _, hoU, hoV⟩ := rank_iteration_other_rows sqrt exp mat_vec_data k
      input_set1 input_set2 eta epsilon content fuel schedule r st st2 leave hU hV hit
    obtain ⟨hbU, hbV⟩ := rank_iteration_beyond_rank sqrt exp mat_vec_data k input_set1
      input_set2 eta epsilon content fuel schedule r st st2 leave b hb hU hV hr hit
    constructor
    · intro j hj
      obtain ⟨e1, e2, e3⟩ := factor_position _ _ _ l j ho1 ht1 hj
      rw [e1]
      by_cases hlr : l = r
      · rw [hlr]
        exact hbU _ e2 (by rw [e3]; exact hw1 j hj)
      · exact hoU l _ hlr e2
    · intro c hc
      obtain ⟨e1, e2, e3⟩ := factor_position _ _ _ l c ho2 ht2 hc
      rw [e1]
      by_cases hlr : l = r
      · rw [hlr]
        exact hbV _ e2 (by rw [e3]; exact hw2 c hc)
      · exact hoV l _ hlr e2
  · intro st hst l hl hlk
    have hk0 : 0 ≤ global_k mat_vec_data k := by omega
    unfold batched_aca_factors at hst
    have hz := rank_loop_keeps_zero sqrt exp mat_vec_data k input_set1 input_set2 eta epsilon
      content fuel schedule b hb (global_k mat_vec_data k).toNat
      (global_k mat_vec_data k).toNat 0 (init_aca_state R mat_vec_data k) st (by omega)
      (by
        show (List.replicate _ (0 : R)).length = _
        rw [List.length_replicate, toNat_mul_of_nonneg _ _ hm1 hk0])
      (by
        show (List.replicate _ (0 : R)).length = _
        rw [List.length_replicate, toNat_mul_of_nonneg _ _ hm2 hk0])
      (fun l q _ _ => ⟨fun _ _ => rd_replicate_zero _ _, fun _ _ => rd_replicate_zero _ _⟩)
      hst
    constructor
    · intro j hj
      obtain ⟨e1, e2, e3⟩ := factor_position _ _ _ l j ho1 ht1 hj
      rw [e1]
      exact (hz l _ hl (by omega)).1 e2 (by rw [e3]; exact hw1 j hj)
    · intro c hc
      obtain ⟨e1, e2, e3⟩ := factor_position _ _ _ l c ho2 ht2 hc
      rw [e1]
      exact (hz l _ hl (by omega)).2 e2 (by rw [e3]; exact hw2 c hc)

/-! ### C31: the results of the grouped reduction and the batch slots -/

/-- The number of results of a segmented reduction keyed by the block-owner
map: one per block with at least one position. -/
theorem grouped_keys_reduce_count {α : Type} (op : α → α → α) (cnt : Nat → Nat) (n : Nat)
    (vals : List α)
    (hlen : vals.length
      = ((List.range n).flatMap (fun (i : Nat) => List.replicate (cnt i) (i : Int))).length) :
    (reduce_by_key
      ((List.range n).flatMap (fun (i : Nat) => List.replicate (cnt i) (i : Int))) vals
      op).length = (List.range n).countP (fun (i : Nat) => decide (0 < cnt i)) := by
  induction n generalizing vals with
  | zero => simp [reduce_by_key]
  | succ n ih =>
    have hsplit : (List.range (n + 1)).flatMap (fun (i : Nat) => List.replicate (cnt i) (i : Int))
        = (List.range n).flatMap (fun (i : Nat) => List.replicate (cnt i) (i : Int))
          ++ List.replicate (cnt n) (n : Int) := by
      rw [List.range_succ, List.flatMap_append]
      simp
    rw [hsplit] at hlen ⊢
    rw [List.length_append, List.length_replicate] at hlen
    rw [List.range_succ, List.countP_append, List.countP_cons, List.countP_nil]
    set KP := (List.range n).flatMap (fun (i : Nat) => List.replicate (cnt i) (i : Int)) with hKP
    by_cases h0 : cnt n = 0
    · rw [h0, List.replicate_zero, List.append_nil, ih vals (by omega),
        if_neg (by simp [h0])]
      rfl
    · have hvals : vals = vals.take KP.length ++ vals.drop KP.length :=
        (List.take_append_drop _ _).symm
      have hdl : (vals.drop KP.length).length = cnt n := by
        rw [List.length_drop]; omega
      cases hd : vals.drop KP.length with
      | nil =>
        rw [hd] at hdl
        simp at hdl
        omega
      | cons v0 vt =>
        rw [hd] at hdl hvals
        have hvt : vt.length + 1 = cnt n := by simpa using hdl
        have hnot : (n : Int) ∉ KP := by
          intro hm
          obtain ⟨i, hi, he⟩ := grouped_keys_mem cnt n _ hm
          have : n = i := by exact_mod_cast he
          omega
        have hPlen : KP.length = (vals.take KP.length).length := by
          rw [List.length_take]; omega
        have := reduce_by_key_block op KP [] (vals.take KP.length) [] (n : Int) v0 vt hPlen hnot
          (by simp)
        rw [hvt, List.append_nil, List.append_nil, ← hvals] at this
        rw [this]
        have hih := ih (vals.take KP.length) hPlen.symm
        have hnil : reduce_by_key ([] : List Int) ([] : List α) op = [] := rfl
        rw [hnil, List.append_nil, List.length_append, hih, if_pos (by simp; omega)]
        rfl

/-- The entry of a block `b` with at least one position in a segmented
reduction keyed by the block-owner map, when other blocks may have no
position: in front of it stand the entries of the blocks before `b` that have a
position. -/
theorem grouped_keys_reduce_block_of_pos {α : Type} (op : α → α → α) (cnt : Nat → Nat)
    (n b : Nat) (hb : b < n) (h1 : 1 ≤ cnt b) (vals : List α)
    (hlen : vals.length
      = ((List.range n).flatMap (fun (i : Nat) => List.replicate (cnt i) (i : Int))).length) :
    ∃ (v0 : α) (vt : List α) (A C : List (Int × α)),
      (vals.drop ((List.range b).map cnt).sum).take (cnt b) = v0 :: vt ∧
      reduce_by_key
        ((List.range n).flatMap (fun (i : Nat) => List.replicate (cnt i) (i : Int))) vals op
        = A ++ [((b : Int), vt.foldl op v0)] ++ C ∧
      A.length = (List.range b).countP (fun (i : Nat) => decide (0 < cnt i)) ∧
      (∀ p ∈ A, p.1 ≠ (b : Int)) ∧ (∀ p ∈ C, p.1 ≠ (b : Int)) := by
  obtain ⟨t, ht⟩ : ∃ t, n = b + 1 + t := ⟨n - b - 1, by omega⟩
  subst ht
  rw [grouped_keys_split] at hlen ⊢
  set KP := (List.range b).flatMap (fun (i : Nat) => List.replicate (cnt i) (i : Int)) with hKP
  set KQ := ((List.range t).map (fun j => b + 1 + j)).flatMap
    (fun (i : Nat) => List.replicate (cnt i) (i : Int)) with hKQ
  have hKPlen : KP.length = ((List.range b).map cnt).sum := grouped_keys_length cnt b
  rw [← hKPlen]
  simp only [List.length_append, List.length_replicate] at hlen
  have hsl : ((vals.drop KP.length).take (cnt b)).length = cnt b := by
    rw [List.length_take, List.length_drop]; omega
  cases hd : (vals.drop KP.length).take (cnt b) with
  | nil =>
    rw [hd] at hsl
    simp at hsl
    omega
  | cons v0 vt =>
    rw [hd] at hsl
    have hvt : vt.length + 1 = cnt b := by simpa using hsl
    have hvals : vals = vals.take KP.length ++ (v0 :: vt) ++ vals.drop (KP.length + cnt b) := by
      rw [← hd, List.append_assoc, ← List.drop_drop, List.take_append_drop,
        List.take_append_drop]
    have hPlen : KP.length = (vals.take KP.length).length := by
      rw [List.length_take]; omega
    have hnotP : (b : Int) ∉ KP := by
      intro hm
      obtain ⟨i, hi, he⟩ := grouped_keys_mem cnt b _ hm
      have : b = i := by exact_mod_cast he
      omega
    have hnotQ : (b : Int) ∉ KQ := by
      intro hm
      obtain ⟨i, hi, hxi⟩ := List.mem_flatMap.1 hm
      obtain ⟨j, _, hj⟩ := List.mem_map.1 hi
      have he : (b : Int) = (i : Int) := List.eq_of_mem_replicate hxi
      have : b = i := by exact_mod_cast he
      omega
    have hblock := reduce_by_key_block op KP KQ (vals.take KP.length)
      (vals.drop (KP.length + cnt b)) (b : Int) v0 vt hPlen hnotP hnotQ
    rw [hvt, ← hvals] at hblock
    refine ⟨v0, vt, _, _, rfl, hblock, ?_, ?_, ?_⟩
    · exact grouped_keys_reduce_count op cnt b _ hPlen.symm
    · intro p hp h
      exact hnotP (h ▸ reduce_by_key_keys op _ _ p hp)
    · intro p hp h
      exact hnotQ (h ▸ reduce_by_key_keys op _ _ p hp)

/-- The column block-owner map of a batch whose low-rank blocks have at least
two rows and two columns: every block is listed as often as it has columns. -/
theorem work_item_map2_grouped (mat_vec_data : List work_item)
    (h2 : ∀ w ∈ mat_vec_data, w.work_type = WT_ACA →
      w.set1_l + 1 ≤ w.set1_u ∧ w.set2_l + 1 ≤ w.set2_u) :
    (work_item_maps mat_vec_data).2 = (List.range mat_vec_data.length).flatMap
      (fun (i : Nat) => List.replicate (rd (block_counts mat_vec_data 2) (i : Int)).toNat
        (i : Int)) := by
  have hfit := block_counts_fit mat_vec_data 2 h2
  have h := scan_and_correct_fill (block_counts mat_vec_data 2) WT_ACA mat_vec_data
    (fun _ idx => (idx : Int)) (fun _ idx => -(idx : Int)) (fun _ idx => (idx : Int)) 0
    (block_counts_length mat_vec_data 2) hfit
    (by
      intro q v _ _
      ring)
    (by
      intro q v _ _
      ring)
  unfold work_item_maps
  simp only []
  rw [set_bounds_for_work_item_maps_eq, correct_bounds_for_work_item_maps_eq]
  refine Eq.trans h ?_
  congr 1
  funext i
  unfold exact_block
  cases hg : mat_vec_data.get? i with
  | none =>
    have hi : ¬ i < mat_vec_data.length := by
      intro hi
      rw [List.get?_eq_getElem?, List.getElem?_eq_getElem hi] at hg
      exact Option.noConfusion hg
    have hz : rd (block_counts mat_vec_data 2) (i : Int) = 0 := by
      apply rd_eq_zero_of_not_lt
      rw [block_counts_length]
      omega
    rw [hz]
    rfl
  | some w =>
    simp only
    by_cases ht : w.work_type = WT_ACA
    · rw [if_neg (not_not.2 ht)]
      simp only [mul_zero, add_zero]
      rw [List.map_const', List.length_range]
    · rw [if_pos ht, (hfit i w hg).2 ht]
      rfl

theorem search_round_single_column_block {R : Type} [LinearOrderedField R]
    (sqrt exp : R → R) (dim : Nat) (c1 c2 : Nat → Int → R) (V U : List R) (a b c d e : R)
    (ks : List Int) (ns : List R)
    (h0 : update_ir_threshold R ≤ abs (sqrt (kernel_entry sqrt exp ⟨dim, c1⟩ ⟨dim, c2⟩ 0 0 * kernel_entry sqrt exp ⟨dim, c1⟩ ⟨dim, c2⟩ 0 0 + kernel_entry sqrt exp ⟨dim, c1⟩ ⟨dim, c2⟩ 0 1 * kernel_entry sqrt exp ⟨dim, c1⟩ ⟨dim, c2⟩ 0 1)))
    (h1 : update_ir_threshold R ≤ abs (sqrt (kernel_entry sqrt exp ⟨dim, c1⟩ ⟨dim, c2⟩ 2 2 * kernel_entry sqrt exp ⟨dim, c1⟩ ⟨dim, c2⟩ 2 2 + kernel_entry sqrt exp ⟨dim, c1⟩ ⟨dim, c2⟩ 2 2 * kernel_entry sqrt exp ⟨dim, c1⟩ ⟨dim, c2⟩ 2 2)))
    (h2 : update_ir_threshold R ≤ abs (sqrt (kernel_entry sqrt exp ⟨dim, c1⟩ ⟨dim, c2⟩ 4 4 * kernel_entry sqrt exp ⟨dim, c1⟩ ⟨dim, c2⟩ 4 4))) :
    search_round sqrt exp [⟨0, 1, 0, 1, WT_ACA⟩, ⟨2, 3, 2, 2, WT_ACA⟩, ⟨4, 5, 3, 4, WT_ACA⟩] 1 ⟨dim, c1⟩ ⟨dim, c2⟩ V U 0 ⟨[-1, -1, -1], [1, 1, 1], [a, b, c, d, e], ks, ns⟩
      = ⟨[0, 0, 0], [0, 0, 0], [kernel_entry sqrt exp ⟨dim, c1⟩ ⟨dim, c2⟩ 0 0, kernel_entry sqrt exp ⟨dim, c1⟩ ⟨dim, c2⟩ 0 1, kernel_entry sqrt exp ⟨dim, c1⟩ ⟨dim, c2⟩ 2 2, kernel_entry sqrt exp ⟨dim, c1⟩ ⟨dim, c2⟩ 2 2, kernel_entry sqrt exp ⟨dim, c1⟩ ⟨dim, c2⟩ 4 4], [0, 1, 2], [sqrt (kernel_entry sqrt exp ⟨dim, c1⟩ ⟨dim, c2⟩ 0 0 * kernel_entry sqrt exp ⟨dim, c1⟩ ⟨dim, c2⟩ 0 0 + kernel_entry sqrt exp ⟨dim, c1⟩ ⟨dim, c2⟩ 0 1 * kernel_entry sqrt exp ⟨dim, c1⟩ ⟨dim, c2⟩ 0 1), sqrt (kernel_entry sqrt exp ⟨dim, c1⟩ ⟨dim, c2⟩ 2 2 * kernel_entry sqrt exp ⟨dim, c1⟩ ⟨dim, c2⟩ 2 2 + kernel_entry sqrt exp ⟨dim, c1⟩ ⟨dim, c2⟩ 2 2 * kernel_entry sqrt exp ⟨dim, c1⟩ ⟨dim, c2⟩ 2 2), sqrt (kernel_entry sqrt exp ⟨dim, c1⟩ ⟨dim, c2⟩ 4 4 * kernel_entry sqrt exp ⟨dim, c1⟩ ⟨dim, c2⟩ 4 4)]⟩ := by
  show update_ir ⟨[0, 0, 0], [1, 1, 1], [kernel_entry sqrt exp ⟨dim, c1⟩ ⟨dim, c2⟩ 0 0, kernel_entry sqrt exp ⟨dim, c1⟩ ⟨dim, c2⟩ 0 1, kernel_entry sqrt exp ⟨dim, c1⟩ ⟨dim, c2⟩ 2 2, kernel_entry sqrt exp ⟨dim, c1⟩ ⟨dim, c2⟩ 2 2, kernel_entry sqrt exp ⟨dim, c1⟩ ⟨dim, c2⟩ 4 4], [0, 1, 2], [sqrt (kernel_entry sqrt exp ⟨dim, c1⟩ ⟨dim, c2⟩ 0 0 * kernel_entry sqrt exp ⟨dim, c1⟩ ⟨dim, c2⟩ 0 0 + kernel_entry sqrt exp ⟨dim, c1⟩ ⟨dim, c2⟩ 0 1 * kernel_entry sqrt exp ⟨dim, c1⟩ ⟨dim, c2⟩ 0 1), sqrt (kernel_entry sqrt exp ⟨dim, c1⟩ ⟨dim, c2⟩ 2 2 * kernel_entry sqrt exp ⟨dim, c1⟩ ⟨dim, c2⟩ 2 2 + kernel_entry sqrt exp ⟨dim, c1⟩ ⟨dim, c2⟩ 2 2 * kernel_entry sqrt exp ⟨dim, c1⟩ ⟨dim, c2⟩ 2 2), sqrt (kernel_entry sqrt exp ⟨dim, c1⟩ ⟨dim, c2⟩ 4 4 * kernel_entry sqrt exp ⟨dim, c1⟩ ⟨dim, c2⟩ 4 4)]⟩ 3 = _
  simp only [update_ir, List.range_succ, List.range_zero, List.nil_append, List.cons_append,
    List.foldl_cons, List.foldl_nil, update_ir_thread]
  simp [rd, wr, h0, h1, h2]

/-- C32: the claim asks that the pivot `j_r_global[slot(b)]` of an accepted
block lies in the column segment of the block.  The batch of three blocks of
type ACA with two rows each and with `2`, `1` and `2` columns (columns `0..1`,
`2..2`, `3..4`), `k = 1`, rank `0`: `apply_batched_aca` builds
`work_item_map2 = [0, 0, 1, 1, 2]` and `point_map2 = [0, 1, 2, 2, 4]`.  When the
first rows of the three blocks pass the test of `update_ir`, the search leaves
after one round; position `3`, the first column of the last block, holds the
same value as position `2`, the only column of the middle block, and the
grouped reduction gives `j_r_global[1] = 3` for the middle block (batch slot
`1`, column segment `2..2`). -/
theorem pivot_of_single_column_block_outside_segment {R : Type} [LinearOrderedField R]
    (sqrt exp : R → R) (dim : Nat) (c1 c2 : Nat → Int → R) (V U : List R) (a b c d e : R)
    (fuel : Nat)
    (h0 : update_ir_threshold R ≤ abs (sqrt (kernel_entry sqrt exp ⟨dim, c1⟩ ⟨dim, c2⟩ 0 0 * kernel_entry sqrt exp ⟨dim, c1⟩ ⟨dim, c2⟩ 0 0 + kernel_entry sqrt exp ⟨dim, c1⟩ ⟨dim, c2⟩ 0 1 * kernel_entry sqrt exp ⟨dim, c1⟩ ⟨dim, c2⟩ 0 1)))
    (h1 : update_ir_threshold R ≤ abs (sqrt (kernel_entry sqrt exp ⟨dim, c1⟩ ⟨dim, c2⟩ 2 2 * kernel_entry sqrt exp ⟨dim, c1⟩ ⟨dim, c2⟩ 2 2 + kernel_entry sqrt exp ⟨dim, c1⟩ ⟨dim, c2⟩ 2 2 * kernel_entry sqrt exp ⟨dim, c1⟩ ⟨dim, c2⟩ 2 2)))
    (h2 : update_ir_threshold R ≤ abs (sqrt (kernel_entry sqrt exp ⟨dim, c1⟩ ⟨dim, c2⟩ 4 4 * kernel_entry sqrt exp ⟨dim, c1⟩ ⟨dim, c2⟩ 4 4))) :
    (work_item_maps [⟨0, 1, 0, 1, WT_ACA⟩, ⟨2, 3, 2, 2, WT_ACA⟩, ⟨4, 5, 3, 4, WT_ACA⟩]).2 = [0, 0, 1, 1, 2] ∧
    (point_maps [⟨0, 1, 0, 1, WT_ACA⟩, ⟨2, 3, 2, 2, WT_ACA⟩, ⟨4, 5, 3, 4, WT_ACA⟩]).2 = [0, 1, 2, 2, 4] ∧
    rd (k_per_item [⟨0, 1, 0, 1, WT_ACA⟩, ⟨2, 3, 2, 2, WT_ACA⟩, ⟨4, 5, 3, 4, WT_ACA⟩] 1) 1 = 1 ∧
    rd (work_item_to_batch_map [⟨0, 1, 0, 1, WT_ACA⟩, ⟨2, 3, 2, 2, WT_ACA⟩, ⟨4, 5, 3, 4, WT_ACA⟩]) 1 = 1 ∧
    rd (point_map_offsets [⟨0, 1, 0, 1, WT_ACA⟩, ⟨2, 3, 2, 2, WT_ACA⟩, ⟨4, 5, 3, 4, WT_ACA⟩] 2) 1 = 2 ∧
    rd (block_counts [⟨0, 1, 0, 1, WT_ACA⟩, ⟨2, 3, 2, 2, WT_ACA⟩, ⟨4, 5, 3, 4, WT_ACA⟩] 2) 1 = 1 ∧
    ∃ s : search_state R,
      search_loop sqrt exp [⟨0, 1, 0, 1, WT_ACA⟩, ⟨2, 3, 2, 2, WT_ACA⟩, ⟨4, 5, 3, 4, WT_ACA⟩] 1 ⟨dim, c1⟩ ⟨dim, c2⟩ V U 0 (fuel + 1)
        ⟨init_i_r [⟨0, 1, 0, 1, WT_ACA⟩, ⟨2, 3, 2, 2, WT_ACA⟩, ⟨4, 5, 3, 4, WT_ACA⟩], init_compute_v_r [⟨0, 1, 0, 1, WT_ACA⟩, ⟨2, 3, 2, 2, WT_ACA⟩, ⟨4, 5, 3, 4, WT_ACA⟩] (k_per_item [⟨0, 1, 0, 1, WT_ACA⟩, ⟨2, 3, 2, 2, WT_ACA⟩, ⟨4, 5, 3, 4, WT_ACA⟩] 1) 0, [a, b, c, d, e], [], []⟩ = some s ∧
      s.v_r = [kernel_entry sqrt exp ⟨dim, c1⟩ ⟨dim, c2⟩ 0 0, kernel_entry sqrt exp ⟨dim, c1⟩ ⟨dim, c2⟩ 0 1, kernel_entry sqrt exp ⟨dim, c1⟩ ⟨dim, c2⟩ 2 2, kernel_entry sqrt exp ⟨dim, c1⟩ ⟨dim, c2⟩ 2 2, kernel_entry sqrt exp ⟨dim, c1⟩ ⟨dim, c2⟩ 4 4] ∧
      rd (j_r_global (work_item_maps [⟨0, 1, 0, 1, WT_ACA⟩, ⟨2, 3, 2, 2, WT_ACA⟩, ⟨4, 5, 3, 4, WT_ACA⟩]).2 s.v_r (block_total [⟨0, 1, 0, 1, WT_ACA⟩, ⟨2, 3, 2, 2, WT_ACA⟩, ⟨4, 5, 3, 4, WT_ACA⟩] 2)) (rd (work_item_to_batch_map [⟨0, 1, 0, 1, WT_ACA⟩, ⟨2, 3, 2, 2, WT_ACA⟩, ⟨4, 5, 3, 4, WT_ACA⟩]) 1) = 3 := by
  have hs := search_round_single_column_block sqrt exp dim c1 c2 V U a b c d e [] [] h0 h1 h2
  refine ⟨by decide, by decide, by decide, by decide, by decide, by decide, ⟨[0, 0, 0], [0, 0, 0], [kernel_entry sqrt exp ⟨dim, c1⟩ ⟨dim, c2⟩ 0 0, kernel_entry sqrt exp ⟨dim, c1⟩ ⟨dim, c2⟩ 0 1, kernel_entry sqrt exp ⟨dim, c1⟩ ⟨dim, c2⟩ 2 2, kernel_entry sqrt exp ⟨dim, c1⟩ ⟨dim, c2⟩ 2 2, kernel_entry sqrt exp ⟨dim, c1⟩ ⟨dim, c2⟩ 4 4], [0, 1, 2], [sqrt (kernel_entry sqrt exp ⟨dim, c1⟩ ⟨dim, c2⟩ 0 0 * kernel_entry sqrt exp ⟨dim, c1⟩ ⟨dim, c2⟩ 0 0 + kernel_entry sqrt exp ⟨dim, c1⟩ ⟨dim, c2⟩ 0 1 * kernel_entry sqrt exp ⟨dim, c1⟩ ⟨dim, c2⟩ 0 1), sqrt (kernel_entry sqrt exp ⟨dim, c1⟩ ⟨dim, c2⟩ 2 2 * kernel_entry sqrt exp ⟨dim, c1⟩ ⟨dim, c2⟩ 2 2 + kernel_entry sqrt exp ⟨dim, c1⟩ ⟨dim, c2⟩ 2 2 * kernel_entry sqrt exp ⟨dim, c1⟩ ⟨dim, c2⟩ 2 2), sqrt (kernel_entry sqrt exp ⟨dim, c1⟩ ⟨dim, c2⟩ 4 4 * kernel_entry sqrt exp ⟨dim, c1⟩ ⟨dim, c2⟩ 4 4)]⟩, ?_, rfl, ?_⟩
  · show search_loop sqrt exp [⟨0, 1, 0, 1, WT_ACA⟩, ⟨2, 3, 2, 2, WT_ACA⟩, ⟨4, 5, 3, 4, WT_ACA⟩] 1 ⟨dim, c1⟩ ⟨dim, c2⟩ V U 0 (fuel + 1) ⟨[-1, -1, -1], [1, 1, 1], [a, b, c, d, e], [], []⟩ = _
    simp only [search_loop, hs]
    rfl
  · show rd ((reduce_by_key [(0 : Int), 0, 1, 1, 2] [(kernel_entry sqrt exp ⟨dim, c1⟩ ⟨dim, c2⟩ 0 0, (0 : Int)), (kernel_entry sqrt exp ⟨dim, c1⟩ ⟨dim, c2⟩ 0 1, 1), (kernel_entry sqrt exp ⟨dim, c1⟩ ⟨dim, c2⟩ 2 2, 2), (kernel_entry sqrt exp ⟨dim, c1⟩ ⟨dim, c2⟩ 2 2, 3), (kernel_entry sqrt exp ⟨dim, c1⟩ ⟨dim, c2⟩ 4 4, 4)] tuple_absolute_maximum).map (fun p => p.2.2)) 1 = 3
    by_cases hp : abs (kernel_entry sqrt exp ⟨dim, c1⟩ ⟨dim, c2⟩ 0 0) > abs (kernel_entry sqrt exp ⟨dim, c1⟩ ⟨dim, c2⟩ 0 1)
    · simp [reduce_by_key, reduce_by_key_go, tuple_absolute_maximum, hp, rd]
    · simp [reduce_by_key, reduce_by_key_go, tuple_absolute_maximum, hp, rd]

theorem single_column_batch_first_rows_accepted :
    update_ir_threshold ℚ ≤ abs (id (kernel_entry id (fun x : ℚ => 1 / ((1 - x) * (1 - x))) (⟨1, fun _ i => (i : ℚ)⟩ : point_set ℚ) (⟨1, fun _ j => 10 + 3 * (j : ℚ)⟩ : point_set ℚ) 0 0 * kernel_entry id (fun x : ℚ => 1 / ((1 - x) * (1 - x))) (⟨1, fun _ i => (i : ℚ)⟩ : point_set ℚ) (⟨1, fun _ j => 10 + 3 * (j : ℚ)⟩ : point_set ℚ) 0 0 + kernel_entry id (fun x : ℚ => 1 / ((1 - x) * (1 - x))) (⟨1, fun _ i => (i : ℚ)⟩ : point_set ℚ) (⟨1, fun _ j => 10 + 3 * (j : ℚ)⟩ : point_set ℚ) 0 1 * kernel_entry id (fun x : ℚ => 1 / ((1 - x) * (1 - x))) (⟨1, fun _ i => (i : ℚ)⟩ : point_set ℚ) (⟨1, fun _ j => 10 + 3 * (j : ℚ)⟩ : point_set ℚ) 0 1)) ∧
    update_ir_threshold ℚ ≤ abs (id (kernel_entry id (fun x : ℚ => 1 / ((1 - x) * (1 - x))) (⟨1, fun _ i => (i : ℚ)⟩ : point_set ℚ) (⟨1, fun _ j => 10 + 3 * (j : ℚ)⟩ : point_set ℚ) 2 2 * kernel_entry id (fun x : ℚ => 1 / ((1 - x) * (1 - x))) (⟨1, fun _ i => (i : ℚ)⟩ : point_set ℚ) (⟨1, fun _ j => 10 + 3 * (j : ℚ)⟩ : point_set ℚ) 2 2 + kernel_entry id (fun x : ℚ => 1 / ((1 - x) * (1 - x))) (⟨1, fun _ i => (i : ℚ)⟩ : point_set ℚ) (⟨1, fun _ j => 10 + 3 * (j : ℚ)⟩ : point_set ℚ) 2 2 * kernel_entry id (fun x : ℚ => 1 / ((1 - x) * (1 - x))) (⟨1, fun _ i => (i : ℚ)⟩ : point_set ℚ) (⟨1, fun _ j => 10 + 3 * (j : ℚ)⟩ : point_set ℚ) 2 2)) ∧
    update_ir_threshold ℚ ≤ abs (id (kernel_entry id (fun x : ℚ => 1 / ((1 - x) * (1 - x))) (⟨1, fun _ i => (i : ℚ)⟩ : point_set ℚ) (⟨1, fun _ j => 10 + 3 * (j : ℚ)⟩ : point_set ℚ) 4 4 * kernel_entry id (fun x : ℚ => 1 / ((1 - x) * (1 - x))) (⟨1, fun _ i => (i : ℚ)⟩ : point_set ℚ) (⟨1, fun _ j => 10 + 3 * (j : ℚ)⟩ : point_set ℚ) 4 4)) := by
  refine ⟨?_, ?_, ?_⟩
  · simp [kernel_entry, kernel, distance, update_ir_threshold, List.range_succ]
    norm_num [abs_of_pos]
  · simp [kernel_entry, kernel, distance, update_ir_threshold, List.range_succ]
    norm_num [abs_of_pos]
  · simp [kernel_entry, kernel, distance, update_ir_threshold, List.range_succ]
    norm_num [abs_of_pos]

/-- C32, instance: row points `i`, column points `10 + 3 j`, `sqrt` the identity
and `exp(-d) = 1/(1+d)^2` over the rationals, the row buffer filled with zeros:
the search leaves after one round and the pivot of the middle block is position
`3`. -/
theorem pivot_of_single_column_block_outside_segment_witness :
    ∃ s : search_state ℚ,
      search_loop id (fun x : ℚ => 1 / ((1 - x) * (1 - x))) [⟨0, 1, 0, 1, WT_ACA⟩, ⟨2, 3, 2, 2, WT_ACA⟩, ⟨4, 5, 3, 4, WT_ACA⟩] 1 (⟨1, fun _ i => (i : ℚ)⟩ : point_set ℚ) (⟨1, fun _ j => 10 + 3 * (j : ℚ)⟩ : point_set ℚ) [0, 0, 0, 0, 0] [0, 0, 0, 0, 0, 0] 0 1
        ⟨init_i_r [⟨0, 1, 0, 1, WT_ACA⟩, ⟨2, 3, 2, 2, WT_ACA⟩, ⟨4, 5, 3, 4, WT_ACA⟩], init_compute_v_r [⟨0, 1, 0, 1, WT_ACA⟩, ⟨2, 3, 2, 2, WT_ACA⟩, ⟨4, 5, 3, 4, WT_ACA⟩] (k_per_item [⟨0, 1, 0, 1, WT_ACA⟩, ⟨2, 3, 2, 2, WT_ACA⟩, ⟨4, 5, 3, 4, WT_ACA⟩] 1) 0, [0, 0, 0, 0, 0], [], []⟩ = some s ∧
      s.v_r = [kernel_entry id (fun x : ℚ => 1 / ((1 - x) * (1 - x))) (⟨1, fun _ i => (i : ℚ)⟩ : point_set ℚ) (⟨1, fun _ j => 10 + 3 * (j : ℚ)⟩ : point_set ℚ) 0 0, kernel_entry id (fun x : ℚ => 1 / ((1 - x) * (1 - x))) (⟨1, fun _ i => (i : ℚ)⟩ : point_set ℚ) (⟨1, fun _ j => 10 + 3 * (j : ℚ)⟩ : point_set ℚ) 0 1, kernel_entry id (fun x : ℚ => 1 / ((1 - x) * (1 - x))) (⟨1, fun _ i => (i : ℚ)⟩ : point_set ℚ) (⟨1, fun _ j => 10 + 3 * (j : ℚ)⟩ : point_set ℚ) 2 2, kernel_entry id (fun x : ℚ => 1 / ((1 - x) * (1 - x))) (⟨1, fun _ i => (i : ℚ)⟩ : point_set ℚ) (⟨1, fun _ j => 10 + 3 * (j : ℚ)⟩ : point_set ℚ) 2 2, kernel_entry id (fun x : ℚ => 1 / ((1 - x) * (1 - x))) (⟨1, fun _ i => (i : ℚ)⟩ : point_set ℚ) (⟨1, fun _ j => 10 + 3 * (j : ℚ)⟩ : point_set ℚ) 4 4] ∧
      rd (j_r_global (work_item_maps [⟨0, 1, 0, 1, WT_ACA⟩, ⟨2, 3, 2, 2, WT_ACA⟩, ⟨4, 5, 3, 4, WT_ACA⟩]).2 s.v_r (block_total [⟨0, 1, 0, 1, WT_ACA⟩, ⟨2, 3, 2, 2, WT_ACA⟩, ⟨4, 5, 3, 4, WT_ACA⟩] 2)) (rd (work_item_to_batch_map [⟨0, 1, 0, 1, WT_ACA⟩, ⟨2, 3, 2, 2, WT_ACA⟩, ⟨4, 5, 3, 4, WT_ACA⟩]) 1) = 3 :=
  (pivot_of_single_column_block_outside_segment id (fun x : ℚ => 1 / ((1 - x) * (1 - x))) 1 (fun _ i => (i : ℚ)) (fun _ j => 10 + 3 * (j : ℚ)) [0, 0, 0, 0, 0] [0, 0, 0, 0, 0, 0] 0 0 0 0 0 0
    single_column_batch_first_rows_accepted.1 single_column_batch_first_rows_accepted.2.1
    single_column_batch_first_rows_accepted.2.2).2.2.2.2.2.2

/-! ### C33: a block without an acceptable row -/

theorem search_round_stalled_first {R : Type} [LinearOrderedField R]
    (sqrt exp : R → R) (dim : Nat) (c1 c2 : Nat → Int → R) (V U : List R) (x y z w : R)
    (ks : List Int) (ns : List R)
    (h0 : update_ir_threshold R ≤ abs (sqrt (kernel_entry sqrt exp ⟨dim, c1⟩ ⟨dim, c2⟩ 0 0 * kernel_entry sqrt exp ⟨dim, c1⟩ ⟨dim, c2⟩ 0 0 + kernel_entry sqrt exp ⟨dim, c1⟩ ⟨dim, c2⟩ 0 1 * kernel_entry sqrt exp ⟨dim, c1⟩ ⟨dim, c2⟩ 0 1)))
    (h1 : ¬ update_ir_threshold R ≤ abs (sqrt (kernel_entry sqrt exp ⟨dim, c1⟩ ⟨dim, c2⟩ 2 2 * kernel_entry sqrt exp ⟨dim, c1⟩ ⟨dim, c2⟩ 2 2 + kernel_entry sqrt exp ⟨dim, c1⟩ ⟨dim, c2⟩ 2 3 * kernel_entry sqrt exp ⟨dim, c1⟩ ⟨dim, c2⟩ 2 3))) :
    search_round sqrt exp [⟨0, 1, 0, 1, WT_ACA⟩, ⟨2, 3, 2, 3, WT_ACA⟩] 1 ⟨dim, c1⟩ ⟨dim, c2⟩ V U 0 ⟨[-1, -1], [1, 1], [x, y, z, w], ks, ns⟩
      = ⟨[0, 0], [0, 1], [kernel_entry sqrt exp ⟨dim, c1⟩ ⟨dim, c2⟩ 0 0, kernel_entry sqrt exp ⟨dim, c1⟩ ⟨dim, c2⟩ 0 1, kernel_entry sqrt exp ⟨dim, c1⟩ ⟨dim, c2⟩ 2 2, kernel_entry sqrt exp ⟨dim, c1⟩ ⟨dim, c2⟩ 2 3], [0, 1], [sqrt (kernel_entry sqrt exp ⟨dim, c1⟩ ⟨dim, c2⟩ 0 0 * kernel_entry sqrt exp ⟨dim, c1⟩ ⟨dim, c2⟩ 0 0 + kernel_entry sqrt exp ⟨dim, c1⟩ ⟨dim, c2⟩ 0 1 * kernel_entry sqrt exp ⟨dim, c1⟩ ⟨dim, c2⟩ 0 1), sqrt (kernel_entry sqrt exp ⟨dim, c1⟩ ⟨dim, c2⟩ 2 2 * kernel_entry sqrt exp ⟨dim, c1⟩ ⟨dim, c2⟩ 2 2 + kernel_entry sqrt exp ⟨dim, c1⟩ ⟨dim, c2⟩ 2 3 * kernel_entry sqrt exp ⟨dim, c1⟩ ⟨dim, c2⟩ 2 3)]⟩ := by
  show update_ir ⟨[0, 0], [1, 1], [kernel_entry sqrt exp ⟨dim, c1⟩ ⟨dim, c2⟩ 0 0, kernel_entry sqrt exp ⟨dim, c1⟩ ⟨dim, c2⟩ 0 1, kernel_entry sqrt exp ⟨dim, c1⟩ ⟨dim, c2⟩ 2 2, kernel_entry sqrt exp ⟨dim, c1⟩ ⟨dim, c2⟩ 2 3], [0, 1], [sqrt (kernel_entry sqrt exp ⟨dim, c1⟩ ⟨dim, c2⟩ 0 0 * kernel_entry sqrt exp ⟨dim, c1⟩ ⟨dim, c2⟩ 0 0 + kernel_entry sqrt exp ⟨dim, c1⟩ ⟨dim, c2⟩ 0 1 * kernel_entry sqrt exp ⟨dim, c1⟩ ⟨dim, c2⟩ 0 1), sqrt (kernel_entry sqrt exp ⟨dim, c1⟩ ⟨dim, c2⟩ 2 2 * kernel_entry sqrt exp ⟨dim, c1⟩ ⟨dim, c2⟩ 2 2 + kernel_entry sqrt exp ⟨dim, c1⟩ ⟨dim, c2⟩ 2 3 * kernel_entry sqrt exp ⟨dim, c1⟩ ⟨dim, c2⟩ 2 3)]⟩ 2 = _
  simp only [update_ir, List.range_succ, List.range_zero, List.nil_append, List.cons_append,
    List.foldl_cons, List.foldl_nil, update_ir_thread]
  simp [rd, wr, h0, h1]

theorem search_round_stalled_next {R : Type} [LinearOrderedField R]
    (sqrt exp : R → R) (dim : Nat) (c1 c2 : Nat → Int → R) (V U : List R) (x y z w : R)
    (ks : List Int) (ns : List R) (n : Int)
    (h1 : ¬ update_ir_threshold R ≤ abs (sqrt (kernel_entry sqrt exp ⟨dim, c1⟩ ⟨dim, c2⟩ (2 + (n + 1)) 2 * kernel_entry sqrt exp ⟨dim, c1⟩ ⟨dim, c2⟩ (2 + (n + 1)) 2 + kernel_entry sqrt exp ⟨dim, c1⟩ ⟨dim, c2⟩ (2 + (n + 1)) 3 * kernel_entry sqrt exp ⟨dim, c1⟩ ⟨dim, c2⟩ (2 + (n + 1)) 3))) :
    search_round sqrt exp [⟨0, 1, 0, 1, WT_ACA⟩, ⟨2, 3, 2, 3, WT_ACA⟩] 1 ⟨dim, c1⟩ ⟨dim, c2⟩ V U 0 ⟨[0, n], [0, 1], [x, y, z, w], ks, ns⟩
      = ⟨[0, n + 1], [0, 1], [x, y, kernel_entry sqrt exp ⟨dim, c1⟩ ⟨dim, c2⟩ (2 + (n + 1)) 2, kernel_entry sqrt exp ⟨dim, c1⟩ ⟨dim, c2⟩ (2 + (n + 1)) 3], [0, 1], [0, sqrt (kernel_entry sqrt exp ⟨dim, c1⟩ ⟨dim, c2⟩ (2 + (n + 1)) 2 * kernel_entry sqrt exp ⟨dim, c1⟩ ⟨dim, c2⟩ (2 + (n + 1)) 2 + kernel_entry sqrt exp ⟨dim, c1⟩ ⟨dim, c2⟩ (2 + (n + 1)) 3 * kernel_entry sqrt exp ⟨dim, c1⟩ ⟨dim, c2⟩ (2 + (n + 1)) 3)]⟩ := by
  show update_ir ⟨[0, n + 1], [0, 1], [x, y, kernel_entry sqrt exp ⟨dim, c1⟩ ⟨dim, c2⟩ (2 + (n + 1)) 2, kernel_entry sqrt exp ⟨dim, c1⟩ ⟨dim, c2⟩ (2 + (n + 1)) 3], [0, 1], [0, sqrt (kernel_entry sqrt exp ⟨dim, c1⟩ ⟨dim, c2⟩ (2 + (n + 1)) 2 * kernel_entry sqrt exp ⟨dim, c1⟩ ⟨dim, c2⟩ (2 + (n + 1)) 2 + kernel_entry sqrt exp ⟨dim, c1⟩ ⟨dim, c2⟩ (2 + (n + 1)) 3 * kernel_entry sqrt exp ⟨dim, c1⟩ ⟨dim, c2⟩ (2 + (n + 1)) 3)]⟩ 2 = _
  simp only [update_ir, List.range_succ, List.range_zero, List.nil_append, List.cons_append,
    List.foldl_cons, List.foldl_nil, update_ir_thread]
  simp [rd, wr, h1]

/-- The search loop of the batch of two `2 x 2` blocks at rank `0`, when no
row index gives the second block a row that passes the test of `update_ir`:
once the first block holds its accepted row, no number of rounds makes the
loop leave. -/
theorem search_loop_stalled_from {R : Type} [LinearOrderedField R]
    (sqrt exp : R → R) (dim : Nat) (c1 c2 : Nat → Int → R) (V U : List R)
    (h1 : ∀ i : Int, ¬ update_ir_threshold R ≤ abs (sqrt (kernel_entry sqrt exp ⟨dim, c1⟩ ⟨dim, c2⟩ i 2 * kernel_entry sqrt exp ⟨dim, c1⟩ ⟨dim, c2⟩ i 2 + kernel_entry sqrt exp ⟨dim, c1⟩ ⟨dim, c2⟩ i 3 * kernel_entry sqrt exp ⟨dim, c1⟩ ⟨dim, c2⟩ i 3)))
    (fuel : Nat) :
    ∀ (n : Int) (x y z w : R) (ks : List Int) (ns : List R),
      search_loop sqrt exp [⟨0, 1, 0, 1, WT_ACA⟩, ⟨2, 3, 2, 3, WT_ACA⟩] 1 ⟨dim, c1⟩ ⟨dim, c2⟩ V U 0 fuel ⟨[0, n], [0, 1], [x, y, z, w], ks, ns⟩ = none := by
  induction fuel with
  | zero =>
    intro n x y z w ks ns
    rfl
  | succ fuel ih =>
    intro n x y z w ks ns
    simp only [search_loop, search_round_stalled_next sqrt exp dim c1 c2 V U x y z w ks ns n (h1 _)]
    have he : search_exit (⟨[0, n + 1], [0, 1], [x, y, kernel_entry sqrt exp ⟨dim, c1⟩ ⟨dim, c2⟩ (2 + (n + 1)) 2, kernel_entry sqrt exp ⟨dim, c1⟩ ⟨dim, c2⟩ (2 + (n + 1)) 3], [0, 1], [0, sqrt (kernel_entry sqrt exp ⟨dim, c1⟩ ⟨dim, c2⟩ (2 + (n + 1)) 2 * kernel_entry sqrt exp ⟨dim, c1⟩ ⟨dim, c2⟩ (2 + (n + 1)) 2 + kernel_entry sqrt exp ⟨dim, c1⟩ ⟨dim, c2⟩ (2 + (n + 1)) 3 * kernel_entry sqrt exp ⟨dim, c1⟩ ⟨dim, c2⟩ (2 + (n + 1)) 3)]⟩ : search_state R) = false := rfl
    rw [he]
    exact ih _ _ _ _ _ _ _

theorem search_loop_stalled {R : Type} [LinearOrderedField R]
    (sqrt exp : R → R) (dim : Nat) (c1 c2 : Nat → Int → R) (V U : List R) (x y z w : R)
    (h0 : update_ir_threshold R ≤ abs (sqrt (kernel_entry sqrt exp ⟨dim, c1⟩ ⟨dim, c2⟩ 0 0 * kernel_entry sqrt exp ⟨dim, c1⟩ ⟨dim, c2⟩ 0 0 + kernel_entry sqrt exp ⟨dim, c1⟩ ⟨dim, c2⟩ 0 1 * kernel_entry sqrt exp ⟨dim, c1⟩ ⟨dim, c2⟩ 0 1)))
    (h1 : ∀ i : Int, ¬ update_ir_threshold R ≤ abs (sqrt (kernel_entry sqrt exp ⟨dim, c1⟩ ⟨dim, c2⟩ i 2 * kernel_entry sqrt exp ⟨dim, c1⟩ ⟨dim, c2⟩ i 2 + kernel_entry sqrt exp ⟨dim, c1⟩ ⟨dim, c2⟩ i 3 * kernel_entry sqrt exp ⟨dim, c1⟩ ⟨dim, c2⟩ i 3)))
    (fuel : Nat) :
    search_loop sqrt exp [⟨0, 1, 0, 1, WT_ACA⟩, ⟨2, 3, 2, 3, WT_ACA⟩] 1 ⟨dim, c1⟩ ⟨dim, c2⟩ V U 0 fuel ⟨[-1, -1], [1, 1], [x, y, z, w], [], []⟩ = none := by
  cases fuel with
  | zero => rfl
  | succ fuel =>
    simp only [search_loop, search_round_stalled_first sqrt exp dim c1 c2 V U x y z w [] [] h0 (h1 2)]
    have he : search_exit (⟨[0, 0], [0, 1], [kernel_entry sqrt exp ⟨dim, c1⟩ ⟨dim, c2⟩ 0 0, kernel_entry sqrt exp ⟨dim, c1⟩ ⟨dim, c2⟩ 0 1, kernel_entry sqrt exp ⟨dim, c1⟩ ⟨dim, c2⟩ 2 2, kernel_entry sqrt exp ⟨dim, c1⟩ ⟨dim, c2⟩ 2 3], [0, 1], [sqrt (kernel_entry sqrt exp ⟨dim, c1⟩ ⟨dim, c2⟩ 0 0 * kernel_entry sqrt exp ⟨dim, c1⟩ ⟨dim, c2⟩ 0 0 + kernel_entry sqrt exp ⟨dim, c1⟩ ⟨dim, c2⟩ 0 1 * kernel_entry sqrt exp ⟨dim, c1⟩ ⟨dim, c2⟩ 0 1), sqrt (kernel_entry sqrt exp ⟨dim, c1⟩ ⟨dim, c2⟩ 2 2 * kernel_entry sqrt exp ⟨dim, c1⟩ ⟨dim, c2⟩ 2 2 + kernel_entry sqrt exp ⟨dim, c1⟩ ⟨dim, c2⟩ 2 3 * kernel_entry sqrt exp ⟨dim, c1⟩ ⟨dim, c2⟩ 2 3)]⟩ : search_state R) = false := rfl
    rw [he]
    exact search_loop_stalled_from sqrt exp dim c1 c2 V U h1 fuel _ _ _ _ _ _ _

theorem far_block_rows_rejected :
    update_ir_threshold ℚ ≤ abs (id (kernel_entry id (fun x : ℚ => 1 / ((1 - x) * (1 - x))) (⟨1, fun _ _ => 0⟩ : point_set ℚ) (⟨1, fun _ j => if j ≤ 1 then 10 + 3 * (j : ℚ) else 10 ^ 15⟩ : point_set ℚ) 0 0 * kernel_entry id (fun x : ℚ => 1 / ((1 - x) * (1 - x))) (⟨1, fun _ _ => 0⟩ : point_set ℚ) (⟨1, fun _ j => if j ≤ 1 then 10 + 3 * (j : ℚ) else 10 ^ 15⟩ : point_set ℚ) 0 0 + kernel_entry id (fun x : ℚ => 1 / ((1 - x) * (1 - x))) (⟨1, fun _ _ => 0⟩ : point_set ℚ) (⟨1, fun _ j => if j ≤ 1 then 10 + 3 * (j : ℚ) else 10 ^ 15⟩ : point_set ℚ) 0 1 * kernel_entry id (fun x : ℚ => 1 / ((1 - x) * (1 - x))) (⟨1, fun _ _ => 0⟩ : point_set ℚ) (⟨1, fun _ j => if j ≤ 1 then 10 + 3 * (j : ℚ) else 10 ^ 15⟩ : point_set ℚ) 0 1)) ∧
    ∀ i : Int, ¬ update_ir_threshold ℚ ≤ abs (id (kernel_entry id (fun x : ℚ => 1 / ((1 - x) * (1 - x))) (⟨1, fun _ _ => 0⟩ : point_set ℚ) (⟨1, fun _ j => if j ≤ 1 then 10 + 3 * (j : ℚ) else 10 ^ 15⟩ : point_set ℚ) i 2 * kernel_entry id (fun x : ℚ => 1 / ((1 - x) * (1 - x))) (⟨1, fun _ _ => 0⟩ : point_set ℚ) (⟨1, fun _ j => if j ≤ 1 then 10 + 3 * (j : ℚ) else 10 ^ 15⟩ : point_set ℚ) i 2 + kernel_entry id (fun x : ℚ => 1 / ((1 - x) * (1 - x))) (⟨1, fun _ _ => 0⟩ : point_set ℚ) (⟨1, fun _ j => if j ≤ 1 then 10 + 3 * (j : ℚ) else 10 ^ 15⟩ : point_set ℚ) i 3 * kernel_entry id (fun x : ℚ => 1 / ((1 - x) * (1 - x))) (⟨1, fun _ _ => 0⟩ : point_set ℚ) (⟨1, fun _ j => if j ≤ 1 then 10 + 3 * (j : ℚ) else 10 ^ 15⟩ : point_set ℚ) i 3)) := by
  constructor
  · simp [kernel_entry, kernel, distance, update_ir_threshold, List.range_succ]
    norm_num [abs_of_pos]
  · intro i
    simp [kernel_entry, kernel, distance, update_ir_threshold, List.range_succ]
    norm_num [abs_of_pos]

/-- C33, counterexample: the claim promises each flagged block with an
acceptable row that the loop terminates.  A batch of two `2 x 2` blocks of
type ACA, `k = 1`, rank `0`, over the rationals with `sqrt` the identity and
`exp(-d) = 1/(1+d)^2`: all row points at `0`, the columns of block `0` at `10`
and `13`, the columns of block `1` at `10^15`.  Block `0` is flagged, its row
pointer is `-1`, and its row `0` passes the test of `update_ir`; every row of
block `1` has a norm below `1e-14`.  The loop leaves only when the flags of all
blocks are cleared, so it returns for no number of rounds. -/
theorem search_does_not_leave_while_another_block_is_flagged :
    rd (init_compute_v_r [⟨0, 1, 0, 1, WT_ACA⟩, ⟨2, 3, 2, 3, WT_ACA⟩] (k_per_item [⟨0, 1, 0, 1, WT_ACA⟩, ⟨2, 3, 2, 3, WT_ACA⟩] 1) 0) 0 = 1 ∧
    rd (init_i_r [⟨0, 1, 0, 1, WT_ACA⟩, ⟨2, 3, 2, 3, WT_ACA⟩]) 0 = -1 ∧
    rd (block_counts [⟨0, 1, 0, 1, WT_ACA⟩, ⟨2, 3, 2, 3, WT_ACA⟩] 1) 0 = 2 ∧
    update_ir_threshold ℚ ≤ abs (id (kernel_entry id (fun x : ℚ => 1 / ((1 - x) * (1 - x))) (⟨1, fun _ _ => 0⟩ : point_set ℚ) (⟨1, fun _ j => if j ≤ 1 then 10 + 3 * (j : ℚ) else 10 ^ 15⟩ : point_set ℚ) 0 0 * kernel_entry id (fun x : ℚ => 1 / ((1 - x) * (1 - x))) (⟨1, fun _ _ => 0⟩ : point_set ℚ) (⟨1, fun _ j => if j ≤ 1 then 10 + 3 * (j : ℚ) else 10 ^ 15⟩ : point_set ℚ) 0 0 + kernel_entry id (fun x : ℚ => 1 / ((1 - x) * (1 - x))) (⟨1, fun _ _ => 0⟩ : point_set ℚ) (⟨1, fun _ j => if j ≤ 1 then 10 + 3 * (j : ℚ) else 10 ^ 15⟩ : point_set ℚ) 0 1 * kernel_entry id (fun x : ℚ => 1 / ((1 - x) * (1 - x))) (⟨1, fun _ _ => 0⟩ : point_set ℚ) (⟨1, fun _ j => if j ≤ 1 then 10 + 3 * (j : ℚ) else 10 ^ 15⟩ : point_set ℚ) 0 1)) ∧
    ∀ fuel : Nat,
      search_loop id (fun x : ℚ => 1 / ((1 - x) * (1 - x))) [⟨0, 1, 0, 1, WT_ACA⟩, ⟨2, 3, 2, 3, WT_ACA⟩] 1 (⟨1, fun _ _ => 0⟩ : point_set ℚ) (⟨1, fun _ j => if j ≤ 1 then 10 + 3 * (j : ℚ) else 10 ^ 15⟩ : point_set ℚ) [0, 0, 0, 0] [0, 0, 0, 0] 0 fuel
        ⟨init_i_r [⟨0, 1, 0, 1, WT_ACA⟩, ⟨2, 3, 2, 3, WT_ACA⟩], init_compute_v_r [⟨0, 1, 0, 1, WT_ACA⟩, ⟨2, 3, 2, 3, WT_ACA⟩] (k_per_item [⟨0, 1, 0, 1, WT_ACA⟩, ⟨2, 3, 2, 3, WT_ACA⟩] 1) 0, [0, 0, 0, 0], [], []⟩ = none := by
  refine ⟨by decide, by decide, by decide, far_block_rows_rejected.1, ?_⟩
  intro fuel
  exact search_loop_stalled id (fun x : ℚ => 1 / ((1 - x) * (1 - x))) 1 (fun _ _ => 0) (fun _ j => if j ≤ 1 then 10 + 3 * (j : ℚ) else 10 ^ 15) [0, 0, 0, 0] [0, 0, 0, 0] 0 0 0 0 far_block_rows_rejected.1 far_block_rows_rejected.2 fuel

/-! ### C33: the search of a batch with blocks of several types -/

/-- The entry of a block `b` of type ACA in
`compute_batched_norms_with_keys_output`, in a batch whose low-rank blocks have
at least two rows and two columns and that may hold blocks of other types: the
key `b` occurs at exactly one position, and the norm there is the norm of the
segment of `b`. -/
theorem batched_norm_of_ACA_block {R : Type} [Ring R] (sqrt : R → R)
    (mat_vec_data : List work_item)
    (h2 : ∀ w ∈ mat_vec_data, w.work_type = WT_ACA →
      w.set1_l + 1 ≤ w.set1_u ∧ w.set2_l + 1 ≤ w.set2_u)
    (b : Nat) (w : work_item) (hg : mat_vec_data.get? b = some w) (ht : w.work_type = WT_ACA)
    (v s : List R) (hv : (v.length : Int) = block_total mat_vec_data 2)
    (hs : (s.length : Int) = rd (block_counts mat_vec_data 2) (b : Int))
    (hsv : ∀ c : Nat, c < s.length →
      rd s (c : Int) = rd v (rd (point_map_offsets mat_vec_data 2) (b : Int) + (c : Int))) :
    ∃ t : Nat,
      t < (compute_batched_norms_with_keys_output sqrt v (block_total mat_vec_data 2)
        (work_item_maps mat_vec_data).2).1.length ∧
      (compute_batched_norms_with_keys_output sqrt v (block_total mat_vec_data 2)
        (work_item_maps mat_vec_data).2).2.length
        = (compute_batched_norms_with_keys_output sqrt v (block_total mat_vec_data 2)
        (work_item_maps mat_vec_data).2).1.length ∧
      rd (compute_batched_norms_with_keys_output sqrt v (block_total mat_vec_data 2)
        (work_item_maps mat_vec_data).2).1 (t : Int) = (b : Int) ∧
      (∀ idx : Nat, idx < (compute_batched_norms_with_keys_output sqrt v
          (block_total mat_vec_data 2) (work_item_maps mat_vec_data).2).1.length →
        rd (compute_batched_norms_with_keys_output sqrt v (block_total mat_vec_data 2)
          (work_item_maps mat_vec_data).2).1 (idx : Int) = (b : Int) → idx = t) ∧
      rd (compute_batched_norms_with_keys_output sqrt v (block_total mat_vec_data 2)
        (work_item_maps mat_vec_data).2).2 (t : Int) = sqrt (inner_product s s 0) := by
  have hb : b < mat_vec_data.length := by
    by_contra hi
    rw [List.get?_eq_getElem?, List.getElem?_eq_none (by omega)] at hg
    exact Option.noConfusion hg
  have hwm2 := work_item_map2_grouped mat_vec_data h2
  have hfit := block_counts_fit mat_vec_data 2 h2
  have hnn := counts_nonneg_of_fit (block_counts mat_vec_data 2) WT_ACA mat_vec_data
    (block_counts_length mat_vec_data 2) hfit
  have hcb := (hfit b w hg).1 ht
  have hlenT := (work_item_maps_length mat_vec_data).2
  have hoff : rd (point_map_offsets mat_vec_data 2) (b : Int)
      = ((((List.range b).map
          (fun (i : Nat) => (rd (block_counts mat_vec_data 2) (i : Int)).toNat)).sum : Nat) : Int) :=
    rd_offsets_eq_leading_sum (block_counts mat_vec_data 2) hnn b
      (by rw [block_counts_length]; exact hb)
  obtain ⟨_, htot⟩ := offset_add_count_le_total_of_nonneg mat_vec_data 2 b hb
    (fun i _ => hnn i)
  have hvn : v.length = (block_total mat_vec_data 2).toNat := by omega
  have hlenK : (work_item_maps mat_vec_data).2.length = v.length := by rw [hlenT, hvn]
  unfold compute_batched_norms_with_keys_output
  simp only []
  rw [← hvn, List.take_length, ← hlenK, List.take_length]
  have hvals : (v.map square).length
      = ((List.range mat_vec_data.length).flatMap (fun (i : Nat) =>
          List.replicate (rd (block_counts mat_vec_data 2) (i : Int)).toNat (i : Int))).length := by
    rw [List.length_map, ← hwm2, hlenK]
  obtain ⟨v0, vt, A, C, hslice, hred, _, hAk, hCk⟩ := grouped_keys_reduce_block_of_pos
    (fun (a b : R) => a + b)
    (fun (i : Nat) => (rd (block_counts mat_vec_data 2) (i : Int)).toNat) mat_vec_data.length b
    hb (by show 1 ≤ (rd (block_counts mat_vec_data 2) (b : Int)).toNat; omega)
    (v.map square) hvals
  rw [hwm2, hred]
  -- the segment of `b` is `s`
  have hsn : s.length = (rd (block_counts mat_vec_data 2) (b : Int)).toNat := by omega
  have hseg : (v.drop ((List.range b).map
      (fun (i : Nat) => (rd (block_counts mat_vec_data 2) (i : Int)).toNat)).sum).take
        (rd (block_counts mat_vec_data 2) (b : Int)).toNat = s := by
    have hin : ∀ c : Nat, c < s.length →
        ((List.range b).map
          (fun (i : Nat) => (rd (block_counts mat_vec_data 2) (i : Int)).toNat)).sum + c
          < v.length := by
      intro c hcl
      omega
    apply list_ext_rd
    · rw [List.length_take, List.length_drop, hsn]
      have := hin (s.length - 1) (by omega)
      omega
    · intro c hcl
      rw [List.length_take] at hcl
      rw [rd_drop_take _ _ _ c (by omega), hsv c (by omega), hoff]
      push_cast
      rfl
  rw [← List.map_drop, ← List.map_take, hseg] at hslice
  cases s with
  | nil => simp at hslice
  | cons s0 st =>
    simp only [List.map_cons, List.cons.injEq] at hslice
    obtain ⟨h0, ht0⟩ := hslice
    have hAl : (A.map Prod.fst).length = A.length := by rw [List.length_map]
    have hAl2 : (A.map (fun (p : Int × R) => sqrt p.2)).length = A.length := by
      rw [List.length_map]
    refine ⟨A.length, by simp, by simp, ?_, ?_, ?_⟩
    · simp only [List.map_append, List.append_assoc]
      have := rd_append_right (A.map Prod.fst)
        ((List.map Prod.fst [((b : Int), vt.foldl (fun a b => a + b) v0)]) ++ C.map Prod.fst) 0
      rw [hAl] at this
      simpa [rd] using this
    · intro idx hidx hkey
      simp only [List.map_append, List.append_assoc] at hkey hidx
      by_contra hne
      rcases Nat.lt_or_gt_of_ne hne with hlt | hgt
      · rw [rd_append_left _ _ idx (by rw [hAl]; exact hlt), rd_natCast,
          List.getD_eq_getElem _ _ (by rw [hAl]; exact hlt), List.getElem_map] at hkey
        exact hAk _ (List.getElem_mem _) hkey
      · obtain ⟨d, hd⟩ : ∃ d, idx = (A.map Prod.fst).length + (d + 1) :=
          ⟨idx - A.length - 1, by rw [hAl]; omega⟩
        rw [hd, rd_append_right] at hkey
        have hdl : d < (C.map Prod.fst).length := by
          simp only [List.length_append, List.length_map, List.length_cons,
            List.length_nil] at hidx
          rw [List.length_map]
          rw [hd, hAl] at hidx
          omega
        have e : rd (List.map Prod.fst [((b : Int), vt.foldl (fun a b => a + b) v0)]
            ++ C.map Prod.fst) ((d + 1 : Nat) : Int) = rd (C.map Prod.fst) (d : Int) := by
          rw [rd_natCast, rd_natCast]; rfl
        rw [e, rd_natCast, List.getD_eq_getElem _ _ hdl, List.getElem_map] at hkey
        exact hCk _ (List.getElem_mem _) hkey
    · simp only [List.map_append, List.append_assoc]
      have := rd_append_right (A.map (fun (p : Int × R) => sqrt p.2))
        ((List.map (fun (p : Int × R) => sqrt p.2) [((b : Int), vt.foldl (fun a b => a + b) v0)])
          ++ C.map (fun (p : Int × R) => sqrt p.2)) 0
      rw [hAl2] at this
      have e : rd ((List.map (fun (p : Int × R) => sqrt p.2)
            [((b : Int), vt.foldl (fun a b => a + b) v0)])
          ++ C.map (fun (p : Int × R) => sqrt p.2)) ((0 : Nat) : Int)
          = sqrt (vt.foldl (fun a b => a + b) v0) := by
        rw [rd_natCast]; rfl
      rw [e] at this
      refine Eq.trans this ?_
      rw [← h0, ← ht0, inner_product_self_eq]

/-- A search round of the batched engine for a flagged block `b` of type ACA,
in a batch whose low-rank blocks have at least two rows and two columns and
that may hold blocks of other types, when the next row `i + 1` lies in the
block: the pivot becomes `i + 1`, the entries of `v_r` of the block are those of
the candidate row, and the flag is cleared exactly when the norm of that row
passes the test of `update_ir`. -/
theorem search_round_of_flagged_ACA_block {R : Type} [LinearOrderedField R] (sqrt exp : R → R)
    (mat_vec_data : List work_item) (k : Int) (input_set1 input_set2 : point_set R)
    (V U Vs Us : List R) (r b : Nat)
    (h2 : ∀ w ∈ mat_vec_data, w.work_type = WT_ACA →
      w.set1_l + 1 ≤ w.set1_u ∧ w.set2_l + 1 ≤ w.set2_u)
    (w : work_item) (hg : mat_vec_data.get? b = some w) (ht : w.work_type = WT_ACA)
    (hr : (r : Int) ≤ rd (k_per_item mat_vec_data k) (b : Int))
    (hU : ∀ l j : Nat, l < r → (j : Int) < w.set1_u - w.set1_l + 1 →
      rd U ((l : Int) * block_total mat_vec_data 1 + rd (point_map_offsets mat_vec_data 1) (b : Int)
          + (j : Int))
        = rd Us ((l : Int) * (w.set1_u - w.set1_l + 1) + (j : Int)))
    (hV : ∀ l c : Nat, l < r → (c : Int) < w.set2_u - w.set2_l + 1 →
      rd V ((l : Int) * block_total mat_vec_data 2
          + (rd (point_map_offsets mat_vec_data 2) (b : Int) + (c : Int)))
        = rd Vs ((l : Int) * (w.set2_u - w.set2_l + 1) + (c : Int)))
    (t : search_state R) (vec : List R) (i : Int)
    (hvlen : (t.v_r.length : Int) = block_total mat_vec_data 2)
    (hilen : b < t.i_r.length)
    (hflag : rd t.compute_v_r (b : Int) = 1)
    (hi : rd t.i_r (b : Int) = i) (hi0 : -1 ≤ i)
    (hi1 : i + 1 < w.set1_u - w.set1_l + 1)
    (hvec : (vec.length : Int) = w.set2_u - w.set2_l + 1) :
    rd (search_round sqrt exp mat_vec_data k input_set1 input_set2 V U (r : Int) t).i_r (b : Int)
      = i + 1 ∧
    (∀ c : Nat, (c : Int) < w.set2_u - w.set2_l + 1 →
      rd (search_round sqrt exp mat_vec_data k input_set1 input_set2 V U (r : Int) t).v_r
          (rd (point_map_offsets mat_vec_data 2) (b : Int) + (c : Int))
        = rd (candidate_row sqrt exp w input_set1 input_set2 Us Vs vec (r : Int) (i + 1))
            (c : Int)) ∧
    (update_ir_threshold R
        ≤ abs (candidate_row_norm sqrt exp w input_set1 input_set2 Us Vs vec (r : Int) (i + 1)) →
      rd (search_round sqrt exp mat_vec_data k input_set1 input_set2 V U (r : Int) t).compute_v_r
        (b : Int) = 0) ∧
    (¬ update_ir_threshold R
        ≤ abs (candidate_row_norm sqrt exp w input_set1 input_set2 Us Vs vec (r : Int) (i + 1)) →
      rd (search_round sqrt exp mat_vec_data k input_set1 input_set2 V U (r : Int) t).compute_v_r
        (b : Int) = 1) := by
  have hb : b < mat_vec_data.length := by
    by_contra hn
    rw [List.get?_eq_getElem?, List.getElem?_eq_none (by omega)] at hg
    exact Option.noConfusion hg
  have hm1 : rd (block_counts mat_vec_data 1) (b : Int) = w.set1_u - w.set1_l + 1 := by
    rw [rd_block_counts_of_get? mat_vec_data 1 b w hg ht, if_pos rfl]
  have hm2 : rd (block_counts mat_vec_data 2) (b : Int) = w.set2_u - w.set2_l + 1 := by
    rw [rd_block_counts_of_get? mat_vec_data 2 b w hg ht, if_neg (by decide)]
  have hnn := counts_nonneg_of_fit (block_counts mat_vec_data 2) WT_ACA mat_vec_data
    (block_counts_length mat_vec_data 2) (block_counts_fit mat_vec_data 2 h2)
  obtain ⟨hpos, htot⟩ := offset_add_count_le_total_of_nonneg mat_vec_data 2 b hb
    (fun i _ => hnn i)
  have hp1 := (point_map1_exact mat_vec_data h2 b w hg ht).1 0 (by rw [hm1]; simp; omega)
  simp only [Nat.cast_zero, add_zero] at hp1
  have hi2 : rd (search_round sqrt exp mat_vec_data k input_set1 input_set2 V U (r : Int) t).i_r
      (b : Int) = i + 1 := by
    rw [search_round_i_r, rd_transform_if _ _ _ _ b hilen, hflag, hi]
    simp [is_one, add_one]
  have hrow : ∀ c : Nat, (c : Int) < w.set2_u - w.set2_l + 1 →
      rd (search_round sqrt exp mat_vec_data k input_set1 input_set2 V U (r : Int) t).v_r
          (rd (point_map_offsets mat_vec_data 2) (b : Int) + (c : Int))
        = rd (candidate_row sqrt exp w input_set1 input_set2 Us Vs vec (r : Int) (i + 1))
            (c : Int) := by
    intro c hc
    have hj : (((i + 1).toNat : Nat) : Int) = i + 1 := Int.toNat_of_nonneg (by omega)
    exact v_r_entry_agree sqrt exp t.v_r vec (point_maps mat_vec_data).2
      (point_maps mat_vec_data).1 (point_map_offsets mat_vec_data 1)
      (work_item_maps mat_vec_data).2 (transform_if t.i_r t.compute_v_r add_one is_one)
      t.compute_v_r (k_per_item mat_vec_data k) input_set2 input_set1
      (block_total mat_vec_data 2) (block_total mat_vec_data 1) V U Vs Us r (b : Int)
      (rd (point_map_offsets mat_vec_data 1) (b : Int))
      (rd (point_map_offsets mat_vec_data 2) (b : Int)) c w.set1_l
      w.set2_l (w.set1_u - w.set1_l + 1) (w.set2_u - w.set2_l + 1) (i + 1) hpos (by omega)
      hvlen hc (by omega)
      ((work_item_map2_exact mat_vec_data h2 b w hg ht).1 c (by rw [hm2]; exact hc))
      (by rw [hflag]; decide)
      ((point_map2_exact mat_vec_data h2 b w hg ht).1 c (by rw [hm2]; exact hc)) rfl hp1
      (by rw [← search_round_i_r sqrt exp mat_vec_data k input_set1 input_set2 V U (r : Int) t]
          exact hi2) hr
      (fun l hl => by
        have := hU l (i + 1).toNat hl (by omega)
        rw [hj] at this
        exact this)
      (fun l hl => hV l c hl hc)
  refine ⟨hi2, hrow, ?_⟩
  -- the norms of the round
  have hrowlen : ((candidate_row sqrt exp w input_set1 input_set2 Us Vs vec (r : Int)
      (i + 1)).length : Int) = rd (block_counts mat_vec_data 2) (b : Int) := by
    unfold candidate_row
    rw [fill_kernel_length, hm2]; exact hvec
  obtain ⟨n, hbn, hlen2, hkey, huniq, hnorm⟩ := batched_norm_of_ACA_block sqrt mat_vec_data h2
    b w hg ht
    (search_round sqrt exp mat_vec_data k input_set1 input_set2 V U (r : Int) t).v_r
    (candidate_row sqrt exp w input_set1 input_set2 Us Vs vec (r : Int) (i + 1))
    (by rw [(search_round_shape _ _ _ _ _ _ _ _ _ _).1]; exact hvlen) hrowlen
    (fun c hc => (hrow c (by omega)).symm)
  have hkeys : (search_round sqrt exp mat_vec_data k input_set1 input_set2 V U (r : Int)
      t).keys_output
      = (compute_batched_norms_with_keys_output sqrt
        (search_round sqrt exp mat_vec_data k input_set1 input_set2 V U (r : Int) t).v_r
        (block_total mat_vec_data 2) (work_item_maps mat_vec_data).2).1 := rfl
  have hvals : rd (search_round sqrt exp mat_vec_data k input_set1 input_set2 V U (r : Int)
      t).v_r_norms (n : Int)
      = candidate_row_norm sqrt exp w input_set1 input_set2 Us Vs vec (r : Int) (i + 1) := by
    have e : (search_round sqrt exp mat_vec_data k input_set1 input_set2 V U (r : Int) t).v_r_norms = (compute_batched_norms_with_keys_output sqrt (search_round sqrt exp mat_vec_data k input_set1 input_set2 V U (r : Int) t).v_r
        (block_total mat_vec_data 2) (work_item_maps mat_vec_data).2).2.mapIdx
        (fun (idx : Nat) (v : R) =>
          if idx < (compute_batched_norms_with_keys_output sqrt (search_round sqrt exp mat_vec_data k input_set1 input_set2 V U (r : Int) t).v_r
              (block_total mat_vec_data 2) (work_item_maps mat_vec_data).2).1.length ∧
            rd t.compute_v_r (rd (compute_batched_norms_with_keys_output sqrt (search_round sqrt exp mat_vec_data k input_set1 input_set2 V U (r : Int) t).v_r
              (block_total mat_vec_data 2) (work_item_maps mat_vec_data).2).1 (idx : Int)) = 0
          then 0 else v) := rfl
    rw [e, rd_mapIdx _ _ _ (Int.ofNat_nonneg n) (by rw [hlen2]; exact_mod_cast hbn)]
    simp only [Int.toNat_ofNat, hkey, hflag]
    rw [if_neg (by simp), hnorm]
    rfl
  have hfold := update_ir_fold (search_round sqrt exp mat_vec_data k input_set1 input_set2 V U (r : Int) t).keys_output (search_round sqrt exp mat_vec_data k input_set1 input_set2 V U (r : Int) t).v_r_norms t.compute_v_r
    (search_round sqrt exp mat_vec_data k input_set1 input_set2 V U (r : Int) t).keys_output.length (b : Int)
  rw [← search_round_compute_v_r_eq] at hfold
  constructor
  · intro hthr
    exact hfold.1 ⟨n, by rw [hkeys]; exact hbn, by rw [hkeys]; exact hkey, by rw [hvals]; exact hthr⟩
  · intro hthr
    rw [hfold.2.1, hflag]
    rintro ⟨idx, hidx, hk, hv⟩
    rw [hkeys] at hidx hk
    have := huniq idx hidx hk
    subst this
    rw [hvals] at hv
    exact hthr hv

theorem search_round_compute_v_r_length {R : Type} [LinearOrderedField R] (sqrt exp : R → R)
    (mat_vec_data : List work_item) (k : Int) (input_set1 input_set2 : point_set R)
    (V U : List R) (r : Int) (st : search_state R) :
    (search_round sqrt exp mat_vec_data k input_set1 input_set2 V U r st).compute_v_r.length
      = st.compute_v_r.length := by
  rw [search_round_compute_v_r_eq]
  exact (update_ir_fold _ _ _ _ 0).2.2

theorem flagged_block_index (c : List Int) (n : Nat) (hlen : c.length = n) (b : Int)
    (h : rd c b ≠ 0) : ∃ m : Nat, m < n ∧ b = (m : Int) := by
  by_contra hne
  apply h
  apply rd_eq_zero_of_not_lt
  rintro ⟨h0, h1⟩
  exact hne ⟨b.toNat, by omega, by omega⟩

theorem flag_eq_one_of_ne_zero (c : List Int) (hflags : ∀ x ∈ c, x = 0 ∨ x = 1) (b : Int)
    (h : rd c b ≠ 0) : rd c b = 1 := by
  rcases rd_mem_or_zero c b with hm | hz
  · rcases hflags _ hm with h0 | h1
    · exact absurd h0 h
    · exact h1
  · exact absurd hz h

/-- The row-pivot search of the batched engine on a batch whose low-rank blocks
have at least two rows and two columns: when every flagged block `b` has a
first acceptable row `istar b` at most `D + 1` rows behind its pivot, the loop
leaves within `D + 1` rounds, with pivot `istar b` and the entries of that row
in `v_r` for every flagged block. -/
theorem search_loop_returns {R : Type} [LinearOrderedField R] (sqrt exp : R → R)
    (mat_vec_data : List work_item) (k : Int) (input_set1 input_set2 : point_set R)
    (V U : List R) (Vs Us vec : Nat → List R) (istar : Nat → Int) (r : Nat)
    (h2 : ∀ w ∈ mat_vec_data, w.work_type = WT_ACA →
      w.set1_l + 1 ≤ w.set1_u ∧ w.set2_l + 1 ≤ w.set2_u)
    (D : Nat) :
    ∀ t : search_state R,
      (∀ x ∈ t.compute_v_r, x = 0 ∨ x = 1) →
      t.compute_v_r.length = mat_vec_data.length →
      t.i_r.length = mat_vec_data.length →
      (t.v_r.length : Int) = block_total mat_vec_data 2 →
      (∀ (b : Nat) (w : work_item), mat_vec_data.get? b = some w →
        rd t.compute_v_r (b : Int) = 1 →
        w.work_type = WT_ACA ∧ (r : Int) ≤ rd (k_per_item mat_vec_data k) (b : Int) ∧
        (∀ l j : Nat, l < r → (j : Int) < w.set1_u - w.set1_l + 1 →
          rd U ((l : Int) * block_total mat_vec_data 1
              + rd (point_map_offsets mat_vec_data 1) (b : Int) + (j : Int))
            = rd (Us b) ((l : Int) * (w.set1_u - w.set1_l + 1) + (j : Int))) ∧
        (∀ l c : Nat, l < r → (c : Int) < w.set2_u - w.set2_l + 1 →
          rd V ((l : Int) * block_total mat_vec_data 2
              + (rd (point_map_offsets mat_vec_data 2) (b : Int) + (c : Int)))
            = rd (Vs b) ((l : Int) * (w.set2_u - w.set2_l + 1) + (c : Int))) ∧
        ((vec b).length : Int) = w.set2_u - w.set2_l + 1 ∧
        -1 ≤ rd t.i_r (b : Int) ∧ rd t.i_r (b : Int) < istar b ∧
        istar b ≤ rd t.i_r (b : Int) + (D : Int) + 1 ∧
        istar b < w.set1_u - w.set1_l + 1 ∧
        (∀ i2 : Int, rd t.i_r (b : Int) < i2 → i2 < istar b →
          ¬ update_ir_threshold R ≤ abs (candidate_row_norm sqrt exp w input_set1 input_set2
            (Us b) (Vs b) (vec b) (r : Int) i2)) ∧
        update_ir_threshold R ≤ abs (candidate_row_norm sqrt exp w input_set1 input_set2
          (Us b) (Vs b) (vec b) (r : Int) (istar b))) →
      ∃ s : search_state R,
        search_loop sqrt exp mat_vec_data k input_set1 input_set2 V U (r : Int) (D + 1) t
          = some s ∧
        ∀ (b : Nat) (w : work_item), mat_vec_data.get? b = some w →
          rd t.compute_v_r (b : Int) = 1 →
          rd s.i_r (b : Int) = istar b ∧
          ∀ c : Nat, (c : Int) < w.set2_u - w.set2_l + 1 →
            rd s.v_r (rd (point_map_offsets mat_vec_data 2) (b : Int) + (c : Int))
              = rd (candidate_row sqrt exp w input_set1 input_set2 (Us b) (Vs b) (vec b)
                  (r : Int) (istar b)) (c : Int) := by
  induction D using Nat.strong_induction_on with
  | _ D ih =>
    intro t hflags hcl hil hvl hblk
    have hflags1 := search_round_flags sqrt exp mat_vec_data k input_set1 input_set2 V U
      (r : Int) t hflags
    have hsh := search_round_shape sqrt exp mat_vec_data k input_set1 input_set2 V U (r : Int) t
    have hcl1 := search_round_compute_v_r_length sqrt exp mat_vec_data k input_set1 input_set2
      V U (r : Int) t
    -- one round, seen from a flagged block
    have hround : ∀ (b : Nat) (w : work_item), mat_vec_data.get? b = some w →
        rd t.compute_v_r (b : Int) = 1 →
        (rd t.i_r (b : Int) + 1 = istar b →
          rd (search_round sqrt exp mat_vec_data k input_set1 input_set2 V U (r : Int)
            t).compute_v_r (b : Int) = 0 ∧
          rd (search_round sqrt exp mat_vec_data k input_set1 input_set2 V U (r : Int) t).i_r
            (b : Int) = istar b ∧
          ∀ c : Nat, (c : Int) < w.set2_u - w.set2_l + 1 →
            rd (search_round sqrt exp mat_vec_data k input_set1 input_set2 V U (r : Int) t).v_r
                (rd (point_map_offsets mat_vec_data 2) (b : Int) + (c : Int))
              = rd (candidate_row sqrt exp w input_set1 input_set2 (Us b) (Vs b) (vec b)
                  (r : Int) (istar b)) (c : Int)) ∧
        (rd t.i_r (b : Int) + 1 ≠ istar b →
          rd (search_round sqrt exp mat_vec_data k input_set1 input_set2 V U (r : Int)
            t).compute_v_r (b : Int) = 1 ∧
          rd (search_round sqrt exp mat_vec_data k input_set1 input_set2 V U (r : Int) t).i_r
            (b : Int) = rd t.i_r (b : Int) + 1) := by
      intro b w hg hflag
      have hb : b < mat_vec_data.length := by
        by_contra hn
        rw [List.get?_eq_getElem?, List.getElem?_eq_none (by omega)] at hg
        exact Option.noConfusion hg
      obtain ⟨hA, hr, hU, hV, hvec, hi0, hlt, _, hstar, hrej, hacc⟩ := hblk b w hg hflag
      obtain ⟨hi2, hrow, hclr, hkeep⟩ := search_round_of_flagged_ACA_block sqrt exp mat_vec_data
        k input_set1 input_set2 V U (Vs b) (Us b) r b h2 w hg hA hr hU hV t (vec b)
        (rd t.i_r (b : Int)) hvl (by rw [hil]; exact hb) hflag rfl hi0 (by omega) hvec
      constructor
      · intro hlast
        rw [hlast] at hi2 hrow hclr
        exact ⟨hclr hacc, hi2, hrow⟩
      · intro hne
        exact ⟨hkeep (hrej _ (by omega) (by omega)), hi2⟩
    by_cases hexit : search_exit (search_round sqrt exp mat_vec_data k input_set1 input_set2 V U
        (r : Int) t) = true
    · -- the loop leaves after this round
      refine ⟨search_round sqrt exp mat_vec_data k input_set1 input_set2 V U (r : Int) t, ?_, ?_⟩
      · simp only [search_loop]
        rw [if_pos hexit]
      · intro b w hg hflag
        have hz := (search_exit_iff _ hflags1).1 hexit (b : Int)
        obtain ⟨hacc, hrej⟩ := hround b w hg hflag
        by_cases hlast : rd t.i_r (b : Int) + 1 = istar b
        · exact (hacc hlast).2
        · rw [(hrej hlast).1] at hz
          exact absurd hz (by decide)
    · -- some block is still flagged
      have hsome : ∃ b : Int, rd (search_round sqrt exp mat_vec_data k input_set1 input_set2 V U
          (r : Int) t).compute_v_r b ≠ 0 := by
        by_contra hnone
        apply hexit
        apply (search_exit_iff _ hflags1).2
        intro b
        by_contra hb
        exact hnone ⟨b, hb⟩
      obtain ⟨bi, hbi⟩ := hsome
      obtain ⟨m, hm, hbm⟩ := flagged_block_index _ mat_vec_data.length (hcl1.trans hcl) bi hbi
      subst hbm
      have hmt : rd t.compute_v_r (m : Int) = 1 := by
        apply flag_eq_one_of_ne_zero _ hflags
        intro hz
        exact hbi (search_round_compute_v_r sqrt exp mat_vec_data k input_set1 input_set2 V U
          (r : Int) t (m : Int) hz)
      have hgm := get?_of_lt mat_vec_data m hm
      have hDm : 1 ≤ D := by
        obtain ⟨_, _, _, _, _, _, hlt, hbound, _, _, _⟩ := hblk m _ hgm hmt
        by_contra hD
        have hlast : rd t.i_r (m : Int) + 1 = istar m := by omega
        exact hbi ((hround m _ hgm hmt).1 hlast).1
      obtain ⟨D2, hD2⟩ : ∃ D2, D = D2 + 1 := ⟨D - 1, by omega⟩
      subst hD2
      obtain ⟨s, hs, hres⟩ := ih D2 (by omega)
        (search_round sqrt exp mat_vec_data k input_set1 input_set2 V U (r : Int) t)
        hflags1 (hcl1.trans hcl) (hsh.2.trans hil) (by rw [hsh.1]; exact hvl)
        (by
          intro b w hg hflag1
          have hflag : rd t.compute_v_r (b : Int) = 1 := by
            apply flag_eq_one_of_ne_zero _ hflags
            intro hz
            have := search_round_compute_v_r sqrt exp mat_vec_data k input_set1 input_set2 V U
              (r : Int) t (b : Int) hz
            rw [this] at hflag1
            exact absurd hflag1 (by decide)
          obtain ⟨hA, hr, hU, hV, hvec, hi0, hlt, hbound, hstar, hrej, hacc⟩ := hblk b w hg hflag
          obtain ⟨hacc1, hrej1⟩ := hround b w hg hflag
          have hne : rd t.i_r (b : Int) + 1 ≠ istar b := by
            intro hlast
            rw [(hacc1 hlast).1] at hflag1
            exact absurd hflag1 (by decide)
          rw [(hrej1 hne).2]
          refine ⟨hA, hr, hU, hV, hvec, by omega, by omega, by push_cast at hbound ⊢; omega,
            hstar, ?_, hacc⟩
          intro i2 h1 h3
          exact hrej i2 (by omega) h3)
      refine ⟨s, ?_, ?_⟩
      · simp only [search_loop]
        rw [if_neg hexit]
        exact hs
      · intro b w hg hflag
        obtain ⟨hacc1, hrej1⟩ := hround b w hg hflag
        by_cases hlast : rd t.i_r (b : Int) + 1 = istar b
        · obtain ⟨hz, hi2, hrow⟩ := hacc1 hlast
          have hk := search_loop_keeps_accepted sqrt exp mat_vec_data k input_set1 input_set2 V U
            (r : Int) (b : Int) (D2 + 1) _ s hs hz
          obtain ⟨hA, _⟩ := hblk b w hg hflag
          have hm2 : rd (block_counts mat_vec_data 2) (b : Int) = w.set2_u - w.set2_l + 1 := by
            rw [rd_block_counts_of_get? mat_vec_data 2 b w hg hA, if_neg (by decide)]
          refine ⟨hk.1.trans hi2, fun c hc => ?_⟩
          rw [hk.2 _ ((work_item_map2_exact mat_vec_data h2 b w hg hA).1 c
            (by rw [hm2]; exact hc))]
          exact hrow c hc
        · exact hres b w hg (hrej1 hlast).1

theorem le_sum_of_lt_length (f : Nat → Nat) (n b : Nat) (hb : b < n) :
    f b ≤ ((List.range n).map f).sum := by
  induction n with
  | zero => omega
  | succ n ih =>
    rw [List.range_succ, List.map_append, List.sum_append]
    simp only [List.map_cons, List.map_nil, List.sum_cons, List.sum_nil, Nat.add_zero]
    by_cases h : b < n
    · have := ih h
      omega
    · have : b = n := by omega
      rw [this]
      omega

/-- C33: row-pivot search finds the next acceptable row and terminates.  In
`apply_batched_aca` on a batch whose items of type ACA have at least two rows
and two columns, at the start of rank `r` (flags `init_compute_v_r`, row
pointers `i_r`): if every block `b` flagged at the start of rank `r`, with
previous pivot `p = i_r[b] >= -1`, has a row `istar b` with
`p < istar b < m1[b]` whose residual row
`kernel(row, all block columns) - sum over l < r of U[row, l] * V[l, :]` passes
the test of `update_ir`, the rows between `p` and `istar b` failing it, then the
search loop returns after finitely many rounds, and for every flagged block
`i_r[b] = istar b`, which is greater than the previous pivot, with the entries
of that residual row in the column segment of the block in `v_r`.  `Us b` and
`Vs b` name the rows `l < r` of the factors of block `b` in the global buffers
`U` and `V`. -/
theorem row_pivot_search_terminates {R : Type} [LinearOrderedField R] (sqrt exp : R → R)
    (mat_vec_data : List work_item) (k : Int) (input_set1 input_set2 : point_set R)
    (V U : List R) (Vs Us vec : Nat → List R) (istar : Nat → Int) (r : Nat)
    (i_r : List Int) (v_r : List R) (keys_output : List Int) (v_r_norms : List R)
    (h2 : ∀ w ∈ mat_vec_data, w.work_type = WT_ACA →
      w.set1_l + 1 ≤ w.set1_u ∧ w.set2_l + 1 ≤ w.set2_u)
    (hil : i_r.length = mat_vec_data.length)
    (hvl : (v_r.length : Int) = block_total mat_vec_data 2)
    (hblk : ∀ (b : Nat) (w : work_item), mat_vec_data.get? b = some w →
      rd (init_compute_v_r mat_vec_data (k_per_item mat_vec_data k) (r : Int)) (b : Int) = 1 →
      (∀ l j : Nat, l < r → (j : Int) < w.set1_u - w.set1_l + 1 →
        rd U ((l : Int) * block_total mat_vec_data 1
            + rd (point_map_offsets mat_vec_data 1) (b : Int) + (j : Int))
          = rd (Us b) ((l : Int) * (w.set1_u - w.set1_l + 1) + (j : Int))) ∧
      (∀ l c : Nat, l < r → (c : Int) < w.set2_u - w.set2_l + 1 →
        rd V ((l : Int) * block_total mat_vec_data 2
            + (rd (point_map_offsets mat_vec_data 2) (b : Int) + (c : Int)))
          = rd (Vs b) ((l : Int) * (w.set2_u - w.set2_l + 1) + (c : Int))) ∧
      ((vec b).length : Int) = w.set2_u - w.set2_l + 1 ∧
      -1 ≤ rd i_r (b : Int) ∧ rd i_r (b : Int) < istar b ∧
      istar b < w.set1_u - w.set1_l + 1 ∧
      (∀ i2 : Int, rd i_r (b : Int) < i2 → i2 < istar b →
        ¬ update_ir_threshold R ≤ abs (candidate_row_norm sqrt exp w input_set1 input_set2
          (Us b) (Vs b) (vec b) (r : Int) i2)) ∧
      update_ir_threshold R ≤ abs (candidate_row_norm sqrt exp w input_set1 input_set2
        (Us b) (Vs b) (vec b) (r : Int) (istar b))) :
    ∃ (fuel : Nat) (s : search_state R),
      search_loop sqrt exp mat_vec_data k input_set1 input_set2 V U (r : Int) fuel
        ⟨i_r, init_compute_v_r mat_vec_data (k_per_item mat_vec_data k) (r : Int), v_r,
          keys_output, v_r_norms⟩ = some s ∧
      ∀ (b : Nat) (w : work_item), mat_vec_data.get? b = some w →
        rd (init_compute_v_r mat_vec_data (k_per_item mat_vec_data k) (r : Int)) (b : Int) = 1 →
        rd s.i_r (b : Int) = istar b ∧ rd i_r (b : Int) < rd s.i_r (b : Int) ∧
        ∀ c : Nat, (c : Int) < w.set2_u - w.set2_l + 1 →
          rd s.v_r (rd (point_map_offsets mat_vec_data 2) (b : Int) + (c : Int))
            = rd (candidate_row sqrt exp w input_set1 input_set2 (Us b) (Vs b) (vec b)
                (r : Int) (istar b)) (c : Int) := by
  have hclen : (init_compute_v_r mat_vec_data (k_per_item mat_vec_data k) (r : Int)).length
      = mat_vec_data.length := by
    simp [init_compute_v_r, replace_if_length, fill]
  have hgate : ∀ (b : Nat) (w : work_item), mat_vec_data.get? b = some w →
      rd (init_compute_v_r mat_vec_data (k_per_item mat_vec_data k) (r : Int)) (b : Int) = 1 →
      w.work_type = WT_ACA ∧ (r : Int) < rd (k_per_item mat_vec_data k) (b : Int) := by
    intro b w hg hflag
    have hb : b < mat_vec_data.length := by
      by_contra hn
      rw [List.get?_eq_getElem?, List.getElem?_eq_none (by omega)] at hg
      exact Option.noConfusion hg
    have hw : mat_vec_data[b] = w := by
      rw [List.get?_eq_getElem?, List.getElem?_eq_getElem hb] at hg
      exact Option.some.inj hg
    rw [rd_init_compute_v_r mat_vec_data k (r : Int) b hb, hw] at hflag
    by_contra hn
    rw [if_neg hn] at hflag
    exact absurd hflag (by decide)
  obtain ⟨s, hs, hres⟩ := search_loop_returns sqrt exp mat_vec_data k input_set1 input_set2 V U
    Vs Us vec istar r h2
    (((List.range mat_vec_data.length).map (fun b => (istar b - rd i_r (b : Int)).toNat)).sum)
    ⟨i_r, init_compute_v_r mat_vec_data (k_per_item mat_vec_data k) (r : Int), v_r,
      keys_output, v_r_norms⟩
    (init_compute_v_r_flags mat_vec_data k (r : Int)) hclen hil hvl
    (by
      intro b w hg hflag
      have hb : b < mat_vec_data.length := by
        by_contra hn
        rw [List.get?_eq_getElem?, List.getElem?_eq_none (by omega)] at hg
        exact Option.noConfusion hg
      obtain ⟨hA, hr⟩ := hgate b w hg hflag
      obtain ⟨hU, hV, hvec, hi0, hlt, hstar, hrej, hacc⟩ := hblk b w hg hflag
      have hsum : (istar b - rd i_r (b : Int)).toNat
          ≤ ((List.range mat_vec_data.length).map
            (fun b => (istar b - rd i_r (b : Int)).toNat)).sum :=
        le_sum_of_lt_length (fun b => (istar b - rd i_r (b : Int)).toNat)
          mat_vec_data.length b hb
      refine ⟨hA, by omega, hU, hV, hvec, hi0, hlt, ?_, hstar, hrej, hacc⟩
      show istar b ≤ rd i_r (b : Int) + ((((List.range mat_vec_data.length).map
        (fun b => (istar b - rd i_r (b : Int)).toNat)).sum : Nat) : Int) + 1
      have : ((istar b - rd i_r (b : Int)).toNat : Int) = istar b - rd i_r (b : Int) :=
        Int.toNat_of_nonneg (by omega)
      omega)
  refine ⟨_, s, hs, ?_⟩
  intro b w hg hflag
  obtain ⟨h1, h3⟩ := hres b w hg hflag
  obtain ⟨_, _, _, _, hlt, _⟩ := hblk b w hg hflag
  exact ⟨h1, by rw [h1]; exact hlt, h3⟩

theorem first_rows_of_mixed_batch_accepted :
    update_ir_threshold ℚ ≤ abs (candidate_row_norm id (fun x : ℚ => 1 / ((1 - x) * (1 - x))) ⟨0, 1, 0, 1, WT_ACA⟩ (⟨1, fun _ i => (i : ℚ)⟩ : point_set ℚ) (⟨1, fun _ j => 10 + 3 * (j : ℚ)⟩ : point_set ℚ) [] [] [0, 0] 0 0) ∧
    update_ir_threshold ℚ ≤ abs (candidate_row_norm id (fun x : ℚ => 1 / ((1 - x) * (1 - x))) ⟨6, 7, 4, 5, WT_ACA⟩ (⟨1, fun _ i => (i : ℚ)⟩ : point_set ℚ) (⟨1, fun _ j => 10 + 3 * (j : ℚ)⟩ : point_set ℚ) [] [] [0, 0] 0 0) := by
  constructor
  · simp [candidate_row_norm, candidate_row, fill_kernel_vector_and_substract_previous_vectors,
      fill_kernel_vector_and_substract_previous_vectors_thread, inner_product, kernel, distance,
      update_ir_threshold, List.range_succ]
    norm_num [abs_of_pos]
  · simp [candidate_row_norm, candidate_row, fill_kernel_vector_and_substract_previous_vectors,
      fill_kernel_vector_and_substract_previous_vectors_thread, inner_product, kernel, distance,
      update_ir_threshold, List.range_succ]
    norm_num [abs_of_pos]

/-- C33, instance: the batch of an ACA block (rows `0..1`, columns `0..1`), a
dense block and an ACA block (rows `6..7`, columns `4..5`) at rank `0` with
`k = 1`, row points `i`, column points `10 + 3 j`, `sqrt` the identity and
`exp(-d) = 1/(1+d)^2` over the rationals: the first rows of both ACA blocks pass
the test, the search returns and both blocks have pivot row `0`. -/
theorem row_pivot_search_terminates_witness :
    ∃ (fuel : Nat) (s : search_state ℚ),
      search_loop id (fun x : ℚ => 1 / ((1 - x) * (1 - x))) [⟨0, 1, 0, 1, WT_ACA⟩, ⟨2, 5, 2, 3, WT_DENSE⟩, ⟨6, 7, 4, 5, WT_ACA⟩] 1 (⟨1, fun _ i => (i : ℚ)⟩ : point_set ℚ) (⟨1, fun _ j => 10 + 3 * (j : ℚ)⟩ : point_set ℚ) [0, 0, 0, 0] [0, 0, 0, 0] ((0 : Nat) : Int) fuel
        ⟨init_i_r [⟨0, 1, 0, 1, WT_ACA⟩, ⟨2, 5, 2, 3, WT_DENSE⟩, ⟨6, 7, 4, 5, WT_ACA⟩], init_compute_v_r [⟨0, 1, 0, 1, WT_ACA⟩, ⟨2, 5, 2, 3, WT_DENSE⟩, ⟨6, 7, 4, 5, WT_ACA⟩] (k_per_item [⟨0, 1, 0, 1, WT_ACA⟩, ⟨2, 5, 2, 3, WT_DENSE⟩, ⟨6, 7, 4, 5, WT_ACA⟩] 1) ((0 : Nat) : Int), [0, 0, 0, 0], [], []⟩ = some s ∧
      rd s.i_r 0 = 0 ∧ rd s.i_r 2 = 0 := by
  obtain ⟨fuel, s, hs, hres⟩ := row_pivot_search_terminates id (fun x : ℚ => 1 / ((1 - x) * (1 - x))) [⟨0, 1, 0, 1, WT_ACA⟩, ⟨2, 5, 2, 3, WT_DENSE⟩, ⟨6, 7, 4, 5, WT_ACA⟩] 1 (⟨1, fun _ i => (i : ℚ)⟩ : point_set ℚ) (⟨1, fun _ j => 10 + 3 * (j : ℚ)⟩ : point_set ℚ)
    [0, 0, 0, 0] [0, 0, 0, 0] (fun _ => []) (fun _ => []) (fun _ => [0, 0]) (fun _ => 0) 0
    (init_i_r [⟨0, 1, 0, 1, WT_ACA⟩, ⟨2, 5, 2, 3, WT_DENSE⟩, ⟨6, 7, 4, 5, WT_ACA⟩]) [0, 0, 0, 0] [] []
    (by decide) (by decide) (by decide)
    (by
      intro b w hg hflag
      rcases b with _ | _ | _ | b
      · obtain rfl : (⟨0, 1, 0, 1, WT_ACA⟩ : work_item) = w := by simpa using hg
        refine ⟨fun l j hl => absurd hl (Nat.not_lt_zero l),
          fun l c hl => absurd hl (Nat.not_lt_zero l), by decide, by decide, by decide,
          by decide, ?_, first_rows_of_mixed_batch_accepted.1⟩
        intro i2 h1 h3
        have : rd (init_i_r [⟨0, 1, 0, 1, WT_ACA⟩, ⟨2, 5, 2, 3, WT_DENSE⟩, ⟨6, 7, 4, 5, WT_ACA⟩]) ((0 : Nat) : Int) = -1 := by decide
        rw [this] at h1
        have h4 : i2 < 0 := h3
        omega
      · exact absurd hflag (by decide)
      · obtain rfl : (⟨6, 7, 4, 5, WT_ACA⟩ : work_item) = w := by simpa using hg
        refine ⟨fun l j hl => absurd hl (Nat.not_lt_zero l),
          fun l c hl => absurd hl (Nat.not_lt_zero l), by decide, by decide, by decide,
          by decide, ?_, first_rows_of_mixed_batch_accepted.2⟩
        intro i2 h1 h3
        have : rd (init_i_r [⟨0, 1, 0, 1, WT_ACA⟩, ⟨2, 5, 2, 3, WT_DENSE⟩, ⟨6, 7, 4, 5, WT_ACA⟩]) ((2 : Nat) : Int) = -1 := by decide
        rw [this] at h1
        have h4 : i2 < 0 := h3
        omega
      · simp at hg)
  exact ⟨fuel, s, hs, (hres 0 _ rfl (by decide)).1, (hres 2 _ rfl (by decide)).1⟩

/-! ### C34: a run of the engine on a block of rank 2 and a block of rank 1 -/

theorem search_round_two_blocks_rank0 {R : Type} [LinearOrderedField R]
    (sqrt exp : R → R) (dim : Nat) (c1 c2 : Nat → Int → R) (V U : List R) (x y z : R)
    (ks : List Int) (ns : List R)
    (h0 : update_ir_threshold R ≤ abs (sqrt (kernel_entry sqrt exp ⟨dim, c1⟩ ⟨dim, c2⟩ 0 0 * kernel_entry sqrt exp ⟨dim, c1⟩ ⟨dim, c2⟩ 0 0 + kernel_entry sqrt exp ⟨dim, c1⟩ ⟨dim, c2⟩ 0 1 * kernel_entry sqrt exp ⟨dim, c1⟩ ⟨dim, c2⟩ 0 1)))
    (h0b : update_ir_threshold R ≤ abs (sqrt (kernel_entry sqrt exp ⟨dim, c1⟩ ⟨dim, c2⟩ 2 2 * kernel_entry sqrt exp ⟨dim, c1⟩ ⟨dim, c2⟩ 2 2))) :
    search_round sqrt exp [⟨0, 1, 0, 1, WT_ACA⟩, ⟨2, 3, 2, 2, WT_ACA⟩] 2 ⟨dim, c1⟩ ⟨dim, c2⟩ V U 0 ⟨[-1, -1], [1, 1], [x, y, z], ks, ns⟩
      = ⟨[0, 0], [0, 0], [kernel_entry sqrt exp ⟨dim, c1⟩ ⟨dim, c2⟩ 0 0, kernel_entry sqrt exp ⟨dim, c1⟩ ⟨dim, c2⟩ 0 1, kernel_entry sqrt exp ⟨dim, c1⟩ ⟨dim, c2⟩ 2 2], [0, 1], [sqrt (kernel_entry sqrt exp ⟨dim, c1⟩ ⟨dim, c2⟩ 0 0 * kernel_entry sqrt exp ⟨dim, c1⟩ ⟨dim, c2⟩ 0 0 + kernel_entry sqrt exp ⟨dim, c1⟩ ⟨dim, c2⟩ 0 1 * kernel_entry sqrt exp ⟨dim, c1⟩ ⟨dim, c2⟩ 0 1), sqrt (kernel_entry sqrt exp ⟨dim, c1⟩ ⟨dim, c2⟩ 2 2 * kernel_entry sqrt exp ⟨dim, c1⟩ ⟨dim, c2⟩ 2 2)]⟩ := by
  show update_ir ⟨[0, 0], [1, 1], [kernel_entry sqrt exp ⟨dim, c1⟩ ⟨dim, c2⟩ 0 0, kernel_entry sqrt exp ⟨dim, c1⟩ ⟨dim, c2⟩ 0 1, kernel_entry sqrt exp ⟨dim, c1⟩ ⟨dim, c2⟩ 2 2], [0, 1], [sqrt (kernel_entry sqrt exp ⟨dim, c1⟩ ⟨dim, c2⟩ 0 0 * kernel_entry sqrt exp ⟨dim, c1⟩ ⟨dim, c2⟩ 0 0 + kernel_entry sqrt exp ⟨dim, c1⟩ ⟨dim, c2⟩ 0 1 * kernel_entry sqrt exp ⟨dim, c1⟩ ⟨dim, c2⟩ 0 1), sqrt (kernel_entry sqrt exp ⟨dim, c1⟩ ⟨dim, c2⟩ 2 2 * kernel_entry sqrt exp ⟨dim, c1⟩ ⟨dim, c2⟩ 2 2)]⟩ 2 = _
  simp only [update_ir, List.range_succ, List.range_zero, List.nil_append, List.cons_append,
    List.foldl_cons, List.foldl_nil, update_ir_thread]
  simp [rd, wr, h0, h0b]

theorem rank_iteration_two_blocks_rank0 {R : Type} [LinearOrderedField R]
    (sqrt exp : R → R) (dim : Nat) (c1 c2 : Nat → Int → R) (eta epsilon : R)
    (content : Nat → R) (fuel : Nat)
    (h0 : update_ir_threshold R ≤ abs (sqrt (kernel_entry sqrt exp ⟨dim, c1⟩ ⟨dim, c2⟩ 0 0 * kernel_entry sqrt exp ⟨dim, c1⟩ ⟨dim, c2⟩ 0 0 + kernel_entry sqrt exp ⟨dim, c1⟩ ⟨dim, c2⟩ 0 1 * kernel_entry sqrt exp ⟨dim, c1⟩ ⟨dim, c2⟩ 0 1)))
    (h0b : update_ir_threshold R ≤ abs (sqrt (kernel_entry sqrt exp ⟨dim, c1⟩ ⟨dim, c2⟩ 2 2 * kernel_entry sqrt exp ⟨dim, c1⟩ ⟨dim, c2⟩ 2 2)))
    (hp0 : abs (kernel_entry sqrt exp ⟨dim, c1⟩ ⟨dim, c2⟩ 0 0) > abs (kernel_entry sqrt exp ⟨dim, c1⟩ ⟨dim, c2⟩ 0 1)) :
    rank_iteration sqrt exp [⟨0, 1, 0, 1, WT_ACA⟩, ⟨2, 3, 2, 2, WT_ACA⟩] 2 ⟨dim, c1⟩ ⟨dim, c2⟩ eta epsilon content (fuel + 1) [1, 0, 2] 0
        ⟨[0, 0, 0, 0, 0, 0, 0, 0], [0, 0, 0, 0, 0, 0], [-1, -1], [false, false]⟩
      = some (⟨[kernel_entry sqrt exp ⟨dim, c1⟩ ⟨dim, c2⟩ 0 0, kernel_entry sqrt exp ⟨dim, c1⟩ ⟨dim, c2⟩ 1 0, kernel_entry sqrt exp ⟨dim, c1⟩ ⟨dim, c2⟩ 2 2, kernel_entry sqrt exp ⟨dim, c1⟩ ⟨dim, c2⟩ 3 2, 0, 0, 0, 0], [kernel_entry sqrt exp ⟨dim, c1⟩ ⟨dim, c2⟩ 0 0 / kernel_entry sqrt exp ⟨dim, c1⟩ ⟨dim, c2⟩ 0 0, kernel_entry sqrt exp ⟨dim, c1⟩ ⟨dim, c2⟩ 0 1 / kernel_entry sqrt exp ⟨dim, c1⟩ ⟨dim, c2⟩ 0 0, kernel_entry sqrt exp ⟨dim, c1⟩ ⟨dim, c2⟩ 2 2 / kernel_entry sqrt exp ⟨dim, c1⟩ ⟨dim, c2⟩ 2 2, 0, 0, 0], [0, 0], [false, false]⟩, false) := by
  have hs := search_round_two_blocks_rank0 sqrt exp dim c1 c2 [0, 0, 0, 0, 0, 0] [0, 0, 0, 0, 0, 0, 0, 0] 0 0 0 [] []
    h0 h0b
  have hsl : search_loop sqrt exp [⟨0, 1, 0, 1, WT_ACA⟩, ⟨2, 3, 2, 2, WT_ACA⟩] 2 ⟨dim, c1⟩ ⟨dim, c2⟩ [0, 0, 0, 0, 0, 0] [0, 0, 0, 0, 0, 0, 0, 0]
      ((0 : Nat) : Int) (fuel + 1)
      ⟨[-1, -1], init_compute_v_r [⟨0, 1, 0, 1, WT_ACA⟩, ⟨2, 3, 2, 2, WT_ACA⟩] (k_per_item [⟨0, 1, 0, 1, WT_ACA⟩, ⟨2, 3, 2, 2, WT_ACA⟩] 2) ((0 : Nat) : Int),
        get_row [0, 0, 0, 0, 0, 0] 0 (block_total [⟨0, 1, 0, 1, WT_ACA⟩, ⟨2, 3, 2, 2, WT_ACA⟩] 2), [], []⟩
      = some ⟨[0, 0], [0, 0], [kernel_entry sqrt exp ⟨dim, c1⟩ ⟨dim, c2⟩ 0 0, kernel_entry sqrt exp ⟨dim, c1⟩ ⟨dim, c2⟩ 0 1, kernel_entry sqrt exp ⟨dim, c1⟩ ⟨dim, c2⟩ 2 2], [0, 1], [sqrt (kernel_entry sqrt exp ⟨dim, c1⟩ ⟨dim, c2⟩ 0 0 * kernel_entry sqrt exp ⟨dim, c1⟩ ⟨dim, c2⟩ 0 0 + kernel_entry sqrt exp ⟨dim, c1⟩ ⟨dim, c2⟩ 0 1 * kernel_entry sqrt exp ⟨dim, c1⟩ ⟨dim, c2⟩ 0 1), sqrt (kernel_entry sqrt exp ⟨dim, c1⟩ ⟨dim, c2⟩ 2 2 * kernel_entry sqrt exp ⟨dim, c1⟩ ⟨dim, c2⟩ 2 2)]⟩ := by
    show search_loop sqrt exp [⟨0, 1, 0, 1, WT_ACA⟩, ⟨2, 3, 2, 2, WT_ACA⟩] 2 ⟨dim, c1⟩ ⟨dim, c2⟩ [0, 0, 0, 0, 0, 0] [0, 0, 0, 0, 0, 0, 0, 0] 0 (fuel + 1)
      ⟨[-1, -1], [1, 1], [0, 0, 0], [], []⟩ = _
    simp only [search_loop, hs]
    rfl
  simp only [rank_iteration]
  rw [hsl]
  have hj : j_r_global (work_item_maps [⟨0, 1, 0, 1, WT_ACA⟩, ⟨2, 3, 2, 2, WT_ACA⟩]).2 [kernel_entry sqrt exp ⟨dim, c1⟩ ⟨dim, c2⟩ 0 0, kernel_entry sqrt exp ⟨dim, c1⟩ ⟨dim, c2⟩ 0 1, kernel_entry sqrt exp ⟨dim, c1⟩ ⟨dim, c2⟩ 2 2] (block_total [⟨0, 1, 0, 1, WT_ACA⟩, ⟨2, 3, 2, 2, WT_ACA⟩] 2) = [0, 2] := by
    show (reduce_by_key [(0 : Int), 0, 1] [(kernel_entry sqrt exp ⟨dim, c1⟩ ⟨dim, c2⟩ 0 0, (0 : Int)), (kernel_entry sqrt exp ⟨dim, c1⟩ ⟨dim, c2⟩ 0 1, 1), (kernel_entry sqrt exp ⟨dim, c1⟩ ⟨dim, c2⟩ 2 2, 2)]
      tuple_absolute_maximum).map (fun p => p.2.2) = [0, 2]
    simp [reduce_by_key, reduce_by_key_go, tuple_absolute_maximum, hp0]
  simp only [hj]
  rfl

theorem search_round_two_blocks_rank1 {R : Type} [LinearOrderedField R]
    (sqrt exp : R → R) (dim : Nat) (c1 c2 : Nat → Int → R) (x y z : R)
    (ks : List Int) (ns : List R)
    (h1 : update_ir_threshold R ≤ abs (sqrt ((kernel_entry sqrt exp ⟨dim, c1⟩ ⟨dim, c2⟩ 1 0 - kernel_entry sqrt exp ⟨dim, c1⟩ ⟨dim, c2⟩ 1 0 * (kernel_entry sqrt exp ⟨dim, c1⟩ ⟨dim, c2⟩ 0 0 / kernel_entry sqrt exp ⟨dim, c1⟩ ⟨dim, c2⟩ 0 0)) * (kernel_entry sqrt exp ⟨dim, c1⟩ ⟨dim, c2⟩ 1 0 - kernel_entry sqrt exp ⟨dim, c1⟩ ⟨dim, c2⟩ 1 0 * (kernel_entry sqrt exp ⟨dim, c1⟩ ⟨dim, c2⟩ 0 0 / kernel_entry sqrt exp ⟨dim, c1⟩ ⟨dim, c2⟩ 0 0)) + (kernel_entry sqrt exp ⟨dim, c1⟩ ⟨dim, c2⟩ 1 1 - kernel_entry sqrt exp ⟨dim, c1⟩ ⟨dim, c2⟩ 1 0 * (kernel_entry sqrt exp ⟨dim, c1⟩ ⟨dim, c2⟩ 0 1 / kernel_entry sqrt exp ⟨dim, c1⟩ ⟨dim, c2⟩ 0 0)) * (kernel_entry sqrt exp ⟨dim, c1⟩ ⟨dim, c2⟩ 1 1 - kernel_entry sqrt exp ⟨dim, c1⟩ ⟨dim, c2⟩ 1 0 * (kernel_entry sqrt exp ⟨dim, c1⟩ ⟨dim, c2⟩ 0 1 / kernel_entry sqrt exp ⟨dim, c1⟩ ⟨dim, c2⟩ 0 0))))) :
    search_round sqrt exp [⟨0, 1, 0, 1, WT_ACA⟩, ⟨2, 3, 2, 2, WT_ACA⟩] 2 ⟨dim, c1⟩ ⟨dim, c2⟩ [kernel_entry sqrt exp ⟨dim, c1⟩ ⟨dim, c2⟩ 0 0 / kernel_entry sqrt exp ⟨dim, c1⟩ ⟨dim, c2⟩ 0 0, kernel_entry sqrt exp ⟨dim, c1⟩ ⟨dim, c2⟩ 0 1 / kernel_entry sqrt exp ⟨dim, c1⟩ ⟨dim, c2⟩ 0 0, kernel_entry sqrt exp ⟨dim, c1⟩ ⟨dim, c2⟩ 2 2 / kernel_entry sqrt exp ⟨dim, c1⟩ ⟨dim, c2⟩ 2 2, 0, 0, 0] [kernel_entry sqrt exp ⟨dim, c1⟩ ⟨dim, c2⟩ 0 0, kernel_entry sqrt exp ⟨dim, c1⟩ ⟨dim, c2⟩ 1 0, kernel_entry sqrt exp ⟨dim, c1⟩ ⟨dim, c2⟩ 2 2, kernel_entry sqrt exp ⟨dim, c1⟩ ⟨dim, c2⟩ 3 2, 0, 0, 0, 0] 1 ⟨[0, 0], [1, 0], [x, y, z], ks, ns⟩
      = ⟨[1, 0], [0, 0], [(kernel_entry sqrt exp ⟨dim, c1⟩ ⟨dim, c2⟩ 1 0 - kernel_entry sqrt exp ⟨dim, c1⟩ ⟨dim, c2⟩ 1 0 * (kernel_entry sqrt exp ⟨dim, c1⟩ ⟨dim, c2⟩ 0 0 / kernel_entry sqrt exp ⟨dim, c1⟩ ⟨dim, c2⟩ 0 0)), (kernel_entry sqrt exp ⟨dim, c1⟩ ⟨dim, c2⟩ 1 1 - kernel_entry sqrt exp ⟨dim, c1⟩ ⟨dim, c2⟩ 1 0 * (kernel_entry sqrt exp ⟨dim, c1⟩ ⟨dim, c2⟩ 0 1 / kernel_entry sqrt exp ⟨dim, c1⟩ ⟨dim, c2⟩ 0 0)), z], [0, 1], [sqrt ((kernel_entry sqrt exp ⟨dim, c1⟩ ⟨dim, c2⟩ 1 0 - kernel_entry sqrt exp ⟨dim, c1⟩ ⟨dim, c2⟩ 1 0 * (kernel_entry sqrt exp ⟨dim, c1⟩ ⟨dim, c2⟩ 0 0 / kernel_entry sqrt exp ⟨dim, c1⟩ ⟨dim, c2⟩ 0 0)) * (kernel_entry sqrt exp ⟨dim, c1⟩ ⟨dim, c2⟩ 1 0 - kernel_entry sqrt exp ⟨dim, c1⟩ ⟨dim, c2⟩ 1 0 * (kernel_entry sqrt exp ⟨dim, c1⟩ ⟨dim, c2⟩ 0 0 / kernel_entry sqrt exp ⟨dim, c1⟩ ⟨dim, c2⟩ 0 0)) + (kernel_entry sqrt exp ⟨dim, c1⟩ ⟨dim, c2⟩ 1 1 - kernel_entry sqrt exp ⟨dim, c1⟩ ⟨dim, c2⟩ 1 0 * (kernel_entry sqrt exp ⟨dim, c1⟩ ⟨dim, c2⟩ 0 1 / kernel_entry sqrt exp ⟨dim, c1⟩ ⟨dim, c2⟩ 0 0)) * (kernel_entry sqrt exp ⟨dim, c1⟩ ⟨dim, c2⟩ 1 1 - kernel_entry sqrt exp ⟨dim, c1⟩ ⟨dim, c2⟩ 1 0 * (kernel_entry sqrt exp ⟨dim, c1⟩ ⟨dim, c2⟩ 0 1 / kernel_entry sqrt exp ⟨dim, c1⟩ ⟨dim, c2⟩ 0 0))), 0]⟩ := by
  show update_ir ⟨[1, 0], [1, 0], [(kernel_entry sqrt exp ⟨dim, c1⟩ ⟨dim, c2⟩ 1 0 - kernel_entry sqrt exp ⟨dim, c1⟩ ⟨dim, c2⟩ 1 0 * (kernel_entry sqrt exp ⟨dim, c1⟩ ⟨dim, c2⟩ 0 0 / kernel_entry sqrt exp ⟨dim, c1⟩ ⟨dim, c2⟩ 0 0)), (kernel_entry sqrt exp ⟨dim, c1⟩ ⟨dim, c2⟩ 1 1 - kernel_entry sqrt exp ⟨dim, c1⟩ ⟨dim, c2⟩ 1 0 * (kernel_entry sqrt exp ⟨dim, c1⟩ ⟨dim, c2⟩ 0 1 / kernel_entry sqrt exp ⟨dim, c1⟩ ⟨dim, c2⟩ 0 0)), z], [0, 1], [sqrt ((kernel_entry sqrt exp ⟨dim, c1⟩ ⟨dim, c2⟩ 1 0 - kernel_entry sqrt exp ⟨dim, c1⟩ ⟨dim, c2⟩ 1 0 * (kernel_entry sqrt exp ⟨dim, c1⟩ ⟨dim, c2⟩ 0 0 / kernel_entry sqrt exp ⟨dim, c1⟩ ⟨dim, c2⟩ 0 0)) * (kernel_entry sqrt exp ⟨dim, c1⟩ ⟨dim, c2⟩ 1 0 - kernel_entry sqrt exp ⟨dim, c1⟩ ⟨dim, c2⟩ 1 0 * (kernel_entry sqrt exp ⟨dim, c1⟩ ⟨dim, c2⟩ 0 0 / kernel_entry sqrt exp ⟨dim, c1⟩ ⟨dim, c2⟩ 0 0)) + (kernel_entry sqrt exp ⟨dim, c1⟩ ⟨dim, c2⟩ 1 1 - kernel_entry sqrt exp ⟨dim, c1⟩ ⟨dim, c2⟩ 1 0 * (kernel_entry sqrt exp ⟨dim, c1⟩ ⟨dim, c2⟩ 0 1 / kernel_entry sqrt exp ⟨dim, c1⟩ ⟨dim, c2⟩ 0 0)) * (kernel_entry sqrt exp ⟨dim, c1⟩ ⟨dim, c2⟩ 1 1 - kernel_entry sqrt exp ⟨dim, c1⟩ ⟨dim, c2⟩ 1 0 * (kernel_entry sqrt exp ⟨dim, c1⟩ ⟨dim, c2⟩ 0 1 / kernel_entry sqrt exp ⟨dim, c1⟩ ⟨dim, c2⟩ 0 0))), 0]⟩ 2 = _
  simp only [update_ir, List.range_succ, List.range_zero, List.nil_append, List.cons_append,
    List.foldl_cons, List.foldl_nil, update_ir_thread]
  simp [rd, wr, h1]

theorem rank_iteration_two_blocks_rank1 {R : Type} [LinearOrderedField R]
    (sqrt exp : R → R) (dim : Nat) (c1 c2 : Nat → Int → R) (eta epsilon : R)
    (content : Nat → R) (fuel : Nat)
    (h1 : update_ir_threshold R ≤ abs (sqrt ((kernel_entry sqrt exp ⟨dim, c1⟩ ⟨dim, c2⟩ 1 0 - kernel_entry sqrt exp ⟨dim, c1⟩ ⟨dim, c2⟩ 1 0 * (kernel_entry sqrt exp ⟨dim, c1⟩ ⟨dim, c2⟩ 0 0 / kernel_entry sqrt exp ⟨dim, c1⟩ ⟨dim, c2⟩ 0 0)) * (kernel_entry sqrt exp ⟨dim, c1⟩ ⟨dim, c2⟩ 1 0 - kernel_entry sqrt exp ⟨dim, c1⟩ ⟨dim, c2⟩ 1 0 * (kernel_entry sqrt exp ⟨dim, c1⟩ ⟨dim, c2⟩ 0 0 / kernel_entry sqrt exp ⟨dim, c1⟩ ⟨dim, c2⟩ 0 0)) + (kernel_entry sqrt exp ⟨dim, c1⟩ ⟨dim, c2⟩ 1 1 - kernel_entry sqrt exp ⟨dim, c1⟩ ⟨dim, c2⟩ 1 0 * (kernel_entry sqrt exp ⟨dim, c1⟩ ⟨dim, c2⟩ 0 1 / kernel_entry sqrt exp ⟨dim, c1⟩ ⟨dim, c2⟩ 0 0)) * (kernel_entry sqrt exp ⟨dim, c1⟩ ⟨dim, c2⟩ 1 1 - kernel_entry sqrt exp ⟨dim, c1⟩ ⟨dim, c2⟩ 1 0 * (kernel_entry sqrt exp ⟨dim, c1⟩ ⟨dim, c2⟩ 0 1 / kernel_entry sqrt exp ⟨dim, c1⟩ ⟨dim, c2⟩ 0 0)))))
    (hp1 : ¬ abs ((kernel_entry sqrt exp ⟨dim, c1⟩ ⟨dim, c2⟩ 1 0 - kernel_entry sqrt exp ⟨dim, c1⟩ ⟨dim, c2⟩ 1 0 * (kernel_entry sqrt exp ⟨dim, c1⟩ ⟨dim, c2⟩ 0 0 / kernel_entry sqrt exp ⟨dim, c1⟩ ⟨dim, c2⟩ 0 0))) > abs ((kernel_entry sqrt exp ⟨dim, c1⟩ ⟨dim, c2⟩ 1 1 - kernel_entry sqrt exp ⟨dim, c1⟩ ⟨dim, c2⟩ 1 0 * (kernel_entry sqrt exp ⟨dim, c1⟩ ⟨dim, c2⟩ 0 1 / kernel_entry sqrt exp ⟨dim, c1⟩ ⟨dim, c2⟩ 0 0)))) :
    rank_iteration sqrt exp [⟨0, 1, 0, 1, WT_ACA⟩, ⟨2, 3, 2, 2, WT_ACA⟩] 2 ⟨dim, c1⟩ ⟨dim, c2⟩ eta epsilon content (fuel + 1) [1, 0, 2] 1
        ⟨[kernel_entry sqrt exp ⟨dim, c1⟩ ⟨dim, c2⟩ 0 0, kernel_entry sqrt exp ⟨dim, c1⟩ ⟨dim, c2⟩ 1 0, kernel_entry sqrt exp ⟨dim, c1⟩ ⟨dim, c2⟩ 2 2, kernel_entry sqrt exp ⟨dim, c1⟩ ⟨dim, c2⟩ 3 2, 0, 0, 0, 0], [kernel_entry sqrt exp ⟨dim, c1⟩ ⟨dim, c2⟩ 0 0 / kernel_entry sqrt exp ⟨dim, c1⟩ ⟨dim, c2⟩ 0 0, kernel_entry sqrt exp ⟨dim, c1⟩ ⟨dim, c2⟩ 0 1 / kernel_entry sqrt exp ⟨dim, c1⟩ ⟨dim, c2⟩ 0 0, kernel_entry sqrt exp ⟨dim, c1⟩ ⟨dim, c2⟩ 2 2 / kernel_entry sqrt exp ⟨dim, c1⟩ ⟨dim, c2⟩ 2 2, 0, 0, 0], [0, 0], [false, false]⟩
      = some (⟨[kernel_entry sqrt exp ⟨dim, c1⟩ ⟨dim, c2⟩ 0 0, kernel_entry sqrt exp ⟨dim, c1⟩ ⟨dim, c2⟩ 1 0, kernel_entry sqrt exp ⟨dim, c1⟩ ⟨dim, c2⟩ 2 2, kernel_entry sqrt exp ⟨dim, c1⟩ ⟨dim, c2⟩ 3 2, kernel_entry sqrt exp ⟨dim, c1⟩ ⟨dim, c2⟩ 0 1 - kernel_entry sqrt exp ⟨dim, c1⟩ ⟨dim, c2⟩ 0 1 / kernel_entry sqrt exp ⟨dim, c1⟩ ⟨dim, c2⟩ 0 0 * kernel_entry sqrt exp ⟨dim, c1⟩ ⟨dim, c2⟩ 0 0, kernel_entry sqrt exp ⟨dim, c1⟩ ⟨dim, c2⟩ 1 1 - kernel_entry sqrt exp ⟨dim, c1⟩ ⟨dim, c2⟩ 0 1 / kernel_entry sqrt exp ⟨dim, c1⟩ ⟨dim, c2⟩ 0 0 * kernel_entry sqrt exp ⟨dim, c1⟩ ⟨dim, c2⟩ 1 0, 0, 0], [kernel_entry sqrt exp ⟨dim, c1⟩ ⟨dim, c2⟩ 0 0 / kernel_entry sqrt exp ⟨dim, c1⟩ ⟨dim, c2⟩ 0 0, kernel_entry sqrt exp ⟨dim, c1⟩ ⟨dim, c2⟩ 0 1 / kernel_entry sqrt exp ⟨dim, c1⟩ ⟨dim, c2⟩ 0 0, kernel_entry sqrt exp ⟨dim, c1⟩ ⟨dim, c2⟩ 2 2 / kernel_entry sqrt exp ⟨dim, c1⟩ ⟨dim, c2⟩ 2 2, (kernel_entry sqrt exp ⟨dim, c1⟩ ⟨dim, c2⟩ 1 0 - kernel_entry sqrt exp ⟨dim, c1⟩ ⟨dim, c2⟩ 1 0 * (kernel_entry sqrt exp ⟨dim, c1⟩ ⟨dim, c2⟩ 0 0 / kernel_entry sqrt exp ⟨dim, c1⟩ ⟨dim, c2⟩ 0 0)) / ((kernel_entry sqrt exp ⟨dim, c1⟩ ⟨dim, c2⟩ 1 1 - kernel_entry sqrt exp ⟨dim, c1⟩ ⟨dim, c2⟩ 1 0 * (kernel_entry sqrt exp ⟨dim, c1⟩ ⟨dim, c2⟩ 0 1 / kernel_entry sqrt exp ⟨dim, c1⟩ ⟨dim, c2⟩ 0 0)) / (kernel_entry sqrt exp ⟨dim, c1⟩ ⟨dim, c2⟩ 1 1 - kernel_entry sqrt exp ⟨dim, c1⟩ ⟨dim, c2⟩ 1 0 * (kernel_entry sqrt exp ⟨dim, c1⟩ ⟨dim, c2⟩ 0 1 / kernel_entry sqrt exp ⟨dim, c1⟩ ⟨dim, c2⟩ 0 0))), (kernel_entry sqrt exp ⟨dim, c1⟩ ⟨dim, c2⟩ 1 1 - kernel_entry sqrt exp ⟨dim, c1⟩ ⟨dim, c2⟩ 1 0 * (kernel_entry sqrt exp ⟨dim, c1⟩ ⟨dim, c2⟩ 0 1 / kernel_entry sqrt exp ⟨dim, c1⟩ ⟨dim, c2⟩ 0 0)) / (kernel_entry sqrt exp ⟨dim, c1⟩ ⟨dim, c2⟩ 1 1 - kernel_entry sqrt exp ⟨dim, c1⟩ ⟨dim, c2⟩ 1 0 * (kernel_entry sqrt exp ⟨dim, c1⟩ ⟨dim, c2⟩ 0 1 / kernel_entry sqrt exp ⟨dim, c1⟩ ⟨dim, c2⟩ 0 0)), 0], [1, 0], [false, false]⟩, false) := by
  have hs := search_round_two_blocks_rank1 sqrt exp dim c1 c2 0 0 0 [] [] h1
  have hsl : search_loop sqrt exp [⟨0, 1, 0, 1, WT_ACA⟩, ⟨2, 3, 2, 2, WT_ACA⟩] 2 ⟨dim, c1⟩ ⟨dim, c2⟩ [kernel_entry sqrt exp ⟨dim, c1⟩ ⟨dim, c2⟩ 0 0 / kernel_entry sqrt exp ⟨dim, c1⟩ ⟨dim, c2⟩ 0 0, kernel_entry sqrt exp ⟨dim, c1⟩ ⟨dim, c2⟩ 0 1 / kernel_entry sqrt exp ⟨dim, c1⟩ ⟨dim, c2⟩ 0 0, kernel_entry sqrt exp ⟨dim, c1⟩ ⟨dim, c2⟩ 2 2 / kernel_entry sqrt exp ⟨dim, c1⟩ ⟨dim, c2⟩ 2 2, 0, 0, 0] [kernel_entry sqrt exp ⟨dim, c1⟩ ⟨dim, c2⟩ 0 0, kernel_entry sqrt exp ⟨dim, c1⟩ ⟨dim, c2⟩ 1 0, kernel_entry sqrt exp ⟨dim, c1⟩ ⟨dim, c2⟩ 2 2, kernel_entry sqrt exp ⟨dim, c1⟩ ⟨dim, c2⟩ 3 2, 0, 0, 0, 0]
      ((1 : Nat) : Int) (fuel + 1)
      ⟨[0, 0], init_compute_v_r [⟨0, 1, 0, 1, WT_ACA⟩, ⟨2, 3, 2, 2, WT_ACA⟩] (k_per_item [⟨0, 1, 0, 1, WT_ACA⟩, ⟨2, 3, 2, 2, WT_ACA⟩] 2) ((1 : Nat) : Int),
        get_row [kernel_entry sqrt exp ⟨dim, c1⟩ ⟨dim, c2⟩ 0 0 / kernel_entry sqrt exp ⟨dim, c1⟩ ⟨dim, c2⟩ 0 0, kernel_entry sqrt exp ⟨dim, c1⟩ ⟨dim, c2⟩ 0 1 / kernel_entry sqrt exp ⟨dim, c1⟩ ⟨dim, c2⟩ 0 0, kernel_entry sqrt exp ⟨dim, c1⟩ ⟨dim, c2⟩ 2 2 / kernel_entry sqrt exp ⟨dim, c1⟩ ⟨dim, c2⟩ 2 2, 0, 0, 0] 1 (block_total [⟨0, 1, 0, 1, WT_ACA⟩, ⟨2, 3, 2, 2, WT_ACA⟩] 2), [], []⟩
      = some ⟨[1, 0], [0, 0], [(kernel_entry sqrt exp ⟨dim, c1⟩ ⟨dim, c2⟩ 1 0 - kernel_entry sqrt exp ⟨dim, c1⟩ ⟨dim, c2⟩ 1 0 * (kernel_entry sqrt exp ⟨dim, c1⟩ ⟨dim, c2⟩ 0 0 / kernel_entry sqrt exp ⟨dim, c1⟩ ⟨dim, c2⟩ 0 0)), (kernel_entry sqrt exp ⟨dim, c1⟩ ⟨dim, c2⟩ 1 1 - kernel_entry sqrt exp ⟨dim, c1⟩ ⟨dim, c2⟩ 1 0 * (kernel_entry sqrt exp ⟨dim, c1⟩ ⟨dim, c2⟩ 0 1 / kernel_entry sqrt exp ⟨dim, c1⟩ ⟨dim, c2⟩ 0 0)), 0], [0, 1], [sqrt ((kernel_entry sqrt exp ⟨dim, c1⟩ ⟨dim, c2⟩ 1 0 - kernel_entry sqrt exp ⟨dim, c1⟩ ⟨dim, c2⟩ 1 0 * (kernel_entry sqrt exp ⟨dim, c1⟩ ⟨dim, c2⟩ 0 0 / kernel_entry sqrt exp ⟨dim, c1⟩ ⟨dim, c2⟩ 0 0)) * (kernel_entry sqrt exp ⟨dim, c1⟩ ⟨dim, c2⟩ 1 0 - kernel_entry sqrt exp ⟨dim, c1⟩ ⟨dim, c2⟩ 1 0 * (kernel_entry sqrt exp ⟨dim, c1⟩ ⟨dim, c2⟩ 0 0 / kernel_entry sqrt exp ⟨dim, c1⟩ ⟨dim, c2⟩ 0 0)) + (kernel_entry sqrt exp ⟨dim, c1⟩ ⟨dim, c2⟩ 1 1 - kernel_entry sqrt exp ⟨dim, c1⟩ ⟨dim, c2⟩ 1 0 * (kernel_entry sqrt exp ⟨dim, c1⟩ ⟨dim, c2⟩ 0 1 / kernel_entry sqrt exp ⟨dim, c1⟩ ⟨dim, c2⟩ 0 0)) * (kernel_entry sqrt exp ⟨dim, c1⟩ ⟨dim, c2⟩ 1 1 - kernel_entry sqrt exp ⟨dim, c1⟩ ⟨dim, c2⟩ 1 0 * (kernel_entry sqrt exp ⟨dim, c1⟩ ⟨dim, c2⟩ 0 1 / kernel_entry sqrt exp ⟨dim, c1⟩ ⟨dim, c2⟩ 0 0))), 0]⟩ := by
    show search_loop sqrt exp [⟨0, 1, 0, 1, WT_ACA⟩, ⟨2, 3, 2, 2, WT_ACA⟩] 2 ⟨dim, c1⟩ ⟨dim, c2⟩ [kernel_entry sqrt exp ⟨dim, c1⟩ ⟨dim, c2⟩ 0 0 / kernel_entry sqrt exp ⟨dim, c1⟩ ⟨dim, c2⟩ 0 0, kernel_entry sqrt exp ⟨dim, c1⟩ ⟨dim, c2⟩ 0 1 / kernel_entry sqrt exp ⟨dim, c1⟩ ⟨dim, c2⟩ 0 0, kernel_entry sqrt exp ⟨dim, c1⟩ ⟨dim, c2⟩ 2 2 / kernel_entry sqrt exp ⟨dim, c1⟩ ⟨dim, c2⟩ 2 2, 0, 0, 0] [kernel_entry sqrt exp ⟨dim, c1⟩ ⟨dim, c2⟩ 0 0, kernel_entry sqrt exp ⟨dim, c1⟩ ⟨dim, c2⟩ 1 0, kernel_entry sqrt exp ⟨dim, c1⟩ ⟨dim, c2⟩ 2 2, kernel_entry sqrt exp ⟨dim, c1⟩ ⟨dim, c2⟩ 3 2, 0, 0, 0, 0] 1 (fuel + 1)
      ⟨[0, 0], [1, 0], [0, 0, 0], [], []⟩ = _
    simp only [search_loop, hs]
    rfl
  simp only [rank_iteration]
  rw [hsl]
  have hj : j_r_global (work_item_maps [⟨0, 1, 0, 1, WT_ACA⟩, ⟨2, 3, 2, 2, WT_ACA⟩]).2 [(kernel_entry sqrt exp ⟨dim, c1⟩ ⟨dim, c2⟩ 1 0 - kernel_entry sqrt exp ⟨dim, c1⟩ ⟨dim, c2⟩ 1 0 * (kernel_entry sqrt exp ⟨dim, c1⟩ ⟨dim, c2⟩ 0 0 / kernel_entry sqrt exp ⟨dim, c1⟩ ⟨dim, c2⟩ 0 0)), (kernel_entry sqrt exp ⟨dim, c1⟩ ⟨dim, c2⟩ 1 1 - kernel_entry sqrt exp ⟨dim, c1⟩ ⟨dim, c2⟩ 1 0 * (kernel_entry sqrt exp ⟨dim, c1⟩ ⟨dim, c2⟩ 0 1 / kernel_entry sqrt exp ⟨dim, c1⟩ ⟨dim, c2⟩ 0 0)), 0] (block_total [⟨0, 1, 0, 1, WT_ACA⟩, ⟨2, 3, 2, 2, WT_ACA⟩] 2) = [1, 2] := by
    show (reduce_by_key [(0 : Int), 0, 1] [((kernel_entry sqrt exp ⟨dim, c1⟩ ⟨dim, c2⟩ 1 0 - kernel_entry sqrt exp ⟨dim, c1⟩ ⟨dim, c2⟩ 1 0 * (kernel_entry sqrt exp ⟨dim, c1⟩ ⟨dim, c2⟩ 0 0 / kernel_entry sqrt exp ⟨dim, c1⟩ ⟨dim, c2⟩ 0 0)), (0 : Int)), ((kernel_entry sqrt exp ⟨dim, c1⟩ ⟨dim, c2⟩ 1 1 - kernel_entry sqrt exp ⟨dim, c1⟩ ⟨dim, c2⟩ 1 0 * (kernel_entry sqrt exp ⟨dim, c1⟩ ⟨dim, c2⟩ 0 1 / kernel_entry sqrt exp ⟨dim, c1⟩ ⟨dim, c2⟩ 0 0)), 1), ((0 : R), 2)]
      tuple_absolute_maximum).map (fun p => p.2.2) = [1, 2]
    simp only [reduce_by_key, List.zip_cons_cons, List.zip_nil_right, reduce_by_key_go,
      if_true, tuple_absolute_maximum, if_neg hp1, List.map]
  simp only [hj]
  rfl

/-- The rank loop of `apply_batched_aca` on the batch of a `2 x 2` block and a
block with two rows and one column, `k = 2`: both rank iterations return, and
the factors after the loop. -/
theorem batched_aca_factors_two_blocks {R : Type} [LinearOrderedField R]
    (sqrt exp : R → R) (dim : Nat) (c1 c2 : Nat → Int → R) (eta epsilon : R)
    (content : Nat → R) (fuel : Nat)
    (h0 : update_ir_threshold R ≤ abs (sqrt (kernel_entry sqrt exp ⟨dim, c1⟩ ⟨dim, c2⟩ 0 0 * kernel_entry sqrt exp ⟨dim, c1⟩ ⟨dim, c2⟩ 0 0 + kernel_entry sqrt exp ⟨dim, c1⟩ ⟨dim, c2⟩ 0 1 * kernel_entry sqrt exp ⟨dim, c1⟩ ⟨dim, c2⟩ 0 1)))
    (h0b : update_ir_threshold R ≤ abs (sqrt (kernel_entry sqrt exp ⟨dim, c1⟩ ⟨dim, c2⟩ 2 2 * kernel_entry sqrt exp ⟨dim, c1⟩ ⟨dim, c2⟩ 2 2)))
    (hp0 : abs (kernel_entry sqrt exp ⟨dim, c1⟩ ⟨dim, c2⟩ 0 0) > abs (kernel_entry sqrt exp ⟨dim, c1⟩ ⟨dim, c2⟩ 0 1))
    (h1 : update_ir_threshold R ≤ abs (sqrt ((kernel_entry sqrt exp ⟨dim, c1⟩ ⟨dim, c2⟩ 1 0 - kernel_entry sqrt exp ⟨dim, c1⟩ ⟨dim, c2⟩ 1 0 * (kernel_entry sqrt exp ⟨dim, c1⟩ ⟨dim, c2⟩ 0 0 / kernel_entry sqrt exp ⟨dim, c1⟩ ⟨dim, c2⟩ 0 0)) * (kernel_entry sqrt exp ⟨dim, c1⟩ ⟨dim, c2⟩ 1 0 - kernel_entry sqrt exp ⟨dim, c1⟩ ⟨dim, c2⟩ 1 0 * (kernel_entry sqrt exp ⟨dim, c1⟩ ⟨dim, c2⟩ 0 0 / kernel_entry sqrt exp ⟨dim, c1⟩ ⟨dim, c2⟩ 0 0)) + (kernel_entry sqrt exp ⟨dim, c1⟩ ⟨dim, c2⟩ 1 1 - kernel_entry sqrt exp ⟨dim, c1⟩ ⟨dim, c2⟩ 1 0 * (kernel_entry sqrt exp ⟨dim, c1⟩ ⟨dim, c2⟩ 0 1 / kernel_entry sqrt exp ⟨dim, c1⟩ ⟨dim, c2⟩ 0 0)) * (kernel_entry sqrt exp ⟨dim, c1⟩ ⟨dim, c2⟩ 1 1 - kernel_entry sqrt exp ⟨dim, c1⟩ ⟨dim, c2⟩ 1 0 * (kernel_entry sqrt exp ⟨dim, c1⟩ ⟨dim, c2⟩ 0 1 / kernel_entry sqrt exp ⟨dim, c1⟩ ⟨dim, c2⟩ 0 0)))))
    (hp1 : ¬ abs ((kernel_entry sqrt exp ⟨dim, c1⟩ ⟨dim, c2⟩ 1 0 - kernel_entry sqrt exp ⟨dim, c1⟩ ⟨dim, c2⟩ 1 0 * (kernel_entry sqrt exp ⟨dim, c1⟩ ⟨dim, c2⟩ 0 0 / kernel_entry sqrt exp ⟨dim, c1⟩ ⟨dim, c2⟩ 0 0))) > abs ((kernel_entry sqrt exp ⟨dim, c1⟩ ⟨dim, c2⟩ 1 1 - kernel_entry sqrt exp ⟨dim, c1⟩ ⟨dim, c2⟩ 1 0 * (kernel_entry sqrt exp ⟨dim, c1⟩ ⟨dim, c2⟩ 0 1 / kernel_entry sqrt exp ⟨dim, c1⟩ ⟨dim, c2⟩ 0 0)))) :
    batched_aca_factors sqrt exp [⟨0, 1, 0, 1, WT_ACA⟩, ⟨2, 3, 2, 2, WT_ACA⟩] 2 ⟨dim, c1⟩ ⟨dim, c2⟩ eta epsilon content (fuel + 1) [1, 0, 2]
      = some ⟨[kernel_entry sqrt exp ⟨dim, c1⟩ ⟨dim, c2⟩ 0 0, kernel_entry sqrt exp ⟨dim, c1⟩ ⟨dim, c2⟩ 1 0, kernel_entry sqrt exp ⟨dim, c1⟩ ⟨dim, c2⟩ 2 2, kernel_entry sqrt exp ⟨dim, c1⟩ ⟨dim, c2⟩ 3 2, kernel_entry sqrt exp ⟨dim, c1⟩ ⟨dim, c2⟩ 0 1 - kernel_entry sqrt exp ⟨dim, c1⟩ ⟨dim, c2⟩ 0 1 / kernel_entry sqrt exp ⟨dim, c1⟩ ⟨dim, c2⟩ 0 0 * kernel_entry sqrt exp ⟨dim, c1⟩ ⟨dim, c2⟩ 0 0, kernel_entry sqrt exp ⟨dim, c1⟩ ⟨dim, c2⟩ 1 1 - kernel_entry sqrt exp ⟨dim, c1⟩ ⟨dim, c2⟩ 0 1 / kernel_entry sqrt exp ⟨dim, c1⟩ ⟨dim, c2⟩ 0 0 * kernel_entry sqrt exp ⟨dim, c1⟩ ⟨dim, c2⟩ 1 0, 0, 0], [kernel_entry sqrt exp ⟨dim, c1⟩ ⟨dim, c2⟩ 0 0 / kernel_entry sqrt exp ⟨dim, c1⟩ ⟨dim, c2⟩ 0 0, kernel_entry sqrt exp ⟨dim, c1⟩ ⟨dim, c2⟩ 0 1 / kernel_entry sqrt exp ⟨dim, c1⟩ ⟨dim, c2⟩ 0 0, kernel_entry sqrt exp ⟨dim, c1⟩ ⟨dim, c2⟩ 2 2 / kernel_entry sqrt exp ⟨dim, c1⟩ ⟨dim, c2⟩ 2 2, (kernel_entry sqrt exp ⟨dim, c1⟩ ⟨dim, c2⟩ 1 0 - kernel_entry sqrt exp ⟨dim, c1⟩ ⟨dim, c2⟩ 1 0 * (kernel_entry sqrt exp ⟨dim, c1⟩ ⟨dim, c2⟩ 0 0 / kernel_entry sqrt exp ⟨dim, c1⟩ ⟨dim, c2⟩ 0 0)) / ((kernel_entry sqrt exp ⟨dim, c1⟩ ⟨dim, c2⟩ 1 1 - kernel_entry sqrt exp ⟨dim, c1⟩ ⟨dim, c2⟩ 1 0 * (kernel_entry sqrt exp ⟨dim, c1⟩ ⟨dim, c2⟩ 0 1 / kernel_entry sqrt exp ⟨dim, c1⟩ ⟨dim, c2⟩ 0 0)) / (kernel_entry sqrt exp ⟨dim, c1⟩ ⟨dim, c2⟩ 1 1 - kernel_entry sqrt exp ⟨dim, c1⟩ ⟨dim, c2⟩ 1 0 * (kernel_entry sqrt exp ⟨dim, c1⟩ ⟨dim, c2⟩ 0 1 / kernel_entry sqrt exp ⟨dim, c1⟩ ⟨dim, c2⟩ 0 0))), (kernel_entry sqrt exp ⟨dim, c1⟩ ⟨dim, c2⟩ 1 1 - kernel_entry sqrt exp ⟨dim, c1⟩ ⟨dim, c2⟩ 1 0 * (kernel_entry sqrt exp ⟨dim, c1⟩ ⟨dim, c2⟩ 0 1 / kernel_entry sqrt exp ⟨dim, c1⟩ ⟨dim, c2⟩ 0 0)) / (kernel_entry sqrt exp ⟨dim, c1⟩ ⟨dim, c2⟩ 1 1 - kernel_entry sqrt exp ⟨dim, c1⟩ ⟨dim, c2⟩ 1 0 * (kernel_entry sqrt exp ⟨dim, c1⟩ ⟨dim, c2⟩ 0 1 / kernel_entry sqrt exp ⟨dim, c1⟩ ⟨dim, c2⟩ 0 0)), 0], [1, 0], [false, false]⟩ := by
  show rank_loop sqrt exp [⟨0, 1, 0, 1, WT_ACA⟩, ⟨2, 3, 2, 2, WT_ACA⟩] 2 ⟨dim, c1⟩ ⟨dim, c2⟩ eta epsilon content (fuel + 1) [1, 0, 2] 2 0
    ⟨[0, 0, 0, 0, 0, 0, 0, 0], [0, 0, 0, 0, 0, 0], [-1, -1], [false, false]⟩ = _
  rw [rank_loop_succ, rank_iteration_two_blocks_rank0 sqrt exp dim c1 c2 eta epsilon content
    fuel h0 h0b hp0]
  simp only [Option.some_bind, Nat.zero_add]
  rw [rank_loop_succ, rank_iteration_two_blocks_rank1 sqrt exp dim c1 c2 eta epsilon content
    fuel h1 hp1]
  simp only [Option.some_bind]
  rfl

theorem two_blocks_rows_accepted :
    update_ir_threshold ℚ ≤ abs (id (kernel_entry id (fun x : ℚ => 1 / ((1 - x) * (1 - x))) (⟨1, fun _ i => (i : ℚ)⟩ : point_set ℚ) (⟨1, fun _ j => 10 + 3 * (j : ℚ)⟩ : point_set ℚ) 0 0 * kernel_entry id (fun x : ℚ => 1 / ((1 - x) * (1 - x))) (⟨1, fun _ i => (i : ℚ)⟩ : point_set ℚ) (⟨1, fun _ j => 10 + 3 * (j : ℚ)⟩ : point_set ℚ) 0 0 + kernel_entry id (fun x : ℚ => 1 / ((1 - x) * (1 - x))) (⟨1, fun _ i => (i : ℚ)⟩ : point_set ℚ) (⟨1, fun _ j => 10 + 3 * (j : ℚ)⟩ : point_set ℚ) 0 1 * kernel_entry id (fun x : ℚ => 1 / ((1 - x) * (1 - x))) (⟨1, fun _ i => (i : ℚ)⟩ : point_set ℚ) (⟨1, fun _ j => 10 + 3 * (j : ℚ)⟩ : point_set ℚ) 0 1)) ∧
    update_ir_threshold ℚ ≤ abs (id (kernel_entry id (fun x : ℚ => 1 / ((1 - x) * (1 - x))) (⟨1, fun _ i => (i : ℚ)⟩ : point_set ℚ) (⟨1, fun _ j => 10 + 3 * (j : ℚ)⟩ : point_set ℚ) 2 2 * kernel_entry id (fun x : ℚ => 1 / ((1 - x) * (1 - x))) (⟨1, fun _ i => (i : ℚ)⟩ : point_set ℚ) (⟨1, fun _ j => 10 + 3 * (j : ℚ)⟩ : point_set ℚ) 2 2)) ∧
    abs (kernel_entry id (fun x : ℚ => 1 / ((1 - x) * (1 - x))) (⟨1, fun _ i => (i : ℚ)⟩ : point_set ℚ) (⟨1, fun _ j => 10 + 3 * (j : ℚ)⟩ : point_set ℚ) 0 0) > abs (kernel_entry id (fun x : ℚ => 1 / ((1 - x) * (1 - x))) (⟨1, fun _ i => (i : ℚ)⟩ : point_set ℚ) (⟨1, fun _ j => 10 + 3 * (j : ℚ)⟩ : point_set ℚ) 0 1) ∧
    update_ir_threshold ℚ ≤ abs (id ((kernel_entry id (fun x : ℚ => 1 / ((1 - x) * (1 - x))) (⟨1, fun _ i => (i : ℚ)⟩ : point_set ℚ) (⟨1, fun _ j => 10 + 3 * (j : ℚ)⟩ : point_set ℚ) 1 0 - kernel_entry id (fun x : ℚ => 1 / ((1 - x) * (1 - x))) (⟨1, fun _ i => (i : ℚ)⟩ : point_set ℚ) (⟨1, fun _ j => 10 + 3 * (j : ℚ)⟩ : point_set ℚ) 1 0 * (kernel_entry id (fun x : ℚ => 1 / ((1 - x) * (1 - x))) (⟨1, fun _ i => (i : ℚ)⟩ : point_set ℚ) (⟨1, fun _ j => 10 + 3 * (j : ℚ)⟩ : point_set ℚ) 0 0 / kernel_entry id (fun x : ℚ => 1 / ((1 - x) * (1 - x))) (⟨1, fun _ i => (i : ℚ)⟩ : point_set ℚ) (⟨1, fun _ j => 10 + 3 * (j : ℚ)⟩ : point_set ℚ) 0 0)) * (kernel_entry id (fun x : ℚ => 1 / ((1 - x) * (1 - x))) (⟨1, fun _ i => (i : ℚ)⟩ : point_set ℚ) (⟨1, fun _ j => 10 + 3 * (j : ℚ)⟩ : point_set ℚ) 1 0 - kernel_entry id (fun x : ℚ => 1 / ((1 - x) * (1 - x))) (⟨1, fun _ i => (i : ℚ)⟩ : point_set ℚ) (⟨1, fun _ j => 10 + 3 * (j : ℚ)⟩ : point_set ℚ) 1 0 * (kernel_entry id (fun x : ℚ => 1 / ((1 - x) * (1 - x))) (⟨1, fun _ i => (i : ℚ)⟩ : point_set ℚ) (⟨1, fun _ j => 10 + 3 * (j : ℚ)⟩ : point_set ℚ) 0 0 / kernel_entry id (fun x : ℚ => 1 / ((1 - x) * (1 - x))) (⟨1, fun _ i => (i : ℚ)⟩ : point_set ℚ) (⟨1, fun _ j => 10 + 3 * (j : ℚ)⟩ : point_set ℚ) 0 0)) + (kernel_entry id (fun x : ℚ => 1 / ((1 - x) * (1 - x))) (⟨1, fun _ i => (i : ℚ)⟩ : point_set ℚ) (⟨1, fun _ j => 10 + 3 * (j : ℚ)⟩ : point_set ℚ) 1 1 - kernel_entry id (fun x : ℚ => 1 / ((1 - x) * (1 - x))) (⟨1, fun _ i => (i : ℚ)⟩ : point_set ℚ) (⟨1, fun _ j => 10 + 3 * (j : ℚ)⟩ : point_set ℚ) 1 0 * (kernel_entry id (fun x : ℚ => 1 / ((1 - x) * (1 - x))) (⟨1, fun _ i => (i : ℚ)⟩ : point_set ℚ) (⟨1, fun _ j => 10 + 3 * (j : ℚ)⟩ : point_set ℚ) 0 1 / kernel_entry id (fun x : ℚ => 1 / ((1 - x) * (1 - x))) (⟨1, fun _ i => (i : ℚ)⟩ : point_set ℚ) (⟨1, fun _ j => 10 + 3 * (j : ℚ)⟩ : point_set ℚ) 0 0)) * (kernel_entry id (fun x : ℚ => 1 / ((1 - x) * (1 - x))) (⟨1, fun _ i => (i : ℚ)⟩ : point_set ℚ) (⟨1, fun _ j => 10 + 3 * (j : ℚ)⟩ : point_set ℚ) 1 1 - kernel_entry id (fun x : ℚ => 1 / ((1 - x) * (1 - x))) (⟨1, fun _ i => (i : ℚ)⟩ : point_set ℚ) (⟨1, fun _ j => 10 + 3 * (j : ℚ)⟩ : point_set ℚ) 1 0 * (kernel_entry id (fun x : ℚ => 1 / ((1 - x) * (1 - x))) (⟨1, fun _ i => (i : ℚ)⟩ : point_set ℚ) (⟨1, fun _ j => 10 + 3 * (j : ℚ)⟩ : point_set ℚ) 0 1 / kernel_entry id (fun x : ℚ => 1 / ((1 - x) * (1 - x))) (⟨1, fun _ i => (i : ℚ)⟩ : point_set ℚ) (⟨1, fun _ j => 10 + 3 * (j : ℚ)⟩ : point_set ℚ) 0 0)))) ∧
    ¬ abs ((kernel_entry id (fun x : ℚ => 1 / ((1 - x) * (1 - x))) (⟨1, fun _ i => (i : ℚ)⟩ : point_set ℚ) (⟨1, fun _ j => 10 + 3 * (j : ℚ)⟩ : point_set ℚ) 1 0 - kernel_entry id (fun x : ℚ => 1 / ((1 - x) * (1 - x))) (⟨1, fun _ i => (i : ℚ)⟩ : point_set ℚ) (⟨1, fun _ j => 10 + 3 * (j : ℚ)⟩ : point_set ℚ) 1 0 * (kernel_entry id (fun x : ℚ => 1 / ((1 - x) * (1 - x))) (⟨1, fun _ i => (i : ℚ)⟩ : point_set ℚ) (⟨1, fun _ j => 10 + 3 * (j : ℚ)⟩ : point_set ℚ) 0 0 / kernel_entry id (fun x : ℚ => 1 / ((1 - x) * (1 - x))) (⟨1, fun _ i => (i : ℚ)⟩ : point_set ℚ) (⟨1, fun _ j => 10 + 3 * (j : ℚ)⟩ : point_set ℚ) 0 0))) > abs ((kernel_entry id (fun x : ℚ => 1 / ((1 - x) * (1 - x))) (⟨1, fun _ i => (i : ℚ)⟩ : point_set ℚ) (⟨1, fun _ j => 10 + 3 * (j : ℚ)⟩ : point_set ℚ) 1 1 - kernel_entry id (fun x : ℚ => 1 / ((1 - x) * (1 - x))) (⟨1, fun _ i => (i : ℚ)⟩ : point_set ℚ) (⟨1, fun _ j => 10 + 3 * (j : ℚ)⟩ : point_set ℚ) 1 0 * (kernel_entry id (fun x : ℚ => 1 / ((1 - x) * (1 - x))) (⟨1, fun _ i => (i : ℚ)⟩ : point_set ℚ) (⟨1, fun _ j => 10 + 3 * (j : ℚ)⟩ : point_set ℚ) 0 1 / kernel_entry id (fun x : ℚ => 1 / ((1 - x) * (1 - x))) (⟨1, fun _ i => (i : ℚ)⟩ : point_set ℚ) (⟨1, fun _ j => 10 + 3 * (j : ℚ)⟩ : point_set ℚ) 0 0))) := by
  refine ⟨?_, ?_, ?_, ?_, ?_⟩
  · simp [kernel_entry, kernel, distance, update_ir_threshold, List.range_succ]
    norm_num [abs_of_pos, abs_of_neg]
  · simp [kernel_entry, kernel, distance, update_ir_threshold, List.range_succ]
    norm_num [abs_of_pos, abs_of_neg]
  · simp [kernel_entry, kernel, distance, update_ir_threshold, List.range_succ]
    norm_num [abs_of_pos, abs_of_neg]
  · simp [kernel_entry, kernel, distance, update_ir_threshold, List.range_succ]
    norm_num [abs_of_pos, abs_of_neg]
  · simp [kernel_entry, kernel, distance, update_ir_threshold, List.range_succ]
    norm_num [abs_of_pos, abs_of_neg]

/-- C34, instance: the batch of a `2 x 2` block and a block with two rows and
one column, `k = 2`, row points `i`, column points `10 + 3 j`, `sqrt` the
identity and `exp(-d) = 1/(1+d)^2` over the rationals.  The second block has
rank `1` and the engine runs two rank iterations; the rank loop returns, and the
entries of the second block in row `1` of `U` and `V` are `0`. -/
theorem factor_columns_beyond_rank_stay_zero_witness :
    ∃ st : aca_state ℚ,
      batched_aca_factors id (fun x : ℚ => 1 / ((1 - x) * (1 - x))) [⟨0, 1, 0, 1, WT_ACA⟩, ⟨2, 3, 2, 2, WT_ACA⟩] 2 (⟨1, fun _ i => (i : ℚ)⟩ : point_set ℚ) (⟨1, fun _ j => 10 + 3 * (j : ℚ)⟩ : point_set ℚ) 0 0 (fun _ => 0) 1 [1, 0, 2] = some st ∧
      rd (k_per_item [⟨0, 1, 0, 1, WT_ACA⟩, ⟨2, 3, 2, 2, WT_ACA⟩] 2) ((1 : Nat) : Int) = 1 ∧
      global_k [⟨0, 1, 0, 1, WT_ACA⟩, ⟨2, 3, 2, 2, WT_ACA⟩] 2 = 2 ∧
      (∀ j : Nat, (j : Int) < rd (block_counts [⟨0, 1, 0, 1, WT_ACA⟩, ⟨2, 3, 2, 2, WT_ACA⟩] 1) ((1 : Nat) : Int) →
        rd st.U (((1 : Nat) : Int) * block_total [⟨0, 1, 0, 1, WT_ACA⟩, ⟨2, 3, 2, 2, WT_ACA⟩] 1
          + rd (point_map_offsets [⟨0, 1, 0, 1, WT_ACA⟩, ⟨2, 3, 2, 2, WT_ACA⟩] 1) ((1 : Nat) : Int) + (j : Int)) = 0) ∧
      (∀ c : Nat, (c : Int) < rd (block_counts [⟨0, 1, 0, 1, WT_ACA⟩, ⟨2, 3, 2, 2, WT_ACA⟩] 2) ((1 : Nat) : Int) →
        rd st.V (((1 : Nat) : Int) * block_total [⟨0, 1, 0, 1, WT_ACA⟩, ⟨2, 3, 2, 2, WT_ACA⟩] 2
          + rd (point_map_offsets [⟨0, 1, 0, 1, WT_ACA⟩, ⟨2, 3, 2, 2, WT_ACA⟩] 2) ((1 : Nat) : Int) + (c : Int)) = 0) := by
  have hrun := batched_aca_factors_two_blocks id (fun x : ℚ => 1 / ((1 - x) * (1 - x))) 1 (fun _ i => (i : ℚ))
    (fun _ j => 10 + 3 * (j : ℚ)) 0 0 (fun _ => 0) 0 two_blocks_rows_accepted.1
    two_blocks_rows_accepted.2.1 two_blocks_rows_accepted.2.2.1 two_blocks_rows_accepted.2.2.2.1
    two_blocks_rows_accepted.2.2.2.2
  refine ⟨_, hrun, by decide, by decide, ?_⟩
  exact (factor_columns_beyond_rank_stay_zero id (fun x : ℚ => 1 / ((1 - x) * (1 - x))) [⟨0, 1, 0, 1, WT_ACA⟩, ⟨2, 3, 2, 2, WT_ACA⟩] 2 (⟨1, fun _ i => (i : ℚ)⟩ : point_set ℚ) (⟨1, fun _ j => 10 + 3 * (j : ℚ)⟩ : point_set ℚ) 0 0 (fun _ => 0) 1 [1, 0, 2] 1
    (by decide)
    (fun i hi => by
      have hi2 : i < 2 := hi
      interval_cases i <;> decide)
    (fun i hi => by
      have hi2 : i < 2 := hi
      interval_cases i <;> decide)
    (fun j hj => by
      have hm : rd (block_counts [⟨0, 1, 0, 1, WT_ACA⟩, ⟨2, 3, 2, 2, WT_ACA⟩] 1) ((1 : Nat) : Int) = 2 := by decide
      rw [hm] at hj
      have hj2 : j < 2 := by omega
      interval_cases j <;> decide)
    (fun c hc => by
      have hm : rd (block_counts [⟨0, 1, 0, 1, WT_ACA⟩, ⟨2, 3, 2, 2, WT_ACA⟩] 2) ((1 : Nat) : Int) = 1 := by decide
      rw [hm] at hc
      have hc2 : c < 1 := by omega
      interval_cases c
      decide)).2 _ hrun 1 (by decide) (by decide)

end Hmglib
